import Mathlib

/-!
OSAL kernel-object registry (POSIX port) and volume table (RTEMS port): embedding of
`src/os/posix/osapi.c` and of the volume functions of `src/os/rtems/osfilesys.c`.

The five object tables of `osapi.c` are embedded as lists of rows; the length of a
table is the configuration constant that sizes the C array (`OS_MAX_TASKS`,
`OS_MAX_QUEUES`, `OS_MAX_BIN_SEMAPHORES`, `OS_MAX_COUNT_SEMAPHORES`, `OS_MAX_MUTEXES`).
Every API function is a pure function of the table state, its arguments and the
results the host gives to the POSIX calls it makes; it returns the status code, the
new state, the values stored through its out-pointers and the list of guard-lock
and host-call events in program order.

Conventions
* a C string is the list of its characters before the terminating NUL, so that
  `strlen` is `List.length` and `strcmp(a, b) == 0` is `a = b`;
* a nullable pointer argument is an `Option` of the pointed-to value (`none` is `NULL`);
* the `free` member only ever holds `TRUE` or `FALSE` and is a `Bool`
  (all-zero static storage reads `FALSE`);
* the Linux branches of the `_MAC_OS_` conditionals and the POSIX message queue
  branch of `OSAL_SOCKET_QUEUE` are the ones embedded; of the socket branch,
  `OS_QueueGet` is embedded as `OSAL_SOCKET_QUEUE.OS_QueueGet`;
* where a property speaks of the state of a host mutex (held or not), the host is an
  error-checking POSIX mutex (`HostMutex`), kept beside the tables in a `MutexWorld`;
* `OS_VolumeTable` of `osfilesys.c` is a list of rows in an `FsState`, and the volume
  functions are pure functions of it, their arguments and the host results;
* where a property speaks of two calls of `OS_BinSemCreate` in progress at once, the two
  blocks that each call runs under `OS_bin_sem_table_mut` are atomic steps, taken in the
  order of a schedule (`interleave`).
-/

namespace OSAL

/-- A C string: the characters before the terminating NUL. -/
abbrev CStr := List Char

/-- Modelled from the spec: the status codes of `osapi.h` (the header is not among the
sources); section 7 of the specification describes them as one flat enumeration, and
their names are the macro names used in `osapi.c`. -/
inductive OS_Status where
  | OS_SUCCESS
  | OS_ERROR
  | OS_INVALID_POINTER
  | OS_SEM_FAILURE
  | OS_SEM_TIMEOUT
  | OS_QUEUE_EMPTY
  | OS_QUEUE_FULL
  | OS_QUEUE_TIMEOUT
  | OS_QUEUE_INVALID_SIZE
  | OS_ERR_NAME_TOO_LONG
  | OS_ERR_NO_FREE_IDS
  | OS_ERR_NAME_TAKEN
  | OS_ERR_INVALID_ID
  | OS_ERR_NAME_NOT_FOUND
  | OS_ERR_INVALID_PRIORITY
  | OS_INVALID_SEM_VALUE
  | OS_ERR_NOT_IMPLEMENTED
  deriving DecidableEq, Repr

open OS_Status

/-- Constants of the build that are not table sizes: `OS_MAX_API_NAME` (osconfig.h),
`SEM_VALUE_MAX` (limits.h) and `PTHREAD_STACK_MIN`. -/
structure Config where
  OS_MAX_API_NAME : Nat
  SEM_VALUE_MAX : Nat
  PTHREAD_STACK_MIN : Nat
  deriving DecidableEq, Repr

/-- `#define UNINITIALIZED 0` -/
def UNINITIALIZED : Nat := 0

/-- `#define MAX_PRIORITY 255` -/
def MAX_PRIORITY : Nat := 255

/-- Modelled from the spec: the two special `timeout` values of `OS_QueueGet`, `OS_PEND`
and `OS_CHECK`, are macros of `osapi.h` (not among the sources); the values are those
of the OSAL header. -/
def OS_PEND : Int := -1
def OS_CHECK : Int := 0

/-- Linux `errno` values tested by the code. -/
def EINTR : Int := 4
def EINVAL : Int := 22
def EDEADLK : Int := 35
def ETIMEDOUT : Int := 110

/-- The five table guard mutexes `OS_*_table_mut`. -/
inductive Guard where
  | OS_task_table_mut
  | OS_queue_table_mut
  | OS_bin_sem_table_mut
  | OS_count_sem_table_mut
  | OS_mut_sem_table_mut
  deriving DecidableEq, Repr

/-- `struct timespec` -/
structure timespec where
  tv_sec : Int
  tv_nsec : Int
  deriving DecidableEq, Repr

/-- The host (POSIX) calls made by the API; a table row is named by its index. -/
inductive HostCall where
  | pthread_attr_init
  | pthread_attr_setstacksize (size : Nat)
  | pthread_attr_setschedparam (prio : Int)
  | pthread_create (row : Nat)
  | pthread_detach (row : Nat)
  | pthread_attr_destroy
  | pthread_cancel (row : Nat)
  | mq_open (name : CStr) (msgsize : Nat)
  | mq_close (row : Nat)
  | mq_unlink (name : CStr)
  | mq_getattr (row : Nat)
  | mq_receive (row : Nat) (size : Nat)
  | mq_timedreceive (row : Nat) (size : Nat) (ts : timespec)
  | mq_send (row : Nat) (size : Nat)
  | sem_init (g : Guard) (row : Nat) (value : Nat)
  | sem_destroy (g : Guard) (row : Nat)
  | sem_post (g : Guard) (row : Nat)
  | sem_wait (g : Guard) (row : Nat)
  | sem_timedwait (g : Guard) (row : Nat) (ts : timespec)
  | clock_gettime
  | pthread_mutexattr_init
  | pthread_mutex_init (row : Nat)
  | pthread_mutex_destroy (row : Nat)
  | pthread_mutex_lock (row : Nat)
  | pthread_mutex_unlock (row : Nat)
  | pthread_setspecific (value : Nat)
  | fcntl_getfl (row : Nat)
  | fcntl_setfl (row : Nat) (flags : Int)
  | recvfrom (row : Nat) (size : Nat)
  | select (row : Nat)
  deriving DecidableEq, Repr

/-- One observable step of an API call, in program order. -/
inductive Event where
  | lock (g : Guard)
  | unlock (g : Guard)
  | host (c : HostCall)
  | hook (fn : Nat)
  deriving DecidableEq, Repr

/-- `OS_task_record_t` -/
structure OS_task_record_t where
  free : Bool
  id : Nat
  name : CStr
  creator : Nat
  stack_size : Nat
  priority : Nat
  delete_hook_pointer : Option Nat
  deriving DecidableEq, Repr

/-- `OS_queue_record_t` (message queue build); `id` is the `mqd_t` descriptor. -/
structure OS_queue_record_t where
  free : Bool
  id : Int
  name : CStr
  creator : Nat
  deriving DecidableEq, Repr

/-- `OS_bin_sem_record_t`; the `sem_t id` member is the host semaphore object itself,
kept on the host side and named in events by the row index. -/
structure OS_bin_sem_record_t where
  free : Bool
  name : CStr
  creator : Nat
  max_value : Int
  current_value : Int
  deriving DecidableEq, Repr

/-- `OS_count_sem_record_t`; `sem_t id` is host side, as for binary semaphores. -/
structure OS_count_sem_record_t where
  free : Bool
  name : CStr
  creator : Nat
  max_value : Int
  current_value : Int
  deriving DecidableEq, Repr

/-- `OS_mut_sem_record_t`; the `pthread_mutex_t id` member is host side. -/
structure OS_mut_sem_record_t where
  free : Bool
  name : CStr
  creator : Nat
  nested_value : Int
  deriving DecidableEq, Repr

/-- The global tables of `osapi.c`. -/
structure OSState where
  OS_task_table : List OS_task_record_t
  OS_queue_table : List OS_queue_record_t
  OS_bin_sem_table : List OS_bin_sem_record_t
  OS_count_sem_table : List OS_count_sem_record_t
  OS_mut_sem_table : List OS_mut_sem_record_t
  deriving DecidableEq, Repr

/-- Result of an API call that has no out-pointer. -/
structure Ret where
  ret : OS_Status
  st : OSState
  tr : List Event
  deriving DecidableEq, Repr

/-- Result of an API call with one out-pointer: `out` is the content of the pointed-to
object after the call (`none` when the pointer is `NULL`). -/
structure RetOut (β : Type) where
  ret : OS_Status
  out : Option β
  st : OSState
  tr : List Event
  deriving DecidableEq, Repr

/-- Result of a call whose out-pointer is a `uint32 *`. -/
abbrev RetId := RetOut Nat

/-- `OS_FindCreator`: index of the first task row whose handle equals `pthread_self()`,
or `OS_MAX_TASKS` when the loop runs to its end. -/
def OS_FindCreator (s : OSState) (pthread_self : Nat) : Nat :=
  s.OS_task_table.findIdx (fun r => r.id == pthread_self)

/-- Guard lock taken and released with no host call in between. -/
def critical (g : Guard) : List Event := [.lock g, .unlock g]

/-- The local `prange` of `OS_PriorityRemap`: `abs((pmax - pmin) + 1)`, computed from the
host values before any shift. -/
def OS_PriorityRemap.prange (pmax0 pmin0 : Int) : Int :=
  Int.natAbs ((pmax0 - pmin0) + 1)

/-- The local `numbins` of `OS_PriorityRemap`: `MAX_PRIORITY / prange`, plus one when
`MAX_PRIORITY % prange > prange / 2` (C division and remainder, truncating). It is
computed only when `prange` is not zero. -/
def OS_PriorityRemap.numbins (pmax0 pmin0 : Int) : Int :=
  let prange := OS_PriorityRemap.prange pmax0 pmin0
  let numbins := Int.tdiv (MAX_PRIORITY : Int) prange
  if Int.tmod (MAX_PRIORITY : Int) prange > Int.tdiv prange 2 then numbins + 1 else numbins

/-- `OS_PriorityRemap`; `pmax0` and `pmin0` are the values of
`sched_get_priority_max(SCHED_FIFO)` and `sched_get_priority_min(SCHED_FIFO)`.
The result is `none` when the C code divides by zero (`prange == 0` or `numbins == 0`).
`InputRev` is the `uint32` difference `MAX_PRIORITY - InputPri` converted to `int`.
The `int` arithmetic is exact integer arithmetic, which is what the C code computes as
long as no intermediate value leaves the range of `int`. -/
def OS_PriorityRemap (pmax0 pmin0 : Int) (InputPri : Nat) : Option Int :=
  let prange := OS_PriorityRemap.prange pmax0 pmin0
  let IsMinNegative : Bool := decide (pmin0 < 0)
  let MinNegOffset : Int := if pmin0 < 0 then -pmin0 else 0
  let pmin1 := pmin0 + MinNegOffset
  let pmax1 := pmax0 + MinNegOffset
  let IsMaxNegative : Bool := decide (pmax1 < 0)
  let MaxNegOffset : Int := if pmax1 < 0 then -pmax1 else 0
  let pmin := pmin1 + MaxNegOffset
  let pmax := pmax1 + MaxNegOffset
  if prange = 0 then none
  else
    let numbins := OS_PriorityRemap.numbins pmax0 pmin0
    let u : Int := ((MAX_PRIORITY : Int) - (InputPri : Int)) % 4294967296
    let InputRev : Int := if u < 2147483648 then u else u - 4294967296
    if numbins = 0 then none
    else
      let offset := Int.tdiv InputRev numbins
      let OutputPri0 := pmin + offset
      let OutputPri1 := if OutputPri0 > pmax then pmax else OutputPri0
      let OutputPri2 := if OutputPri1 < pmin then pmin else OutputPri1
      let OutputPri3 := if IsMinNegative then OutputPri2 - MinNegOffset else OutputPri2
      let OutputPri4 := if IsMaxNegative then OutputPri3 - MaxNegOffset else OutputPri3
      some OutputPri4

/-- `OS_CompAbsDelayTime` (Linux branch); `now` is the reading of
`clock_gettime(CLOCK_REALTIME, tm)`. -/
def OS_CompAbsDelayTime (msecs : Nat) (now : timespec) : timespec :=
  let tv_sec := now.tv_sec + ((msecs / 1000 : Nat) : Int)
  let tv_nsec := now.tv_nsec + ((msecs % 1000 : Nat) : Int) * 1000000
  if tv_nsec ≥ 1000000000 then ⟨tv_sec + 1, tv_nsec - 1000000000⟩
  else ⟨tv_sec, tv_nsec⟩

/-- The loop `do { ret = wait(...); } while (ret == -1 && errno == EINTR);`.
The host results `(ret, errno)` of the successive calls are consumed in order; the
value is the result that ends the loop with the number of calls made, or `none`
when the calls never end the loop. -/
def restartLoop : List (Int × Int) → Option ((Int × Int) × Nat)
  | [] => none
  | (ret, errno) :: rest =>
    if ret = -1 ∧ errno = EINTR then
      match restartLoop rest with
      | none => none
      | some (r, n) => some (r, n + 1)
    else some ((ret, errno), 1)

/-- Outcome of the reservation block of a Create function. -/
inductive Reserve (α : Type) where
  | noFreeIds
  | nameTaken
  | reserved (possible_id : Nat) (row : α)
  deriving DecidableEq, Repr

/-- The reservation block that the five Create functions share, run under the guard of
the table:
`for (possible_id = 0; possible_id < MAX; possible_id++) if (table[possible_id].free == TRUE) break;`,
then `OS_ERR_NO_FREE_IDS` when `possible_id >= MAX || table[possible_id].free != TRUE`,
then `OS_ERR_NAME_TAKEN` when some row has `free == FALSE` and `strcmp(name, row.name) == 0`.
On `reserved possible_id row` the caller stores `free = FALSE` in row `possible_id`, whose
content was `row`. -/
def reserve {α : Type} (fr : α → Bool) (nm : α → CStr) (t : List α) (name : CStr) :
    Reserve α :=
  let possible_id := t.findIdx (fun r => fr r)
  match t[possible_id]? with
  | none => .noFreeIds
  | some row =>
    if t.any (fun r => !fr r && name == nm r) then .nameTaken
    else .reserved possible_id row

/-! ## Initialisation -/

/-- Store to `table[i]` seen as `table[i] = f(table[i])`; `none` when `i` is outside
the array. -/
def writeRow {α : Type} (f : α → α) (i : Nat) (t : List α) : Option (List α) :=
  match t[i]? with
  | none => none
  | some r => some (t.set i (f r))

/-- The loop `for (i = 0; i < n; i++) table[i] = f(table[i]);` run from `i`. -/
def initLoop {α : Type} (f : α → α) : Nat → Nat → List α → Option (List α)
  | 0, _, t => some t
  | k + 1, i, t =>
    match writeRow f i t with
    | none => none
    | some t1 => initLoop f k (i + 1) t1

/-- Host results consumed by `OS_API_Init`: the status of `OS_TimerAPIInit`, the
results of `pthread_key_create` and of the five `pthread_mutex_init` calls, and the
status of `OS_FS_Init`. -/
structure InitHost where
  timer : OS_Status
  key : Int
  task_mut : Int
  queue_mut : Int
  bin_sem_mut : Int
  count_sem_mut : Int
  mut_sem_mut : Int
  fs : OS_Status
  deriving DecidableEq, Repr

/-- `OS_API_Init`: the table state after the five initialisation loops and the status
returned; `none` when a loop stores outside its array. The loop over
`OS_count_sem_table` is bounded by `OS_MAX_BIN_SEMAPHORES`, as in the source. The
optional module loader (`OS_INCLUDE_MODULE_LOADER`) is left out. -/
def OS_API_Init (s : OSState) (h : InitHost) : Option (OS_Status × OSState) :=
  match initLoop (fun r : OS_task_record_t =>
          { r with free := true, creator := UNINITIALIZED, delete_hook_pointer := none,
                   name := [] }) s.OS_task_table.length 0 s.OS_task_table,
        initLoop (fun r : OS_queue_record_t =>
          { r with free := true, id := (UNINITIALIZED : Nat), creator := UNINITIALIZED,
                   name := [] }) s.OS_queue_table.length 0 s.OS_queue_table,
        initLoop (fun r : OS_bin_sem_record_t =>
          { r with free := true, creator := UNINITIALIZED, name := [] })
          s.OS_bin_sem_table.length 0 s.OS_bin_sem_table,
        initLoop (fun r : OS_count_sem_record_t =>
          { r with free := true, creator := UNINITIALIZED, name := [] })
          s.OS_bin_sem_table.length 0 s.OS_count_sem_table,
        initLoop (fun r : OS_mut_sem_record_t =>
          { r with free := true, creator := UNINITIALIZED, nested_value := 0, name := [] })
          s.OS_mut_sem_table.length 0 s.OS_mut_sem_table with
  | some tt, some qt, some bt, some ct, some mt =>
    let s1 : OSState := ⟨tt, qt, bt, ct, mt⟩
    if h.timer = OS_ERROR then some (OS_ERROR, s1)
    else if h.key ≠ 0 then some (OS_ERROR, s1)
    else if h.task_mut ≠ 0 then some (OS_ERROR, s1)
    else if h.queue_mut ≠ 0 then some (OS_ERROR, s1)
    else if h.bin_sem_mut ≠ 0 then some (OS_ERROR, s1)
    else if h.count_sem_mut ≠ 0 then some (OS_ERROR, s1)
    else if h.mut_sem_mut ≠ 0 then some (OS_ERROR, s1)
    else some (h.fs, s1)
  | _, _, _, _, _ => none

/-- All-zero static storage of the five tables, for the given array sizes. -/
def zeroState (OS_MAX_TASKS OS_MAX_QUEUES OS_MAX_BIN_SEMAPHORES OS_MAX_COUNT_SEMAPHORES
    OS_MAX_MUTEXES : Nat) : OSState :=
  { OS_task_table := List.replicate OS_MAX_TASKS ⟨false, 0, [], 0, 0, 0, none⟩
    OS_queue_table := List.replicate OS_MAX_QUEUES ⟨false, 0, [], 0⟩
    OS_bin_sem_table := List.replicate OS_MAX_BIN_SEMAPHORES ⟨false, [], 0, 0, 0⟩
    OS_count_sem_table := List.replicate OS_MAX_COUNT_SEMAPHORES ⟨false, [], 0, 0, 0⟩
    OS_mut_sem_table := List.replicate OS_MAX_MUTEXES ⟨false, [], 0, 0⟩ }

/-! ## Task API -/

/-- Host results consumed by `OS_TaskCreate`: the `SCHED_FIFO` priority range, the
return values of the `pthread_attr_*` calls, of `pthread_create` (with the handle it
leaves in `OS_task_table[possible_taskid].id`) and of `pthread_detach`. -/
structure TaskCreateHost where
  pmax : Int
  pmin : Int
  attr_init : Int
  setstacksize : Int
  setschedparam : Int
  create : Int
  handle : Nat
  detach : Int
  attr_destroy : Int
  deriving DecidableEq, Repr

/-- `OS_TaskCreate` (the unused `stack_pointer` and `flags` are left out). The value is
`none` when `OS_PriorityRemap` divides by zero. -/
def OS_TaskCreate (cfg : Config) (s : OSState) (pthread_self : Nat) (h : TaskCreateHost)
    (task_id : Option Nat) (task_name : Option CStr) (function_pointer : Option Nat)
    (stack_size priority : Nat) : Option RetId :=
  match task_name, function_pointer, task_id with
  | some name, some _, some _ =>
    if name.length ≥ cfg.OS_MAX_API_NAME then some ⟨OS_ERR_NAME_TOO_LONG, task_id, s, []⟩
    else if priority > MAX_PRIORITY then some ⟨OS_ERR_INVALID_PRIORITY, task_id, s, []⟩
    else
      match OS_PriorityRemap h.pmax h.pmin priority with
      | none => none
      | some os_priority =>
        match reserve OS_task_record_t.free OS_task_record_t.name s.OS_task_table name with
        | .noFreeIds => some ⟨OS_ERR_NO_FREE_IDS, task_id, s, critical .OS_task_table_mut⟩
        | .nameTaken => some ⟨OS_ERR_NAME_TAKEN, task_id, s, critical .OS_task_table_mut⟩
        | .reserved possible_taskid row =>
          let row1 := { row with free := false }
          let local_stack_size :=
            if stack_size < cfg.PTHREAD_STACK_MIN then cfg.PTHREAD_STACK_MIN else stack_size
          let row2 := if h.attr_init ≠ 0 then { row1 with free := true } else row1
          let tr1 := critical .OS_task_table_mut ++ [.host .pthread_attr_init]
            ++ (if h.attr_init ≠ 0 then critical .OS_task_table_mut else [])
            ++ [.host (.pthread_attr_setstacksize local_stack_size),
                .host (.pthread_attr_setschedparam os_priority),
                .host (.pthread_create possible_taskid)]
          let row3 := { row2 with id := h.handle }
          let row3f := { row3 with free := true }
          let failed : OSState :=
            { s with OS_task_table := s.OS_task_table.set possible_taskid row3f }
          if h.create ≠ 0 then
            some ⟨OS_ERROR, task_id, failed, tr1 ++ critical .OS_task_table_mut⟩
          else if h.detach ≠ 0 then
            some ⟨OS_ERROR, task_id, failed,
              tr1 ++ [.host (.pthread_detach possible_taskid)]
                ++ critical .OS_task_table_mut⟩
          else if h.attr_destroy ≠ 0 then
            some ⟨OS_ERROR, task_id, failed,
              tr1 ++ [.host (.pthread_detach possible_taskid), .host .pthread_attr_destroy]
                ++ critical .OS_task_table_mut⟩
          else
            let row4 := { row3 with free := false }
            let s4 : OSState :=
              { s with OS_task_table := s.OS_task_table.set possible_taskid row4 }
            let row5 := { row4 with name := name, creator := OS_FindCreator s4 pthread_self,
                                    stack_size := stack_size, priority := priority }
            some ⟨OS_SUCCESS, some possible_taskid,
              { s with OS_task_table := s.OS_task_table.set possible_taskid row5 },
              tr1 ++ [.host (.pthread_detach possible_taskid), .host .pthread_attr_destroy]
                ++ critical .OS_task_table_mut⟩
  | _, _, _ => some ⟨OS_INVALID_POINTER, task_id, s, []⟩

/-- `OS_TaskDelete` (Linux branch); `ret` is the value returned by `pthread_cancel`.
The call of the delete hook is recorded as an event. -/
def OS_TaskDelete (s : OSState) (task_id : Nat) (ret : Int) : Ret :=
  match s.OS_task_table[task_id]? with
  | none => ⟨OS_ERR_INVALID_ID, s, []⟩
  | some row =>
    if row.free then ⟨OS_ERR_INVALID_ID, s, []⟩
    else
      let tr0 : List Event :=
        match row.delete_hook_pointer with
        | some fn => [.hook fn]
        | none => []
      let tr1 := tr0 ++ [.host (.pthread_cancel task_id)]
      if ret ≠ 0 then ⟨OS_ERROR, s, tr1⟩
      else
        let row1 : OS_task_record_t :=
          ⟨true, UNINITIALIZED, [], UNINITIALIZED, UNINITIALIZED, UNINITIALIZED, none⟩
        ⟨OS_SUCCESS, { s with OS_task_table := s.OS_task_table.set task_id row1 },
          tr1 ++ critical .OS_task_table_mut⟩

/-- `OS_TaskSetPriority`; `pmax` and `pmin` are the host priority range and
`setschedparam` the value returned by `pthread_attr_setschedparam`. The value is `none`
when `OS_PriorityRemap` divides by zero. -/
def OS_TaskSetPriority (s : OSState) (pmax pmin : Int) (task_id new_priority : Nat)
    (setschedparam : Int) : Option Ret :=
  match s.OS_task_table[task_id]? with
  | none => some ⟨OS_ERR_INVALID_ID, s, []⟩
  | some row =>
    if row.free then some ⟨OS_ERR_INVALID_ID, s, []⟩
    else if new_priority > MAX_PRIORITY then some ⟨OS_ERR_INVALID_PRIORITY, s, []⟩
    else
      match OS_PriorityRemap pmax pmin new_priority with
      | none => none
      | some os_priority =>
        if setschedparam ≠ 0 then
          some ⟨OS_ERROR, s, [.host (.pthread_attr_setschedparam os_priority)]⟩
        else
          let row1 := { row with priority := new_priority }
          some ⟨OS_SUCCESS, { s with OS_task_table := s.OS_task_table.set task_id row1 },
            [.host (.pthread_attr_setschedparam os_priority)]⟩

/-- `OS_TaskGetIdByName` -/
def OS_TaskGetIdByName (cfg : Config) (s : OSState) (task_id : Option Nat)
    (task_name : Option CStr) : RetId :=
  match task_id, task_name with
  | some _, some name =>
    if name.length ≥ cfg.OS_MAX_API_NAME then ⟨OS_ERR_NAME_TOO_LONG, task_id, s, []⟩
    else
      let i := s.OS_task_table.findIdx (fun r => !r.free && r.name == name)
      if i < s.OS_task_table.length then ⟨OS_SUCCESS, some i, s, []⟩
      else ⟨OS_ERR_NAME_NOT_FOUND, task_id, s, []⟩
  | _, _ => ⟨OS_INVALID_POINTER, task_id, s, []⟩

/-- `OS_task_prop_t`, with the members written by `OS_TaskGetInfo`. -/
structure OS_task_prop_t where
  name : CStr
  creator : Nat
  stack_size : Nat
  priority : Nat
  OStask_id : Nat
  deriving DecidableEq, Repr

/-- `OS_TaskGetInfo`; `OStask_id` is the handle converted to `uint32`. -/
def OS_TaskGetInfo (s : OSState) (task_id : Nat) (task_prop : Option OS_task_prop_t) :
    RetOut OS_task_prop_t :=
  match s.OS_task_table[task_id]? with
  | none => ⟨OS_ERR_INVALID_ID, task_prop, s, []⟩
  | some row =>
    if row.free then ⟨OS_ERR_INVALID_ID, task_prop, s, []⟩
    else
      match task_prop with
      | none => ⟨OS_INVALID_POINTER, task_prop, s, []⟩
      | some _ =>
        ⟨OS_SUCCESS,
          some ⟨row.name, row.creator, row.stack_size, row.priority, row.id % 4294967296⟩, s,
          critical .OS_task_table_mut⟩

/-! ## Message queue API (POSIX message queue implementation) -/

/-- The host queue name `"/<process_id>.queue_name"` built by `strcpy`/`strcat`. -/
def mqName (process_id_string queue_name : CStr) : CStr :=
  '/' :: (process_id_string ++ '.' :: queue_name)

/-- `OS_QueueCreate` (the unused `flags` is left out); `process_id_string` is what
`sprintf("%d", getpid())` writes and `queueDesc` the value returned by `mq_open`. -/
def OS_QueueCreate (cfg : Config) (s : OSState) (pthread_self : Nat)
    (process_id_string : CStr) (queueDesc : Int)
    (queue_id : Option Nat) (queue_name : Option CStr) (_queue_depth data_size : Nat) : RetId :=
  match queue_id, queue_name with
  | some _, some name =>
    if name.length ≥ cfg.OS_MAX_API_NAME then ⟨OS_ERR_NAME_TOO_LONG, queue_id, s, []⟩
    else
      match reserve OS_queue_record_t.free OS_queue_record_t.name s.OS_queue_table name with
      | .noFreeIds => ⟨OS_ERR_NO_FREE_IDS, queue_id, s, critical .OS_queue_table_mut⟩
      | .nameTaken => ⟨OS_ERR_NAME_TAKEN, queue_id, s, critical .OS_queue_table_mut⟩
      | .reserved possible_qid row =>
        let row1 := { row with free := false }
        let tr1 := critical .OS_queue_table_mut
          ++ [.host (.mq_open (mqName process_id_string name) data_size)]
        if queueDesc = -1 then
          let row2 := { row1 with free := true }
          ⟨OS_ERROR, queue_id,
            { s with OS_queue_table := s.OS_queue_table.set possible_qid row2 },
            tr1 ++ critical .OS_queue_table_mut⟩
        else
          let row2 := { row1 with id := queueDesc, free := false, name := name,
                                  creator := OS_FindCreator s pthread_self }
          ⟨OS_SUCCESS, some possible_qid,
            { s with OS_queue_table := s.OS_queue_table.set possible_qid row2 },
            tr1 ++ critical .OS_queue_table_mut⟩
  | _, _ => ⟨OS_INVALID_POINTER, queue_id, s, []⟩

/-- `OS_QueueDelete`; `process_id_string` is what `sprintf("%d", getpid())` writes,
`close_ret` and `unlink_ret` are the values returned by `mq_close` and `mq_unlink` (the
second call is made only when the first succeeds). The host name `"/<pid>.<name>"` is
built by `strcpy` and `strcat` in `char name[OS_MAX_API_NAME+1]`; the value is `none`
when the name with its terminating NUL does not fit this array, the stores then going
past its end. -/
def OS_QueueDelete (cfg : Config) (s : OSState) (process_id_string : CStr) (queue_id : Nat)
    (close_ret unlink_ret : Int) : Option Ret :=
  match s.OS_queue_table[queue_id]? with
  | none => some ⟨OS_ERR_INVALID_ID, s, []⟩
  | some row =>
    if row.free then some ⟨OS_ERR_INVALID_ID, s, []⟩
    else
      let name := mqName process_id_string row.name
      if cfg.OS_MAX_API_NAME + 1 < name.length + 1 then none
      else if close_ret = -1 then some ⟨OS_ERROR, s, [.host (.mq_close queue_id)]⟩
      else if unlink_ret = -1 then
        some ⟨OS_ERROR, s, [.host (.mq_close queue_id), .host (.mq_unlink name)]⟩
      else
        let row1 : OS_queue_record_t := ⟨true, (UNINITIALIZED : Nat), [], UNINITIALIZED⟩
        some ⟨OS_SUCCESS, { s with OS_queue_table := s.OS_queue_table.set queue_id row1 },
          [.host (.mq_close queue_id), .host (.mq_unlink name)]
            ++ critical .OS_queue_table_mut⟩

/-- Host results consumed by `OS_QueueGet`: the `(sizeCopied, errno)` results of the
successive `mq_receive`/`mq_timedreceive` calls, the value returned by `mq_getattr`
with the `mq_curmsgs` it reports, and the clock reading. -/
structure QueueGetHost where
  receive : List (Int × Int)
  getattr : Int
  curmsgs : Int
  now : timespec
  deriving DecidableEq, Repr

/-- `OS_QueueGet`; `size_copied` is the cell behind the out-pointer. The comparison of
the `int sizeCopied` with the `uint32 size` is made in `uint32`. The value is `none`
when a receive loop never ends. -/
def OS_QueueGet (s : OSState) (h : QueueGetHost) (queue_id : Nat)
    (data : Option (List Nat)) (size : Nat) (size_copied : Option Nat) (timeout : Int) :
    Option RetId :=
  match s.OS_queue_table[queue_id]? with
  | none => some ⟨OS_ERR_INVALID_ID, size_copied, s, []⟩
  | some row =>
    if row.free then some ⟨OS_ERR_INVALID_ID, size_copied, s, []⟩
    else
      match data, size_copied with
      | some _, some _ =>
        if timeout = OS_PEND then
          match restartLoop h.receive with
          | none => none
          | some ((sizeCopied, _), n) =>
            let tr := List.replicate n (Event.host (.mq_receive queue_id size))
            if sizeCopied % 4294967296 ≠ (size : Int) then
              some ⟨OS_QUEUE_INVALID_SIZE, some 0, s, tr⟩
            else some ⟨OS_SUCCESS, size_copied, s, tr⟩
        else if timeout = OS_CHECK then
          if h.getattr ≠ 0 then some ⟨OS_ERROR, size_copied, s, [.host (.mq_getattr queue_id)]⟩
          else
            let received : Option (Int × List Event) :=
              if h.curmsgs ≠ 0 then
                match h.receive with
                | [] => none
                | (sizeCopied, _) :: _ =>
                  some (sizeCopied, [.host (.mq_getattr queue_id),
                                      .host (.mq_receive queue_id size)])
              else some (-1, [.host (.mq_getattr queue_id)])
            match received with
            | none => none
            | some (sizeCopied, tr) =>
              if sizeCopied = -1 then some ⟨OS_QUEUE_EMPTY, some 0, s, tr⟩
              else if sizeCopied % 4294967296 ≠ (size : Int) then
                some ⟨OS_QUEUE_INVALID_SIZE, some 0, s, tr⟩
              else some ⟨OS_SUCCESS, size_copied, s, tr⟩
        else
          let ts := OS_CompAbsDelayTime (timeout % 4294967296).toNat h.now
          match restartLoop h.receive with
          | none => none
          | some ((sizeCopied, errno), n) =>
            let tr := Event.host .clock_gettime ::
              List.replicate n (Event.host (.mq_timedreceive queue_id size ts))
            if sizeCopied = -1 ∧ errno = ETIMEDOUT then
              some ⟨OS_QUEUE_TIMEOUT, size_copied, s, tr⟩
            else if sizeCopied % 4294967296 = (size : Int) then
              some ⟨OS_SUCCESS, some (sizeCopied % 4294967296).toNat, s, tr⟩
            else some ⟨OS_QUEUE_INVALID_SIZE, some 0, s, tr⟩
      | _, _ => some ⟨OS_INVALID_POINTER, size_copied, s, []⟩

/-- `OS_QueuePut` (the unused `flags` is left out); `getattr` is the value returned by
`mq_getattr`, `curmsgs` and `maxmsg` the attributes it reports, `send` the value
returned by `mq_send`. -/
def OS_QueuePut (s : OSState) (queue_id : Nat) (data : Option (List Nat)) (size : Nat)
    (getattr curmsgs maxmsg send : Int) : Ret :=
  match s.OS_queue_table[queue_id]? with
  | none => ⟨OS_ERR_INVALID_ID, s, []⟩
  | some row =>
    if row.free then ⟨OS_ERR_INVALID_ID, s, []⟩
    else
      match data with
      | none => ⟨OS_INVALID_POINTER, s, []⟩
      | some _ =>
        if getattr ≠ 0 then ⟨OS_ERROR, s, [.host (.mq_getattr queue_id)]⟩
        else if curmsgs ≥ maxmsg then ⟨OS_QUEUE_FULL, s, [.host (.mq_getattr queue_id)]⟩
        else if send = -1 then
          ⟨OS_ERROR, s, [.host (.mq_getattr queue_id), .host (.mq_send queue_id size)]⟩
        else
          ⟨OS_SUCCESS, s, [.host (.mq_getattr queue_id), .host (.mq_send queue_id size)]⟩

/-- `OS_QueueGetIdByName` -/
def OS_QueueGetIdByName (cfg : Config) (s : OSState) (queue_id : Option Nat)
    (queue_name : Option CStr) : RetId :=
  match queue_id, queue_name with
  | some _, some name =>
    if name.length ≥ cfg.OS_MAX_API_NAME then ⟨OS_ERR_NAME_TOO_LONG, queue_id, s, []⟩
    else
      let i := s.OS_queue_table.findIdx (fun r => !r.free && r.name == name)
      if i < s.OS_queue_table.length then ⟨OS_SUCCESS, some i, s, []⟩
      else ⟨OS_ERR_NAME_NOT_FOUND, queue_id, s, []⟩
  | _, _ => ⟨OS_INVALID_POINTER, queue_id, s, []⟩

/-- `OS_queue_prop_t`, with the members written by `OS_QueueGetInfo`. -/
structure OS_queue_prop_t where
  name : CStr
  creator : Nat
  deriving DecidableEq, Repr

/-- `OS_QueueGetInfo`; the pointer is tested before the id. -/
def OS_QueueGetInfo (s : OSState) (queue_id : Nat) (queue_prop : Option OS_queue_prop_t) :
    RetOut OS_queue_prop_t :=
  match queue_prop with
  | none => ⟨OS_INVALID_POINTER, queue_prop, s, []⟩
  | some _ =>
    match s.OS_queue_table[queue_id]? with
    | none => ⟨OS_ERR_INVALID_ID, queue_prop, s, []⟩
    | some row =>
      if row.free then ⟨OS_ERR_INVALID_ID, queue_prop, s, []⟩
      else ⟨OS_SUCCESS, some ⟨row.name, row.creator⟩, s, critical .OS_queue_table_mut⟩

/-! ## Binary semaphore API -/

/-- `OS_BinSemCreate` (Linux branch; the unused `options` is left out); `Status` is the
value returned by `sem_init`. -/
def OS_BinSemCreate (cfg : Config) (s : OSState) (pthread_self : Nat)
    (sem_id : Option Nat) (sem_name : Option CStr) (sem_initial_value : Nat)
    (Status : Int) : RetId :=
  match sem_id, sem_name with
  | some _, some name =>
    if name.length ≥ cfg.OS_MAX_API_NAME then ⟨OS_ERR_NAME_TOO_LONG, sem_id, s, []⟩
    else
      match reserve OS_bin_sem_record_t.free OS_bin_sem_record_t.name s.OS_bin_sem_table
          name with
      | .noFreeIds => ⟨OS_ERR_NO_FREE_IDS, sem_id, s, critical .OS_bin_sem_table_mut⟩
      | .nameTaken => ⟨OS_ERR_NAME_TAKEN, sem_id, s, critical .OS_bin_sem_table_mut⟩
      | .reserved possible_semid row =>
        let row1 := { row with free := false }
        let sem_initial_value := if sem_initial_value > 1 then 1 else sem_initial_value
        let tr1 := critical .OS_bin_sem_table_mut
          ++ [.host (.sem_init .OS_bin_sem_table_mut possible_semid sem_initial_value)]
        if Status = -1 then
          let row2 := { row1 with free := true }
          ⟨OS_SEM_FAILURE, sem_id,
            { s with OS_bin_sem_table := s.OS_bin_sem_table.set possible_semid row2 },
            tr1 ++ critical .OS_bin_sem_table_mut⟩
        else
          let row2 := { row1 with name := name, creator := OS_FindCreator s pthread_self,
                                  max_value := 1,
                                  current_value := sem_initial_value }
          ⟨OS_SUCCESS, some possible_semid,
            { s with OS_bin_sem_table := s.OS_bin_sem_table.set possible_semid row2 },
            tr1 ++ critical .OS_bin_sem_table_mut⟩
  | _, _ => ⟨OS_INVALID_POINTER, sem_id, s, []⟩

/-- `OS_BinSemDelete` (Linux branch); `ret` is the value returned by `sem_destroy`. -/
def OS_BinSemDelete (s : OSState) (sem_id : Nat) (ret : Int) : Ret :=
  match s.OS_bin_sem_table[sem_id]? with
  | none => ⟨OS_ERR_INVALID_ID, s, []⟩
  | some row =>
    if row.free then ⟨OS_ERR_INVALID_ID, s, []⟩
    else if ret ≠ 0 then ⟨OS_SEM_FAILURE, s, [.host (.sem_destroy .OS_bin_sem_table_mut sem_id)]⟩
    else
      let row1 := { row with free := true, name := [], creator := UNINITIALIZED,
                             max_value := 0, current_value := 0 }
      ⟨OS_SUCCESS, { s with OS_bin_sem_table := s.OS_bin_sem_table.set sem_id row1 },
        Event.host (.sem_destroy .OS_bin_sem_table_mut sem_id) :: critical .OS_bin_sem_table_mut⟩

/-- `OS_BinSemGive`; `ret` is the value returned by `sem_post`. -/
def OS_BinSemGive (s : OSState) (sem_id : Nat) (ret : Int) : Ret :=
  match s.OS_bin_sem_table[sem_id]? with
  | none => ⟨OS_ERR_INVALID_ID, s, []⟩
  | some row =>
    if row.free then ⟨OS_ERR_INVALID_ID, s, []⟩
    else if row.current_value < row.max_value then
      if ret ≠ 0 then
        ⟨OS_SEM_FAILURE, s, [.host (.sem_post .OS_bin_sem_table_mut sem_id)]⟩
      else
        let row1 := { row with current_value := row.current_value + 1 }
        ⟨OS_SUCCESS, { s with OS_bin_sem_table := s.OS_bin_sem_table.set sem_id row1 },
          [.host (.sem_post .OS_bin_sem_table_mut sem_id)]⟩
    else ⟨OS_SUCCESS, s, []⟩

/-- `OS_BinSemFlush`: the loop `for (i = current_value; i < 0; i++) sem_post(...)`; the
results of the posts are not looked at. -/
def OS_BinSemFlush (s : OSState) (sem_id : Nat) : Ret :=
  match s.OS_bin_sem_table[sem_id]? with
  | none => ⟨OS_ERR_INVALID_ID, s, []⟩
  | some row =>
    if row.free then ⟨OS_ERR_INVALID_ID, s, []⟩
    else
      ⟨OS_SUCCESS, s,
        List.replicate (-row.current_value).toNat
          (Event.host (.sem_post .OS_bin_sem_table_mut sem_id))⟩

/-- `OS_BinSemTake`; `waits` are the `(ret, errno)` results of the successive
`sem_wait` calls. The value is `none` when the wait loop never ends. -/
def OS_BinSemTake (s : OSState) (sem_id : Nat) (waits : List (Int × Int)) : Option Ret :=
  match s.OS_bin_sem_table[sem_id]? with
  | none => some ⟨OS_ERR_INVALID_ID, s, []⟩
  | some row =>
    if row.free then some ⟨OS_ERR_INVALID_ID, s, []⟩
    else
      let row1 := { row with current_value := row.current_value - 1 }
      match restartLoop waits with
      | none => none
      | some ((ret, _), n) =>
        let tr := List.replicate n (Event.host (.sem_wait .OS_bin_sem_table_mut sem_id))
        if ret = 0 then
          some ⟨OS_SUCCESS, { s with OS_bin_sem_table := s.OS_bin_sem_table.set sem_id row1 }, tr⟩
        else
          let row2 := { row1 with current_value := row1.current_value + 1 }
          some ⟨OS_SEM_FAILURE, { s with OS_bin_sem_table := s.OS_bin_sem_table.set sem_id row2 }, tr⟩

/-- `OS_BinSemTimedWait` (Linux branch); `now` is the clock reading and `waits` are the
`(sem_stat, errno)` results of the successive `sem_timedwait` calls. The value is `none`
when the wait loop never ends. -/
def OS_BinSemTimedWait (s : OSState) (sem_id msecs : Nat) (now : timespec)
    (waits : List (Int × Int)) : Option Ret :=
  match s.OS_bin_sem_table[sem_id]? with
  | none => some ⟨OS_ERR_INVALID_ID, s, []⟩
  | some row =>
    if row.free then some ⟨OS_ERR_INVALID_ID, s, []⟩
    else
      let row1 := { row with current_value := row.current_value - 1 }
      let ts := OS_CompAbsDelayTime msecs now
      match restartLoop waits with
      | none => none
      | some ((sem_stat, errno), n) =>
        let tr := Event.host .clock_gettime ::
          List.replicate n (Event.host (.sem_timedwait .OS_bin_sem_table_mut sem_id ts))
        let row2 := { row1 with current_value := row1.current_value + 1 }
        if sem_stat = 0 then
          some ⟨OS_SUCCESS, { s with OS_bin_sem_table := s.OS_bin_sem_table.set sem_id row1 }, tr⟩
        else if sem_stat = -1 ∧ errno = ETIMEDOUT then
          some ⟨OS_SEM_TIMEOUT, { s with OS_bin_sem_table := s.OS_bin_sem_table.set sem_id row2 }, tr⟩
        else
          some ⟨OS_SEM_FAILURE, { s with OS_bin_sem_table := s.OS_bin_sem_table.set sem_id row2 }, tr⟩

/-- `OS_BinSemGetIdByName` -/
def OS_BinSemGetIdByName (cfg : Config) (s : OSState) (sem_id : Option Nat)
    (sem_name : Option CStr) : RetId :=
  match sem_id, sem_name with
  | some _, some name =>
    if name.length ≥ cfg.OS_MAX_API_NAME then ⟨OS_ERR_NAME_TOO_LONG, sem_id, s, []⟩
    else
      let i := s.OS_bin_sem_table.findIdx (fun r => !r.free && r.name == name)
      if i < s.OS_bin_sem_table.length then ⟨OS_SUCCESS, some i, s, []⟩
      else ⟨OS_ERR_NAME_NOT_FOUND, sem_id, s, []⟩
  | _, _ => ⟨OS_INVALID_POINTER, sem_id, s, []⟩

/-- `OS_bin_sem_prop_t`, with the members written by `OS_BinSemGetInfo`. -/
structure OS_bin_sem_prop_t where
  name : CStr
  creator : Nat
  value : Int
  deriving DecidableEq, Repr

/-- `OS_BinSemGetInfo` -/
def OS_BinSemGetInfo (s : OSState) (sem_id : Nat) (prop : Option OS_bin_sem_prop_t) :
    RetOut OS_bin_sem_prop_t :=
  match s.OS_bin_sem_table[sem_id]? with
  | none => ⟨OS_ERR_INVALID_ID, prop, s, []⟩
  | some row =>
    if row.free then ⟨OS_ERR_INVALID_ID, prop, s, []⟩
    else
      match prop with
      | none => ⟨OS_INVALID_POINTER, prop, s, []⟩
      | some _ =>
        ⟨OS_SUCCESS, some ⟨row.name, row.creator, row.current_value⟩, s, critical .OS_bin_sem_table_mut⟩

/-! ## Counting semaphore API -/

/-- `OS_CountSemCreate` (Linux branch; the unused `options` is left out); `Status` is the
value returned by `sem_init`. -/
def OS_CountSemCreate (cfg : Config) (s : OSState) (pthread_self : Nat)
    (sem_id : Option Nat) (sem_name : Option CStr) (sem_initial_value : Nat)
    (Status : Int) : RetId :=
  match sem_id, sem_name with
  | some _, some name =>
    if sem_initial_value > cfg.SEM_VALUE_MAX then ⟨OS_INVALID_SEM_VALUE, sem_id, s, []⟩
    else if name.length ≥ cfg.OS_MAX_API_NAME then ⟨OS_ERR_NAME_TOO_LONG, sem_id, s, []⟩
    else
      match reserve OS_count_sem_record_t.free OS_count_sem_record_t.name
          s.OS_count_sem_table name with
      | .noFreeIds => ⟨OS_ERR_NO_FREE_IDS, sem_id, s, critical .OS_count_sem_table_mut⟩
      | .nameTaken => ⟨OS_ERR_NAME_TAKEN, sem_id, s, critical .OS_count_sem_table_mut⟩
      | .reserved possible_semid row =>
        let row1 := { row with free := false }
        let tr1 := critical .OS_count_sem_table_mut
          ++ [.host (.sem_init .OS_count_sem_table_mut possible_semid sem_initial_value)]
        if Status = -1 then
          let row2 := { row1 with free := true }
          ⟨OS_SEM_FAILURE, sem_id,
            { s with OS_count_sem_table := s.OS_count_sem_table.set possible_semid row2 },
            tr1 ++ critical .OS_count_sem_table_mut⟩
        else
          let row2 := { row1 with free := false, name := name,
                                  creator := OS_FindCreator s pthread_self,
                                  max_value := cfg.SEM_VALUE_MAX,
                                  current_value := sem_initial_value }
          ⟨OS_SUCCESS, some possible_semid,
            { s with OS_count_sem_table := s.OS_count_sem_table.set possible_semid row2 },
            tr1 ++ critical .OS_count_sem_table_mut⟩
  | _, _ => ⟨OS_INVALID_POINTER, sem_id, s, []⟩

/-- `OS_CountSemDelete` (Linux branch); `ret` is the value returned by `sem_destroy`. -/
def OS_CountSemDelete (s : OSState) (sem_id : Nat) (ret : Int) : Ret :=
  match s.OS_count_sem_table[sem_id]? with
  | none => ⟨OS_ERR_INVALID_ID, s, []⟩
  | some row =>
    if row.free then ⟨OS_ERR_INVALID_ID, s, []⟩
    else if ret ≠ 0 then
      ⟨OS_SEM_FAILURE, s, [.host (.sem_destroy .OS_count_sem_table_mut sem_id)]⟩
    else
      let row1 := { row with free := true, name := [], creator := UNINITIALIZED,
                             max_value := 0, current_value := 0 }
      ⟨OS_SUCCESS, { s with OS_count_sem_table := s.OS_count_sem_table.set sem_id row1 },
        Event.host (.sem_destroy .OS_count_sem_table_mut sem_id) :: critical .OS_count_sem_table_mut⟩

/-- `OS_CountSemGive`; `ret` is the value returned by `sem_post`. -/
def OS_CountSemGive (s : OSState) (sem_id : Nat) (ret : Int) : Ret :=
  match s.OS_count_sem_table[sem_id]? with
  | none => ⟨OS_ERR_INVALID_ID, s, []⟩
  | some row =>
    if row.free then ⟨OS_ERR_INVALID_ID, s, []⟩
    else if row.current_value < row.max_value then
      if ret ≠ 0 then
        ⟨OS_SEM_FAILURE, s,
          [.lock .OS_count_sem_table_mut, .host (.sem_post .OS_count_sem_table_mut sem_id),
           .unlock .OS_count_sem_table_mut]⟩
      else
        let row1 := { row with current_value := row.current_value + 1 }
        ⟨OS_SUCCESS, { s with OS_count_sem_table := s.OS_count_sem_table.set sem_id row1 },
          [.lock .OS_count_sem_table_mut, .host (.sem_post .OS_count_sem_table_mut sem_id),
           .unlock .OS_count_sem_table_mut]⟩
    else ⟨OS_SUCCESS, s, critical .OS_count_sem_table_mut⟩

/-- `OS_CountSemTake`; `waits` are the `(ret, errno)` results of the successive
`sem_wait` calls. The value is `none` when the wait loop never ends. -/
def OS_CountSemTake (s : OSState) (sem_id : Nat) (waits : List (Int × Int)) : Option Ret :=
  match s.OS_count_sem_table[sem_id]? with
  | none => some ⟨OS_ERR_INVALID_ID, s, []⟩
  | some row =>
    if row.free then some ⟨OS_ERR_INVALID_ID, s, []⟩
    else
      let row1 := { row with current_value := row.current_value - 1 }
      match restartLoop waits with
      | none => none
      | some ((ret, _), n) =>
        let tr := Event.lock .OS_count_sem_table_mut ::
          (List.replicate n (Event.host (.sem_wait .OS_count_sem_table_mut sem_id))
            ++ [Event.unlock .OS_count_sem_table_mut])
        if ret = 0 then
          some ⟨OS_SUCCESS, { s with OS_count_sem_table := s.OS_count_sem_table.set sem_id row1 }, tr⟩
        else
          let row2 := { row1 with current_value := row1.current_value + 1 }
          some ⟨OS_SEM_FAILURE, { s with OS_count_sem_table := s.OS_count_sem_table.set sem_id row2 }, tr⟩

/-- `OS_CountSemTimedWait` (Linux branch); `now` is the clock reading and `waits` are the
`(sem_stat, errno)` results of the successive `sem_timedwait` calls. The value is `none`
when the wait loop never ends. -/
def OS_CountSemTimedWait (s : OSState) (sem_id msecs : Nat) (now : timespec)
    (waits : List (Int × Int)) : Option Ret :=
  match s.OS_count_sem_table[sem_id]? with
  | none => some ⟨OS_ERR_INVALID_ID, s, []⟩
  | some row =>
    if row.free then some ⟨OS_ERR_INVALID_ID, s, []⟩
    else
      let row1 := { row with current_value := row.current_value - 1 }
      let ts := OS_CompAbsDelayTime msecs now
      match restartLoop waits with
      | none => none
      | some ((sem_stat, errno), n) =>
        let tr := Event.lock .OS_count_sem_table_mut ::
          (Event.host .clock_gettime ::
            List.replicate n (Event.host (.sem_timedwait .OS_count_sem_table_mut sem_id ts))
            ++ [Event.unlock .OS_count_sem_table_mut])
        let row2 := { row1 with current_value := row1.current_value + 1 }
        if sem_stat = 0 then
          some ⟨OS_SUCCESS, { s with OS_count_sem_table := s.OS_count_sem_table.set sem_id row1 }, tr⟩
        else if sem_stat = -1 ∧ errno = ETIMEDOUT then
          some ⟨OS_SEM_TIMEOUT, { s with OS_count_sem_table := s.OS_count_sem_table.set sem_id row2 }, tr⟩
        else
          some ⟨OS_SEM_FAILURE, { s with OS_count_sem_table := s.OS_count_sem_table.set sem_id row2 }, tr⟩

/-- `OS_CountSemGetIdByName` -/
def OS_CountSemGetIdByName (cfg : Config) (s : OSState) (sem_id : Option Nat)
    (sem_name : Option CStr) : RetId :=
  match sem_id, sem_name with
  | some _, some name =>
    if name.length ≥ cfg.OS_MAX_API_NAME then ⟨OS_ERR_NAME_TOO_LONG, sem_id, s, []⟩
    else
      let i := s.OS_count_sem_table.findIdx (fun r => !r.free && r.name == name)
      if i < s.OS_count_sem_table.length then ⟨OS_SUCCESS, some i, s, []⟩
      else ⟨OS_ERR_NAME_NOT_FOUND, sem_id, s, []⟩
  | _, _ => ⟨OS_INVALID_POINTER, sem_id, s, []⟩

/-- `OS_count_sem_prop_t`, with the members written by `OS_CountSemGetInfo`. -/
structure OS_count_sem_prop_t where
  name : CStr
  creator : Nat
  value : Int
  deriving DecidableEq, Repr

/-- `OS_CountSemGetInfo` -/
def OS_CountSemGetInfo (s : OSState) (sem_id : Nat) (prop : Option OS_count_sem_prop_t) :
    RetOut OS_count_sem_prop_t :=
  match s.OS_count_sem_table[sem_id]? with
  | none => ⟨OS_ERR_INVALID_ID, prop, s, []⟩
  | some row =>
    if row.free then ⟨OS_ERR_INVALID_ID, prop, s, []⟩
    else
      match prop with
      | none => ⟨OS_INVALID_POINTER, prop, s, []⟩
      | some _ =>
        ⟨OS_SUCCESS, some ⟨row.name, row.creator, row.current_value⟩, s, critical .OS_count_sem_table_mut⟩

/-! ## Mutex API -/

/-- `OS_MutSemCreate` (Linux branch; the unused `options` is left out); `attr_init` and
`mutex_init` are the values returned by `pthread_mutexattr_init` and
`pthread_mutex_init`. -/
def OS_MutSemCreate (cfg : Config) (s : OSState) (pthread_self : Nat)
    (sem_id : Option Nat) (sem_name : Option CStr) (attr_init mutex_init : Int) : RetId :=
  match sem_id, sem_name with
  | some _, some name =>
    if name.length ≥ cfg.OS_MAX_API_NAME then ⟨OS_ERR_NAME_TOO_LONG, sem_id, s, []⟩
    else
      match reserve OS_mut_sem_record_t.free OS_mut_sem_record_t.name s.OS_mut_sem_table
          name with
      | .noFreeIds => ⟨OS_ERR_NO_FREE_IDS, sem_id, s, critical .OS_mut_sem_table_mut⟩
      | .nameTaken => ⟨OS_ERR_NAME_TAKEN, sem_id, s, critical .OS_mut_sem_table_mut⟩
      | .reserved possible_semid row =>
        let row1 := { row with free := false }
        let row1f := { row1 with free := true }
        let failed : OSState :=
          { s with OS_mut_sem_table := s.OS_mut_sem_table.set possible_semid row1f }
        let tr1 := critical .OS_mut_sem_table_mut ++ [.host .pthread_mutexattr_init]
        if attr_init ≠ 0 then
          ⟨OS_SEM_FAILURE, sem_id, failed, tr1 ++ critical .OS_mut_sem_table_mut⟩
        else if mutex_init ≠ 0 then
          ⟨OS_SEM_FAILURE, sem_id, failed,
            tr1 ++ [.host (.pthread_mutex_init possible_semid)]
              ++ critical .OS_mut_sem_table_mut⟩
        else
          let row2 := { row1 with name := name, free := false,
                                  creator := OS_FindCreator s pthread_self }
          ⟨OS_SUCCESS, some possible_semid,
            { s with OS_mut_sem_table := s.OS_mut_sem_table.set possible_semid row2 },
            tr1 ++ [.host (.pthread_mutex_init possible_semid)]
              ++ critical .OS_mut_sem_table_mut⟩
  | _, _ => ⟨OS_INVALID_POINTER, sem_id, s, []⟩

/-- `OS_MutSemDelete`; `status` is the value returned by `pthread_mutex_destroy`. -/
def OS_MutSemDelete (s : OSState) (sem_id : Nat) (status : Int) : Ret :=
  match s.OS_mut_sem_table[sem_id]? with
  | none => ⟨OS_ERR_INVALID_ID, s, []⟩
  | some row =>
    if row.free then ⟨OS_ERR_INVALID_ID, s, []⟩
    else if status ≠ 0 then ⟨OS_SEM_FAILURE, s, [.host (.pthread_mutex_destroy sem_id)]⟩
    else
      let row1 := { row with free := true, name := [], creator := UNINITIALIZED }
      ⟨OS_SUCCESS, { s with OS_mut_sem_table := s.OS_mut_sem_table.set sem_id row1 },
        Event.host (.pthread_mutex_destroy sem_id) :: critical .OS_mut_sem_table_mut⟩

/-- `OS_MutSemGive`; `unlock_ret` is the value returned by `pthread_mutex_unlock`. -/
def OS_MutSemGive (s : OSState) (sem_id : Nat) (unlock_ret : Int) : Ret :=
  match s.OS_mut_sem_table[sem_id]? with
  | none => ⟨OS_ERR_INVALID_ID, s, []⟩
  | some row =>
    if row.free then ⟨OS_ERR_INVALID_ID, s, []⟩
    else if row.nested_value > 0 then
      let row1 := { row with nested_value := row.nested_value - 1 }
      ⟨OS_SUCCESS, { s with OS_mut_sem_table := s.OS_mut_sem_table.set sem_id row1 }, []⟩
    else if unlock_ret ≠ 0 then
      ⟨OS_SEM_FAILURE, s, [.host (.pthread_mutex_unlock sem_id)]⟩
    else ⟨OS_SUCCESS, s, [.host (.pthread_mutex_unlock sem_id)]⟩

/-- `OS_MutSemTake`; `status` is the value returned by `pthread_mutex_lock`. -/
def OS_MutSemTake (s : OSState) (sem_id : Nat) (status : Int) : Ret :=
  match s.OS_mut_sem_table[sem_id]? with
  | none => ⟨OS_ERR_INVALID_ID, s, []⟩
  | some row =>
    if row.free then ⟨OS_ERR_INVALID_ID, s, []⟩
    else if status = EINVAL then ⟨OS_SEM_FAILURE, s, [.host (.pthread_mutex_lock sem_id)]⟩
    else if status = EDEADLK then
      let row1 := { row with nested_value := row.nested_value + 1 }
      ⟨OS_SUCCESS, { s with OS_mut_sem_table := s.OS_mut_sem_table.set sem_id row1 },
        [.host (.pthread_mutex_lock sem_id)]⟩
    else ⟨OS_SUCCESS, s, [.host (.pthread_mutex_lock sem_id)]⟩

/-- `OS_MutSemGetIdByName` -/
def OS_MutSemGetIdByName (cfg : Config) (s : OSState) (sem_id : Option Nat)
    (sem_name : Option CStr) : RetId :=
  match sem_id, sem_name with
  | some _, some name =>
    if name.length ≥ cfg.OS_MAX_API_NAME then ⟨OS_ERR_NAME_TOO_LONG, sem_id, s, []⟩
    else
      let i := s.OS_mut_sem_table.findIdx (fun r => !r.free && r.name == name)
      if i < s.OS_mut_sem_table.length then ⟨OS_SUCCESS, some i, s, []⟩
      else ⟨OS_ERR_NAME_NOT_FOUND, sem_id, s, []⟩
  | _, _ => ⟨OS_INVALID_POINTER, sem_id, s, []⟩

/-- `OS_mut_sem_prop_t`, with the members written by `OS_MutSemGetInfo`. -/
structure OS_mut_sem_prop_t where
  name : CStr
  creator : Nat
  deriving DecidableEq, Repr

/-- `OS_MutSemGetInfo` -/
def OS_MutSemGetInfo (s : OSState) (sem_id : Nat) (mut_prop : Option OS_mut_sem_prop_t) :
    RetOut OS_mut_sem_prop_t :=
  match s.OS_mut_sem_table[sem_id]? with
  | none => ⟨OS_ERR_INVALID_ID, mut_prop, s, []⟩
  | some row =>
    if row.free then ⟨OS_ERR_INVALID_ID, mut_prop, s, []⟩
    else
      match mut_prop with
      | none => ⟨OS_INVALID_POINTER, mut_prop, s, []⟩
      | some _ =>
        ⟨OS_SUCCESS, some ⟨row.name, row.creator⟩, s, critical .OS_mut_sem_table_mut⟩

/-! ## Registry view, validity of an id, sequences of Create and Delete calls -/

/-- The registry view of a table: the `free` flag and the name of each row, in index
order. -/
def view {α : Type} (fr : α → Bool) (nm : α → CStr) (t : List α) : List (Bool × CStr) :=
  t.map (fun r => (fr r, nm r))

/-- Registry view of `OS_task_table`. -/
def taskView (s : OSState) : List (Bool × CStr) :=
  view OS_task_record_t.free OS_task_record_t.name s.OS_task_table

/-- Registry view of `OS_queue_table`. -/
def queueView (s : OSState) : List (Bool × CStr) :=
  view OS_queue_record_t.free OS_queue_record_t.name s.OS_queue_table

/-- Registry view of `OS_bin_sem_table`. -/
def binSemView (s : OSState) : List (Bool × CStr) :=
  view OS_bin_sem_record_t.free OS_bin_sem_record_t.name s.OS_bin_sem_table

/-- Registry view of `OS_count_sem_table`. -/
def countSemView (s : OSState) : List (Bool × CStr) :=
  view OS_count_sem_record_t.free OS_count_sem_record_t.name s.OS_count_sem_table

/-- Registry view of `OS_mut_sem_table`. -/
def mutSemView (s : OSState) : List (Bool × CStr) :=
  view OS_mut_sem_record_t.free OS_mut_sem_record_t.name s.OS_mut_sem_table

/-- Id `i` is valid for a table with registry view `v`: `i < MAX` and
`table[i].free == FALSE`. -/
def validId (v : List (Bool × CStr)) (i : Nat) : Prop :=
  ∃ n, v[i]? = some (false, n)

/-- Some non-free row of the table carries the name `n`. -/
def nameLive (v : List (Bool × CStr)) (n : CStr) : Prop :=
  ∃ i : Nat, v[i]? = some (false, n)

/-- Every row of the table is in use. -/
def tableFull (v : List (Bool × CStr)) : Prop :=
  ∀ (i : Nat) (b : Bool) (n : CStr), v[i]? = some (b, n) → b = false

/-- No two distinct non-free rows of the table carry the same name. -/
def namesUnique (v : List (Bool × CStr)) : Prop :=
  ∀ (i j : Nat) (n : CStr), v[i]? = some (false, n) → v[j]? = some (false, n) → i = j

/-- Id `id` is not valid for the table `t`: `id >= MAX` or `t[id].free == TRUE`. -/
def invalidId {α : Type} (fr : α → Bool) (t : List α) (id : Nat) : Prop :=
  t.length ≤ id ∨ ∃ row, t[id]? = some row ∧ fr row = true

/-- Every id-taking task operation on `id` returns `OS_ERR_INVALID_ID`, changes nothing
and makes no guard or host call. -/
def TaskOpsRejected (s : OSState) (id : Nat) : Prop :=
  (∀ ret, OS_TaskDelete s id ret = ⟨OS_ERR_INVALID_ID, s, []⟩) ∧
  (∀ pmax pmin new_priority setschedparam,
    OS_TaskSetPriority s pmax pmin id new_priority setschedparam
      = some ⟨OS_ERR_INVALID_ID, s, []⟩) ∧
  (∀ task_prop, OS_TaskGetInfo s id task_prop = ⟨OS_ERR_INVALID_ID, task_prop, s, []⟩)

/-- No id-taking task operation on `id` returns `OS_ERR_INVALID_ID`. -/
def TaskOpsAccepted (s : OSState) (id : Nat) : Prop :=
  (∀ ret, (OS_TaskDelete s id ret).ret ≠ OS_ERR_INVALID_ID) ∧
  (∀ pmax pmin new_priority setschedparam r,
    OS_TaskSetPriority s pmax pmin id new_priority setschedparam = some r →
      r.ret ≠ OS_ERR_INVALID_ID) ∧
  (∀ task_prop, (OS_TaskGetInfo s id task_prop).ret ≠ OS_ERR_INVALID_ID)

/-- Every id-taking queue operation on `id` (`OS_QueueGetInfo` with a non-null pointer)
returns `OS_ERR_INVALID_ID`, changes nothing and makes no guard or host call. -/
def QueueOpsRejected (s : OSState) (id : Nat) : Prop :=
  (∀ cfg pid close_ret unlink_ret,
    OS_QueueDelete cfg s pid id close_ret unlink_ret = some ⟨OS_ERR_INVALID_ID, s, []⟩) ∧
  (∀ h data size size_copied timeout,
    OS_QueueGet s h id data size size_copied timeout
      = some ⟨OS_ERR_INVALID_ID, size_copied, s, []⟩) ∧
  (∀ data size getattr curmsgs maxmsg send,
    OS_QueuePut s id data size getattr curmsgs maxmsg send = ⟨OS_ERR_INVALID_ID, s, []⟩) ∧
  (∀ queue_prop,
    OS_QueueGetInfo s id (some queue_prop) = ⟨OS_ERR_INVALID_ID, some queue_prop, s, []⟩)

/-- No id-taking queue operation on `id` returns `OS_ERR_INVALID_ID`. -/
def QueueOpsAccepted (s : OSState) (id : Nat) : Prop :=
  (∀ cfg pid close_ret unlink_ret r,
    OS_QueueDelete cfg s pid id close_ret unlink_ret = some r → r.ret ≠ OS_ERR_INVALID_ID) ∧
  (∀ h data size size_copied timeout r,
    OS_QueueGet s h id data size size_copied timeout = some r → r.ret ≠ OS_ERR_INVALID_ID) ∧
  (∀ data size getattr curmsgs maxmsg send,
    (OS_QueuePut s id data size getattr curmsgs maxmsg send).ret ≠ OS_ERR_INVALID_ID) ∧
  (∀ queue_prop, (OS_QueueGetInfo s id queue_prop).ret ≠ OS_ERR_INVALID_ID)

/-- Every id-taking binary semaphore operation on `id` returns `OS_ERR_INVALID_ID`,
changes nothing and makes no guard or host call. -/
def BinSemOpsRejected (s : OSState) (id : Nat) : Prop :=
  (∀ ret, OS_BinSemDelete s id ret = ⟨OS_ERR_INVALID_ID, s, []⟩) ∧
  (∀ ret, OS_BinSemGive s id ret = ⟨OS_ERR_INVALID_ID, s, []⟩) ∧
  OS_BinSemFlush s id = ⟨OS_ERR_INVALID_ID, s, []⟩ ∧
  (∀ waits, OS_BinSemTake s id waits = some ⟨OS_ERR_INVALID_ID, s, []⟩) ∧
  (∀ msecs now waits,
    OS_BinSemTimedWait s id msecs now waits = some ⟨OS_ERR_INVALID_ID, s, []⟩) ∧
  (∀ prop, OS_BinSemGetInfo s id prop = ⟨OS_ERR_INVALID_ID, prop, s, []⟩)

/-- No id-taking binary semaphore operation on `id` returns `OS_ERR_INVALID_ID`. -/
def BinSemOpsAccepted (s : OSState) (id : Nat) : Prop :=
  (∀ ret, (OS_BinSemDelete s id ret).ret ≠ OS_ERR_INVALID_ID) ∧
  (∀ ret, (OS_BinSemGive s id ret).ret ≠ OS_ERR_INVALID_ID) ∧
  (OS_BinSemFlush s id).ret ≠ OS_ERR_INVALID_ID ∧
  (∀ waits r, OS_BinSemTake s id waits = some r → r.ret ≠ OS_ERR_INVALID_ID) ∧
  (∀ msecs now waits r,
    OS_BinSemTimedWait s id msecs now waits = some r → r.ret ≠ OS_ERR_INVALID_ID) ∧
  (∀ prop, (OS_BinSemGetInfo s id prop).ret ≠ OS_ERR_INVALID_ID)

/-- Every id-taking counting semaphore operation on `id` returns `OS_ERR_INVALID_ID`,
changes nothing and makes no guard or host call. -/
def CountSemOpsRejected (s : OSState) (id : Nat) : Prop :=
  (∀ ret, OS_CountSemDelete s id ret = ⟨OS_ERR_INVALID_ID, s, []⟩) ∧
  (∀ ret, OS_CountSemGive s id ret = ⟨OS_ERR_INVALID_ID, s, []⟩) ∧
  (∀ waits, OS_CountSemTake s id waits = some ⟨OS_ERR_INVALID_ID, s, []⟩) ∧
  (∀ msecs now waits,
    OS_CountSemTimedWait s id msecs now waits = some ⟨OS_ERR_INVALID_ID, s, []⟩) ∧
  (∀ prop, OS_CountSemGetInfo s id prop = ⟨OS_ERR_INVALID_ID, prop, s, []⟩)

/-- No id-taking counting semaphore operation on `id` returns `OS_ERR_INVALID_ID`. -/
def CountSemOpsAccepted (s : OSState) (id : Nat) : Prop :=
  (∀ ret, (OS_CountSemDelete s id ret).ret ≠ OS_ERR_INVALID_ID) ∧
  (∀ ret, (OS_CountSemGive s id ret).ret ≠ OS_ERR_INVALID_ID) ∧
  (∀ waits r, OS_CountSemTake s id waits = some r → r.ret ≠ OS_ERR_INVALID_ID) ∧
  (∀ msecs now waits r,
    OS_CountSemTimedWait s id msecs now waits = some r → r.ret ≠ OS_ERR_INVALID_ID) ∧
  (∀ prop, (OS_CountSemGetInfo s id prop).ret ≠ OS_ERR_INVALID_ID)

/-- Every id-taking mutex operation on `id` returns `OS_ERR_INVALID_ID`, changes nothing
and makes no guard or host call. -/
def MutSemOpsRejected (s : OSState) (id : Nat) : Prop :=
  (∀ status, OS_MutSemDelete s id status = ⟨OS_ERR_INVALID_ID, s, []⟩) ∧
  (∀ unlock_ret, OS_MutSemGive s id unlock_ret = ⟨OS_ERR_INVALID_ID, s, []⟩) ∧
  (∀ status, OS_MutSemTake s id status = ⟨OS_ERR_INVALID_ID, s, []⟩) ∧
  (∀ mut_prop, OS_MutSemGetInfo s id mut_prop = ⟨OS_ERR_INVALID_ID, mut_prop, s, []⟩)

/-- No id-taking mutex operation on `id` returns `OS_ERR_INVALID_ID`. -/
def MutSemOpsAccepted (s : OSState) (id : Nat) : Prop :=
  (∀ status, (OS_MutSemDelete s id status).ret ≠ OS_ERR_INVALID_ID) ∧
  (∀ unlock_ret, (OS_MutSemGive s id unlock_ret).ret ≠ OS_ERR_INVALID_ID) ∧
  (∀ status, (OS_MutSemTake s id status).ret ≠ OS_ERR_INVALID_ID) ∧
  (∀ mut_prop, (OS_MutSemGetInfo s id mut_prop).ret ≠ OS_ERR_INVALID_ID)

/-- Row `id` is in use with the name `n`, and no other non-free row carries `n`: the
object created with name `n` that lives at `id`. -/
def Owns (v : List (Bool × CStr)) (id : Nat) (n : CStr) : Prop :=
  v[id]? = some (false, n) ∧ ∀ j : Nat, v[j]? = some (false, n) → j = id

/-- The outcomes of a Create call made with non-null pointers, a name shorter than
`OS_MAX_API_NAME` and otherwise valid arguments, read on the registry view `v` of the
table before the call: `ptr` is the content of the id cell before the call, `ret` the
status, `out` the content of the id cell afterwards, `v1` the registry view afterwards
and `same` says that the state is the one before the call. -/
def CreateOutcome (v : List (Bool × CStr)) (name : CStr) (hostFails : Prop)
    (failCode : OS_Status) (ptr : Nat) (ret : OS_Status) (out : Option Nat)
    (v1 : List (Bool × CStr)) (same : Prop) : Prop :=
  (tableFull v ∧ ret = OS_ERR_NO_FREE_IDS ∧ out = some ptr ∧ same) ∨
  (¬ tableFull v ∧ nameLive v name ∧ ret = OS_ERR_NAME_TAKEN ∧ out = some ptr ∧ same) ∨
  (¬ tableFull v ∧ ¬ nameLive v name ∧ hostFails ∧ ret = failCode ∧ out = some ptr ∧
    v1 = v) ∨
  (¬ tableFull v ∧ ¬ nameLive v name ∧ ¬ hostFails ∧ ret = OS_SUCCESS ∧
    out = some (v.findIdx (fun x => x.1)) ∧ v.findIdx (fun x => x.1) < v.length ∧
    v1 = v.set (v.findIdx (fun x => x.1)) (false, name))

/-- The outcomes of a Delete call, read on the registry view `v` of the table before the
call: `ret` is the status, `v1` the registry view afterwards and `same` says that the
state is the one before the call. -/
def DeleteOutcome (v : List (Bool × CStr)) (id : Nat) (hostFails : Prop)
    (failCode : OS_Status) (ret : OS_Status) (v1 : List (Bool × CStr)) (same : Prop) : Prop :=
  (¬ validId v id ∧ ret = OS_ERR_INVALID_ID ∧ same) ∨
  (validId v id ∧ hostFails ∧ ret = failCode ∧ same) ∨
  (validId v id ∧ ¬ hostFails ∧ ret = OS_SUCCESS ∧ v1 = v.set id (true, []))

/-- The result of a GetIdByName call made with non-null pointers and a name shorter than
`OS_MAX_API_NAME`, read on the registry view `v`: the index of the first non-free row
that carries the name, or `OS_ERR_NAME_NOT_FOUND` with the id cell left as it was. -/
def lookupResult (v : List (Bool × CStr)) (name : CStr) (ptr : Nat) : OS_Status × Option Nat :=
  if v.findIdx (fun x => !x.1 && x.2 == name) < v.length then
    (OS_SUCCESS, some (v.findIdx (fun x => !x.1 && x.2 == name)))
  else (OS_ERR_NAME_NOT_FOUND, some ptr)

/-- The effect of a Create call with arbitrary arguments on the registry view of its
table: nothing unless it returns `OS_SUCCESS`, and then the first free row becomes a
non-free row with the given name, which no non-free row carried. -/
def CreateStep (v : List (Bool × CStr)) (name : Option CStr) (ret : OS_Status)
    (out : Option Nat) (v1 : List (Bool × CStr)) : Prop :=
  (ret ≠ OS_SUCCESS ∧ v1 = v) ∨
  (ret = OS_SUCCESS ∧ ∃ n, name = some n ∧ ¬ nameLive v n ∧
    out = some (v.findIdx (fun x => x.1)) ∧ v.findIdx (fun x => x.1) < v.length ∧
    v1 = v.set (v.findIdx (fun x => x.1)) (false, n))

/-- The effect of a Delete call on the registry view of its table: nothing unless it
returns `OS_SUCCESS`, and then the row of the (valid) id becomes free with an empty
name. -/
def DeleteStep (v : List (Bool × CStr)) (id : Nat) (ret : OS_Status)
    (v1 : List (Bool × CStr)) : Prop :=
  (ret ≠ OS_SUCCESS ∧ v1 = v) ∨ (ret = OS_SUCCESS ∧ validId v id ∧ v1 = v.set id (true, []))

/-- A Create or Delete call of one of the five object kinds, with its arguments and the
results the host gives to the POSIX calls it makes. -/
inductive Call where
  | TaskCreate (pthread_self : Nat) (h : TaskCreateHost) (task_id : Option Nat)
      (task_name : Option CStr) (function_pointer : Option Nat) (stack_size priority : Nat)
  | TaskDelete (task_id : Nat) (ret : Int)
  | QueueCreate (pthread_self : Nat) (process_id_string : CStr) (queueDesc : Int)
      (queue_id : Option Nat) (queue_name : Option CStr) (queue_depth data_size : Nat)
  | QueueDelete (process_id_string : CStr) (queue_id : Nat) (close_ret unlink_ret : Int)
  | BinSemCreate (pthread_self : Nat) (sem_id : Option Nat) (sem_name : Option CStr)
      (sem_initial_value : Nat) (Status : Int)
  | BinSemDelete (sem_id : Nat) (ret : Int)
  | CountSemCreate (pthread_self : Nat) (sem_id : Option Nat) (sem_name : Option CStr)
      (sem_initial_value : Nat) (Status : Int)
  | CountSemDelete (sem_id : Nat) (ret : Int)
  | MutSemCreate (pthread_self : Nat) (sem_id : Option Nat) (sem_name : Option CStr)
      (attr_init mutex_init : Int)
  | MutSemDelete (sem_id : Nat) (status : Int)
  deriving DecidableEq, Repr

/-- The state in which a call returns (`none` when it does not return). -/
def exec (cfg : Config) (s : OSState) : Call → Option OSState
  | .TaskCreate self h task_id task_name function_pointer stack_size priority =>
    (OS_TaskCreate cfg s self h task_id task_name function_pointer stack_size priority).map
      (fun r => r.st)
  | .TaskDelete task_id ret => some (OS_TaskDelete s task_id ret).st
  | .QueueCreate self pid queueDesc queue_id queue_name queue_depth data_size =>
    some (OS_QueueCreate cfg s self pid queueDesc queue_id queue_name queue_depth data_size).st
  | .QueueDelete pid queue_id close_ret unlink_ret =>
    (OS_QueueDelete cfg s pid queue_id close_ret unlink_ret).map (fun r => r.st)
  | .BinSemCreate self sem_id sem_name sem_initial_value Status =>
    some (OS_BinSemCreate cfg s self sem_id sem_name sem_initial_value Status).st
  | .BinSemDelete sem_id ret => some (OS_BinSemDelete s sem_id ret).st
  | .CountSemCreate self sem_id sem_name sem_initial_value Status =>
    some (OS_CountSemCreate cfg s self sem_id sem_name sem_initial_value Status).st
  | .CountSemDelete sem_id ret => some (OS_CountSemDelete s sem_id ret).st
  | .MutSemCreate self sem_id sem_name attr_init mutex_init =>
    some (OS_MutSemCreate cfg s self sem_id sem_name attr_init mutex_init).st
  | .MutSemDelete sem_id status => some (OS_MutSemDelete s sem_id status).st

/-- The state after a sequence of calls made one after the other. -/
def run (cfg : Config) : OSState → List Call → Option OSState
  | s, [] => some s
  | s, c :: cs =>
    match exec cfg s c with
    | none => none
    | some s1 => run cfg s1 cs

/-- States reachable from `OS_API_Init`, run on the all-zero tables of some array sizes,
by a sequence of Create and Delete calls with arbitrary host results. -/
inductive Reachable (cfg : Config) : OSState → Prop where
  | init (OS_MAX_TASKS OS_MAX_QUEUES OS_MAX_BIN_SEMAPHORES OS_MAX_COUNT_SEMAPHORES
      OS_MAX_MUTEXES : Nat) (h : InitHost) (ret : OS_Status) (s : OSState) :
      OS_API_Init (zeroState OS_MAX_TASKS OS_MAX_QUEUES OS_MAX_BIN_SEMAPHORES
        OS_MAX_COUNT_SEMAPHORES OS_MAX_MUTEXES) h = some (ret, s) → Reachable cfg s
  | step (s s1 : OSState) (c : Call) :
      Reachable cfg s → exec cfg s c = some s1 → Reachable cfg s1

/-! ## Time conversion -/

/-- `OS_Tick2Micros`: `(1/(CLOCKS_PER_SEC))*1000` in the integer arithmetic of C;
`CLOCKS_PER_SEC` is the constant of `<time.h>` (1000000 on a POSIX host). The value is
`none` when the division is by zero. The product is one of -1000, 0 and 1000, so the
conversion to `int32` changes nothing. -/
def OS_Tick2Micros (CLOCKS_PER_SEC : Int) : Option Int :=
  if CLOCKS_PER_SEC = 0 then none
  else some (Int.tdiv 1 CLOCKS_PER_SEC * 1000)

/-- `OS_Milli2Ticks`: the `uint32` expression
`((milli_seconds * 1000) + tick_duration_usec - 1) / tick_duration_usec`, returned as
`int32`. The value is `none` when the code divides by zero. -/
def OS_Milli2Ticks (CLOCKS_PER_SEC : Int) (milli_seconds : Nat) : Option Int :=
  match OS_Tick2Micros CLOCKS_PER_SEC with
  | none => none
  | some t =>
    let tick_duration_usec : Nat := (t % 4294967296).toNat
    if tick_duration_usec = 0 then none
    else
      let num_of_ticks : Nat :=
        ((milli_seconds * 1000 + tick_duration_usec - 1) % 4294967296) / tick_duration_usec
      some (if num_of_ticks < 2147483648 then (num_of_ticks : Int)
            else (num_of_ticks : Int) - 4294967296)

/-! ## Semaphore calls in sequence -/

/-- A Give, Flush, Take or TimedWait call on a semaphore, with the host results it
consumes. -/
inductive SemCall where
  | BinSemGive (sem_id : Nat) (ret : Int)
  | BinSemFlush (sem_id : Nat)
  | BinSemTake (sem_id : Nat) (waits : List (Int × Int))
  | BinSemTimedWait (sem_id msecs : Nat) (now : timespec) (waits : List (Int × Int))
  | CountSemGive (sem_id : Nat) (ret : Int)
  | CountSemTake (sem_id : Nat) (waits : List (Int × Int))
  | CountSemTimedWait (sem_id msecs : Nat) (now : timespec) (waits : List (Int × Int))
  deriving DecidableEq, Repr

/-- The state in which a semaphore call returns (`none` when it does not return). -/
def execSem (s : OSState) : SemCall → Option OSState
  | .BinSemGive sem_id ret => some (OS_BinSemGive s sem_id ret).st
  | .BinSemFlush sem_id => some (OS_BinSemFlush s sem_id).st
  | .BinSemTake sem_id waits => (OS_BinSemTake s sem_id waits).map (fun r => r.st)
  | .BinSemTimedWait sem_id msecs now waits =>
    (OS_BinSemTimedWait s sem_id msecs now waits).map (fun r => r.st)
  | .CountSemGive sem_id ret => some (OS_CountSemGive s sem_id ret).st
  | .CountSemTake sem_id waits => (OS_CountSemTake s sem_id waits).map (fun r => r.st)
  | .CountSemTimedWait sem_id msecs now waits =>
    (OS_CountSemTimedWait s sem_id msecs now waits).map (fun r => r.st)

/-- One call of either sort: a Create or Delete call, or a semaphore call. -/
def execAny (cfg : Config) (s : OSState) : Call ⊕ SemCall → Option OSState
  | .inl c => exec cfg s c
  | .inr c => execSem s c

/-- The state after a sequence of Create, Delete and semaphore calls. -/
def runAny (cfg : Config) : OSState → List (Call ⊕ SemCall) → Option OSState
  | s, [] => some s
  | s, c :: cs =>
    match execAny cfg s c with
    | none => none
    | some s1 => runAny cfg s1 cs

/-- Every live binary semaphore has `max_value = 1` and `current_value <= 1`. -/
def binSemBounded (s : OSState) : Prop :=
  ∀ (i : Nat) (row : OS_bin_sem_record_t), s.OS_bin_sem_table[i]? = some row →
    row.free = false → row.max_value = 1 ∧ row.current_value ≤ 1

/-- Every live counting semaphore has `current_value <= max_value = SEM_VALUE_MAX`. -/
def countSemBounded (cfg : Config) (s : OSState) : Prop :=
  ∀ (i : Nat) (row : OS_count_sem_record_t), s.OS_count_sem_table[i]? = some row →
    row.free = false →
      row.max_value = (cfg.SEM_VALUE_MAX : Int) ∧ row.current_value ≤ row.max_value

/-! ## Mutexes together with a host mutex -/

def EPERM : Int := 1
def EBUSY : Int := 16

/-- Host model (the host is not code of the repository): `pthread_mutex_lock` on an
error-checking mutex, the host on which `OS_MutSemTake` counts nested Takes. The state
of the mutex is its owner, `none` when it is unlocked. The call locks an unlocked mutex,
reports `EDEADLK` to the owner, and does not return (`none`) while another thread holds
the mutex. -/
def HostMutex.lock (owner : Option Nat) (pthread_self : Nat) : Option (Int × Option Nat) :=
  match owner with
  | none => some (0, some pthread_self)
  | some o => if o = pthread_self then some (EDEADLK, some o) else none

/-- Host model: `pthread_mutex_unlock` on an error-checking mutex unlocks it for the
owner and reports `EPERM` to everyone else. -/
def HostMutex.unlock (owner : Option Nat) (pthread_self : Nat) : Int × Option Nat :=
  if owner = some pthread_self then (0, none) else (EPERM, owner)

/-- Host model: `pthread_mutex_destroy` reports `EBUSY` for a locked mutex. -/
def HostMutex.destroy (owner : Option Nat) : Int :=
  if owner = none then 0 else EBUSY

/-- The tables together with the owner of the host mutex of each `OS_mut_sem_table`
row. -/
structure MutexWorld where
  os : OSState
  owner : Nat → Option Nat

/-- A mutex call made by the thread `pthread_self`. -/
inductive MutexCall where
  | create (pthread_self : Nat) (sem_id : Option Nat) (sem_name : Option CStr)
      (attr_init mutex_init : Int)
  | delete (sem_id : Nat)
  | take (pthread_self sem_id : Nat)
  | give (pthread_self sem_id : Nat)
  deriving DecidableEq, Repr

/-- One mutex call against the host model: the host answers `pthread_mutex_lock`,
`pthread_mutex_unlock` and `pthread_mutex_destroy` from the owner of the mutex, and the
owner changes only when the call is in the trace of the API function. A successful
`pthread_mutex_init` leaves the mutex unlocked. The value is `none` when the call does
not return. -/
def mutexStep (cfg : Config) (w : MutexWorld) : MutexCall → Option (OS_Status × MutexWorld)
  | .create pthread_self sem_id sem_name attr_init mutex_init =>
    let r := OS_MutSemCreate cfg w.os pthread_self sem_id sem_name attr_init mutex_init
    match r.ret, r.out with
    | OS_SUCCESS, some i => some (r.ret, ⟨r.st, Function.update w.owner i none⟩)
    | _, _ => some (r.ret, ⟨r.st, w.owner⟩)
  | .delete sem_id =>
    let r := OS_MutSemDelete w.os sem_id (HostMutex.destroy (w.owner sem_id))
    some (r.ret, ⟨r.st, w.owner⟩)
  | .take pthread_self sem_id =>
    if (OS_MutSemTake w.os sem_id 0).tr.isEmpty then
      some ((OS_MutSemTake w.os sem_id 0).ret, w)
    else
      match HostMutex.lock (w.owner sem_id) pthread_self with
      | none => none
      | some (status, o1) =>
        let r := OS_MutSemTake w.os sem_id status
        some (r.ret, ⟨r.st, Function.update w.owner sem_id o1⟩)
  | .give pthread_self sem_id =>
    let r := OS_MutSemGive w.os sem_id (HostMutex.unlock (w.owner sem_id) pthread_self).1
    if r.tr.isEmpty then some (r.ret, ⟨r.st, w.owner⟩)
    else
      some (r.ret,
        ⟨r.st, Function.update w.owner sem_id
          (HostMutex.unlock (w.owner sem_id) pthread_self).2⟩)

/-- The statuses returned by a sequence of mutex calls, and the world they leave. -/
def mutexRun (cfg : Config) : MutexWorld → List MutexCall →
    Option (List OS_Status × MutexWorld)
  | w, [] => some ([], w)
  | w, c :: cs =>
    match mutexStep cfg w c with
    | none => none
    | some (ret, w1) =>
      match mutexRun cfg w1 cs with
      | none => none
      | some (rets, w2) => some (ret :: rets, w2)

/-- The mutex table as `OS_API_Init` leaves it (every row free with `nested_value` 0),
with no host mutex held. -/
def mutexInit (w : MutexWorld) : Prop :=
  (∀ (i : Nat) (row : OS_mut_sem_record_t), w.os.OS_mut_sem_table[i]? = some row →
    row.free = true ∧ row.nested_value = 0) ∧
  ∀ i : Nat, w.owner i = none

/-- Worlds reached from an initial one by mutex calls. -/
inductive MutexReachable (cfg : Config) : MutexWorld → Prop where
  | init (w : MutexWorld) : mutexInit w → MutexReachable cfg w
  | step (w : MutexWorld) (c : MutexCall) (ret : OS_Status) (w1 : MutexWorld) :
      MutexReachable cfg w → mutexStep cfg w c = some (ret, w1) → MutexReachable cfg w1

/-- What holds of every mutex row and the owner of its host mutex in a reachable world:
`nested_value` is not negative, it is 0 when the mutex is not held, and the mutex of a
free row is not held. -/
def mutexRowInv (row : OS_mut_sem_record_t) (o : Option Nat) : Prop :=
  0 ≤ row.nested_value ∧ (o = none → row.nested_value = 0) ∧ (row.free = true → o = none)

/-- Every row of the mutex table satisfies `mutexRowInv` with the owner of its host
mutex. -/
def mutexInv (w : MutexWorld) : Prop :=
  ∀ (i : Nat) (row : OS_mut_sem_record_t), w.os.OS_mut_sem_table[i]? = some row →
    mutexRowInv row (w.owner i)

/-! ## Task registration and the delete hook -/

/-- `OS_TaskRegister` (Linux branch). `key` is the value `thread_key` holds for the
calling thread and `ret` the value returned by `pthread_setspecific`; the result is the
status and the value `thread_key` holds for the thread after the call. -/
def OS_TaskRegister (s : OSState) (pthread_self key : Nat) (ret : Int) : OS_Status × Nat :=
  let task_id := s.OS_task_table.findIdx (fun r => r.id == pthread_self)
  if task_id = s.OS_task_table.length then (OS_ERR_INVALID_ID, key)
  else if ret ≠ 0 then (OS_ERROR, key)
  else (OS_SUCCESS, task_id)

/-- `OS_TaskGetId`; `key` is the value of `pthread_getspecific(thread_key)`. The
`memcpy` of `sizeof(uint32)` bytes takes the low 32 bits (little-endian or 32-bit host),
of which `& 0xFFFF` keeps the low 16. -/
def OS_TaskGetId (key : Nat) : Nat :=
  (key % 4294967296) &&& 0xFFFF

/-- `OS_TaskInstallDeleteHandler`; `key` is the value of `thread_key` for the calling
thread. -/
def OS_TaskInstallDeleteHandler (s : OSState) (key : Nat) (function_pointer : Option Nat) :
    Ret :=
  let task_id := OS_TaskGetId key
  match s.OS_task_table[task_id]? with
  | none => ⟨OS_ERR_INVALID_ID, s, []⟩
  | some row =>
    if row.free then ⟨OS_ERR_INVALID_ID, s, critical .OS_task_table_mut⟩
    else
      let row1 := { row with delete_hook_pointer := function_pointer }
      ⟨OS_SUCCESS, { s with OS_task_table := s.OS_task_table.set task_id row1 },
        critical .OS_task_table_mut⟩

/-- `OS_TaskDelete` called on `task_id` once for each host result of `rets`, one call
after the other: the events of all the calls in order, and the final state. -/
def taskDeletes (s : OSState) (task_id : Nat) : List Int → List Event × OSState
  | [] => ([], s)
  | ret :: rets =>
    ((OS_TaskDelete s task_id ret).tr ++ (taskDeletes (OS_TaskDelete s task_id ret).st
        task_id rets).1,
      (taskDeletes (OS_TaskDelete s task_id ret).st task_id rets).2)

/-! ## Message queue API (socket implementation, `OSAL_SOCKET_QUEUE`) -/

/-- `O_NONBLOCK` of `<fcntl.h>` (Linux value). -/
def O_NONBLOCK : Int := 2048

/-- `EWOULDBLOCK` of `<errno.h>` (Linux value). -/
def EWOULDBLOCK : Int := 11

/-- Host results consumed by the socket implementation of `OS_QueueGet`: the
`(sizeCopied, errno)` results of the successive `recvfrom` calls, the flags returned by
`fcntl(F_GETFL)` and the `(rv, errno)` results of the successive `select` calls. -/
structure SocketGetHost where
  recvfrom : List (Int × Int)
  getfl : Int
  select : List (Int × Int)
  deriving DecidableEq, Repr

/-- `OS_QueueGet` of the socket implementation (`#ifdef OSAL_SOCKET_QUEUE`);
`size_copied` is the cell behind the out-pointer. The comparison of the `int sizeCopied`
with the `uint32 size` is made in `uint32`. The value is `none` when a loop never ends
or the host gives no result. -/
def OSAL_SOCKET_QUEUE.OS_QueueGet (s : OSState) (h : SocketGetHost) (queue_id : Nat)
    (data : Option (List Nat)) (size : Nat) (size_copied : Option Nat) (timeout : Int) :
    Option RetId :=
  match s.OS_queue_table[queue_id]? with
  | none => some ⟨OS_ERR_INVALID_ID, size_copied, s, []⟩
  | some row =>
    if row.free then some ⟨OS_ERR_INVALID_ID, size_copied, s, []⟩
    else
      match data, size_copied with
      | some _, some _ =>
        if timeout = OS_PEND then
          match restartLoop h.recvfrom with
          | none => none
          | some ((sizeCopied, _), n) =>
            let tr := Event.host (.fcntl_setfl queue_id 0) ::
              List.replicate n (Event.host (.recvfrom queue_id size))
            if sizeCopied % 4294967296 ≠ (size : Int) then
              some ⟨OS_QUEUE_INVALID_SIZE, some 0, s, tr⟩
            else some ⟨OS_SUCCESS, size_copied, s, tr⟩
        else if timeout = OS_CHECK then
          match h.recvfrom with
          | [] => none
          | (sizeCopied, errno) :: _ =>
            let flags := h.getfl
            let tr : List Event :=
              [.host (.fcntl_getfl queue_id),
               .host (.fcntl_setfl queue_id (Int.lor flags O_NONBLOCK)),
               .host (.recvfrom queue_id size),
               .host (.fcntl_setfl queue_id flags)]
            if sizeCopied = -1 ∧ errno = EWOULDBLOCK then
              some ⟨OS_QUEUE_EMPTY, some 0, s, tr⟩
            else if sizeCopied % 4294967296 ≠ (size : Int) then
              some ⟨OS_QUEUE_INVALID_SIZE, some 0, s, tr⟩
            else some ⟨OS_SUCCESS, size_copied, s, tr⟩
        else
          match restartLoop h.select with
          | none => none
          | some ((rv, _), n) =>
            let tr := List.replicate n (Event.host (.select queue_id))
            if rv > 0 then
              match h.recvfrom with
              | [] => none
              | (sizeCopied, _) :: _ =>
                if sizeCopied % 4294967296 = (size : Int) then
                  some ⟨OS_SUCCESS, some (sizeCopied % 4294967296).toNat, s,
                    tr ++ [.host (.recvfrom queue_id size)]⟩
                else
                  some ⟨OS_QUEUE_INVALID_SIZE, some 0, s,
                    tr ++ [.host (.recvfrom queue_id size)]⟩
            else if rv < 0 then some ⟨OS_ERROR, size_copied, s, tr⟩
            else some ⟨OS_QUEUE_TIMEOUT, size_copied, s, tr⟩
      | _, _ => some ⟨OS_INVALID_POINTER, size_copied, s, []⟩

/-! ## File system API (`src/os/rtems/osfilesys.c`) -/

/-- Modelled from the spec: the status codes of the file system API
(`osapi-os-filesys.h` is not among the sources); section 7 of the specification lists
them, and their names are the macro names used in `osfilesys.c`. -/
inductive OS_FS_Status where
  | OS_FS_SUCCESS
  | OS_FS_ERROR
  | OS_FS_ERR_INVALID_POINTER
  | OS_FS_ERR_PATH_TOO_LONG
  | OS_FS_ERR_NAME_TOO_LONG
  | OS_FS_UNIMPLEMENTED
  | OS_FS_ERR_DRIVE_NOT_CREATED
  | OS_FS_ERR_DEVICE_NOT_FREE
  | OS_FS_ERR_PATH_INVALID
  deriving DecidableEq, Repr

open OS_FS_Status

/-- `OS_TranslatePath`; the second component is the content of `LocalPath` after the
call. -/
def OS_TranslatePath (OS_MAX_PATH_LEN : Nat) (VirtualPath LocalPath : Option CStr) :
    OS_FS_Status × Option CStr :=
  match VirtualPath with
  | none => (OS_FS_ERR_INVALID_POINTER, LocalPath)
  | some path =>
    match LocalPath with
    | none => (OS_FS_ERR_INVALID_POINTER, LocalPath)
    | some _ =>
      if path.length ≥ OS_MAX_PATH_LEN then (OS_FS_ERR_PATH_TOO_LONG, LocalPath)
      else if path.head? ≠ some '/' then (OS_FS_ERR_PATH_INVALID, LocalPath)
      else (OS_FS_SUCCESS, some path)

/-- The host calls that may block the calling thread: thread creation, the waits on a
host semaphore, and the send and receive calls of a queue. -/
def HostCall.blocking : HostCall → Bool
  | .pthread_create _ => true
  | .sem_wait _ _ => true
  | .sem_timedwait _ _ _ => true
  | .mq_send _ _ => true
  | .mq_receive _ _ => true
  | .mq_timedreceive _ _ _ => true
  | .recvfrom _ _ => true
  | .select _ => true
  | _ => false

/-- Scan of a trace: `true` when some blocking host call is made while a guard lock is
held; `held` are the guards held at the start of the trace. -/
def blocksUnderLock : List Guard → List Event → Bool
  | _, [] => false
  | held, .lock g :: tr => blocksUnderLock (g :: held) tr
  | held, .unlock g :: tr => blocksUnderLock (held.erase g) tr
  | held, .host c :: tr => (!held.isEmpty && c.blocking) || blocksUnderLock held tr
  | held, .hook _ :: tr => blocksUnderLock held tr

/-! ## The guarded blocks of the Create functions as steps -/

/-- Where a call of a Create function stands: not started; between its first guarded
block and what follows it (with the locals `possible_id` and the name); in
`OS_TaskCreate` only, after the guarded block that stores `free = TRUE` when
`pthread_attr_init` has failed, the call going on since the `return` is commented out;
or returned (with the status and the content of the id cell). -/
inductive CreatePhase where
  | start
  | reserved (possible_id : Nat) (name : CStr)
  | released (possible_id : Nat) (name : CStr)
  | returned (ret : OS_Status) (id : Option Nat)
  deriving DecidableEq, Repr

/-- The row a call holds: the row it has reserved, or the row whose index it has
returned with `OS_SUCCESS`. -/
def CreatePhase.row : CreatePhase → Option Nat
  | .start => none
  | .reserved possible_id _ => some possible_id
  | .released _ _ => none
  | .returned ret id => if ret = OS_SUCCESS then id else none

/-- The first guarded block of a Create function on the table `t`: the search for a free
row, the name check and the store `free = FALSE` (`taken` is this store); `id` is the
content of the id cell, which the block does not change. -/
def reserveBlock {α : Type} (fr : α → Bool) (nm : α → CStr) (taken : α → α) (t : List α)
    (name : CStr) (id : Option Nat) : CreatePhase × List α :=
  match reserve fr nm t name with
  | .noFreeIds => (.returned OS_ERR_NO_FREE_IDS id, t)
  | .nameTaken => (.returned OS_ERR_NAME_TAKEN id, t)
  | .reserved possible_id row => (.reserved possible_id name, t.set possible_id (taken row))

/-- Arguments of one `OS_TaskCreate` call, with the calling thread and the host results. -/
structure TaskCreateArgs where
  pthread_self : Nat
  h : TaskCreateHost
  task_id : Option Nat
  task_name : Option CStr
  function_pointer : Option Nat
  stack_size : Nat
  priority : Nat
  deriving DecidableEq, Repr

/-- Arguments of one `OS_QueueCreate` call, with the calling thread, the process id
string and the value `queueDesc` returned by its `mq_open`. -/
structure QueueCreateArgs where
  pthread_self : Nat
  process_id_string : CStr
  queueDesc : Int
  queue_id : Option Nat
  queue_name : Option CStr
  queue_depth : Nat
  data_size : Nat
  deriving DecidableEq, Repr

/-- Arguments of one `OS_BinSemCreate` or `OS_CountSemCreate` call, with the calling thread
and the value `Status` returned by its `sem_init`. -/
structure SemCreateArgs where
  pthread_self : Nat
  sem_id : Option Nat
  sem_name : Option CStr
  sem_initial_value : Nat
  Status : Int
  deriving DecidableEq, Repr

/-- Arguments of one `OS_MutSemCreate` call, with the calling thread and the values
returned by `pthread_mutexattr_init` and `pthread_mutex_init`. -/
structure MutSemCreateArgs where
  pthread_self : Nat
  sem_id : Option Nat
  sem_name : Option CStr
  attr_init : Int
  mutex_init : Int
  deriving DecidableEq, Repr

/-- `OS_TaskCreate` from `pthread_attr_setstacksize` to its return: `pthread_create` stores
the handle in the row; when it, `pthread_detach` or `pthread_attr_destroy` fails, the
guarded block that stores `free = TRUE`; otherwise the store `free = FALSE` and the
guarded block that stores the name, the creator, the stack size and the priority. The
stores made outside the guard are to the row `possible_taskid` and are taken together
with the guarded block that follows them. The value is `none` when the row is outside
the table. -/
def OS_TaskCreate.finish (a : TaskCreateArgs) (s : OSState) (possible_taskid : Nat)
    (name : CStr) : Option (CreatePhase × OSState) :=
  match s.OS_task_table[possible_taskid]? with
  | none => none
  | some row =>
    let row3 := { row with id := a.h.handle }
    let row3f := { row3 with free := true }
    let failed : OSState :=
      { s with OS_task_table := s.OS_task_table.set possible_taskid row3f }
    if a.h.create ≠ 0 then some (.returned OS_ERROR a.task_id, failed)
    else if a.h.detach ≠ 0 then some (.returned OS_ERROR a.task_id, failed)
    else if a.h.attr_destroy ≠ 0 then some (.returned OS_ERROR a.task_id, failed)
    else
      let row4 := { row3 with free := false }
      let s4 : OSState := { s with OS_task_table := s.OS_task_table.set possible_taskid row4 }
      let row5 := { row4 with name := name, creator := OS_FindCreator s4 a.pthread_self,
                              stack_size := a.stack_size, priority := a.priority }
      some (.returned OS_SUCCESS (some possible_taskid),
        { s with OS_task_table := s.OS_task_table.set possible_taskid row5 })

/-- The next step of a call of `OS_TaskCreate`. From `start`: the parameter checks,
`OS_PriorityRemap` (the value is `none` when it divides by zero) and the first guarded
block. From `reserved`: when `pthread_attr_init` fails, the guarded block that stores
`free = TRUE`, after which the call goes on (`released`); otherwise the rest of the
function. From `released`: the rest of the function. A call that has returned makes no
step. -/
def OS_TaskCreate.step (cfg : Config) (a : TaskCreateArgs) (s : OSState) :
    CreatePhase → Option (CreatePhase × OSState)
  | .start =>
    match a.task_name, a.function_pointer, a.task_id with
    | some name, some _, some _ =>
      if name.length ≥ cfg.OS_MAX_API_NAME then some (.returned OS_ERR_NAME_TOO_LONG a.task_id, s)
      else if a.priority > MAX_PRIORITY then
        some (.returned OS_ERR_INVALID_PRIORITY a.task_id, s)
      else
        match OS_PriorityRemap a.h.pmax a.h.pmin a.priority with
        | none => none
        | some _ =>
          let b := reserveBlock OS_task_record_t.free OS_task_record_t.name
            (fun (row : OS_task_record_t) => { row with free := false }) s.OS_task_table
            name a.task_id
          some (b.1, { s with OS_task_table := b.2 })
    | _, _, _ => some (.returned OS_INVALID_POINTER a.task_id, s)
  | .reserved possible_taskid name =>
    if a.h.attr_init ≠ 0 then
      (writeRow (fun (row : OS_task_record_t) => { row with free := true }) possible_taskid
        s.OS_task_table).map
        (fun t => (.released possible_taskid name, { s with OS_task_table := t }))
    else OS_TaskCreate.finish a s possible_taskid name
  | .released possible_taskid name => OS_TaskCreate.finish a s possible_taskid name
  | .returned ret id => some (.returned ret id, s)

/-- The next step of a call of `OS_QueueCreate` (POSIX message queue implementation). From
`start`: the parameter checks and the first guarded block. From `reserved`: `mq_open`,
then the guarded block that stores `free = TRUE` when it failed, or the guarded block
that stores the descriptor, the name and the creator. The value is `none` when the row is
outside the table, and at `released`, where this function never is. -/
def OS_QueueCreate.step (cfg : Config) (a : QueueCreateArgs) (s : OSState) :
    CreatePhase → Option (CreatePhase × OSState)
  | .start =>
    match a.queue_id, a.queue_name with
    | some _, some name =>
      if name.length ≥ cfg.OS_MAX_API_NAME then
        some (.returned OS_ERR_NAME_TOO_LONG a.queue_id, s)
      else
        let b := reserveBlock OS_queue_record_t.free OS_queue_record_t.name
          (fun (row : OS_queue_record_t) => { row with free := false }) s.OS_queue_table
          name a.queue_id
        some (b.1, { s with OS_queue_table := b.2 })
    | _, _ => some (.returned OS_INVALID_POINTER a.queue_id, s)
  | .reserved possible_qid name =>
    if a.queueDesc = -1 then
      (writeRow (fun (row : OS_queue_record_t) => { row with free := true }) possible_qid
        s.OS_queue_table).map
        (fun t => (.returned OS_ERROR a.queue_id, { s with OS_queue_table := t }))
    else
      (writeRow (fun (row : OS_queue_record_t) =>
          { row with id := a.queueDesc, free := false, name := name,
                     creator := OS_FindCreator s a.pthread_self }) possible_qid
        s.OS_queue_table).map
        (fun t => (.returned OS_SUCCESS (some possible_qid), { s with OS_queue_table := t }))
  | .released _ _ => none
  | .returned ret id => some (.returned ret id, s)

/-- The next step of a call of `OS_BinSemCreate` (Linux branch). From `start`: the
parameter checks and the first guarded block. From `reserved`: `sem_init`, then the
guarded block that stores `free = TRUE` when it failed, or the guarded block that stores
the name, the creator and the two values. The value is `none` when the row is outside the
table, and at `released`, where this function never is. -/
def OS_BinSemCreate.step (cfg : Config) (a : SemCreateArgs) (s : OSState) :
    CreatePhase → Option (CreatePhase × OSState)
  | .start =>
    match a.sem_id, a.sem_name with
    | some _, some name =>
      if name.length ≥ cfg.OS_MAX_API_NAME then some (.returned OS_ERR_NAME_TOO_LONG a.sem_id, s)
      else
        let b := reserveBlock OS_bin_sem_record_t.free OS_bin_sem_record_t.name
          (fun (row : OS_bin_sem_record_t) => { row with free := false }) s.OS_bin_sem_table
          name a.sem_id
        some (b.1, { s with OS_bin_sem_table := b.2 })
    | _, _ => some (.returned OS_INVALID_POINTER a.sem_id, s)
  | .reserved possible_semid name =>
    let sem_initial_value := if a.sem_initial_value > 1 then 1 else a.sem_initial_value
    if a.Status = -1 then
      (writeRow (fun (row : OS_bin_sem_record_t) => { row with free := true }) possible_semid
        s.OS_bin_sem_table).map
        (fun t => (.returned OS_SEM_FAILURE a.sem_id, { s with OS_bin_sem_table := t }))
    else
      (writeRow (fun (row : OS_bin_sem_record_t) =>
          { row with name := name, creator := OS_FindCreator s a.pthread_self,
                     max_value := 1, current_value := sem_initial_value }) possible_semid
        s.OS_bin_sem_table).map
        (fun t => (.returned OS_SUCCESS (some possible_semid), { s with OS_bin_sem_table := t }))
  | .released _ _ => none
  | .returned ret id => some (.returned ret id, s)

/-- The next step of a call of `OS_CountSemCreate` (Linux branch). From `start`: the
parameter checks and the first guarded block. From `reserved`: `sem_init`, then the
guarded block that stores `free = TRUE` when it failed, or the guarded block that stores
`free = FALSE`, the name, the creator and the two values. The value is `none` when the
row is outside the table, and at `released`, where this function never is. -/
def OS_CountSemCreate.step (cfg : Config) (a : SemCreateArgs) (s : OSState) :
    CreatePhase → Option (CreatePhase × OSState)
  | .start =>
    match a.sem_id, a.sem_name with
    | some _, some name =>
      if a.sem_initial_value > cfg.SEM_VALUE_MAX then
        some (.returned OS_INVALID_SEM_VALUE a.sem_id, s)
      else if name.length ≥ cfg.OS_MAX_API_NAME then
        some (.returned OS_ERR_NAME_TOO_LONG a.sem_id, s)
      else
        let b := reserveBlock OS_count_sem_record_t.free OS_count_sem_record_t.name
          (fun (row : OS_count_sem_record_t) => { row with free := false })
          s.OS_count_sem_table name a.sem_id
        some (b.1, { s with OS_count_sem_table := b.2 })
    | _, _ => some (.returned OS_INVALID_POINTER a.sem_id, s)
  | .reserved possible_semid name =>
    if a.Status = -1 then
      (writeRow (fun (row : OS_count_sem_record_t) => { row with free := true })
        possible_semid s.OS_count_sem_table).map
        (fun t => (.returned OS_SEM_FAILURE a.sem_id, { s with OS_count_sem_table := t }))
    else
      (writeRow (fun (row : OS_count_sem_record_t) =>
          { row with free := false, name := name,
                     creator := OS_FindCreator s a.pthread_self,
                     max_value := cfg.SEM_VALUE_MAX,
                     current_value := a.sem_initial_value }) possible_semid
        s.OS_count_sem_table).map
        (fun t =>
          (.returned OS_SUCCESS (some possible_semid), { s with OS_count_sem_table := t }))
  | .released _ _ => none
  | .returned ret id => some (.returned ret id, s)

/-- The next step of a call of `OS_MutSemCreate` (Linux branch). From `start`: the
parameter checks and the first guarded block. From `reserved`: `pthread_mutexattr_init`
and `pthread_mutex_init`, then the guarded block that stores `free = TRUE` when one of
them failed, or the guarded block that stores the name, `free = FALSE` and the creator.
The value is `none` when the row is outside the table, and at `released`, where this
function never is. -/
def OS_MutSemCreate.step (cfg : Config) (a : MutSemCreateArgs) (s : OSState) :
    CreatePhase → Option (CreatePhase × OSState)
  | .start =>
    match a.sem_id, a.sem_name with
    | some _, some name =>
      if name.length ≥ cfg.OS_MAX_API_NAME then some (.returned OS_ERR_NAME_TOO_LONG a.sem_id, s)
      else
        let b := reserveBlock OS_mut_sem_record_t.free OS_mut_sem_record_t.name
          (fun (row : OS_mut_sem_record_t) => { row with free := false }) s.OS_mut_sem_table
          name a.sem_id
        some (b.1, { s with OS_mut_sem_table := b.2 })
    | _, _ => some (.returned OS_INVALID_POINTER a.sem_id, s)
  | .reserved possible_semid name =>
    if a.attr_init ≠ 0 then
      (writeRow (fun (row : OS_mut_sem_record_t) => { row with free := true }) possible_semid
        s.OS_mut_sem_table).map
        (fun t => (.returned OS_SEM_FAILURE a.sem_id, { s with OS_mut_sem_table := t }))
    else if a.mutex_init ≠ 0 then
      (writeRow (fun (row : OS_mut_sem_record_t) => { row with free := true }) possible_semid
        s.OS_mut_sem_table).map
        (fun t => (.returned OS_SEM_FAILURE a.sem_id, { s with OS_mut_sem_table := t }))
    else
      (writeRow (fun (row : OS_mut_sem_record_t) =>
          { row with name := name, free := false,
                     creator := OS_FindCreator s a.pthread_self }) possible_semid
        s.OS_mut_sem_table).map
        (fun t => (.returned OS_SUCCESS (some possible_semid), { s with OS_mut_sem_table := t }))
  | .released _ _ => none
  | .returned ret id => some (.returned ret id, s)

/-- The tables together with two calls of one Create function in progress. -/
structure TwoCreates where
  st : OSState
  a : CreatePhase
  b : CreatePhase
  deriving DecidableEq, Repr

/-- Two calls, with step functions `stepA` and `stepB`, whose steps are taken in the order
given by the schedule: `true` is a step of the first call, `false` a step of the second.
The value is `none` when a step has no value. -/
def interleave (stepA stepB : OSState → CreatePhase → Option (CreatePhase × OSState)) :
    List Bool → TwoCreates → Option TwoCreates
  | [], w => some w
  | true :: sched, w =>
    match stepA w.st w.a with
    | none => none
    | some (p, s1) => interleave stepA stepB sched ⟨s1, p, w.b⟩
  | false :: sched, w =>
    match stepB w.st w.b with
    | none => none
    | some (p, s1) => interleave stepA stepB sched ⟨s1, w.a, p⟩

/-- What holds of two calls of a Create function, with step functions `stepA` and
`stepB` and names `nameA` and `nameB`, started in the state `s` (`vw` is the registry view
of their table). Whatever the schedule is, every step has a value and at the end the two
calls do not hold the same row. If moreover one of the calls has made both its steps
before the other makes its first one, then with equal names they have not both returned
`OS_SUCCESS`, and, names being unique among the non-free rows of `s`, they are unique
once both calls have returned. -/
def TwoCreatesSafe (stepA stepB : OSState → CreatePhase → Option (CreatePhase × OSState))
    (nameA nameB : Option CStr) (vw : OSState → List (Bool × CStr)) (s : OSState) : Prop :=
  ∀ sched : List Bool, ∃ w : TwoCreates,
    interleave stepA stepB sched ⟨s, .start, .start⟩ = some w ∧
    (∀ i j : Nat, w.a.row = some i → w.b.row = some j → i ≠ j) ∧
    ((∃ rest : List Bool, sched = true :: true :: rest ∨ sched = false :: false :: rest) →
      (nameA = nameB →
        ¬ ∃ i j : Option Nat, w.a = .returned OS_SUCCESS i ∧ w.b = .returned OS_SUCCESS j) ∧
      (namesUnique (vw s) →
        (∃ (r : OS_Status) (o : Option Nat), w.a = .returned r o) →
        (∃ (r : OS_Status) (o : Option Nat), w.b = .returned r o) →
        namesUnique (vw w.st)))

/-- One of the five tables: how it is read from and stored in the state, and the `free`
member of its rows. -/
structure TableOf (α : Type) where
  get : OSState → List α
  set : OSState → List α → OSState
  free : α → Bool

def taskTable : TableOf OS_task_record_t :=
  ⟨fun s => s.OS_task_table, fun s t => { s with OS_task_table := t }, OS_task_record_t.free⟩

def queueTable : TableOf OS_queue_record_t :=
  ⟨fun s => s.OS_queue_table, fun s t => { s with OS_queue_table := t },
    OS_queue_record_t.free⟩

def binSemTable : TableOf OS_bin_sem_record_t :=
  ⟨fun s => s.OS_bin_sem_table, fun s t => { s with OS_bin_sem_table := t },
    OS_bin_sem_record_t.free⟩

def countSemTable : TableOf OS_count_sem_record_t :=
  ⟨fun s => s.OS_count_sem_table, fun s t => { s with OS_count_sem_table := t },
    OS_count_sem_record_t.free⟩

def mutSemTable : TableOf OS_mut_sem_record_t :=
  ⟨fun s => s.OS_mut_sem_table, fun s t => { s with OS_mut_sem_table := t },
    OS_mut_sem_record_t.free⟩

/-- The row held by a call in phase `p` is a non-free row of the table. -/
def rowHeld {α : Type} (T : TableOf α) (s : OSState) (p : CreatePhase) : Prop :=
  ∀ i : Nat, p.row = some i → ∃ row : α, (T.get s)[i]? = some row ∧ T.free row = false

/-- The phase is not `released`. -/
def CreatePhase.holding : CreatePhase → Prop
  | .released _ _ => False
  | _ => True

/-- A step from the phase `p` in the state `s` to the phase `p1` in the state `s1` that
treats the rows of the table `T` as a guarded block of a Create function does: the new
phase is not `released`, its row is a non-free row, and it is the row of the old phase
or a row that was free; and no row but these has changed. -/
def StepOk {α : Type} (T : TableOf α) (s : OSState) (p p1 : CreatePhase) (s1 : OSState) :
    Prop :=
  p1.holding ∧ rowHeld T s1 p1 ∧
  (∀ i : Nat, p1.row = some i →
    p.row = some i ∨ ∃ row : α, (T.get s)[i]? = some row ∧ T.free row = true) ∧
  (∀ j : Nat, p.row ≠ some j → p1.row ≠ some j → (T.get s1)[j]? = (T.get s)[j]?)

/-- From a phase other than `released` whose row is a non-free row of the table `T`, the
step function has a value and the step is one of a guarded block. -/
def KeepsRows {α : Type} (T : TableOf α)
    (step : OSState → CreatePhase → Option (CreatePhase × OSState)) : Prop :=
  ∀ (s : OSState) (p : CreatePhase), p.holding → rowHeld T s p →
    ∃ (p1 : CreatePhase) (s1 : OSState), step s p = some (p1, s1) ∧ StepOk T s p p1 s1

/-- The step function `step` is the function `seq` cut in two: a call that has returned
makes no step, the first step alone returns no `OS_SUCCESS` and leaves the state as it is
when it returns, and two steps from `start` give the status, the id cell and the state
that `seq` gives. -/
def StepsOf (step : OSState → CreatePhase → Option (CreatePhase × OSState))
    (seq : OSState → Option RetId) : Prop :=
  (∀ (s : OSState) (r : OS_Status) (o : Option Nat),
    step s (.returned r o) = some (.returned r o, s)) ∧
  (∀ (s s1 : OSState) (r : OS_Status) (o : Option Nat),
    step s .start = some (.returned r o, s1) → r ≠ OS_SUCCESS ∧ s1 = s) ∧
  (∀ s : OSState, (step s .start).bind (fun x => step x.2 x.1)
    = (seq s).map (fun R => (CreatePhase.returned R.ret R.out, R.st)))

/-! ## The post loop of `OS_BinSemFlush` -/

/-- The loop `for (i = current_value; i < 0; i++) sem_post(&(OS_bin_sem_table[sem_id].id));`
of `OS_BinSemFlush`, run from the value `i` of the loop variable: the host calls it
makes, in order. -/
def OS_BinSemFlush.loop (sem_id : Nat) (i : Int) : List Event :=
  if i < 0 then
    Event.host (.sem_post .OS_bin_sem_table_mut sem_id) :: OS_BinSemFlush.loop sem_id (i + 1)
  else []
termination_by (-i).toNat
decreasing_by omega

/-! ## Scanning loops on lists -/

theorem findIdx_map_comp {α β : Type} (f : α → β) (p : β → Bool) (l : List α) :
    (l.map f).findIdx p = l.findIdx (fun a => p (f a)) := by
  induction l with
  | nil => rfl
  | cons a l ih => simp [List.findIdx_cons, ih]

theorem findIdx_spec {β : Type} (p : β → Bool) (l : List β) (i : Nat) (x : β)
    (hx : l[i]? = some x) (hp : p x = true)
    (hmin : ∀ (j : Nat) (y : β), j < i → l[j]? = some y → p y = false) :
    l.findIdx p = i := by
  induction l generalizing i with
  | nil => simp at hx
  | cons a l ih =>
    cases i with
    | zero =>
      simp at hx
      subst hx
      simp [List.findIdx_cons, hp]
    | succ i =>
      have ha : p a = false := hmin 0 a (Nat.succ_pos i) (by simp)
      simp only [List.findIdx_cons, ha, cond_false]
      have := ih i (by simpa using hx)
        (fun j y hj hy => hmin (j + 1) y (Nat.succ_lt_succ hj) (by simpa using hy))
      omega

theorem findIdx_getElem?_some {β : Type} (p : β → Bool) (l : List β) (x : β)
    (hx : l[l.findIdx p]? = some x) : p x = true := by
  induction l with
  | nil => simp at hx
  | cons a l ih =>
    by_cases ha : p a = true
    · simp [List.findIdx_cons, ha] at hx
      subst hx
      exact ha
    · simp only [Bool.not_eq_true] at ha
      simp [List.findIdx_cons, ha] at hx
      exact ih hx

theorem findIdx_lt_false {β : Type} (p : β → Bool) (l : List β) (j : Nat) (y : β)
    (hj : j < l.findIdx p) (hy : l[j]? = some y) : p y = false := by
  induction l generalizing j with
  | nil => simp at hy
  | cons a l ih =>
    by_cases ha : p a = true
    · simp [List.findIdx_cons, ha] at hj
    · simp only [Bool.not_eq_true] at ha
      simp only [List.findIdx_cons, ha, cond_false] at hj
      cases j with
      | zero =>
        simp at hy
        subst hy
        exact ha
      | succ j => exact ih j (by omega) (by simpa using hy)

theorem findIdx_getElem?_none {β : Type} (p : β → Bool) (l : List β) :
    l[l.findIdx p]? = none ↔ ∀ (i : Nat) (y : β), l[i]? = some y → p y = false := by
  constructor
  · intro h i y hy
    have hlen : l.length ≤ l.findIdx p := List.getElem?_eq_none_iff.mp h
    have hi : i < l.length := by
      rcases List.getElem?_eq_some_iff.mp hy with ⟨hi, _⟩
      exact hi
    exact findIdx_lt_false p l i y (by omega) hy
  · intro h
    cases hx : l[l.findIdx p]? with
    | none => rfl
    | some x =>
      have h1 := findIdx_getElem?_some p l x hx
      have h2 := h _ x hx
      rw [h1] at h2
      exact absurd h2 (by simp)

theorem findIdx_lt_length_iff {β : Type} (p : β → Bool) (l : List β) :
    l.findIdx p < l.length ↔ ∃ (i : Nat) (y : β), l[i]? = some y ∧ p y = true := by
  constructor
  · intro h
    exact ⟨l.findIdx p, l[l.findIdx p], List.getElem?_eq_getElem h,
      findIdx_getElem?_some p l _ (List.getElem?_eq_getElem h)⟩
  · rintro ⟨i, y, hy, hp⟩
    by_contra hlt
    have hnone : l[l.findIdx p]? = none := List.getElem?_eq_none_iff.mpr (by omega)
    have := (findIdx_getElem?_none p l).mp hnone i y hy
    rw [hp] at this
    exact absurd this (by simp)

theorem any_iff_getElem? {β : Type} (p : β → Bool) (l : List β) :
    l.any p = true ↔ ∃ (i : Nat) (y : β), l[i]? = some y ∧ p y = true := by
  rw [List.any_eq_true]
  constructor
  · rintro ⟨y, hy, hp⟩
    rcases List.mem_iff_getElem?.mp hy with ⟨i, hi⟩
    exact ⟨i, y, hi, hp⟩
  · rintro ⟨i, y, hy, hp⟩
    exact ⟨y, List.getElem?_mem hy, hp⟩

theorem set_getElem?_self {β : Type} (l : List β) (i : Nat) (x : β) (hx : l[i]? = some x) :
    l.set i x = l := by
  apply List.ext_getElem?
  intro j
  by_cases hij : i = j
  · subst hij
    rw [List.getElem?_set_self (List.getElem?_eq_some_iff.mp hx).1, hx]
  · rw [List.getElem?_set_ne hij]

/-! ## Registry views -/

theorem view_length {α : Type} (fr : α → Bool) (nm : α → CStr) (t : List α) :
    (view fr nm t).length = t.length := by
  simp [view]

theorem view_getElem? {α : Type} (fr : α → Bool) (nm : α → CStr) (t : List α) (i : Nat) :
    (view fr nm t)[i]? = (t[i]?).map (fun r => (fr r, nm r)) := by
  simp [view]

theorem view_set {α : Type} (fr : α → Bool) (nm : α → CStr) (t : List α) (i : Nat) (r : α) :
    view fr nm (t.set i r) = (view fr nm t).set i (fr r, nm r) := by
  simp [view, List.map_set]

theorem view_firstFree {α : Type} (fr : α → Bool) (nm : α → CStr) (t : List α) :
    t.findIdx (fun r => fr r) = (view fr nm t).findIdx (fun x => x.1) := by
  simp [view, findIdx_map_comp]

theorem view_taken {α : Type} (fr : α → Bool) (nm : α → CStr) (t : List α) (name : CStr) :
    t.any (fun r => !fr r && name == nm r)
      = (view fr nm t).any (fun x => !x.1 && name == x.2) := by
  induction t with
  | nil => rfl
  | cons a t ih =>
    simp only [view, List.map_cons, List.any_cons] at ih ⊢
    rw [ih]

theorem view_lookup {α : Type} (fr : α → Bool) (nm : α → CStr) (t : List α) (name : CStr) :
    t.findIdx (fun r => !fr r && nm r == name)
      = (view fr nm t).findIdx (fun x => !x.1 && x.2 == name) := by
  simp [view, findIdx_map_comp]

theorem firstFree_none_iff (v : List (Bool × CStr)) :
    v[v.findIdx (fun x => x.1)]? = none ↔ tableFull v := by
  rw [findIdx_getElem?_none]
  constructor
  · intro h i b n hi
    simpa using h i (b, n) hi
  · intro h i y hy
    exact h i y.1 y.2 hy

theorem firstFree_some (v : List (Bool × CStr)) (b : Bool) (n : CStr)
    (h : v[v.findIdx (fun x => x.1)]? = some (b, n)) : b = true :=
  findIdx_getElem?_some (fun x => x.1) v (b, n) h

theorem firstFree_eq (v : List (Bool × CStr)) (i : Nat) (n : CStr)
    (hi : v[i]? = some (true, n))
    (hmin : ∀ (j : Nat) (b : Bool) (m : CStr), j < i → v[j]? = some (b, m) → b = false) :
    v.findIdx (fun x => x.1) = i :=
  findIdx_spec (fun x => x.1) v i (true, n) hi rfl (fun j y hj hy => hmin j y.1 y.2 hj hy)

theorem taken_iff (v : List (Bool × CStr)) (name : CStr) :
    v.any (fun x => !x.1 && name == x.2) = true ↔ nameLive v name := by
  rw [any_iff_getElem?]
  constructor
  · rintro ⟨i, ⟨b, n⟩, hy, hp⟩
    simp at hp
    rcases hp with ⟨hb, hn⟩
    subst hb; subst hn
    exact ⟨i, hy⟩
  · rintro ⟨i, hi⟩
    exact ⟨i, (false, name), hi, by simp⟩

theorem taken_false_iff (v : List (Bool × CStr)) (name : CStr) :
    v.any (fun x => !x.1 && name == x.2) = false ↔ ¬ nameLive v name := by
  rw [← taken_iff, Bool.not_eq_true]

theorem lookup_lt_iff (v : List (Bool × CStr)) (name : CStr) :
    v.findIdx (fun x => !x.1 && x.2 == name) < v.length ↔ nameLive v name := by
  rw [findIdx_lt_length_iff]
  constructor
  · rintro ⟨i, ⟨b, n⟩, hy, hp⟩
    simp at hp
    rcases hp with ⟨hb, hn⟩
    subst hb; subst hn
    exact ⟨i, hy⟩
  · rintro ⟨i, hi⟩
    exact ⟨i, (false, name), hi, by simp⟩

theorem lookup_eq (v : List (Bool × CStr)) (name : CStr) (i : Nat)
    (hi : v[i]? = some (false, name))
    (hmin : ∀ j : Nat, j < i → v[j]? ≠ some (false, name)) :
    v.findIdx (fun x => !x.1 && x.2 == name) = i := by
  apply findIdx_spec _ v i (false, name) hi (by simp)
  intro j y hj hy
  rcases y with ⟨b, n⟩
  by_contra hcon
  simp at hcon
  rcases hcon with ⟨hb, hn⟩
  subst hb; subst hn
  exact hmin j hj hy

/-- Looking a name up in a table to which a live row with that name was just added at a
row whose name was not live before. -/
theorem lookup_after_fill (v : List (Bool × CStr)) (name : CStr) (p : Nat)
    (hp : p < v.length) (hfresh : ¬ nameLive v name) :
    (v.set p (false, name)).findIdx (fun x => !x.1 && x.2 == name) = p := by
  apply lookup_eq
  · exact List.getElem?_set_self hp
  · intro j hj hcon
    rw [List.getElem?_set_ne (by omega)] at hcon
    exact hfresh ⟨j, hcon⟩

/-- The three outcomes of the reservation block, read on the registry view. -/
theorem reserve_cases {α : Type} (fr : α → Bool) (nm : α → CStr) (t : List α) (name : CStr) :
    (tableFull (view fr nm t) ∧ reserve fr nm t name = .noFreeIds) ∨
    (¬ tableFull (view fr nm t) ∧ nameLive (view fr nm t) name ∧
      reserve fr nm t name = .nameTaken) ∨
    (¬ tableFull (view fr nm t) ∧ ¬ nameLive (view fr nm t) name ∧
      ∃ row, reserve fr nm t name = .reserved ((view fr nm t).findIdx (fun x => x.1)) row ∧
        t[(view fr nm t).findIdx (fun x => x.1)]? = some row ∧ fr row = true) := by
  have hget := view_getElem? fr nm t (t.findIdx (fun r => fr r))
  unfold reserve
  simp only []
  rw [view_taken fr nm t name]
  cases hrow : t[t.findIdx (fun r => fr r)]? with
  | none =>
    left
    rw [hrow, view_firstFree fr nm t] at hget
    exact ⟨(firstFree_none_iff _).mp hget, rfl⟩
  | some row =>
    right
    rw [hrow] at hget
    simp only [Option.map_some'] at hget
    rw [view_firstFree fr nm t] at hget hrow
    have hnf : ¬ tableFull (view fr nm t) := by
      rw [← firstFree_none_iff, hget]; simp
    have hfree : fr row = true := firstFree_some _ _ _ hget
    by_cases htaken : (view fr nm t).any (fun x => !x.1 && name == x.2) = true
    · left
      simp only [htaken, if_true]
      exact ⟨hnf, (taken_iff _ _).mp htaken, trivial⟩
    · right
      have hnl : ¬ nameLive (view fr nm t) name := fun h => htaken ((taken_iff _ _).mpr h)
      simp only [htaken]
      refine ⟨hnf, hnl, row, ?_, hrow, hfree⟩
      rw [view_firstFree fr nm t]
      simp

/-- Validity of an id read on the table itself. -/
theorem validId_view_cases {α : Type} (fr : α → Bool) (nm : α → CStr) (t : List α) (i : Nat) :
    (¬ validId (view fr nm t) i ∧ (t[i]? = none ∨ ∃ row, t[i]? = some row ∧ fr row = true)) ∨
    (validId (view fr nm t) i ∧ ∃ row, t[i]? = some row ∧ fr row = false) := by
  unfold validId
  rw [view_getElem?]
  cases hrow : t[i]? with
  | none => left; simp
  | some row =>
    cases hfree : fr row with
    | true => left; simp [hfree]
    | false => right; simp [hfree]

theorem validId_set_ne (v : List (Bool × CStr)) (p i : Nat) (x : Bool × CStr) (h : p ≠ i) :
    validId (v.set p x) i ↔ validId v i := by
  simp [validId, List.getElem?_set_ne h]

theorem OS_BinSemCreate_outcome (cfg : Config) (s : OSState) (self v : Nat) (name : CStr)
    (init : Nat) (Status : Int) (hlen : name.length < cfg.OS_MAX_API_NAME) :
    CreateOutcome (binSemView s) name (Status = -1) OS_SEM_FAILURE v
      (OS_BinSemCreate cfg s self (some v) (some name) init Status).ret
      (OS_BinSemCreate cfg s self (some v) (some name) init Status).out
      (binSemView (OS_BinSemCreate cfg s self (some v) (some name) init Status).st)
      ((OS_BinSemCreate cfg s self (some v) (some name) init Status).st = s) := by
  have hlen' : ¬ (cfg.OS_MAX_API_NAME ≤ name.length) := by omega
  unfold CreateOutcome binSemView
  rcases reserve_cases OS_bin_sem_record_t.free OS_bin_sem_record_t.name s.OS_bin_sem_table name
    with ⟨hfull, hres⟩ | ⟨hnf, hlive, hres⟩ | ⟨hnf, hnl, row, hres, hrow, hfree⟩
  · left
    simp [OS_BinSemCreate, hlen', hres, hfull]
  · right; left
    simp [OS_BinSemCreate, hlen', hres, hnf, hlive]
  · right; right
    have hplt := (List.getElem?_eq_some_iff.mp hrow).1
    by_cases hst : Status = -1
    · left
      refine ⟨hnf, hnl, hst, ?_⟩
      simp only [OS_BinSemCreate, ge_iff_le, hlen', if_false, hres, hst, if_true, view_set,
        true_and]
      rw [← hfree]
      exact set_getElem?_self _ _ _ (by rw [view_getElem?, hrow]; rfl)
    · right
      refine ⟨hnf, hnl, hst, ?_⟩
      simp only [OS_BinSemCreate, ge_iff_le, hlen', if_false, hres, hst, view_set, true_and,
        view_length]
      exact ⟨hplt, trivial⟩

theorem OS_CountSemCreate_outcome (cfg : Config) (s : OSState) (self v : Nat) (name : CStr)
    (init : Nat) (Status : Int) (hlen : name.length < cfg.OS_MAX_API_NAME)
    (hinit : init ≤ cfg.SEM_VALUE_MAX) :
    CreateOutcome (countSemView s) name (Status = -1) OS_SEM_FAILURE v
      (OS_CountSemCreate cfg s self (some v) (some name) init Status).ret
      (OS_CountSemCreate cfg s self (some v) (some name) init Status).out
      (countSemView (OS_CountSemCreate cfg s self (some v) (some name) init Status).st)
      ((OS_CountSemCreate cfg s self (some v) (some name) init Status).st = s) := by
  have hlen' : ¬ (cfg.OS_MAX_API_NAME ≤ name.length) := by omega
  have hinit' : ¬ (init > cfg.SEM_VALUE_MAX) := by omega
  unfold CreateOutcome countSemView
  rcases reserve_cases OS_count_sem_record_t.free OS_count_sem_record_t.name
    s.OS_count_sem_table name
    with ⟨hfull, hres⟩ | ⟨hnf, hlive, hres⟩ | ⟨hnf, hnl, row, hres, hrow, hfree⟩
  · left
    simp [OS_CountSemCreate, hlen', hinit', hres, hfull]
  · right; left
    simp [OS_CountSemCreate, hlen', hinit', hres, hnf, hlive]
  · right; right
    have hplt := (List.getElem?_eq_some_iff.mp hrow).1
    by_cases hst : Status = -1
    · left
      refine ⟨hnf, hnl, hst, ?_⟩
      simp only [OS_CountSemCreate, ge_iff_le, hlen', hinit', if_false, hres, hst, if_true,
        view_set, true_and]
      rw [← hfree]
      exact set_getElem?_self _ _ _ (by rw [view_getElem?, hrow]; rfl)
    · right
      refine ⟨hnf, hnl, hst, ?_⟩
      simp only [OS_CountSemCreate, ge_iff_le, hlen', hinit', if_false, hres, hst, view_set,
        true_and, view_length]
      exact ⟨hplt, trivial⟩

theorem OS_QueueCreate_outcome (cfg : Config) (s : OSState) (self v : Nat) (name : CStr)
    (pid : CStr) (queueDesc : Int) (depth size : Nat)
    (hlen : name.length < cfg.OS_MAX_API_NAME) :
    CreateOutcome (queueView s) name (queueDesc = -1) OS_ERROR v
      (OS_QueueCreate cfg s self pid queueDesc (some v) (some name) depth size).ret
      (OS_QueueCreate cfg s self pid queueDesc (some v) (some name) depth size).out
      (queueView (OS_QueueCreate cfg s self pid queueDesc (some v) (some name) depth size).st)
      ((OS_QueueCreate cfg s self pid queueDesc (some v) (some name) depth size).st = s) := by
  have hlen' : ¬ (cfg.OS_MAX_API_NAME ≤ name.length) := by omega
  unfold CreateOutcome queueView
  rcases reserve_cases OS_queue_record_t.free OS_queue_record_t.name s.OS_queue_table name
    with ⟨hfull, hres⟩ | ⟨hnf, hlive, hres⟩ | ⟨hnf, hnl, row, hres, hrow, hfree⟩
  · left
    simp [OS_QueueCreate, hlen', hres, hfull]
  · right; left
    simp [OS_QueueCreate, hlen', hres, hnf, hlive]
  · right; right
    have hplt := (List.getElem?_eq_some_iff.mp hrow).1
    by_cases hst : queueDesc = -1
    · left
      refine ⟨hnf, hnl, hst, ?_⟩
      simp only [OS_QueueCreate, ge_iff_le, hlen', if_false, hres, hst, if_true, view_set,
        true_and]
      rw [← hfree]
      exact set_getElem?_self _ _ _ (by rw [view_getElem?, hrow]; rfl)
    · right
      refine ⟨hnf, hnl, hst, ?_⟩
      simp only [OS_QueueCreate, ge_iff_le, hlen', if_false, hres, hst, view_set, true_and,
        view_length]
      exact ⟨hplt, trivial⟩

theorem OS_MutSemCreate_outcome (cfg : Config) (s : OSState) (self v : Nat) (name : CStr)
    (attr_init mutex_init : Int) (hlen : name.length < cfg.OS_MAX_API_NAME) :
    CreateOutcome (mutSemView s) name (attr_init ≠ 0 ∨ mutex_init ≠ 0) OS_SEM_FAILURE v
      (OS_MutSemCreate cfg s self (some v) (some name) attr_init mutex_init).ret
      (OS_MutSemCreate cfg s self (some v) (some name) attr_init mutex_init).out
      (mutSemView (OS_MutSemCreate cfg s self (some v) (some name) attr_init mutex_init).st)
      ((OS_MutSemCreate cfg s self (some v) (some name) attr_init mutex_init).st = s) := by
  have hlen' : ¬ (cfg.OS_MAX_API_NAME ≤ name.length) := by omega
  unfold CreateOutcome mutSemView
  rcases reserve_cases OS_mut_sem_record_t.free OS_mut_sem_record_t.name s.OS_mut_sem_table name
    with ⟨hfull, hres⟩ | ⟨hnf, hlive, hres⟩ | ⟨hnf, hnl, row, hres, hrow, hfree⟩
  · left
    simp [OS_MutSemCreate, hlen', hres, hfull]
  · right; left
    simp [OS_MutSemCreate, hlen', hres, hnf, hlive]
  · right; right
    have hplt := (List.getElem?_eq_some_iff.mp hrow).1
    have hsame : (view OS_mut_sem_record_t.free OS_mut_sem_record_t.name s.OS_mut_sem_table).set
        ((view OS_mut_sem_record_t.free OS_mut_sem_record_t.name s.OS_mut_sem_table).findIdx
          (fun x => x.1)) (true, row.name)
        = view OS_mut_sem_record_t.free OS_mut_sem_record_t.name s.OS_mut_sem_table := by
      rw [← hfree]
      exact set_getElem?_self _ _ _ (by rw [view_getElem?, hrow]; rfl)
    by_cases ha : attr_init = 0
    · by_cases hm : mutex_init = 0
      · right
        refine ⟨hnf, hnl, by simp [ha, hm], ?_⟩
        simp only [OS_MutSemCreate, ge_iff_le, hlen', if_false, hres, ha, hm, view_set,
          true_and, view_length, ne_eq, not_true_eq_false]
        exact ⟨hplt, trivial⟩
      · left
        refine ⟨hnf, hnl, Or.inr hm, ?_⟩
        simp only [OS_MutSemCreate, ge_iff_le, hlen', if_false, hres, ha, hm, view_set,
          true_and, ne_eq, not_true_eq_false, not_false_eq_true, if_true]
        exact hsame
    · left
      refine ⟨hnf, hnl, Or.inl ha, ?_⟩
      simp only [OS_MutSemCreate, ge_iff_le, hlen', if_false, hres, ha, view_set,
        true_and, ne_eq, not_false_eq_true, if_true]
      exact hsame

theorem OS_TaskCreate_outcome (cfg : Config) (s : OSState) (self : Nat) (h : TaskCreateHost)
    (v : Nat) (name : CStr) (fp stack_size priority : Nat)
    (hlen : name.length < cfg.OS_MAX_API_NAME) (hprio : priority ≤ MAX_PRIORITY)
    (hremap : (OS_PriorityRemap h.pmax h.pmin priority).isSome = true) :
    ∃ r, OS_TaskCreate cfg s self h (some v) (some name) (some fp) stack_size priority = some r ∧
      CreateOutcome (taskView s) name (h.create ≠ 0 ∨ h.detach ≠ 0 ∨ h.attr_destroy ≠ 0)
        OS_ERROR v r.ret r.out (taskView r.st) (r.st = s) := by
  have hlen' : ¬ (cfg.OS_MAX_API_NAME ≤ name.length) := by omega
  have hprio' : ¬ (priority > MAX_PRIORITY) := by omega
  rcases Option.isSome_iff_exists.mp hremap with ⟨os_priority, hos⟩
  unfold CreateOutcome taskView
  rcases reserve_cases OS_task_record_t.free OS_task_record_t.name s.OS_task_table name
    with ⟨hfull, hres⟩ | ⟨hnf, hlive, hres⟩ | ⟨hnf, hnl, row, hres, hrow, hfree⟩
  · simp only [OS_TaskCreate, ge_iff_le, hlen', hprio', if_false, hos, hres]
    exact ⟨_, rfl, Or.inl ⟨hfull, rfl, rfl, rfl⟩⟩
  · simp only [OS_TaskCreate, ge_iff_le, hlen', hprio', if_false, hos, hres]
    exact ⟨_, rfl, Or.inr (Or.inl ⟨hnf, hlive, rfl, rfl, rfl⟩)⟩
  · have hplt := (List.getElem?_eq_some_iff.mp hrow).1
    have hsame : (view OS_task_record_t.free OS_task_record_t.name s.OS_task_table).set
        ((view OS_task_record_t.free OS_task_record_t.name s.OS_task_table).findIdx
          (fun x => x.1)) (true, row.name)
        = view OS_task_record_t.free OS_task_record_t.name s.OS_task_table := by
      rw [← hfree]
      exact set_getElem?_self _ _ _ (by rw [view_getElem?, hrow]; rfl)
    by_cases hc : h.create = 0
    · by_cases hd : h.detach = 0
      · by_cases ha : h.attr_destroy = 0
        · simp only [OS_TaskCreate, ge_iff_le, hlen', hprio', if_false, hos, hres,
            hc, hd, ha, ne_eq, not_true_eq_false]
          refine ⟨_, rfl, Or.inr (Or.inr (Or.inr ?_))⟩
          refine ⟨hnf, hnl, by simp, rfl, rfl, ?_, ?_⟩
          · rw [view_length]; exact hplt
          · simp only [view_set]
        · simp only [OS_TaskCreate, ge_iff_le, hlen', hprio', if_false, hos, hres,
            hc, hd, ha, ne_eq, not_true_eq_false, not_false_eq_true, if_true]
          refine ⟨_, rfl, Or.inr (Or.inr (Or.inl ?_))⟩
          refine ⟨hnf, hnl, Or.inr (Or.inr trivial), rfl, rfl, ?_⟩
          simp only [view_set]
          split <;> exact hsame
      · simp only [OS_TaskCreate, ge_iff_le, hlen', hprio', if_false, hos, hres,
          hc, hd, ne_eq, not_true_eq_false, not_false_eq_true, if_true]
        refine ⟨_, rfl, Or.inr (Or.inr (Or.inl ?_))⟩
        refine ⟨hnf, hnl, Or.inr (Or.inl trivial), rfl, rfl, ?_⟩
        simp only [view_set]
        split <;> exact hsame
    · simp only [OS_TaskCreate, ge_iff_le, hlen', hprio', if_false, hos, hres,
        hc, ne_eq, not_false_eq_true, if_true]
      refine ⟨_, rfl, Or.inr (Or.inr (Or.inl ?_))⟩
      refine ⟨hnf, hnl, Or.inl trivial, rfl, rfl, ?_⟩
      simp only [view_set]
      split <;> exact hsame

theorem OS_TaskDelete_outcome (s : OSState) (id : Nat) (ret : Int) :
    DeleteOutcome (taskView s) id (ret ≠ 0) OS_ERROR (OS_TaskDelete s id ret).ret
      (taskView (OS_TaskDelete s id ret).st) ((OS_TaskDelete s id ret).st = s) := by
  unfold DeleteOutcome taskView
  rcases validId_view_cases OS_task_record_t.free OS_task_record_t.name s.OS_task_table id
    with ⟨hinv, hnone | ⟨row, hrow, hfree⟩⟩ | ⟨hval, row, hrow, hfree⟩
  · left
    exact ⟨hinv, by simp [OS_TaskDelete, hnone], by simp [OS_TaskDelete, hnone]⟩
  · left
    exact ⟨hinv, by simp [OS_TaskDelete, hrow, hfree], by simp [OS_TaskDelete, hrow, hfree]⟩
  · by_cases hc : ret = 0
    · right; right
      refine ⟨hval, by simp [hc], by simp [OS_TaskDelete, hrow, hfree, hc], ?_⟩
      simp [OS_TaskDelete, hrow, hfree, hc, view_set, UNINITIALIZED]
    · right; left
      exact ⟨hval, hc, by simp [OS_TaskDelete, hrow, hfree, hc], by simp [OS_TaskDelete, hrow, hfree, hc]⟩

theorem OS_TaskGetIdByName_lookup (cfg : Config) (s : OSState) (v : Nat) (name : CStr)
    (hlen : name.length < cfg.OS_MAX_API_NAME) :
    ((OS_TaskGetIdByName cfg s (some v) (some name)).ret,
      (OS_TaskGetIdByName cfg s (some v) (some name)).out) = lookupResult (taskView s) name v := by
  have hlen' : ¬ (cfg.OS_MAX_API_NAME ≤ name.length) := by omega
  unfold lookupResult taskView OS_TaskGetIdByName
  simp only [ge_iff_le, hlen', if_false]
  rw [view_lookup OS_task_record_t.free OS_task_record_t.name s.OS_task_table name, view_length]
  split <;> rfl

theorem OS_QueueDelete_outcome (cfg : Config) (s : OSState) (id : Nat) (pid : CStr)
    (close_ret unlink_ret : Int) (r : Ret)
    (hr : OS_QueueDelete cfg s pid id close_ret unlink_ret = some r) :
    DeleteOutcome (queueView s) id (close_ret = -1 ∨ unlink_ret = -1) OS_ERROR r.ret
      (queueView r.st) (r.st = s) := by
  unfold DeleteOutcome queueView
  rcases validId_view_cases OS_queue_record_t.free OS_queue_record_t.name s.OS_queue_table id
    with ⟨hinv, hnone | ⟨row, hrow, hfree⟩⟩ | ⟨hval, row, hrow, hfree⟩
  · left
    simp only [OS_QueueDelete, hnone, Option.some.injEq] at hr
    subst hr
    exact ⟨hinv, rfl, rfl⟩
  · left
    simp only [OS_QueueDelete, hrow, hfree, if_true, Option.some.injEq] at hr
    subst hr
    exact ⟨hinv, rfl, rfl⟩
  · have hf : ¬ row.free = true := by simp [hfree]
    simp only [OS_QueueDelete, hrow, if_neg hf] at hr
    split at hr
    · cases hr
    · by_cases hc : close_ret = -1
      · right; left
        simp only [hc, if_true, Option.some.injEq] at hr
        subst hr
        exact ⟨hval, Or.inl hc, rfl, rfl⟩
      · by_cases hu : unlink_ret = -1
        · right; left
          simp only [hc, hu, if_true, if_false, Option.some.injEq] at hr
          subst hr
          exact ⟨hval, Or.inr hu, rfl, rfl⟩
        · right; right
          simp only [hc, hu, if_false, Option.some.injEq] at hr
          subst hr
          refine ⟨hval, by simp [hc, hu], rfl, ?_⟩
          simp [view_set]

/-- `OS_QueueDelete` returns when the host name `"/<pid>.<name>"` of the queue fits
`char name[OS_MAX_API_NAME+1]`, and for an id that is not valid. -/
theorem OS_QueueDelete_returns (cfg : Config) (s : OSState) (id : Nat) (pid : CStr)
    (close_ret unlink_ret : Int)
    (hfit : ∀ row : OS_queue_record_t, s.OS_queue_table[id]? = some row → row.free = false →
      (mqName pid row.name).length + 1 ≤ cfg.OS_MAX_API_NAME + 1) :
    ∃ r : Ret, OS_QueueDelete cfg s pid id close_ret unlink_ret = some r := by
  unfold OS_QueueDelete
  cases hrow : s.OS_queue_table[id]? with
  | none => exact ⟨_, rfl⟩
  | some row =>
    by_cases hf : row.free = true
    · simp only [hf, if_true]
      exact ⟨_, rfl⟩
    · have hfit2 := hfit row hrow (by simpa using hf)
      have hno : ¬ (cfg.OS_MAX_API_NAME + 1 < (mqName pid row.name).length + 1) := by omega
      simp only [if_neg hf, if_neg hno]
      split_ifs <;> exact ⟨_, rfl⟩

/-- For a valid queue whose host name `"/<pid>.<name>"` with its NUL is longer than
`name[OS_MAX_API_NAME+1]`, `OS_QueueDelete` has no result: the `strcat` calls store past
the end of the array. This is so for every queue whose name has
`OS_MAX_API_NAME - 1` characters, the longest that `OS_QueueCreate` accepts. -/
theorem OS_QueueDelete_overflows (cfg : Config) (s : OSState) (id : Nat) (pid : CStr)
    (close_ret unlink_ret : Int) (row : OS_queue_record_t)
    (hrow : s.OS_queue_table[id]? = some row) (hlive : row.free = false)
    (hlong : cfg.OS_MAX_API_NAME < pid.length + row.name.length + 2) :
    OS_QueueDelete cfg s pid id close_ret unlink_ret = none := by
  have hf : ¬ row.free = true := by simp [hlive]
  have hlen : (mqName pid row.name).length = pid.length + row.name.length + 2 := by
    simp [mqName]
    omega
  simp only [OS_QueueDelete, hrow, if_neg hf, hlen]
  rw [if_pos (by omega)]

theorem OS_QueueGetIdByName_lookup (cfg : Config) (s : OSState) (v : Nat) (name : CStr)
    (hlen : name.length < cfg.OS_MAX_API_NAME) :
    ((OS_QueueGetIdByName cfg s (some v) (some name)).ret,
      (OS_QueueGetIdByName cfg s (some v) (some name)).out) = lookupResult (queueView s) name v := by
  have hlen' : ¬ (cfg.OS_MAX_API_NAME ≤ name.length) := by omega
  unfold lookupResult queueView OS_QueueGetIdByName
  simp only [ge_iff_le, hlen', if_false]
  rw [view_lookup OS_queue_record_t.free OS_queue_record_t.name s.OS_queue_table name, view_length]
  split <;> rfl

theorem OS_BinSemDelete_outcome (s : OSState) (id : Nat) (ret : Int) :
    DeleteOutcome (binSemView s) id (ret ≠ 0) OS_SEM_FAILURE (OS_BinSemDelete s id ret).ret
      (binSemView (OS_BinSemDelete s id ret).st) ((OS_BinSemDelete s id ret).st = s) := by
  unfold DeleteOutcome binSemView
  rcases validId_view_cases OS_bin_sem_record_t.free OS_bin_sem_record_t.name s.OS_bin_sem_table id
    with ⟨hinv, hnone | ⟨row, hrow, hfree⟩⟩ | ⟨hval, row, hrow, hfree⟩
  · left
    exact ⟨hinv, by simp [OS_BinSemDelete, hnone], by simp [OS_BinSemDelete, hnone]⟩
  · left
    exact ⟨hinv, by simp [OS_BinSemDelete, hrow, hfree], by simp [OS_BinSemDelete, hrow, hfree]⟩
  · by_cases hc : ret = 0
    · right; right
      refine ⟨hval, by simp [hc], by simp [OS_BinSemDelete, hrow, hfree, hc], ?_⟩
      simp [OS_BinSemDelete, hrow, hfree, hc, view_set, UNINITIALIZED]
    · right; left
      exact ⟨hval, hc, by simp [OS_BinSemDelete, hrow, hfree, hc], by simp [OS_BinSemDelete, hrow, hfree, hc]⟩

theorem OS_BinSemGetIdByName_lookup (cfg : Config) (s : OSState) (v : Nat) (name : CStr)
    (hlen : name.length < cfg.OS_MAX_API_NAME) :
    ((OS_BinSemGetIdByName cfg s (some v) (some name)).ret,
      (OS_BinSemGetIdByName cfg s (some v) (some name)).out) = lookupResult (binSemView s) name v := by
  have hlen' : ¬ (cfg.OS_MAX_API_NAME ≤ name.length) := by omega
  unfold lookupResult binSemView OS_BinSemGetIdByName
  simp only [ge_iff_le, hlen', if_false]
  rw [view_lookup OS_bin_sem_record_t.free OS_bin_sem_record_t.name s.OS_bin_sem_table name, view_length]
  split <;> rfl

theorem OS_CountSemDelete_outcome (s : OSState) (id : Nat) (ret : Int) :
    DeleteOutcome (countSemView s) id (ret ≠ 0) OS_SEM_FAILURE (OS_CountSemDelete s id ret).ret
      (countSemView (OS_CountSemDelete s id ret).st) ((OS_CountSemDelete s id ret).st = s) := by
  unfold DeleteOutcome countSemView
  rcases validId_view_cases OS_count_sem_record_t.free OS_count_sem_record_t.name s.OS_count_sem_table id
    with ⟨hinv, hnone | ⟨row, hrow, hfree⟩⟩ | ⟨hval, row, hrow, hfree⟩
  · left
    exact ⟨hinv, by simp [OS_CountSemDelete, hnone], by simp [OS_CountSemDelete, hnone]⟩
  · left
    exact ⟨hinv, by simp [OS_CountSemDelete, hrow, hfree], by simp [OS_CountSemDelete, hrow, hfree]⟩
  · by_cases hc : ret = 0
    · right; right
      refine ⟨hval, by simp [hc], by simp [OS_CountSemDelete, hrow, hfree, hc], ?_⟩
      simp [OS_CountSemDelete, hrow, hfree, hc, view_set, UNINITIALIZED]
    · right; left
      exact ⟨hval, hc, by simp [OS_CountSemDelete, hrow, hfree, hc], by simp [OS_CountSemDelete, hrow, hfree, hc]⟩

theorem OS_CountSemGetIdByName_lookup (cfg : Config) (s : OSState) (v : Nat) (name : CStr)
    (hlen : name.length < cfg.OS_MAX_API_NAME) :
    ((OS_CountSemGetIdByName cfg s (some v) (some name)).ret,
      (OS_CountSemGetIdByName cfg s (some v) (some name)).out) = lookupResult (countSemView s) name v := by
  have hlen' : ¬ (cfg.OS_MAX_API_NAME ≤ name.length) := by omega
  unfold lookupResult countSemView OS_CountSemGetIdByName
  simp only [ge_iff_le, hlen', if_false]
  rw [view_lookup OS_count_sem_record_t.free OS_count_sem_record_t.name s.OS_count_sem_table name, view_length]
  split <;> rfl

theorem OS_MutSemDelete_outcome (s : OSState) (id : Nat) (status : Int) :
    DeleteOutcome (mutSemView s) id (status ≠ 0) OS_SEM_FAILURE (OS_MutSemDelete s id status).ret
      (mutSemView (OS_MutSemDelete s id status).st) ((OS_MutSemDelete s id status).st = s) := by
  unfold DeleteOutcome mutSemView
  rcases validId_view_cases OS_mut_sem_record_t.free OS_mut_sem_record_t.name s.OS_mut_sem_table id
    with ⟨hinv, hnone | ⟨row, hrow, hfree⟩⟩ | ⟨hval, row, hrow, hfree⟩
  · left
    exact ⟨hinv, by simp [OS_MutSemDelete, hnone], by simp [OS_MutSemDelete, hnone]⟩
  · left
    exact ⟨hinv, by simp [OS_MutSemDelete, hrow, hfree], by simp [OS_MutSemDelete, hrow, hfree]⟩
  · by_cases hc : status = 0
    · right; right
      refine ⟨hval, by simp [hc], by simp [OS_MutSemDelete, hrow, hfree, hc], ?_⟩
      simp [OS_MutSemDelete, hrow, hfree, hc, view_set]
    · right; left
      exact ⟨hval, hc, by simp [OS_MutSemDelete, hrow, hfree, hc], by simp [OS_MutSemDelete, hrow, hfree, hc]⟩

theorem OS_MutSemGetIdByName_lookup (cfg : Config) (s : OSState) (v : Nat) (name : CStr)
    (hlen : name.length < cfg.OS_MAX_API_NAME) :
    ((OS_MutSemGetIdByName cfg s (some v) (some name)).ret,
      (OS_MutSemGetIdByName cfg s (some v) (some name)).out) = lookupResult (mutSemView s) name v := by
  have hlen' : ¬ (cfg.OS_MAX_API_NAME ≤ name.length) := by omega
  unfold lookupResult mutSemView OS_MutSemGetIdByName
  simp only [ge_iff_le, hlen', if_false]
  rw [view_lookup OS_mut_sem_record_t.free OS_mut_sem_record_t.name s.OS_mut_sem_table name, view_length]
  split <;> rfl

theorem CreateOutcome.toCreateStep {v : List (Bool × CStr)} {name : CStr} {hostFails : Prop}
    {failCode : OS_Status} {ptr : Nat} {ret : OS_Status} {out : Option Nat}
    {v1 : List (Bool × CStr)} {same : Prop}
    (h : CreateOutcome v name hostFails failCode ptr ret out v1 same)
    (hfc : failCode ≠ OS_SUCCESS) (hs : same → v1 = v) :
    CreateStep v (some name) ret out v1 := by
  rcases h with ⟨_, hr, _, hsame⟩ | ⟨_, _, hr, _, hsame⟩ | ⟨_, _, _, hr, _, hv⟩ |
    ⟨_, hnl, _, hr, ho, hp, hv⟩
  · left; exact ⟨by rw [hr]; decide, hs hsame⟩
  · left; exact ⟨by rw [hr]; decide, hs hsame⟩
  · left; exact ⟨by rw [hr]; exact hfc, hv⟩
  · right; exact ⟨hr, name, rfl, hnl, ho, hp, hv⟩

theorem DeleteOutcome.toDeleteStep {v : List (Bool × CStr)} {id : Nat} {hostFails : Prop}
    {failCode : OS_Status} {ret : OS_Status} {v1 : List (Bool × CStr)} {same : Prop}
    (h : DeleteOutcome v id hostFails failCode ret v1 same)
    (hfc : failCode ≠ OS_SUCCESS) (hs : same → v1 = v) :
    DeleteStep v id ret v1 := by
  rcases h with ⟨_, hr, hsame⟩ | ⟨_, _, hr, hsame⟩ | ⟨hval, _, hr, hv⟩
  · left; exact ⟨by rw [hr]; decide, hs hsame⟩
  · left; exact ⟨by rw [hr]; exact hfc, hs hsame⟩
  · right; exact ⟨hr, hval, hv⟩

theorem OS_TaskDelete_step (s : OSState) (id : Nat) (ret : Int) :
    DeleteStep (taskView s) id (OS_TaskDelete s id ret).ret
      (taskView (OS_TaskDelete s id ret).st) :=
  (OS_TaskDelete_outcome s id ret).toDeleteStep (by decide) (fun h => by rw [h])

theorem OS_QueueDelete_step (cfg : Config) (s : OSState) (pid : CStr) (id : Nat)
    (close_ret unlink_ret : Int) (r : Ret)
    (hr : OS_QueueDelete cfg s pid id close_ret unlink_ret = some r) :
    DeleteStep (queueView s) id r.ret (queueView r.st) :=
  (OS_QueueDelete_outcome cfg s id pid close_ret unlink_ret r hr).toDeleteStep (by decide)
    (fun h => by rw [h])

theorem OS_BinSemDelete_step (s : OSState) (id : Nat) (ret : Int) :
    DeleteStep (binSemView s) id (OS_BinSemDelete s id ret).ret
      (binSemView (OS_BinSemDelete s id ret).st) :=
  (OS_BinSemDelete_outcome s id ret).toDeleteStep (by decide) (fun h => by rw [h])

theorem OS_CountSemDelete_step (s : OSState) (id : Nat) (ret : Int) :
    DeleteStep (countSemView s) id (OS_CountSemDelete s id ret).ret
      (countSemView (OS_CountSemDelete s id ret).st) :=
  (OS_CountSemDelete_outcome s id ret).toDeleteStep (by decide) (fun h => by rw [h])

theorem OS_MutSemDelete_step (s : OSState) (id : Nat) (status : Int) :
    DeleteStep (mutSemView s) id (OS_MutSemDelete s id status).ret
      (mutSemView (OS_MutSemDelete s id status).st) :=
  (OS_MutSemDelete_outcome s id status).toDeleteStep (by decide) (fun h => by rw [h])

theorem OS_BinSemCreate_step (cfg : Config) (s : OSState) (self : Nat) (sem_id : Option Nat)
    (sem_name : Option CStr) (init : Nat) (Status : Int) :
    CreateStep (binSemView s) sem_name
      (OS_BinSemCreate cfg s self sem_id sem_name init Status).ret
      (OS_BinSemCreate cfg s self sem_id sem_name init Status).out
      (binSemView (OS_BinSemCreate cfg s self sem_id sem_name init Status).st) := by
  cases sem_id with
  | none => left; cases sem_name <;> simp [OS_BinSemCreate]
  | some v =>
    cases sem_name with
    | none => left; simp [OS_BinSemCreate]
    | some name =>
      by_cases hlen : name.length < cfg.OS_MAX_API_NAME
      · exact (OS_BinSemCreate_outcome cfg s self v name init Status hlen).toCreateStep (by decide)
          (fun h => by rw [h])
      · left
        have : cfg.OS_MAX_API_NAME ≤ name.length := by omega
        simp [OS_BinSemCreate, this]

theorem OS_CountSemCreate_step (cfg : Config) (s : OSState) (self : Nat) (sem_id : Option Nat)
    (sem_name : Option CStr) (init : Nat) (Status : Int) :
    CreateStep (countSemView s) sem_name
      (OS_CountSemCreate cfg s self sem_id sem_name init Status).ret
      (OS_CountSemCreate cfg s self sem_id sem_name init Status).out
      (countSemView (OS_CountSemCreate cfg s self sem_id sem_name init Status).st) := by
  cases sem_id with
  | none => left; cases sem_name <;> simp [OS_CountSemCreate]
  | some v =>
    cases sem_name with
    | none => left; simp [OS_CountSemCreate]
    | some name =>
      by_cases hinit : init ≤ cfg.SEM_VALUE_MAX
      · by_cases hlen : name.length < cfg.OS_MAX_API_NAME
        · exact (OS_CountSemCreate_outcome cfg s self v name init Status hlen hinit).toCreateStep
            (by decide) (fun h => by rw [h])
        · left
          have : cfg.OS_MAX_API_NAME ≤ name.length := by omega
          have h2 : ¬ (init > cfg.SEM_VALUE_MAX) := by omega
          simp [OS_CountSemCreate, this, h2]
      · left
        have h2 : init > cfg.SEM_VALUE_MAX := by omega
        simp [OS_CountSemCreate, h2]

theorem OS_QueueCreate_step (cfg : Config) (s : OSState) (self : Nat) (pid : CStr)
    (queueDesc : Int) (queue_id : Option Nat) (queue_name : Option CStr) (depth size : Nat) :
    CreateStep (queueView s) queue_name
      (OS_QueueCreate cfg s self pid queueDesc queue_id queue_name depth size).ret
      (OS_QueueCreate cfg s self pid queueDesc queue_id queue_name depth size).out
      (queueView (OS_QueueCreate cfg s self pid queueDesc queue_id queue_name depth size).st) := by
  cases queue_id with
  | none => left; cases queue_name <;> simp [OS_QueueCreate]
  | some v =>
    cases queue_name with
    | none => left; simp [OS_QueueCreate]
    | some name =>
      by_cases hlen : name.length < cfg.OS_MAX_API_NAME
      · exact (OS_QueueCreate_outcome cfg s self v name pid queueDesc depth size hlen).toCreateStep
          (by decide) (fun h => by rw [h])
      · left
        have : cfg.OS_MAX_API_NAME ≤ name.length := by omega
        simp [OS_QueueCreate, this]

theorem OS_MutSemCreate_step (cfg : Config) (s : OSState) (self : Nat) (sem_id : Option Nat)
    (sem_name : Option CStr) (attr_init mutex_init : Int) :
    CreateStep (mutSemView s) sem_name
      (OS_MutSemCreate cfg s self sem_id sem_name attr_init mutex_init).ret
      (OS_MutSemCreate cfg s self sem_id sem_name attr_init mutex_init).out
      (mutSemView (OS_MutSemCreate cfg s self sem_id sem_name attr_init mutex_init).st) := by
  cases sem_id with
  | none => left; cases sem_name <;> simp [OS_MutSemCreate]
  | some v =>
    cases sem_name with
    | none => left; simp [OS_MutSemCreate]
    | some name =>
      by_cases hlen : name.length < cfg.OS_MAX_API_NAME
      · exact (OS_MutSemCreate_outcome cfg s self v name attr_init mutex_init hlen).toCreateStep
          (by decide) (fun h => by rw [h])
      · left
        have : cfg.OS_MAX_API_NAME ≤ name.length := by omega
        simp [OS_MutSemCreate, this]

theorem OS_TaskCreate_step (cfg : Config) (s : OSState) (self : Nat) (h : TaskCreateHost)
    (task_id : Option Nat) (task_name : Option CStr) (fp : Option Nat)
    (stack_size priority : Nat) (r : RetId)
    (hr : OS_TaskCreate cfg s self h task_id task_name fp stack_size priority = some r) :
    CreateStep (taskView s) task_name r.ret r.out (taskView r.st) := by
  cases task_name with
  | none =>
    left
    simp [OS_TaskCreate] at hr
    subst hr
    simp
  | some name =>
    cases fp with
    | none =>
      left
      simp [OS_TaskCreate] at hr
      subst hr
      simp
    | some f =>
      cases task_id with
      | none =>
        left
        simp [OS_TaskCreate] at hr
        subst hr
        simp
      | some v =>
        by_cases hlen : name.length < cfg.OS_MAX_API_NAME
        · by_cases hprio : priority ≤ MAX_PRIORITY
          · cases hos : OS_PriorityRemap h.pmax h.pmin priority with
            | none =>
              have h1 : ¬ (cfg.OS_MAX_API_NAME ≤ name.length) := by omega
              have h2 : ¬ (priority > MAX_PRIORITY) := by omega
              simp [OS_TaskCreate, h1, h2, hos] at hr
            | some os_priority =>
              rcases OS_TaskCreate_outcome cfg s self h v name f stack_size priority hlen hprio
                (by rw [hos]; rfl) with ⟨r', hr', hout⟩
              rw [hr] at hr'
              cases hr'
              exact hout.toCreateStep (by decide) (fun h => by rw [h])
          · left
            have h1 : ¬ (cfg.OS_MAX_API_NAME ≤ name.length) := by omega
            have h2 : priority > MAX_PRIORITY := by omega
            simp [OS_TaskCreate, h1, h2] at hr
            subst hr
            simp
        · left
          have : cfg.OS_MAX_API_NAME ≤ name.length := by omega
          simp [OS_TaskCreate, this] at hr
          subst hr
          simp

/-! ## Frame: a call touches the table of its own kind only -/

theorem OS_QueueCreate_frame (cfg : Config) (s : OSState) (self : Nat) (pid : CStr) (queueDesc : Int) (queue_id : Option Nat) (queue_name : Option CStr) (depth size : Nat) :
    (OS_QueueCreate cfg s self pid queueDesc queue_id queue_name depth size).st.OS_task_table = s.OS_task_table ∧
    (OS_QueueCreate cfg s self pid queueDesc queue_id queue_name depth size).st.OS_bin_sem_table = s.OS_bin_sem_table ∧
    (OS_QueueCreate cfg s self pid queueDesc queue_id queue_name depth size).st.OS_count_sem_table = s.OS_count_sem_table ∧
    (OS_QueueCreate cfg s self pid queueDesc queue_id queue_name depth size).st.OS_mut_sem_table = s.OS_mut_sem_table := by
  unfold OS_QueueCreate
  repeat' split
  all_goals simp

theorem OS_QueueDelete_frame (cfg : Config) (s : OSState) (pid : CStr) (id : Nat)
    (close_ret unlink_ret : Int) (r : Ret)
    (hr : OS_QueueDelete cfg s pid id close_ret unlink_ret = some r) :
    r.st.OS_task_table = s.OS_task_table ∧
    r.st.OS_bin_sem_table = s.OS_bin_sem_table ∧
    r.st.OS_count_sem_table = s.OS_count_sem_table ∧
    r.st.OS_mut_sem_table = s.OS_mut_sem_table := by
  unfold OS_QueueDelete at hr
  cases hrow : s.OS_queue_table[id]? with
  | none =>
    simp only [hrow, Option.some.injEq] at hr
    subst hr
    exact ⟨rfl, rfl, rfl, rfl⟩
  | some row =>
    simp only [hrow] at hr
    by_cases hf : row.free = true
    · simp only [hf, if_true, Option.some.injEq] at hr
      subst hr
      exact ⟨rfl, rfl, rfl, rfl⟩
    · simp only [if_neg hf] at hr
      split_ifs at hr <;>
        (simp only [Option.some.injEq] at hr; subst hr; exact ⟨rfl, rfl, rfl, rfl⟩)

theorem OS_BinSemCreate_frame (cfg : Config) (s : OSState) (self : Nat) (sem_id : Option Nat) (sem_name : Option CStr) (init : Nat) (Status : Int) :
    (OS_BinSemCreate cfg s self sem_id sem_name init Status).st.OS_task_table = s.OS_task_table ∧
    (OS_BinSemCreate cfg s self sem_id sem_name init Status).st.OS_queue_table = s.OS_queue_table ∧
    (OS_BinSemCreate cfg s self sem_id sem_name init Status).st.OS_count_sem_table = s.OS_count_sem_table ∧
    (OS_BinSemCreate cfg s self sem_id sem_name init Status).st.OS_mut_sem_table = s.OS_mut_sem_table := by
  unfold OS_BinSemCreate
  repeat' split
  all_goals simp

theorem OS_BinSemDelete_frame (s : OSState) (id : Nat) (ret : Int) :
    (OS_BinSemDelete s id ret).st.OS_task_table = s.OS_task_table ∧
    (OS_BinSemDelete s id ret).st.OS_queue_table = s.OS_queue_table ∧
    (OS_BinSemDelete s id ret).st.OS_count_sem_table = s.OS_count_sem_table ∧
    (OS_BinSemDelete s id ret).st.OS_mut_sem_table = s.OS_mut_sem_table := by
  unfold OS_BinSemDelete
  repeat' split
  all_goals simp

theorem OS_CountSemCreate_frame (cfg : Config) (s : OSState) (self : Nat) (sem_id : Option Nat) (sem_name : Option CStr) (init : Nat) (Status : Int) :
    (OS_CountSemCreate cfg s self sem_id sem_name init Status).st.OS_task_table = s.OS_task_table ∧
    (OS_CountSemCreate cfg s self sem_id sem_name init Status).st.OS_queue_table = s.OS_queue_table ∧
    (OS_CountSemCreate cfg s self sem_id sem_name init Status).st.OS_bin_sem_table = s.OS_bin_sem_table ∧
    (OS_CountSemCreate cfg s self sem_id sem_name init Status).st.OS_mut_sem_table = s.OS_mut_sem_table := by
  unfold OS_CountSemCreate
  repeat' split
  all_goals simp

theorem OS_CountSemDelete_frame (s : OSState) (id : Nat) (ret : Int) :
    (OS_CountSemDelete s id ret).st.OS_task_table = s.OS_task_table ∧
    (OS_CountSemDelete s id ret).st.OS_queue_table = s.OS_queue_table ∧
    (OS_CountSemDelete s id ret).st.OS_bin_sem_table = s.OS_bin_sem_table ∧
    (OS_CountSemDelete s id ret).st.OS_mut_sem_table = s.OS_mut_sem_table := by
  unfold OS_CountSemDelete
  repeat' split
  all_goals simp

theorem OS_MutSemCreate_frame (cfg : Config) (s : OSState) (self : Nat) (sem_id : Option Nat) (sem_name : Option CStr) (attr_init mutex_init : Int) :
    (OS_MutSemCreate cfg s self sem_id sem_name attr_init mutex_init).st.OS_task_table = s.OS_task_table ∧
    (OS_MutSemCreate cfg s self sem_id sem_name attr_init mutex_init).st.OS_queue_table = s.OS_queue_table ∧
    (OS_MutSemCreate cfg s self sem_id sem_name attr_init mutex_init).st.OS_bin_sem_table = s.OS_bin_sem_table ∧
    (OS_MutSemCreate cfg s self sem_id sem_name attr_init mutex_init).st.OS_count_sem_table = s.OS_count_sem_table := by
  unfold OS_MutSemCreate
  repeat' split
  all_goals simp

theorem OS_MutSemDelete_frame (s : OSState) (id : Nat) (status : Int) :
    (OS_MutSemDelete s id status).st.OS_task_table = s.OS_task_table ∧
    (OS_MutSemDelete s id status).st.OS_queue_table = s.OS_queue_table ∧
    (OS_MutSemDelete s id status).st.OS_bin_sem_table = s.OS_bin_sem_table ∧
    (OS_MutSemDelete s id status).st.OS_count_sem_table = s.OS_count_sem_table := by
  unfold OS_MutSemDelete
  repeat' split
  all_goals simp

theorem OS_TaskDelete_frame (s : OSState) (id : Nat) (ret : Int) :
    (OS_TaskDelete s id ret).st.OS_queue_table = s.OS_queue_table ∧
    (OS_TaskDelete s id ret).st.OS_bin_sem_table = s.OS_bin_sem_table ∧
    (OS_TaskDelete s id ret).st.OS_count_sem_table = s.OS_count_sem_table ∧
    (OS_TaskDelete s id ret).st.OS_mut_sem_table = s.OS_mut_sem_table := by
  unfold OS_TaskDelete
  repeat' split
  all_goals simp

theorem OS_TaskCreate_frame (cfg : Config) (s : OSState) (self : Nat) (h : TaskCreateHost)
    (task_id : Option Nat) (task_name : Option CStr) (fp : Option Nat)
    (stack_size priority : Nat) (r : RetId)
    (hr : OS_TaskCreate cfg s self h task_id task_name fp stack_size priority = some r) :
    r.st.OS_queue_table = s.OS_queue_table ∧ r.st.OS_bin_sem_table = s.OS_bin_sem_table ∧ r.st.OS_count_sem_table = s.OS_count_sem_table ∧ r.st.OS_mut_sem_table = s.OS_mut_sem_table := by
  unfold OS_TaskCreate at hr
  repeat' split at hr
  all_goals (first | (simp at hr; done) | (simp at hr; subst hr; simp))

/-! ## Id validation of the id-taking operations -/

theorem invalidId_iff_not_validId {α : Type} (fr : α → Bool) (nm : α → CStr) (t : List α)
    (id : Nat) : invalidId fr t id ↔ ¬ validId (view fr nm t) id := by
  unfold invalidId
  rcases validId_view_cases fr nm t id with ⟨hinv, hnone | ⟨row, hrow, hfree⟩⟩ |
    ⟨hval, row, hrow, hfree⟩
  · simp [hinv, List.getElem?_eq_none_iff.mp hnone]
  · simp [hinv, hrow, hfree]
  · have hlt := (List.getElem?_eq_some_iff.mp hrow).1
    simp [hval, hrow, hfree]
    omega

theorem TaskOps_rejected (s : OSState) (id : Nat)
    (h : invalidId OS_task_record_t.free s.OS_task_table id) : TaskOpsRejected s id := by
  unfold TaskOpsRejected
  rcases h with hlen | ⟨row, hrow, hfree⟩
  · have hnone : s.OS_task_table[id]? = none := List.getElem?_eq_none_iff.mpr hlen
    simp [OS_TaskDelete, OS_TaskSetPriority, OS_TaskGetInfo, hnone]
  · simp [OS_TaskDelete, OS_TaskSetPriority, OS_TaskGetInfo, hrow, hfree]

theorem TaskOps_accepted (s : OSState) (id : Nat)
    (h : ¬ invalidId OS_task_record_t.free s.OS_task_table id) : TaskOpsAccepted s id := by
  unfold TaskOpsAccepted
  have hv := (not_iff_comm.mp (invalidId_iff_not_validId OS_task_record_t.free OS_task_record_t.name s.OS_task_table id).symm).mp h
  rcases validId_view_cases OS_task_record_t.free OS_task_record_t.name s.OS_task_table id with ⟨hinv, _⟩ |
    ⟨_, row, hrow, hfree⟩
  · exact absurd hv hinv
  · refine ⟨?_, ?_, ?_⟩
    · intro ret
      simp only [OS_TaskDelete, hrow, hfree, Bool.false_eq_true, if_false]
      repeat' split
      all_goals simp
    · intro pmax pmin new_priority setschedparam r hr
      simp only [OS_TaskSetPriority, hrow, hfree, Bool.false_eq_true, if_false] at hr
      repeat' split at hr
      all_goals (first | (simp at hr; done) | (simp at hr; subst hr; simp))
    · intro task_prop
      simp only [OS_TaskGetInfo, hrow, hfree, Bool.false_eq_true, if_false]
      repeat' split
      all_goals simp

theorem QueueOps_rejected (s : OSState) (id : Nat)
    (h : invalidId OS_queue_record_t.free s.OS_queue_table id) : QueueOpsRejected s id := by
  unfold QueueOpsRejected
  rcases h with hlen | ⟨row, hrow, hfree⟩
  · have hnone : s.OS_queue_table[id]? = none := List.getElem?_eq_none_iff.mpr hlen
    simp [OS_QueueDelete, OS_QueueGet, OS_QueuePut, OS_QueueGetInfo, hnone]
  · simp [OS_QueueDelete, OS_QueueGet, OS_QueuePut, OS_QueueGetInfo, hrow, hfree]

theorem QueueOps_accepted (s : OSState) (id : Nat)
    (h : ¬ invalidId OS_queue_record_t.free s.OS_queue_table id) : QueueOpsAccepted s id := by
  unfold QueueOpsAccepted
  have hv := (not_iff_comm.mp (invalidId_iff_not_validId OS_queue_record_t.free OS_queue_record_t.name s.OS_queue_table id).symm).mp h
  rcases validId_view_cases OS_queue_record_t.free OS_queue_record_t.name s.OS_queue_table id with ⟨hinv, _⟩ |
    ⟨_, row, hrow, hfree⟩
  · exact absurd hv hinv
  · refine ⟨?_, ?_, ?_, ?_⟩
    · intro cfg pid close_ret unlink_ret r hr
      simp only [OS_QueueDelete, hrow, hfree, Bool.false_eq_true, if_false] at hr
      repeat' split at hr
      all_goals (first | (simp at hr; done) | (simp at hr; subst hr; simp))
    · intro h data size size_copied timeout r hr
      simp only [OS_QueueGet, hrow, hfree, Bool.false_eq_true, if_false] at hr
      repeat' split at hr
      all_goals (first | (simp at hr; done) | (simp at hr; subst hr; simp))
    · intro data size getattr curmsgs maxmsg send
      simp only [OS_QueuePut, hrow, hfree, Bool.false_eq_true, if_false]
      repeat' split
      all_goals simp
    · intro queue_prop
      simp only [OS_QueueGetInfo, hrow, hfree, Bool.false_eq_true, if_false]
      repeat' split
      all_goals simp

theorem BinSemOps_rejected (s : OSState) (id : Nat)
    (h : invalidId OS_bin_sem_record_t.free s.OS_bin_sem_table id) : BinSemOpsRejected s id := by
  unfold BinSemOpsRejected
  rcases h with hlen | ⟨row, hrow, hfree⟩
  · have hnone : s.OS_bin_sem_table[id]? = none := List.getElem?_eq_none_iff.mpr hlen
    simp [OS_BinSemDelete, OS_BinSemGive, OS_BinSemFlush, OS_BinSemTake, OS_BinSemTimedWait, OS_BinSemGetInfo, hnone]
  · simp [OS_BinSemDelete, OS_BinSemGive, OS_BinSemFlush, OS_BinSemTake, OS_BinSemTimedWait, OS_BinSemGetInfo, hrow, hfree]

theorem BinSemOps_accepted (s : OSState) (id : Nat)
    (h : ¬ invalidId OS_bin_sem_record_t.free s.OS_bin_sem_table id) : BinSemOpsAccepted s id := by
  unfold BinSemOpsAccepted
  have hv := (not_iff_comm.mp (invalidId_iff_not_validId OS_bin_sem_record_t.free OS_bin_sem_record_t.name s.OS_bin_sem_table id).symm).mp h
  rcases validId_view_cases OS_bin_sem_record_t.free OS_bin_sem_record_t.name s.OS_bin_sem_table id with ⟨hinv, _⟩ |
    ⟨_, row, hrow, hfree⟩
  · exact absurd hv hinv
  · refine ⟨?_, ?_, ?_, ?_, ?_, ?_⟩
    · intro ret
      simp only [OS_BinSemDelete, hrow, hfree, Bool.false_eq_true, if_false]
      repeat' split
      all_goals simp
    · intro ret
      simp only [OS_BinSemGive, hrow, hfree, Bool.false_eq_true, if_false]
      repeat' split
      all_goals simp
    · simp only [OS_BinSemFlush, hrow, hfree, Bool.false_eq_true, if_false]
      simp
    · intro waits r hr
      simp only [OS_BinSemTake, hrow, hfree, Bool.false_eq_true, if_false] at hr
      repeat' split at hr
      all_goals (first | (simp at hr; done) | (simp at hr; subst hr; simp))
    · intro msecs now waits r hr
      simp only [OS_BinSemTimedWait, hrow, hfree, Bool.false_eq_true, if_false] at hr
      repeat' split at hr
      all_goals (first | (simp at hr; done) | (simp at hr; subst hr; simp))
    · intro prop
      simp only [OS_BinSemGetInfo, hrow, hfree, Bool.false_eq_true, if_false]
      repeat' split
      all_goals simp

theorem CountSemOps_rejected (s : OSState) (id : Nat)
    (h : invalidId OS_count_sem_record_t.free s.OS_count_sem_table id) : CountSemOpsRejected s id := by
  unfold CountSemOpsRejected
  rcases h with hlen | ⟨row, hrow, hfree⟩
  · have hnone : s.OS_count_sem_table[id]? = none := List.getElem?_eq_none_iff.mpr hlen
    simp [OS_CountSemDelete, OS_CountSemGive, OS_CountSemTake, OS_CountSemTimedWait, OS_CountSemGetInfo, hnone]
  · simp [OS_CountSemDelete, OS_CountSemGive, OS_CountSemTake, OS_CountSemTimedWait, OS_CountSemGetInfo, hrow, hfree]

theorem CountSemOps_accepted (s : OSState) (id : Nat)
    (h : ¬ invalidId OS_count_sem_record_t.free s.OS_count_sem_table id) : CountSemOpsAccepted s id := by
  unfold CountSemOpsAccepted
  have hv := (not_iff_comm.mp (invalidId_iff_not_validId OS_count_sem_record_t.free OS_count_sem_record_t.name s.OS_count_sem_table id).symm).mp h
  rcases validId_view_cases OS_count_sem_record_t.free OS_count_sem_record_t.name s.OS_count_sem_table id with ⟨hinv, _⟩ |
    ⟨_, row, hrow, hfree⟩
  · exact absurd hv hinv
  · refine ⟨?_, ?_, ?_, ?_, ?_⟩
    · intro ret
      simp only [OS_CountSemDelete, hrow, hfree, Bool.false_eq_true, if_false]
      repeat' split
      all_goals simp
    · intro ret
      simp only [OS_CountSemGive, hrow, hfree, Bool.false_eq_true, if_false]
      repeat' split
      all_goals simp
    · intro waits r hr
      simp only [OS_CountSemTake, hrow, hfree, Bool.false_eq_true, if_false] at hr
      repeat' split at hr
      all_goals (first | (simp at hr; done) | (simp at hr; subst hr; simp))
    · intro msecs now waits r hr
      simp only [OS_CountSemTimedWait, hrow, hfree, Bool.false_eq_true, if_false] at hr
      repeat' split at hr
      all_goals (first | (simp at hr; done) | (simp at hr; subst hr; simp))
    · intro prop
      simp only [OS_CountSemGetInfo, hrow, hfree, Bool.false_eq_true, if_false]
      repeat' split
      all_goals simp

theorem MutSemOps_rejected (s : OSState) (id : Nat)
    (h : invalidId OS_mut_sem_record_t.free s.OS_mut_sem_table id) : MutSemOpsRejected s id := by
  unfold MutSemOpsRejected
  rcases h with hlen | ⟨row, hrow, hfree⟩
  · have hnone : s.OS_mut_sem_table[id]? = none := List.getElem?_eq_none_iff.mpr hlen
    simp [OS_MutSemDelete, OS_MutSemGive, OS_MutSemTake, OS_MutSemGetInfo, hnone]
  · simp [OS_MutSemDelete, OS_MutSemGive, OS_MutSemTake, OS_MutSemGetInfo, hrow, hfree]

theorem MutSemOps_accepted (s : OSState) (id : Nat)
    (h : ¬ invalidId OS_mut_sem_record_t.free s.OS_mut_sem_table id) : MutSemOpsAccepted s id := by
  unfold MutSemOpsAccepted
  have hv := (not_iff_comm.mp (invalidId_iff_not_validId OS_mut_sem_record_t.free OS_mut_sem_record_t.name s.OS_mut_sem_table id).symm).mp h
  rcases validId_view_cases OS_mut_sem_record_t.free OS_mut_sem_record_t.name s.OS_mut_sem_table id with ⟨hinv, _⟩ |
    ⟨_, row, hrow, hfree⟩
  · exact absurd hv hinv
  · refine ⟨?_, ?_, ?_, ?_⟩
    · intro status
      simp only [OS_MutSemDelete, hrow, hfree, Bool.false_eq_true, if_false]
      repeat' split
      all_goals simp
    · intro unlock_ret
      simp only [OS_MutSemGive, hrow, hfree, Bool.false_eq_true, if_false]
      repeat' split
      all_goals simp
    · intro status
      simp only [OS_MutSemTake, hrow, hfree, Bool.false_eq_true, if_false]
      repeat' split
      all_goals simp
    · intro mut_prop
      simp only [OS_MutSemGetInfo, hrow, hfree, Bool.false_eq_true, if_false]
      repeat' split
      all_goals simp

/-! ## C5: names of `OS_MAX_API_NAME` bytes or more -/

/-- C5 (as stated, refuted): with `OS_MAX_API_NAME = 20` and `SEM_VALUE_MAX = 2147483647`,
`OS_CountSemCreate` called with non-null pointers, a name of 20 bytes and the initial
value 2147483648 returns `OS_INVALID_SEM_VALUE`, not `OS_ERR_NAME_TOO_LONG`: the test of
the initial value precedes the test of the name length. -/
theorem C5_counterexample_count_sem_value_checked_first :
    (⟨20, 2147483647, 16384⟩ : Config).OS_MAX_API_NAME ≤ (List.replicate 20 'A').length ∧
    (OS_CountSemCreate ⟨20, 2147483647, 16384⟩ ⟨[], [], [], [⟨true, [], 0, 0, 0⟩], []⟩ 0
      (some 0) (some (List.replicate 20 'A')) 2147483648 0).ret = OS_INVALID_SEM_VALUE ∧
    (OS_CountSemCreate ⟨20, 2147483647, 16384⟩ ⟨[], [], [], [⟨true, [], 0, 0, 0⟩], []⟩ 0
      (some 0) (some (List.replicate 20 'A')) 2147483648 0).ret ≠ OS_ERR_NAME_TOO_LONG := by
  decide

/-- C5 (amended): for each object kind, every table state and every name of at least
`OS_MAX_API_NAME` bytes, Create called with non-null pointer arguments returns
`OS_ERR_NAME_TOO_LONG`, whatever the priority, stack size, depth, size, initial value of
a binary semaphore and host results are, leaves the state unchanged and makes no guard
or host call; for `OS_CountSemCreate` this holds for initial values up to
`SEM_VALUE_MAX`, a larger initial value being rejected first with
`OS_INVALID_SEM_VALUE` (state unchanged as well). -/
theorem C5_name_too_long (cfg : Config) (s : OSState) (name : CStr)
    (hname : cfg.OS_MAX_API_NAME ≤ name.length) :
    (∀ self h v fp stack_size priority,
      OS_TaskCreate cfg s self h (some v) (some name) (some fp) stack_size priority
        = some ⟨OS_ERR_NAME_TOO_LONG, some v, s, []⟩) ∧
    (∀ self pid queueDesc v depth size,
      OS_QueueCreate cfg s self pid queueDesc (some v) (some name) depth size
        = ⟨OS_ERR_NAME_TOO_LONG, some v, s, []⟩) ∧
    (∀ self v init Status,
      OS_BinSemCreate cfg s self (some v) (some name) init Status
        = ⟨OS_ERR_NAME_TOO_LONG, some v, s, []⟩) ∧
    (∀ self v init Status, init ≤ cfg.SEM_VALUE_MAX →
      OS_CountSemCreate cfg s self (some v) (some name) init Status
        = ⟨OS_ERR_NAME_TOO_LONG, some v, s, []⟩) ∧
    (∀ self v init Status, cfg.SEM_VALUE_MAX < init →
      OS_CountSemCreate cfg s self (some v) (some name) init Status
        = ⟨OS_INVALID_SEM_VALUE, some v, s, []⟩) ∧
    (∀ self v attr_init mutex_init,
      OS_MutSemCreate cfg s self (some v) (some name) attr_init mutex_init
        = ⟨OS_ERR_NAME_TOO_LONG, some v, s, []⟩) := by
  refine ⟨?_, ?_, ?_, ?_, ?_, ?_⟩
  · intro self h v fp stack_size priority
    simp [OS_TaskCreate, hname]
  · intro self pid queueDesc v depth size
    simp [OS_QueueCreate, hname]
  · intro self v init Status
    simp [OS_BinSemCreate, hname]
  · intro self v init Status hinit
    have : ¬ (init > cfg.SEM_VALUE_MAX) := by omega
    simp [OS_CountSemCreate, hname, this]
  · intro self v init Status hinit
    simp [OS_CountSemCreate, hinit]
  · intro self v attr_init mutex_init
    simp [OS_MutSemCreate, hname]

/-- C5 (amended), witness: `OS_MAX_API_NAME = 20` and a name of 20 bytes. -/
theorem C5_name_too_long_witness :
    (⟨20, 2147483647, 16384⟩ : Config).OS_MAX_API_NAME ≤ (List.replicate 20 'A').length ∧
    OS_BinSemCreate ⟨20, 2147483647, 16384⟩ ⟨[], [], [⟨true, [], 0, 0, 0⟩], [], []⟩ 0
      (some 0) (some (List.replicate 20 'A')) 7 0
      = ⟨OS_ERR_NAME_TOO_LONG, some 0, ⟨[], [], [⟨true, [], 0, 0, 0⟩], [], []⟩, []⟩ :=
  ⟨by decide,
    (C5_name_too_long ⟨20, 2147483647, 16384⟩ ⟨[], [], [⟨true, [], 0, 0, 0⟩], [], []⟩
      (List.replicate 20 'A') (by decide)).2.2.1 0 0 7 0⟩

/-! ## C6: validation of the id -/

/-- C6: for each object kind and every id-taking operation of that kind (called with
non-null pointer arguments where a pointer is tested before the id, which is the case of
`OS_QueueGetInfo` only): when `id >= MAX` or `table[id].free` is true the operation
returns `OS_ERR_INVALID_ID`, leaves the state as it is and makes no guard or host call;
otherwise it does not return `OS_ERR_INVALID_ID`, whatever the host does. -/
theorem C6_invalid_id_exactly_when_out_of_range_or_free (s : OSState) (id : Nat) :
    (invalidId OS_task_record_t.free s.OS_task_table id → TaskOpsRejected s id) ∧
    (¬ invalidId OS_task_record_t.free s.OS_task_table id → TaskOpsAccepted s id) ∧
    (invalidId OS_queue_record_t.free s.OS_queue_table id → QueueOpsRejected s id) ∧
    (¬ invalidId OS_queue_record_t.free s.OS_queue_table id → QueueOpsAccepted s id) ∧
    (invalidId OS_bin_sem_record_t.free s.OS_bin_sem_table id → BinSemOpsRejected s id) ∧
    (¬ invalidId OS_bin_sem_record_t.free s.OS_bin_sem_table id → BinSemOpsAccepted s id) ∧
    (invalidId OS_count_sem_record_t.free s.OS_count_sem_table id →
      CountSemOpsRejected s id) ∧
    (¬ invalidId OS_count_sem_record_t.free s.OS_count_sem_table id →
      CountSemOpsAccepted s id) ∧
    (invalidId OS_mut_sem_record_t.free s.OS_mut_sem_table id → MutSemOpsRejected s id) ∧
    (¬ invalidId OS_mut_sem_record_t.free s.OS_mut_sem_table id → MutSemOpsAccepted s id) :=
  ⟨TaskOps_rejected s id, TaskOps_accepted s id, QueueOps_rejected s id,
    QueueOps_accepted s id, BinSemOps_rejected s id, BinSemOps_accepted s id,
    CountSemOps_rejected s id, CountSemOps_accepted s id, MutSemOps_rejected s id,
    MutSemOps_accepted s id⟩

/-- C6, witness: a binary semaphore table whose only row is in use; id 1 is rejected by
`OS_BinSemGive` and id 0 is not. -/
theorem C6_invalid_id_witness :
    OS_BinSemGive ⟨[], [], [⟨false, ['B'], 0, 1, 0⟩], [], []⟩ 1 0
      = ⟨OS_ERR_INVALID_ID, ⟨[], [], [⟨false, ['B'], 0, 1, 0⟩], [], []⟩, []⟩ ∧
    (OS_BinSemGive ⟨[], [], [⟨false, ['B'], 0, 1, 0⟩], [], []⟩ 0 0).ret ≠ OS_ERR_INVALID_ID :=
  ⟨((C6_invalid_id_exactly_when_out_of_range_or_free
      ⟨[], [], [⟨false, ['B'], 0, 1, 0⟩], [], []⟩ 1).2.2.2.2.1 (Or.inl (by decide))).2.1 0,
   ((C6_invalid_id_exactly_when_out_of_range_or_free
      ⟨[], [], [⟨false, ['B'], 0, 1, 0⟩], [], []⟩ 0).2.2.2.2.2.1
      (by simp [invalidId])).2.1 0⟩

/-! ## Reading one outcome off `CreateOutcome` -/

theorem CreateOutcome.of_full {v : List (Bool × CStr)} {name : CStr} {hostFails : Prop}
    {failCode : OS_Status} {ptr : Nat} {ret : OS_Status} {out : Option Nat}
    {v1 : List (Bool × CStr)} {same : Prop}
    (h : CreateOutcome v name hostFails failCode ptr ret out v1 same) (hfull : tableFull v) :
    ret = OS_ERR_NO_FREE_IDS ∧ out = some ptr ∧ same := by
  rcases h with ⟨_, hr, ho, hs⟩ | ⟨hnf, _⟩ | ⟨hnf, _⟩ | ⟨hnf, _⟩
  · exact ⟨hr, ho, hs⟩
  all_goals exact absurd hfull hnf

theorem CreateOutcome.of_taken {v : List (Bool × CStr)} {name : CStr} {hostFails : Prop}
    {failCode : OS_Status} {ptr : Nat} {ret : OS_Status} {out : Option Nat}
    {v1 : List (Bool × CStr)} {same : Prop}
    (h : CreateOutcome v name hostFails failCode ptr ret out v1 same) (hnf : ¬ tableFull v)
    (hlive : nameLive v name) : ret = OS_ERR_NAME_TAKEN ∧ out = some ptr ∧ same := by
  rcases h with ⟨hfull, _⟩ | ⟨_, _, hr, ho, hs⟩ | ⟨_, hnl, _⟩ | ⟨_, hnl, _⟩
  · exact absurd hfull hnf
  · exact ⟨hr, ho, hs⟩
  all_goals exact absurd hlive hnl

theorem CreateOutcome.of_hostFails {v : List (Bool × CStr)} {name : CStr} {hostFails : Prop}
    {failCode : OS_Status} {ptr : Nat} {ret : OS_Status} {out : Option Nat}
    {v1 : List (Bool × CStr)} {same : Prop}
    (h : CreateOutcome v name hostFails failCode ptr ret out v1 same) (hnf : ¬ tableFull v)
    (hnl : ¬ nameLive v name) (hf : hostFails) : ret = failCode ∧ out = some ptr ∧ v1 = v := by
  rcases h with ⟨hfull, _⟩ | ⟨_, hlive, _⟩ | ⟨_, _, _, hr, ho, hv⟩ | ⟨_, _, hok, _⟩
  · exact absurd hfull hnf
  · exact absurd hlive hnl
  · exact ⟨hr, ho, hv⟩
  · exact absurd hf hok

theorem CreateOutcome.of_ok {v : List (Bool × CStr)} {name : CStr} {hostFails : Prop}
    {failCode : OS_Status} {ptr : Nat} {ret : OS_Status} {out : Option Nat}
    {v1 : List (Bool × CStr)} {same : Prop}
    (h : CreateOutcome v name hostFails failCode ptr ret out v1 same) (hnf : ¬ tableFull v)
    (hnl : ¬ nameLive v name) (hok : ¬ hostFails) :
    ret = OS_SUCCESS ∧ out = some (v.findIdx (fun x => x.1)) ∧
      v.findIdx (fun x => x.1) < v.length ∧
      v1 = v.set (v.findIdx (fun x => x.1)) (false, name) := by
  rcases h with ⟨hfull, _⟩ | ⟨_, hlive, _⟩ | ⟨_, _, hf, _⟩ | ⟨_, _, _, hr, ho, hp, hv⟩
  · exact absurd hfull hnf
  · exact absurd hlive hnl
  · exact absurd hf hok
  · exact ⟨hr, ho, hp, hv⟩

/-! ## C4: a name carried by a live row -/

/-- C4 (as stated, refuted): in a binary semaphore table of one row, after
`OS_BinSemCreate` of "A" has succeeded, the live row carries the name "A", and a second
`OS_BinSemCreate` of "A" with valid arguments returns `OS_ERR_NO_FREE_IDS`, not
`OS_ERR_NAME_TAKEN`: the search for a free row precedes the test of the name. -/
theorem C4_counterexample_full_table_reports_no_free_ids :
    (OS_BinSemCreate ⟨20, 2147483647, 16384⟩ ⟨[], [], [⟨true, [], 0, 0, 0⟩], [], []⟩ 0
      (some 0) (some ['A']) 0 0).ret = OS_SUCCESS ∧
    (binSemView (OS_BinSemCreate ⟨20, 2147483647, 16384⟩
      ⟨[], [], [⟨true, [], 0, 0, 0⟩], [], []⟩ 0 (some 0) (some ['A']) 0 0).st)[0]?
      = some (false, ['A']) ∧
    (OS_BinSemCreate ⟨20, 2147483647, 16384⟩
      (OS_BinSemCreate ⟨20, 2147483647, 16384⟩ ⟨[], [], [⟨true, [], 0, 0, 0⟩], [], []⟩ 0
        (some 0) (some ['A']) 0 0).st 0 (some 0) (some ['A']) 0 0).ret
      = OS_ERR_NO_FREE_IDS := by
  decide

/-- C4 (amended): for each object kind and every table state in which at least one row is
free: if some live row already carries the name passed to Create (non-null pointers, a
name shorter than `OS_MAX_API_NAME`, a priority of at most 255, an initial value of at
most `SEM_VALUE_MAX`, and for tasks a host priority range on which `OS_PriorityRemap`
does not divide by zero), Create returns `OS_ERR_NAME_TAKEN` and leaves the state
unchanged. When no row is free the same call returns `OS_ERR_NO_FREE_IDS`. -/
theorem C4_name_taken_when_a_row_is_free (cfg : Config) (s : OSState) (name : CStr)
    (hlen : name.length < cfg.OS_MAX_API_NAME) :
    (nameLive (taskView s) name →
      ∀ self h v fp stack_size priority, priority ≤ MAX_PRIORITY →
        (OS_PriorityRemap h.pmax h.pmin priority).isSome = true →
        ∃ r, OS_TaskCreate cfg s self h (some v) (some name) (some fp) stack_size priority
            = some r ∧ r.st = s ∧
          (¬ tableFull (taskView s) → r.ret = OS_ERR_NAME_TAKEN) ∧
          (tableFull (taskView s) → r.ret = OS_ERR_NO_FREE_IDS)) ∧
    (nameLive (queueView s) name →
      ∀ self pid queueDesc v depth size,
        (OS_QueueCreate cfg s self pid queueDesc (some v) (some name) depth size).st = s ∧
        (¬ tableFull (queueView s) →
          (OS_QueueCreate cfg s self pid queueDesc (some v) (some name) depth size).ret
            = OS_ERR_NAME_TAKEN) ∧
        (tableFull (queueView s) →
          (OS_QueueCreate cfg s self pid queueDesc (some v) (some name) depth size).ret
            = OS_ERR_NO_FREE_IDS)) ∧
    (nameLive (binSemView s) name →
      ∀ self v init Status,
        (OS_BinSemCreate cfg s self (some v) (some name) init Status).st = s ∧
        (¬ tableFull (binSemView s) →
          (OS_BinSemCreate cfg s self (some v) (some name) init Status).ret
            = OS_ERR_NAME_TAKEN) ∧
        (tableFull (binSemView s) →
          (OS_BinSemCreate cfg s self (some v) (some name) init Status).ret
            = OS_ERR_NO_FREE_IDS)) ∧
    (nameLive (countSemView s) name →
      ∀ self v init Status, init ≤ cfg.SEM_VALUE_MAX →
        (OS_CountSemCreate cfg s self (some v) (some name) init Status).st = s ∧
        (¬ tableFull (countSemView s) →
          (OS_CountSemCreate cfg s self (some v) (some name) init Status).ret
            = OS_ERR_NAME_TAKEN) ∧
        (tableFull (countSemView s) →
          (OS_CountSemCreate cfg s self (some v) (some name) init Status).ret
            = OS_ERR_NO_FREE_IDS)) ∧
    (nameLive (mutSemView s) name →
      ∀ self v attr_init mutex_init,
        (OS_MutSemCreate cfg s self (some v) (some name) attr_init mutex_init).st = s ∧
        (¬ tableFull (mutSemView s) →
          (OS_MutSemCreate cfg s self (some v) (some name) attr_init mutex_init).ret
            = OS_ERR_NAME_TAKEN) ∧
        (tableFull (mutSemView s) →
          (OS_MutSemCreate cfg s self (some v) (some name) attr_init mutex_init).ret
            = OS_ERR_NO_FREE_IDS)) := by
  refine ⟨?_, ?_, ?_, ?_, ?_⟩
  · intro hlive self h v fp stack_size priority hprio hremap
    rcases OS_TaskCreate_outcome cfg s self h v name fp stack_size priority hlen hprio hremap
      with ⟨r, hr, hout⟩
    refine ⟨r, hr, ?_, fun hnf => (hout.of_taken hnf hlive).1, fun hf => (hout.of_full hf).1⟩
    by_cases hf : tableFull (taskView s)
    · exact (hout.of_full hf).2.2
    · exact (hout.of_taken hf hlive).2.2
  · intro hlive self pid queueDesc v depth size
    have hout := OS_QueueCreate_outcome cfg s self v name pid queueDesc depth size hlen
    refine ⟨?_, fun hnf => (hout.of_taken hnf hlive).1, fun hf => (hout.of_full hf).1⟩
    by_cases hf : tableFull (queueView s)
    · exact (hout.of_full hf).2.2
    · exact (hout.of_taken hf hlive).2.2
  · intro hlive self v init Status
    have hout := OS_BinSemCreate_outcome cfg s self v name init Status hlen
    refine ⟨?_, fun hnf => (hout.of_taken hnf hlive).1, fun hf => (hout.of_full hf).1⟩
    by_cases hf : tableFull (binSemView s)
    · exact (hout.of_full hf).2.2
    · exact (hout.of_taken hf hlive).2.2
  · intro hlive self v init Status hinit
    have hout := OS_CountSemCreate_outcome cfg s self v name init Status hlen hinit
    refine ⟨?_, fun hnf => (hout.of_taken hnf hlive).1, fun hf => (hout.of_full hf).1⟩
    by_cases hf : tableFull (countSemView s)
    · exact (hout.of_full hf).2.2
    · exact (hout.of_taken hf hlive).2.2
  · intro hlive self v attr_init mutex_init
    have hout := OS_MutSemCreate_outcome cfg s self v name attr_init mutex_init hlen
    refine ⟨?_, fun hnf => (hout.of_taken hnf hlive).1, fun hf => (hout.of_full hf).1⟩
    by_cases hf : tableFull (mutSemView s)
    · exact (hout.of_full hf).2.2
    · exact (hout.of_taken hf hlive).2.2

/-- C4 (amended), witness: a binary semaphore table with a live row "A" and a free row;
creating "A" again returns `OS_ERR_NAME_TAKEN`. -/
theorem C4_name_taken_witness :
    (['A'] : CStr).length < (⟨20, 2147483647, 16384⟩ : Config).OS_MAX_API_NAME ∧
    (OS_BinSemCreate ⟨20, 2147483647, 16384⟩
      ⟨[], [], [⟨false, ['A'], 0, 1, 0⟩, ⟨true, [], 0, 0, 0⟩], [], []⟩ 0 (some 0)
      (some ['A']) 0 0).ret = OS_ERR_NAME_TAKEN :=
  ⟨by decide,
    (((C4_name_taken_when_a_row_is_free ⟨20, 2147483647, 16384⟩
      ⟨[], [], [⟨false, ['A'], 0, 1, 0⟩, ⟨true, [], 0, 0, 0⟩], [], []⟩ ['A']
      (by decide)).2.2.1 ⟨0, rfl⟩) 0 0 0 0).2.1
      (fun hfull => by
        have := hfull 1 true [] rfl
        exact absurd this (by decide))⟩

/-! ## C3: a full table, and the slot freed by Delete -/

theorem DeleteStep.of_success {v : List (Bool × CStr)} {id : Nat} {ret : OS_Status}
    {v1 : List (Bool × CStr)} (h : DeleteStep v id ret v1) (hr : ret = OS_SUCCESS) :
    validId v id ∧ v1 = v.set id (true, []) := by
  rcases h with ⟨hne, _⟩ | ⟨_, hval, hv⟩
  · exact absurd hr hne
  · exact ⟨hval, hv⟩

/-- After a row of a full table is freed, that row is the first free row. -/
theorem firstFree_after_delete (v : List (Bool × CStr)) (id : Nat) (hfull : tableFull v)
    (hval : validId v id) :
    ¬ tableFull (v.set id (true, [])) ∧ (v.set id (true, [])).findIdx (fun x => x.1) = id := by
  rcases hval with ⟨n, hn⟩
  have hlt : id < v.length := (List.getElem?_eq_some_iff.mp hn).1
  have hget : (v.set id (true, []))[id]? = some (true, []) := List.getElem?_set_self hlt
  constructor
  · intro hf
    exact absurd (hf id true [] hget) (by decide)
  · apply firstFree_eq _ id [] hget
    intro j b m hj hjm
    rw [List.getElem?_set_ne (by omega)] at hjm
    exact hfull j b m hjm

/-- C3: for each object kind, when every row of the table is in use, Create with valid
arguments (non-null pointers, a name shorter than `OS_MAX_API_NAME`, a priority of at
most 255, an initial value of at most `SEM_VALUE_MAX`, and for tasks a host priority
range on which `OS_PriorityRemap` does not divide by zero) returns
`OS_ERR_NO_FREE_IDS` and leaves the state unchanged; and after any Delete that returns
`OS_SUCCESS` from that full state, a Create with valid arguments, a name that no live
row carries and a host constructor that succeeds returns `OS_SUCCESS` with the id that
was deleted. `OS_QueueDelete` returns only when the host name `"/<pid>.<name>"` fits its
array `name[OS_MAX_API_NAME+1]`; the queue part is about the Delete calls that return. -/
theorem C3_no_free_ids_then_reuse_of_freed_slot (cfg : Config) (s : OSState) (name : CStr)
    (hlen : name.length < cfg.OS_MAX_API_NAME) :
    (tableFull (taskView s) →
      (∀ self h v fp stack_size priority, priority ≤ MAX_PRIORITY →
        (OS_PriorityRemap h.pmax h.pmin priority).isSome = true →
        ∃ r, OS_TaskCreate cfg s self h (some v) (some name) (some fp) stack_size priority
            = some r ∧ r.ret = OS_ERR_NO_FREE_IDS ∧ r.st = s) ∧
      (∀ id ret, (OS_TaskDelete s id ret).ret = OS_SUCCESS →
        ¬ nameLive (taskView (OS_TaskDelete s id ret).st) name →
        ∀ self h v fp stack_size priority, priority ≤ MAX_PRIORITY →
          (OS_PriorityRemap h.pmax h.pmin priority).isSome = true →
          h.create = 0 → h.detach = 0 → h.attr_destroy = 0 →
          ∃ r, OS_TaskCreate cfg (OS_TaskDelete s id ret).st self h (some v) (some name)
              (some fp) stack_size priority = some r ∧
            r.ret = OS_SUCCESS ∧ r.out = some id)) ∧
    (tableFull (queueView s) →
      (∀ self pid queueDesc v depth size,
        (OS_QueueCreate cfg s self pid queueDesc (some v) (some name) depth size).ret
          = OS_ERR_NO_FREE_IDS ∧
        (OS_QueueCreate cfg s self pid queueDesc (some v) (some name) depth size).st = s) ∧
      (∀ pid0 id close_ret unlink_ret r,
        OS_QueueDelete cfg s pid0 id close_ret unlink_ret = some r → r.ret = OS_SUCCESS →
        ¬ nameLive (queueView r.st) name →
        ∀ self pid queueDesc v depth size, queueDesc ≠ -1 →
          (OS_QueueCreate cfg r.st self pid queueDesc (some v) (some name) depth size).ret
            = OS_SUCCESS ∧
          (OS_QueueCreate cfg r.st self pid queueDesc (some v) (some name) depth size).out
            = some id)) ∧
    (tableFull (binSemView s) →
      (∀ self v init Status,
        (OS_BinSemCreate cfg s self (some v) (some name) init Status).ret
          = OS_ERR_NO_FREE_IDS ∧
        (OS_BinSemCreate cfg s self (some v) (some name) init Status).st = s) ∧
      (∀ id ret, (OS_BinSemDelete s id ret).ret = OS_SUCCESS →
        ¬ nameLive (binSemView (OS_BinSemDelete s id ret).st) name →
        ∀ self v init Status, Status ≠ -1 →
          (OS_BinSemCreate cfg (OS_BinSemDelete s id ret).st self (some v) (some name) init
            Status).ret = OS_SUCCESS ∧
          (OS_BinSemCreate cfg (OS_BinSemDelete s id ret).st self (some v) (some name) init
            Status).out = some id)) ∧
    (tableFull (countSemView s) →
      (∀ self v init Status, init ≤ cfg.SEM_VALUE_MAX →
        (OS_CountSemCreate cfg s self (some v) (some name) init Status).ret
          = OS_ERR_NO_FREE_IDS ∧
        (OS_CountSemCreate cfg s self (some v) (some name) init Status).st = s) ∧
      (∀ id ret, (OS_CountSemDelete s id ret).ret = OS_SUCCESS →
        ¬ nameLive (countSemView (OS_CountSemDelete s id ret).st) name →
        ∀ self v init Status, init ≤ cfg.SEM_VALUE_MAX → Status ≠ -1 →
          (OS_CountSemCreate cfg (OS_CountSemDelete s id ret).st self (some v) (some name)
            init Status).ret = OS_SUCCESS ∧
          (OS_CountSemCreate cfg (OS_CountSemDelete s id ret).st self (some v) (some name)
            init Status).out = some id)) ∧
    (tableFull (mutSemView s) →
      (∀ self v attr_init mutex_init,
        (OS_MutSemCreate cfg s self (some v) (some name) attr_init mutex_init).ret
          = OS_ERR_NO_FREE_IDS ∧
        (OS_MutSemCreate cfg s self (some v) (some name) attr_init mutex_init).st = s) ∧
      (∀ id status, (OS_MutSemDelete s id status).ret = OS_SUCCESS →
        ¬ nameLive (mutSemView (OS_MutSemDelete s id status).st) name →
        ∀ self v attr_init mutex_init, attr_init = 0 → mutex_init = 0 →
          (OS_MutSemCreate cfg (OS_MutSemDelete s id status).st self (some v) (some name)
            attr_init mutex_init).ret = OS_SUCCESS ∧
          (OS_MutSemCreate cfg (OS_MutSemDelete s id status).st self (some v) (some name)
            attr_init mutex_init).out = some id)) := by
  refine ⟨?_, ?_, ?_, ?_, ?_⟩
  · intro hfull
    constructor
    · intro self h v fp stack_size priority hprio hremap
      rcases OS_TaskCreate_outcome cfg s self h v name fp stack_size priority hlen hprio hremap
        with ⟨r, hr, hout⟩
      exact ⟨r, hr, (hout.of_full hfull).1, (hout.of_full hfull).2.2⟩
    · intro id ret hdel hfresh self h v fp stack_size priority hprio hremap hc hd ha
      rcases (OS_TaskDelete_step s id ret).of_success hdel with ⟨hval, hv⟩
      rcases firstFree_after_delete _ id hfull hval with ⟨hnf, hff⟩
      rw [← hv] at hnf hff
      rcases OS_TaskCreate_outcome cfg (OS_TaskDelete s id ret).st self h v name fp stack_size
        priority hlen hprio hremap with ⟨r, hr, hout⟩
      have hok := hout.of_ok hnf hfresh (by simp [hc, hd, ha])
      exact ⟨r, hr, hok.1, by rw [hok.2.1, hff]⟩
  · intro hfull
    constructor
    · intro self pid queueDesc v depth size
      have hout := OS_QueueCreate_outcome cfg s self v name pid queueDesc depth size hlen
      exact ⟨(hout.of_full hfull).1, (hout.of_full hfull).2.2⟩
    · intro pid0 id close_ret unlink_ret r hr hdel hfresh self pid queueDesc v depth size hq
      rcases (OS_QueueDelete_step cfg s pid0 id close_ret unlink_ret r hr).of_success hdel
        with ⟨hval, hv⟩
      rcases firstFree_after_delete _ id hfull hval with ⟨hnf, hff⟩
      rw [← hv] at hnf hff
      have hout := OS_QueueCreate_outcome cfg r.st
        self v name pid queueDesc depth size hlen
      have hok := hout.of_ok hnf hfresh hq
      exact ⟨hok.1, by rw [hok.2.1, hff]⟩
  · intro hfull
    constructor
    · intro self v init Status
      have hout := OS_BinSemCreate_outcome cfg s self v name init Status hlen
      exact ⟨(hout.of_full hfull).1, (hout.of_full hfull).2.2⟩
    · intro id ret hdel hfresh self v init Status hst
      rcases (OS_BinSemDelete_step s id ret).of_success hdel with ⟨hval, hv⟩
      rcases firstFree_after_delete _ id hfull hval with ⟨hnf, hff⟩
      rw [← hv] at hnf hff
      have hout := OS_BinSemCreate_outcome cfg (OS_BinSemDelete s id ret).st self v name init
        Status hlen
      have hok := hout.of_ok hnf hfresh hst
      exact ⟨hok.1, by rw [hok.2.1, hff]⟩
  · intro hfull
    constructor
    · intro self v init Status hinit
      have hout := OS_CountSemCreate_outcome cfg s self v name init Status hlen hinit
      exact ⟨(hout.of_full hfull).1, (hout.of_full hfull).2.2⟩
    · intro id ret hdel hfresh self v init Status hinit hst
      rcases (OS_CountSemDelete_step s id ret).of_success hdel with ⟨hval, hv⟩
      rcases firstFree_after_delete _ id hfull hval with ⟨hnf, hff⟩
      rw [← hv] at hnf hff
      have hout := OS_CountSemCreate_outcome cfg (OS_CountSemDelete s id ret).st self v name
        init Status hlen hinit
      have hok := hout.of_ok hnf hfresh hst
      exact ⟨hok.1, by rw [hok.2.1, hff]⟩
  · intro hfull
    constructor
    · intro self v attr_init mutex_init
      have hout := OS_MutSemCreate_outcome cfg s self v name attr_init mutex_init hlen
      exact ⟨(hout.of_full hfull).1, (hout.of_full hfull).2.2⟩
    · intro id status hdel hfresh self v attr_init mutex_init ha hm
      rcases (OS_MutSemDelete_step s id status).of_success hdel with ⟨hval, hv⟩
      rcases firstFree_after_delete _ id hfull hval with ⟨hnf, hff⟩
      rw [← hv] at hnf hff
      have hout := OS_MutSemCreate_outcome cfg (OS_MutSemDelete s id status).st self v name
        attr_init mutex_init hlen
      have hok := hout.of_ok hnf hfresh (by simp [ha, hm])
      exact ⟨hok.1, by rw [hok.2.1, hff]⟩

/-! ## GetIdByName reads the registry view only -/

theorem OS_TaskGetIdByName_congr (cfg : Config) (s s1 : OSState) (ptr : Option Nat)
    (nm : Option CStr) (hv : taskView s1 = taskView s) :
    (OS_TaskGetIdByName cfg s1 ptr nm).ret = (OS_TaskGetIdByName cfg s ptr nm).ret ∧
    (OS_TaskGetIdByName cfg s1 ptr nm).out = (OS_TaskGetIdByName cfg s ptr nm).out := by
  cases ptr with
  | none => cases nm <;> simp [OS_TaskGetIdByName]
  | some v =>
    cases nm with
    | none => simp [OS_TaskGetIdByName]
    | some name =>
      by_cases hlen : name.length < cfg.OS_MAX_API_NAME
      · have h1 := OS_TaskGetIdByName_lookup cfg s1 v name hlen
        have h2 := OS_TaskGetIdByName_lookup cfg s v name hlen
        rw [hv, ← h2] at h1
        exact Prod.mk.inj h1
      · have : cfg.OS_MAX_API_NAME ≤ name.length := by omega
        simp [OS_TaskGetIdByName, this]

theorem OS_QueueGetIdByName_congr (cfg : Config) (s s1 : OSState) (ptr : Option Nat)
    (nm : Option CStr) (hv : queueView s1 = queueView s) :
    (OS_QueueGetIdByName cfg s1 ptr nm).ret = (OS_QueueGetIdByName cfg s ptr nm).ret ∧
    (OS_QueueGetIdByName cfg s1 ptr nm).out = (OS_QueueGetIdByName cfg s ptr nm).out := by
  cases ptr with
  | none => cases nm <;> simp [OS_QueueGetIdByName]
  | some v =>
    cases nm with
    | none => simp [OS_QueueGetIdByName]
    | some name =>
      by_cases hlen : name.length < cfg.OS_MAX_API_NAME
      · have h1 := OS_QueueGetIdByName_lookup cfg s1 v name hlen
        have h2 := OS_QueueGetIdByName_lookup cfg s v name hlen
        rw [hv, ← h2] at h1
        exact Prod.mk.inj h1
      · have : cfg.OS_MAX_API_NAME ≤ name.length := by omega
        simp [OS_QueueGetIdByName, this]

theorem OS_BinSemGetIdByName_congr (cfg : Config) (s s1 : OSState) (ptr : Option Nat)
    (nm : Option CStr) (hv : binSemView s1 = binSemView s) :
    (OS_BinSemGetIdByName cfg s1 ptr nm).ret = (OS_BinSemGetIdByName cfg s ptr nm).ret ∧
    (OS_BinSemGetIdByName cfg s1 ptr nm).out = (OS_BinSemGetIdByName cfg s ptr nm).out := by
  cases ptr with
  | none => cases nm <;> simp [OS_BinSemGetIdByName]
  | some v =>
    cases nm with
    | none => simp [OS_BinSemGetIdByName]
    | some name =>
      by_cases hlen : name.length < cfg.OS_MAX_API_NAME
      · have h1 := OS_BinSemGetIdByName_lookup cfg s1 v name hlen
        have h2 := OS_BinSemGetIdByName_lookup cfg s v name hlen
        rw [hv, ← h2] at h1
        exact Prod.mk.inj h1
      · have : cfg.OS_MAX_API_NAME ≤ name.length := by omega
        simp [OS_BinSemGetIdByName, this]

theorem OS_CountSemGetIdByName_congr (cfg : Config) (s s1 : OSState) (ptr : Option Nat)
    (nm : Option CStr) (hv : countSemView s1 = countSemView s) :
    (OS_CountSemGetIdByName cfg s1 ptr nm).ret = (OS_CountSemGetIdByName cfg s ptr nm).ret ∧
    (OS_CountSemGetIdByName cfg s1 ptr nm).out = (OS_CountSemGetIdByName cfg s ptr nm).out := by
  cases ptr with
  | none => cases nm <;> simp [OS_CountSemGetIdByName]
  | some v =>
    cases nm with
    | none => simp [OS_CountSemGetIdByName]
    | some name =>
      by_cases hlen : name.length < cfg.OS_MAX_API_NAME
      · have h1 := OS_CountSemGetIdByName_lookup cfg s1 v name hlen
        have h2 := OS_CountSemGetIdByName_lookup cfg s v name hlen
        rw [hv, ← h2] at h1
        exact Prod.mk.inj h1
      · have : cfg.OS_MAX_API_NAME ≤ name.length := by omega
        simp [OS_CountSemGetIdByName, this]

theorem OS_MutSemGetIdByName_congr (cfg : Config) (s s1 : OSState) (ptr : Option Nat)
    (nm : Option CStr) (hv : mutSemView s1 = mutSemView s) :
    (OS_MutSemGetIdByName cfg s1 ptr nm).ret = (OS_MutSemGetIdByName cfg s ptr nm).ret ∧
    (OS_MutSemGetIdByName cfg s1 ptr nm).out = (OS_MutSemGetIdByName cfg s ptr nm).out := by
  cases ptr with
  | none => cases nm <;> simp [OS_MutSemGetIdByName]
  | some v =>
    cases nm with
    | none => simp [OS_MutSemGetIdByName]
    | some name =>
      by_cases hlen : name.length < cfg.OS_MAX_API_NAME
      · have h1 := OS_MutSemGetIdByName_lookup cfg s1 v name hlen
        have h2 := OS_MutSemGetIdByName_lookup cfg s v name hlen
        rw [hv, ← h2] at h1
        exact Prod.mk.inj h1
      · have : cfg.OS_MAX_API_NAME ≤ name.length := by omega
        simp [OS_MutSemGetIdByName, this]

/-- What an unchanged registry view means for the reserved row, the valid ids and the
look-ups by name. -/
theorem released_of_view_eq (v v1 : List (Bool × CStr)) (hv : v1 = v) (hnf : ¬ tableFull v) :
    (∃ n, v1[v.findIdx (fun x => x.1)]? = some (true, n)) ∧
    (∀ i, validId v1 i ↔ validId v i) := by
  subst hv
  refine ⟨?_, fun i => Iff.rfl⟩
  cases hrow : v1[v1.findIdx (fun x => x.1)]? with
  | none => exact absurd ((firstFree_none_iff v1).mp hrow) hnf
  | some x =>
    rcases x with ⟨b, n⟩
    have hb := firstFree_some v1 b n hrow
    subst hb
    exact ⟨n, rfl⟩

/-! ## C7: failure of the host constructor after the reservation -/

/-- C7: for each object kind, when Create is called with valid arguments in a state where
a row is free and no live row carries the name (so that the slot is reserved) and the
host constructor then fails (`pthread_create`, `pthread_detach` or
`pthread_attr_destroy` for tasks, `mq_open` for queues, `sem_init` for semaphores,
`pthread_mutexattr_init` or `pthread_mutex_init` for mutexes), Create returns the failure
code of the kind (`OS_ERROR` for tasks and queues, `OS_SEM_FAILURE` for semaphores and
mutexes), the reserved row (the first free row) is free again, the valid ids are the
same as before the call and every GetIdByName call gives the same status and id as
before the call. For tasks the host priority range is one on which `OS_PriorityRemap`
does not divide by zero. -/
theorem C7_host_failure_releases_the_reserved_slot (cfg : Config) (s : OSState)
    (name : CStr) (hlen : name.length < cfg.OS_MAX_API_NAME) :
    (¬ tableFull (taskView s) → ¬ nameLive (taskView s) name →
      ∀ self h v fp stack_size priority, priority ≤ MAX_PRIORITY →
        (OS_PriorityRemap h.pmax h.pmin priority).isSome = true →
        (h.create ≠ 0 ∨ h.detach ≠ 0 ∨ h.attr_destroy ≠ 0) →
        ∃ r, OS_TaskCreate cfg s self h (some v) (some name) (some fp) stack_size priority = some r ∧
          r.ret = OS_ERROR ∧
          (∃ n, (taskView r.st)[(taskView s).findIdx (fun x => x.1)]? = some (true, n)) ∧
          (∀ i, validId (taskView r.st) i ↔ validId (taskView s) i) ∧
          ∀ ptr nm,
            (OS_TaskGetIdByName cfg r.st ptr nm).ret = (OS_TaskGetIdByName cfg s ptr nm).ret ∧
            (OS_TaskGetIdByName cfg r.st ptr nm).out = (OS_TaskGetIdByName cfg s ptr nm).out) ∧
    (¬ tableFull (queueView s) → ¬ nameLive (queueView s) name →
      ∀ self pid queueDesc v depth size, queueDesc = -1 →
        ∀ r, OS_QueueCreate cfg s self pid queueDesc (some v) (some name) depth size = r →
          r.ret = OS_ERROR ∧
          (∃ n, (queueView r.st)[(queueView s).findIdx (fun x => x.1)]? = some (true, n)) ∧
          (∀ i, validId (queueView r.st) i ↔ validId (queueView s) i) ∧
          ∀ ptr nm,
            (OS_QueueGetIdByName cfg r.st ptr nm).ret = (OS_QueueGetIdByName cfg s ptr nm).ret ∧
            (OS_QueueGetIdByName cfg r.st ptr nm).out = (OS_QueueGetIdByName cfg s ptr nm).out) ∧
    (¬ tableFull (binSemView s) → ¬ nameLive (binSemView s) name →
      ∀ self v init Status, Status = -1 →
        ∀ r, OS_BinSemCreate cfg s self (some v) (some name) init Status = r →
          r.ret = OS_SEM_FAILURE ∧
          (∃ n, (binSemView r.st)[(binSemView s).findIdx (fun x => x.1)]? = some (true, n)) ∧
          (∀ i, validId (binSemView r.st) i ↔ validId (binSemView s) i) ∧
          ∀ ptr nm,
            (OS_BinSemGetIdByName cfg r.st ptr nm).ret = (OS_BinSemGetIdByName cfg s ptr nm).ret ∧
            (OS_BinSemGetIdByName cfg r.st ptr nm).out = (OS_BinSemGetIdByName cfg s ptr nm).out) ∧
    (¬ tableFull (countSemView s) → ¬ nameLive (countSemView s) name →
      ∀ self v init Status, init ≤ cfg.SEM_VALUE_MAX → Status = -1 →
        ∀ r, OS_CountSemCreate cfg s self (some v) (some name) init Status = r →
          r.ret = OS_SEM_FAILURE ∧
          (∃ n, (countSemView r.st)[(countSemView s).findIdx (fun x => x.1)]? = some (true, n)) ∧
          (∀ i, validId (countSemView r.st) i ↔ validId (countSemView s) i) ∧
          ∀ ptr nm,
            (OS_CountSemGetIdByName cfg r.st ptr nm).ret = (OS_CountSemGetIdByName cfg s ptr nm).ret ∧
            (OS_CountSemGetIdByName cfg r.st ptr nm).out = (OS_CountSemGetIdByName cfg s ptr nm).out) ∧
    (¬ tableFull (mutSemView s) → ¬ nameLive (mutSemView s) name →
      ∀ self v attr_init mutex_init, (attr_init ≠ 0 ∨ mutex_init ≠ 0) →
        ∀ r, OS_MutSemCreate cfg s self (some v) (some name) attr_init mutex_init = r →
          r.ret = OS_SEM_FAILURE ∧
          (∃ n, (mutSemView r.st)[(mutSemView s).findIdx (fun x => x.1)]? = some (true, n)) ∧
          (∀ i, validId (mutSemView r.st) i ↔ validId (mutSemView s) i) ∧
          ∀ ptr nm,
            (OS_MutSemGetIdByName cfg r.st ptr nm).ret = (OS_MutSemGetIdByName cfg s ptr nm).ret ∧
            (OS_MutSemGetIdByName cfg r.st ptr nm).out = (OS_MutSemGetIdByName cfg s ptr nm).out) := by
  refine ⟨?_, ?_, ?_, ?_, ?_⟩
  · intro hnf hnl self h v fp stack_size priority hprio hremap hf
    rcases OS_TaskCreate_outcome cfg s self h v name fp stack_size priority hlen hprio hremap
      with ⟨r, hr, hout⟩
    have h3 := hout.of_hostFails hnf hnl hf
    have h4 := released_of_view_eq _ _ h3.2.2 hnf
    exact ⟨r, hr, h3.1, h4.1, h4.2,
      fun ptr nm => OS_TaskGetIdByName_congr cfg s r.st ptr nm h3.2.2⟩
  · intro hnf hnl self pid queueDesc v depth size hf r hr
    subst hr
    have hout := OS_QueueCreate_outcome cfg s self v name pid queueDesc depth size hlen
    have h3 := hout.of_hostFails hnf hnl hf
    have h4 := released_of_view_eq _ _ h3.2.2 hnf
    exact ⟨h3.1, h4.1, h4.2, fun ptr nm => OS_QueueGetIdByName_congr cfg s _ ptr nm h3.2.2⟩
  · intro hnf hnl self v init Status hf r hr
    subst hr
    have hout := OS_BinSemCreate_outcome cfg s self v name init Status hlen
    have h3 := hout.of_hostFails hnf hnl hf
    have h4 := released_of_view_eq _ _ h3.2.2 hnf
    exact ⟨h3.1, h4.1, h4.2, fun ptr nm => OS_BinSemGetIdByName_congr cfg s _ ptr nm h3.2.2⟩
  · intro hnf hnl self v init Status hinit hf r hr
    subst hr
    have hout := OS_CountSemCreate_outcome cfg s self v name init Status hlen hinit
    have h3 := hout.of_hostFails hnf hnl hf
    have h4 := released_of_view_eq _ _ h3.2.2 hnf
    exact ⟨h3.1, h4.1, h4.2, fun ptr nm => OS_CountSemGetIdByName_congr cfg s _ ptr nm h3.2.2⟩
  · intro hnf hnl self v attr_init mutex_init hf r hr
    subst hr
    have hout := OS_MutSemCreate_outcome cfg s self v name attr_init mutex_init hlen
    have h3 := hout.of_hostFails hnf hnl hf
    have h4 := released_of_view_eq _ _ h3.2.2 hnf
    exact ⟨h3.1, h4.1, h4.2, fun ptr nm => OS_MutSemGetIdByName_congr cfg s _ ptr nm h3.2.2⟩

/-! ## C1: GetIdByName after Create -/

theorem CreateStep.lookup {v : List (Bool × CStr)} {name : Option CStr} {ret : OS_Status}
    {out : Option Nat} {v1 : List (Bool × CStr)} (h : CreateStep v name ret out v1)
    (hr : ret = OS_SUCCESS) :
    ∃ n id, name = some n ∧ out = some id ∧
      ∀ ptr, lookupResult v1 n ptr = (OS_SUCCESS, some id) := by
  rcases h with ⟨hne, _⟩ | ⟨_, n, hn, hnl, ho, hp, hv⟩
  · exact absurd hr hne
  · refine ⟨n, _, hn, ho, fun ptr => ?_⟩
    have hl := lookup_after_fill v n _ hp hnl
    rw [← hv] at hl
    have hlen : v1.length = v.length := by rw [hv, List.length_set]
    unfold lookupResult
    rw [hl, hlen, if_pos hp]

theorem OS_TaskCreate_success_len (cfg : Config) (s : OSState) (self : Nat) (h : TaskCreateHost)
    (task_id : Option Nat) (n : CStr) (fp : Option Nat) (stack_size priority : Nat) (r : RetId)
    (hr : OS_TaskCreate cfg s self h task_id (some n) fp stack_size priority = some r)
    (hret : r.ret = OS_SUCCESS) : n.length < cfg.OS_MAX_API_NAME := by
  by_contra hlen
  have : cfg.OS_MAX_API_NAME ≤ n.length := by omega
  cases task_id <;> cases fp <;> simp [OS_TaskCreate, this] at hr <;> subst hr <;> simp at hret

theorem OS_QueueCreate_success_len (cfg : Config) (s : OSState) (self : Nat) (pid : CStr) (queueDesc : Int) (queue_id : Option Nat) (depth : Nat) (size : Nat) (n : CStr)
    (hret : (OS_QueueCreate cfg s self pid queueDesc queue_id (some n) depth size).ret = OS_SUCCESS) : n.length < cfg.OS_MAX_API_NAME := by
  by_contra hlen
  have : cfg.OS_MAX_API_NAME ≤ n.length := by omega
  cases queue_id <;> simp [OS_QueueCreate, this] at hret

theorem OS_BinSemCreate_success_len (cfg : Config) (s : OSState) (self : Nat) (sem_id : Option Nat) (init : Nat) (Status : Int) (n : CStr)
    (hret : (OS_BinSemCreate cfg s self sem_id (some n) init Status).ret = OS_SUCCESS) : n.length < cfg.OS_MAX_API_NAME := by
  by_contra hlen
  have : cfg.OS_MAX_API_NAME ≤ n.length := by omega
  cases sem_id <;> simp [OS_BinSemCreate, this] at hret

theorem OS_CountSemCreate_success_len (cfg : Config) (s : OSState) (self : Nat) (sem_id : Option Nat) (init : Nat) (Status : Int) (n : CStr)
    (hret : (OS_CountSemCreate cfg s self sem_id (some n) init Status).ret = OS_SUCCESS) : n.length < cfg.OS_MAX_API_NAME := by
  by_contra hlen
  have : cfg.OS_MAX_API_NAME ≤ n.length := by omega
  cases sem_id <;> simp [OS_CountSemCreate, this] at hret
  all_goals (split at hret <;> simp at hret)

theorem OS_MutSemCreate_success_len (cfg : Config) (s : OSState) (self : Nat) (sem_id : Option Nat) (attr_init : Int) (mutex_init : Int) (n : CStr)
    (hret : (OS_MutSemCreate cfg s self sem_id (some n) attr_init mutex_init).ret = OS_SUCCESS) : n.length < cfg.OS_MAX_API_NAME := by
  by_contra hlen
  have : cfg.OS_MAX_API_NAME ≤ n.length := by omega
  cases sem_id <;> simp [OS_MutSemCreate, this] at hret

/-- C1: for each of the five object kinds and every table state (in particular every
state reachable from `OS_API_Init` by Create and Delete calls): if Create returns
`OS_SUCCESS` and stores `id` through its id pointer, then GetIdByName of the same kind,
called in the resulting state with the same name, returns `OS_SUCCESS` and stores
exactly that `id`. -/
theorem C1_get_id_by_name_after_create (cfg : Config) (s : OSState) :
    (∀ self h task_id task_name fp stack_size priority r,
      OS_TaskCreate cfg s self h task_id task_name fp stack_size priority = some r →
      r.ret = OS_SUCCESS →
      ∃ id, r.out = some id ∧ ∀ v,
        (OS_TaskGetIdByName cfg r.st (some v) task_name).ret = OS_SUCCESS ∧
        (OS_TaskGetIdByName cfg r.st (some v) task_name).out = some id) ∧
    (∀ self pid queueDesc queue_id queue_name depth size r,
      OS_QueueCreate cfg s self pid queueDesc queue_id queue_name depth size = r →
      r.ret = OS_SUCCESS →
      ∃ id, r.out = some id ∧ ∀ v,
        (OS_QueueGetIdByName cfg r.st (some v) queue_name).ret = OS_SUCCESS ∧
        (OS_QueueGetIdByName cfg r.st (some v) queue_name).out = some id) ∧
    (∀ self sem_id sem_name init Status r,
      OS_BinSemCreate cfg s self sem_id sem_name init Status = r →
      r.ret = OS_SUCCESS →
      ∃ id, r.out = some id ∧ ∀ v,
        (OS_BinSemGetIdByName cfg r.st (some v) sem_name).ret = OS_SUCCESS ∧
        (OS_BinSemGetIdByName cfg r.st (some v) sem_name).out = some id) ∧
    (∀ self sem_id sem_name init Status r,
      OS_CountSemCreate cfg s self sem_id sem_name init Status = r →
      r.ret = OS_SUCCESS →
      ∃ id, r.out = some id ∧ ∀ v,
        (OS_CountSemGetIdByName cfg r.st (some v) sem_name).ret = OS_SUCCESS ∧
        (OS_CountSemGetIdByName cfg r.st (some v) sem_name).out = some id) ∧
    (∀ self sem_id sem_name attr_init mutex_init r,
      OS_MutSemCreate cfg s self sem_id sem_name attr_init mutex_init = r →
      r.ret = OS_SUCCESS →
      ∃ id, r.out = some id ∧ ∀ v,
        (OS_MutSemGetIdByName cfg r.st (some v) sem_name).ret = OS_SUCCESS ∧
        (OS_MutSemGetIdByName cfg r.st (some v) sem_name).out = some id) := by
  refine ⟨?_, ?_, ?_, ?_, ?_⟩
  · intro self h task_id task_name fp stack_size priority r hr hret
    rcases (OS_TaskCreate_step cfg s self h task_id task_name fp stack_size priority r hr).lookup
      hret with ⟨n, id, hn, ho, hl⟩
    subst hn
    have hlen := OS_TaskCreate_success_len cfg s self h task_id n fp stack_size priority r hr hret
    refine ⟨id, ho, fun v => ?_⟩
    have := OS_TaskGetIdByName_lookup cfg r.st v n hlen
    rw [hl v] at this
    exact Prod.mk.inj this
  · intro self pid queueDesc queue_id queue_name depth size r hr hret
    subst hr
    rcases (OS_QueueCreate_step cfg s self pid queueDesc queue_id queue_name depth size).lookup hret with ⟨n, id, hn, ho, hl⟩
    subst hn
    have hlen := OS_QueueCreate_success_len cfg s self pid queueDesc queue_id depth size n hret
    refine ⟨id, ho, fun v => ?_⟩
    have := OS_QueueGetIdByName_lookup cfg (OS_QueueCreate cfg s self pid queueDesc queue_id (some n) depth size).st v n hlen
    rw [hl v] at this
    exact Prod.mk.inj this
  · intro self sem_id sem_name init Status r hr hret
    subst hr
    rcases (OS_BinSemCreate_step cfg s self sem_id sem_name init Status).lookup hret with ⟨n, id, hn, ho, hl⟩
    subst hn
    have hlen := OS_BinSemCreate_success_len cfg s self sem_id init Status n hret
    refine ⟨id, ho, fun v => ?_⟩
    have := OS_BinSemGetIdByName_lookup cfg (OS_BinSemCreate cfg s self sem_id (some n) init Status).st v n hlen
    rw [hl v] at this
    exact Prod.mk.inj this
  · intro self sem_id sem_name init Status r hr hret
    subst hr
    rcases (OS_CountSemCreate_step cfg s self sem_id sem_name init Status).lookup hret with ⟨n, id, hn, ho, hl⟩
    subst hn
    have hlen := OS_CountSemCreate_success_len cfg s self sem_id init Status n hret
    refine ⟨id, ho, fun v => ?_⟩
    have := OS_CountSemGetIdByName_lookup cfg (OS_CountSemCreate cfg s self sem_id (some n) init Status).st v n hlen
    rw [hl v] at this
    exact Prod.mk.inj this
  · intro self sem_id sem_name attr_init mutex_init r hr hret
    subst hr
    rcases (OS_MutSemCreate_step cfg s self sem_id sem_name attr_init mutex_init).lookup hret with ⟨n, id, hn, ho, hl⟩
    subst hn
    have hlen := OS_MutSemCreate_success_len cfg s self sem_id attr_init mutex_init n hret
    refine ⟨id, ho, fun v => ?_⟩
    have := OS_MutSemGetIdByName_lookup cfg (OS_MutSemCreate cfg s self sem_id (some n) attr_init mutex_init).st v n hlen
    rw [hl v] at this
    exact Prod.mk.inj this

/-! ## The object that lives at an id, along Create and Delete steps -/

theorem validId_set_free (v : List (Bool × CStr)) (p i : Nat) (n : CStr)
    (h : validId (v.set p (true, n)) i) : validId v i := by
  rcases h with ⟨m, hm⟩
  by_cases hpi : p = i
  · subst hpi
    have hlt : p < v.length := by
      have := (List.getElem?_eq_some_iff.mp hm).1
      rwa [List.length_set] at this
    rw [List.getElem?_set_self hlt] at hm
    cases hm
  · rw [List.getElem?_set_ne hpi] at hm
    exact ⟨m, hm⟩

theorem validId_of_deleteStep {v : List (Bool × CStr)} {id1 : Nat} {ret : OS_Status}
    {v1 : List (Bool × CStr)} (h : DeleteStep v id1 ret v1) (id : Nat)
    (hval : validId v1 id) : validId v id := by
  rcases h with ⟨_, hv⟩ | ⟨_, _, hv⟩
  · rwa [hv] at hval
  · rw [hv] at hval
    exact validId_set_free v id1 id [] hval

theorem not_validId_after_delete {v : List (Bool × CStr)} {id : Nat} {ret : OS_Status}
    {v1 : List (Bool × CStr)} (h : DeleteStep v id ret v1) (hr : ret = OS_SUCCESS) :
    ¬ validId v1 id := by
  rcases h.of_success hr with ⟨⟨n, hn⟩, hv⟩
  have hlt : id < v.length := (List.getElem?_eq_some_iff.mp hn).1
  rintro ⟨m, hm⟩
  rw [hv, List.getElem?_set_self hlt] at hm
  cases hm

theorem validId_of_createStep {v : List (Bool × CStr)} {name : Option CStr} {ret : OS_Status}
    {out : Option Nat} {v1 : List (Bool × CStr)} (h : CreateStep v name ret out v1) (id : Nat)
    (hval : validId v1 id) (hinv : ¬ validId v id) : ret = OS_SUCCESS ∧ out = some id := by
  rcases h with ⟨_, hv⟩ | ⟨hr, n, _, _, ho, _, hv⟩
  · rw [hv] at hval
    exact absurd hval hinv
  · refine ⟨hr, ?_⟩
    by_cases hid : v.findIdx (fun x => x.1) = id
    · rw [ho, hid]
    · rw [hv, validId_set_ne v _ id _ hid] at hval
      exact absurd hval hinv

theorem owns_after_create {v : List (Bool × CStr)} {name : Option CStr} {ret : OS_Status}
    {out : Option Nat} {v1 : List (Bool × CStr)} (h : CreateStep v name ret out v1)
    (hr : ret = OS_SUCCESS) (n : CStr) (hn : name = some n) (id : Nat) (ho : out = some id) :
    Owns v1 id n := by
  rcases h with ⟨hne, _⟩ | ⟨_, m, hm, hnl, ho1, hp, hv⟩
  · exact absurd hr hne
  · rw [hn] at hm
    cases hm
    rw [ho] at ho1
    cases ho1
    constructor
    · rw [hv]
      exact List.getElem?_set_self hp
    · intro j hj
      by_contra hne
      rw [hv, List.getElem?_set_ne (fun h => hne h.symm)] at hj
      exact hnl ⟨j, hj⟩

theorem owns_createStep {v : List (Bool × CStr)} {name : Option CStr} {ret : OS_Status}
    {out : Option Nat} {v1 : List (Bool × CStr)} (h : CreateStep v name ret out v1)
    (id : Nat) (n : CStr) (ho : Owns v id n) : Owns v1 id n := by
  rcases h with ⟨_, hv⟩ | ⟨_, m, _, hnl, _, hp, hv⟩
  · rwa [hv]
  · have hmn : m ≠ n := fun h => hnl ⟨id, by rw [h]; exact ho.1⟩
    have hff : v.findIdx (fun x => x.1) ≠ id := by
      intro hid
      have h1 := ho.1
      rw [← hid] at h1
      have := firstFree_some v false n h1
      cases this
    constructor
    · rw [hv, List.getElem?_set_ne hff]
      exact ho.1
    · intro j hj
      by_cases hjf : v.findIdx (fun x => x.1) = j
      · subst hjf
        rw [hv, List.getElem?_set_self hp] at hj
        cases hj
        exact absurd rfl hmn
      · rw [hv, List.getElem?_set_ne hjf] at hj
        exact ho.2 j hj

theorem owns_deleteStep {v : List (Bool × CStr)} {id1 : Nat} {ret : OS_Status}
    {v1 : List (Bool × CStr)} (h : DeleteStep v id1 ret v1) (id : Nat) (n : CStr)
    (ho : Owns v id n) (hkeep : id1 = id → ret ≠ OS_SUCCESS) : Owns v1 id n := by
  rcases h with ⟨_, hv⟩ | ⟨hr, _, hv⟩
  · rwa [hv]
  · have hne : id1 ≠ id := fun h => hkeep h hr
    constructor
    · rw [hv, List.getElem?_set_ne hne]
      exact ho.1
    · intro j hj
      by_cases hj1 : id1 = j
      · subst hj1
        have hlt : id1 < v.length := by
          have := (List.getElem?_eq_some_iff.mp hj).1
          rwa [hv, List.length_set] at this
        rw [hv, List.getElem?_set_self hlt] at hj
        cases hj
      · rw [hv, List.getElem?_set_ne hj1] at hj
        exact ho.2 j hj

theorem not_nameLive_after_delete {v : List (Bool × CStr)} {id : Nat} {ret : OS_Status}
    {v1 : List (Bool × CStr)} (h : DeleteStep v id ret v1) (hr : ret = OS_SUCCESS) (n : CStr)
    (ho : Owns v id n) : ¬ nameLive v1 n := by
  rcases h.of_success hr with ⟨_, hv⟩
  have hlt : id < v.length := (List.getElem?_eq_some_iff.mp ho.1).1
  rintro ⟨j, hj⟩
  by_cases hji : id = j
  · subst hji
    rw [hv, List.getElem?_set_self hlt] at hj
    cases hj
  · rw [hv, List.getElem?_set_ne hji] at hj
    exact hji (ho.2 j hj).symm

theorem lookupResult_not_found (v : List (Bool × CStr)) (n : CStr) (ptr : Nat)
    (h : ¬ nameLive v n) : lookupResult v n ptr = (OS_ERR_NAME_NOT_FOUND, some ptr) := by
  unfold lookupResult
  rw [if_neg]
  rw [lookup_lt_iff]
  exact h

/-! ## Create and Delete calls of any kind, seen from one table -/

theorem DeleteOutcome.ne_success {v : List (Bool × CStr)} {id : Nat} {hostFails : Prop}
    {failCode : OS_Status} {ret : OS_Status} {v1 : List (Bool × CStr)} {same : Prop}
    (h : DeleteOutcome v id hostFails failCode ret v1 same) (hf : hostFails)
    (hfc : failCode ≠ OS_SUCCESS) : ret ≠ OS_SUCCESS := by
  rcases h with ⟨_, hr, _⟩ | ⟨_, _, hr, _⟩ | ⟨_, hok, _⟩
  · rw [hr]; decide
  · rw [hr]; exact hfc
  · exact absurd hf hok

theorem exec_owns_Task (cfg : Config) (s s1 : OSState) (c : Call) (id : Nat) (n : CStr)
    (ho : Owns (taskView s) id n) (hex : exec cfg s c = some s1)
    (hkeep : ∀ ret, c = Call.TaskDelete id ret → ret ≠ 0) : Owns (taskView s1) id n := by
  cases c with
  | TaskCreate self h task_id task_name fp stack_size priority =>
    simp only [exec, Option.map_eq_some'] at hex
    rcases hex with ⟨r, hr, rfl⟩
    exact owns_createStep (OS_TaskCreate_step cfg s self h task_id task_name fp stack_size priority r hr) id n ho
  | TaskDelete id1 ret =>
    simp only [exec, Option.some.injEq] at hex
    subst hex
    exact owns_deleteStep (OS_TaskDelete_step s id1 ret) id n ho (fun hid =>
      (OS_TaskDelete_outcome s id1 ret).ne_success (hkeep _ (by rw [hid])) (by decide))
  | QueueCreate self pid queueDesc queue_id queue_name depth size =>
    simp only [exec, Option.some.injEq] at hex
    subst hex
    obtain ⟨h1, h2, h3, h4⟩ := OS_QueueCreate_frame cfg s self pid queueDesc queue_id queue_name depth size
    simp only [taskView, h1, h2, h3, h4]
    exact ho
  | QueueDelete pid id1 close_ret unlink_ret =>
    simp only [exec, Option.map_eq_some'] at hex
    rcases hex with ⟨r, hr, rfl⟩
    obtain ⟨h1, h2, h3, h4⟩ := OS_QueueDelete_frame cfg s pid id1 close_ret unlink_ret r hr
    simp only [taskView, h1, h2, h3, h4]
    exact ho
  | BinSemCreate self sem_id sem_name init Status =>
    simp only [exec, Option.some.injEq] at hex
    subst hex
    obtain ⟨h1, h2, h3, h4⟩ := OS_BinSemCreate_frame cfg s self sem_id sem_name init Status
    simp only [taskView, h1, h2, h3, h4]
    exact ho
  | BinSemDelete id1 ret =>
    simp only [exec, Option.some.injEq] at hex
    subst hex
    obtain ⟨h1, h2, h3, h4⟩ := OS_BinSemDelete_frame s id1 ret
    simp only [taskView, h1, h2, h3, h4]
    exact ho
  | CountSemCreate self sem_id sem_name init Status =>
    simp only [exec, Option.some.injEq] at hex
    subst hex
    obtain ⟨h1, h2, h3, h4⟩ := OS_CountSemCreate_frame cfg s self sem_id sem_name init Status
    simp only [taskView, h1, h2, h3, h4]
    exact ho
  | CountSemDelete id1 ret =>
    simp only [exec, Option.some.injEq] at hex
    subst hex
    obtain ⟨h1, h2, h3, h4⟩ := OS_CountSemDelete_frame s id1 ret
    simp only [taskView, h1, h2, h3, h4]
    exact ho
  | MutSemCreate self sem_id sem_name attr_init mutex_init =>
    simp only [exec, Option.some.injEq] at hex
    subst hex
    obtain ⟨h1, h2, h3, h4⟩ := OS_MutSemCreate_frame cfg s self sem_id sem_name attr_init mutex_init
    simp only [taskView, h1, h2, h3, h4]
    exact ho
  | MutSemDelete id1 status =>
    simp only [exec, Option.some.injEq] at hex
    subst hex
    obtain ⟨h1, h2, h3, h4⟩ := OS_MutSemDelete_frame s id1 status
    simp only [taskView, h1, h2, h3, h4]
    exact ho

theorem run_owns_Task (cfg : Config) (cs : List Call) (s s1 : OSState) (id : Nat) (n : CStr)
    (ho : Owns (taskView s) id n) (hrun : run cfg s cs = some s1)
    (hkeep : ∀ ret, Call.TaskDelete id ret ∈ cs → ret ≠ 0) : Owns (taskView s1) id n := by
  induction cs generalizing s with
  | nil =>
    simp only [run, Option.some.injEq] at hrun
    subst hrun
    exact ho
  | cons c cs ih =>
    simp only [run] at hrun
    cases hex : exec cfg s c with
    | none => rw [hex] at hrun; cases hrun
    | some s2 =>
      rw [hex] at hrun
      refine ih s2 (exec_owns_Task cfg s s2 c id n ho hex ?_) hrun ?_
      · intro ret hc
        exact hkeep ret (by rw [hc]; exact List.mem_cons_self _ _)
      · intro ret hc
        exact hkeep ret (List.mem_cons_of_mem _ hc)

theorem exec_revive_Task (cfg : Config) (s s1 : OSState) (c : Call) (id : Nat)
    (hinv : ¬ validId (taskView s) id) (hex : exec cfg s c = some s1)
    (hval : validId (taskView s1) id) :
    ∃ self h task_id task_name fp stack_size priority r, c = Call.TaskCreate self h task_id task_name fp stack_size priority ∧
      OS_TaskCreate cfg s self h task_id task_name fp stack_size priority = some r ∧ r.ret = OS_SUCCESS ∧ r.out = some id := by
  cases c with
  | TaskCreate self h task_id task_name fp stack_size priority =>
    simp only [exec, Option.map_eq_some'] at hex
    rcases hex with ⟨r, hr, rfl⟩
    have hcs := validId_of_createStep (OS_TaskCreate_step cfg s self h task_id task_name fp stack_size priority r hr) id hval hinv
    exact ⟨self, h, task_id, task_name, fp, stack_size, priority, r, rfl, hr, hcs.1, hcs.2⟩
  | TaskDelete id1 ret =>
    simp only [exec, Option.some.injEq] at hex
    subst hex
    exact absurd (validId_of_deleteStep (OS_TaskDelete_step s id1 ret) id hval) hinv
  | QueueCreate self pid queueDesc queue_id queue_name depth size =>
    simp only [exec, Option.some.injEq] at hex
    subst hex
    obtain ⟨h1, h2, h3, h4⟩ := OS_QueueCreate_frame cfg s self pid queueDesc queue_id queue_name depth size
    simp only [taskView, h1, h2, h3, h4] at hval
    exact absurd hval hinv
  | QueueDelete pid id1 close_ret unlink_ret =>
    simp only [exec, Option.map_eq_some'] at hex
    rcases hex with ⟨r, hr, rfl⟩
    obtain ⟨h1, h2, h3, h4⟩ := OS_QueueDelete_frame cfg s pid id1 close_ret unlink_ret r hr
    simp only [taskView, h1, h2, h3, h4] at hval
    exact absurd hval hinv
  | BinSemCreate self sem_id sem_name init Status =>
    simp only [exec, Option.some.injEq] at hex
    subst hex
    obtain ⟨h1, h2, h3, h4⟩ := OS_BinSemCreate_frame cfg s self sem_id sem_name init Status
    simp only [taskView, h1, h2, h3, h4] at hval
    exact absurd hval hinv
  | BinSemDelete id1 ret =>
    simp only [exec, Option.some.injEq] at hex
    subst hex
    obtain ⟨h1, h2, h3, h4⟩ := OS_BinSemDelete_frame s id1 ret
    simp only [taskView, h1, h2, h3, h4] at hval
    exact absurd hval hinv
  | CountSemCreate self sem_id sem_name init Status =>
    simp only [exec, Option.some.injEq] at hex
    subst hex
    obtain ⟨h1, h2, h3, h4⟩ := OS_CountSemCreate_frame cfg s self sem_id sem_name init Status
    simp only [taskView, h1, h2, h3, h4] at hval
    exact absurd hval hinv
  | CountSemDelete id1 ret =>
    simp only [exec, Option.some.injEq] at hex
    subst hex
    obtain ⟨h1, h2, h3, h4⟩ := OS_CountSemDelete_frame s id1 ret
    simp only [taskView, h1, h2, h3, h4] at hval
    exact absurd hval hinv
  | MutSemCreate self sem_id sem_name attr_init mutex_init =>
    simp only [exec, Option.some.injEq] at hex
    subst hex
    obtain ⟨h1, h2, h3, h4⟩ := OS_MutSemCreate_frame cfg s self sem_id sem_name attr_init mutex_init
    simp only [taskView, h1, h2, h3, h4] at hval
    exact absurd hval hinv
  | MutSemDelete id1 status =>
    simp only [exec, Option.some.injEq] at hex
    subst hex
    obtain ⟨h1, h2, h3, h4⟩ := OS_MutSemDelete_frame s id1 status
    simp only [taskView, h1, h2, h3, h4] at hval
    exact absurd hval hinv

theorem exec_owns_Queue (cfg : Config) (s s1 : OSState) (c : Call) (id : Nat) (n : CStr)
    (ho : Owns (queueView s) id n) (hex : exec cfg s c = some s1)
    (hkeep : ∀ pid close_ret unlink_ret, c = Call.QueueDelete pid id close_ret unlink_ret →
      close_ret = -1 ∨ unlink_ret = -1) : Owns (queueView s1) id n := by
  cases c with
  | TaskCreate self h task_id task_name fp stack_size priority =>
    simp only [exec, Option.map_eq_some'] at hex
    rcases hex with ⟨r, hr, rfl⟩
    obtain ⟨h1, h2, h3, h4⟩ := OS_TaskCreate_frame cfg s self h task_id task_name fp stack_size priority r hr
    simp only [queueView, h1, h2, h3, h4]
    exact ho
  | TaskDelete id1 ret =>
    simp only [exec, Option.some.injEq] at hex
    subst hex
    obtain ⟨h1, h2, h3, h4⟩ := OS_TaskDelete_frame s id1 ret
    simp only [queueView, h1, h2, h3, h4]
    exact ho
  | QueueCreate self pid queueDesc queue_id queue_name depth size =>
    simp only [exec, Option.some.injEq] at hex
    subst hex
    exact owns_createStep (OS_QueueCreate_step cfg s self pid queueDesc queue_id queue_name depth size) id n ho
  | QueueDelete pid id1 close_ret unlink_ret =>
    simp only [exec, Option.map_eq_some'] at hex
    rcases hex with ⟨r, hr, rfl⟩
    exact owns_deleteStep (OS_QueueDelete_step cfg s pid id1 close_ret unlink_ret r hr) id n ho (fun hid =>
      (OS_QueueDelete_outcome cfg s id1 pid close_ret unlink_ret r hr).ne_success (hkeep _ _ _ (by rw [hid])) (by decide))
  | BinSemCreate self sem_id sem_name init Status =>
    simp only [exec, Option.some.injEq] at hex
    subst hex
    obtain ⟨h1, h2, h3, h4⟩ := OS_BinSemCreate_frame cfg s self sem_id sem_name init Status
    simp only [queueView, h1, h2, h3, h4]
    exact ho
  | BinSemDelete id1 ret =>
    simp only [exec, Option.some.injEq] at hex
    subst hex
    obtain ⟨h1, h2, h3, h4⟩ := OS_BinSemDelete_frame s id1 ret
    simp only [queueView, h1, h2, h3, h4]
    exact ho
  | CountSemCreate self sem_id sem_name init Status =>
    simp only [exec, Option.some.injEq] at hex
    subst hex
    obtain ⟨h1, h2, h3, h4⟩ := OS_CountSemCreate_frame cfg s self sem_id sem_name init Status
    simp only [queueView, h1, h2, h3, h4]
    exact ho
  | CountSemDelete id1 ret =>
    simp only [exec, Option.some.injEq] at hex
    subst hex
    obtain ⟨h1, h2, h3, h4⟩ := OS_CountSemDelete_frame s id1 ret
    simp only [queueView, h1, h2, h3, h4]
    exact ho
  | MutSemCreate self sem_id sem_name attr_init mutex_init =>
    simp only [exec, Option.some.injEq] at hex
    subst hex
    obtain ⟨h1, h2, h3, h4⟩ := OS_MutSemCreate_frame cfg s self sem_id sem_name attr_init mutex_init
    simp only [queueView, h1, h2, h3, h4]
    exact ho
  | MutSemDelete id1 status =>
    simp only [exec, Option.some.injEq] at hex
    subst hex
    obtain ⟨h1, h2, h3, h4⟩ := OS_MutSemDelete_frame s id1 status
    simp only [queueView, h1, h2, h3, h4]
    exact ho

theorem run_owns_Queue (cfg : Config) (cs : List Call) (s s1 : OSState) (id : Nat) (n : CStr)
    (ho : Owns (queueView s) id n) (hrun : run cfg s cs = some s1)
    (hkeep : ∀ pid close_ret unlink_ret, Call.QueueDelete pid id close_ret unlink_ret ∈ cs →
      close_ret = -1 ∨ unlink_ret = -1) : Owns (queueView s1) id n := by
  induction cs generalizing s with
  | nil =>
    simp only [run, Option.some.injEq] at hrun
    subst hrun
    exact ho
  | cons c cs ih =>
    simp only [run] at hrun
    cases hex : exec cfg s c with
    | none => rw [hex] at hrun; cases hrun
    | some s2 =>
      rw [hex] at hrun
      refine ih s2 (exec_owns_Queue cfg s s2 c id n ho hex ?_) hrun ?_
      · intro pid close_ret unlink_ret hc
        exact hkeep pid close_ret unlink_ret (by rw [hc]; exact List.mem_cons_self _ _)
      · intro pid close_ret unlink_ret hc
        exact hkeep pid close_ret unlink_ret (List.mem_cons_of_mem _ hc)

theorem exec_revive_Queue (cfg : Config) (s s1 : OSState) (c : Call) (id : Nat)
    (hinv : ¬ validId (queueView s) id) (hex : exec cfg s c = some s1)
    (hval : validId (queueView s1) id) :
    ∃ self pid queueDesc queue_id queue_name depth size, c = Call.QueueCreate self pid queueDesc queue_id queue_name depth size ∧
      (OS_QueueCreate cfg s self pid queueDesc queue_id queue_name depth size).ret = OS_SUCCESS ∧
      (OS_QueueCreate cfg s self pid queueDesc queue_id queue_name depth size).out = some id := by
  cases c with
  | TaskCreate self h task_id task_name fp stack_size priority =>
    simp only [exec, Option.map_eq_some'] at hex
    rcases hex with ⟨r, hr, rfl⟩
    obtain ⟨h1, h2, h3, h4⟩ := OS_TaskCreate_frame cfg s self h task_id task_name fp stack_size priority r hr
    simp only [queueView, h1, h2, h3, h4] at hval
    exact absurd hval hinv
  | TaskDelete id1 ret =>
    simp only [exec, Option.some.injEq] at hex
    subst hex
    obtain ⟨h1, h2, h3, h4⟩ := OS_TaskDelete_frame s id1 ret
    simp only [queueView, h1, h2, h3, h4] at hval
    exact absurd hval hinv
  | QueueCreate self pid queueDesc queue_id queue_name depth size =>
    simp only [exec, Option.some.injEq] at hex
    subst hex
    have hcs := validId_of_createStep (OS_QueueCreate_step cfg s self pid queueDesc queue_id queue_name depth size) id hval hinv
    exact ⟨self, pid, queueDesc, queue_id, queue_name, depth, size, rfl, hcs.1, hcs.2⟩
  | QueueDelete pid id1 close_ret unlink_ret =>
    simp only [exec, Option.map_eq_some'] at hex
    rcases hex with ⟨r, hr, rfl⟩
    exact absurd (validId_of_deleteStep (OS_QueueDelete_step cfg s pid id1 close_ret unlink_ret r hr) id hval) hinv
  | BinSemCreate self sem_id sem_name init Status =>
    simp only [exec, Option.some.injEq] at hex
    subst hex
    obtain ⟨h1, h2, h3, h4⟩ := OS_BinSemCreate_frame cfg s self sem_id sem_name init Status
    simp only [queueView, h1, h2, h3, h4] at hval
    exact absurd hval hinv
  | BinSemDelete id1 ret =>
    simp only [exec, Option.some.injEq] at hex
    subst hex
    obtain ⟨h1, h2, h3, h4⟩ := OS_BinSemDelete_frame s id1 ret
    simp only [queueView, h1, h2, h3, h4] at hval
    exact absurd hval hinv
  | CountSemCreate self sem_id sem_name init Status =>
    simp only [exec, Option.some.injEq] at hex
    subst hex
    obtain ⟨h1, h2, h3, h4⟩ := OS_CountSemCreate_frame cfg s self sem_id sem_name init Status
    simp only [queueView, h1, h2, h3, h4] at hval
    exact absurd hval hinv
  | CountSemDelete id1 ret =>
    simp only [exec, Option.some.injEq] at hex
    subst hex
    obtain ⟨h1, h2, h3, h4⟩ := OS_CountSemDelete_frame s id1 ret
    simp only [queueView, h1, h2, h3, h4] at hval
    exact absurd hval hinv
  | MutSemCreate self sem_id sem_name attr_init mutex_init =>
    simp only [exec, Option.some.injEq] at hex
    subst hex
    obtain ⟨h1, h2, h3, h4⟩ := OS_MutSemCreate_frame cfg s self sem_id sem_name attr_init mutex_init
    simp only [queueView, h1, h2, h3, h4] at hval
    exact absurd hval hinv
  | MutSemDelete id1 status =>
    simp only [exec, Option.some.injEq] at hex
    subst hex
    obtain ⟨h1, h2, h3, h4⟩ := OS_MutSemDelete_frame s id1 status
    simp only [queueView, h1, h2, h3, h4] at hval
    exact absurd hval hinv

theorem exec_owns_BinSem (cfg : Config) (s s1 : OSState) (c : Call) (id : Nat) (n : CStr)
    (ho : Owns (binSemView s) id n) (hex : exec cfg s c = some s1)
    (hkeep : ∀ ret, c = Call.BinSemDelete id ret → ret ≠ 0) : Owns (binSemView s1) id n := by
  cases c with
  | TaskCreate self h task_id task_name fp stack_size priority =>
    simp only [exec, Option.map_eq_some'] at hex
    rcases hex with ⟨r, hr, rfl⟩
    obtain ⟨h1, h2, h3, h4⟩ := OS_TaskCreate_frame cfg s self h task_id task_name fp stack_size priority r hr
    simp only [binSemView, h1, h2, h3, h4]
    exact ho
  | TaskDelete id1 ret =>
    simp only [exec, Option.some.injEq] at hex
    subst hex
    obtain ⟨h1, h2, h3, h4⟩ := OS_TaskDelete_frame s id1 ret
    simp only [binSemView, h1, h2, h3, h4]
    exact ho
  | QueueCreate self pid queueDesc queue_id queue_name depth size =>
    simp only [exec, Option.some.injEq] at hex
    subst hex
    obtain ⟨h1, h2, h3, h4⟩ := OS_QueueCreate_frame cfg s self pid queueDesc queue_id queue_name depth size
    simp only [binSemView, h1, h2, h3, h4]
    exact ho
  | QueueDelete pid id1 close_ret unlink_ret =>
    simp only [exec, Option.map_eq_some'] at hex
    rcases hex with ⟨r, hr, rfl⟩
    obtain ⟨h1, h2, h3, h4⟩ := OS_QueueDelete_frame cfg s pid id1 close_ret unlink_ret r hr
    simp only [binSemView, h1, h2, h3, h4]
    exact ho
  | BinSemCreate self sem_id sem_name init Status =>
    simp only [exec, Option.some.injEq] at hex
    subst hex
    exact owns_createStep (OS_BinSemCreate_step cfg s self sem_id sem_name init Status) id n ho
  | BinSemDelete id1 ret =>
    simp only [exec, Option.some.injEq] at hex
    subst hex
    exact owns_deleteStep (OS_BinSemDelete_step s id1 ret) id n ho (fun hid =>
      (OS_BinSemDelete_outcome s id1 ret).ne_success (hkeep _ (by rw [hid])) (by decide))
  | CountSemCreate self sem_id sem_name init Status =>
    simp only [exec, Option.some.injEq] at hex
    subst hex
    obtain ⟨h1, h2, h3, h4⟩ := OS_CountSemCreate_frame cfg s self sem_id sem_name init Status
    simp only [binSemView, h1, h2, h3, h4]
    exact ho
  | CountSemDelete id1 ret =>
    simp only [exec, Option.some.injEq] at hex
    subst hex
    obtain ⟨h1, h2, h3, h4⟩ := OS_CountSemDelete_frame s id1 ret
    simp only [binSemView, h1, h2, h3, h4]
    exact ho
  | MutSemCreate self sem_id sem_name attr_init mutex_init =>
    simp only [exec, Option.some.injEq] at hex
    subst hex
    obtain ⟨h1, h2, h3, h4⟩ := OS_MutSemCreate_frame cfg s self sem_id sem_name attr_init mutex_init
    simp only [binSemView, h1, h2, h3, h4]
    exact ho
  | MutSemDelete id1 status =>
    simp only [exec, Option.some.injEq] at hex
    subst hex
    obtain ⟨h1, h2, h3, h4⟩ := OS_MutSemDelete_frame s id1 status
    simp only [binSemView, h1, h2, h3, h4]
    exact ho

theorem run_owns_BinSem (cfg : Config) (cs : List Call) (s s1 : OSState) (id : Nat) (n : CStr)
    (ho : Owns (binSemView s) id n) (hrun : run cfg s cs = some s1)
    (hkeep : ∀ ret, Call.BinSemDelete id ret ∈ cs → ret ≠ 0) : Owns (binSemView s1) id n := by
  induction cs generalizing s with
  | nil =>
    simp only [run, Option.some.injEq] at hrun
    subst hrun
    exact ho
  | cons c cs ih =>
    simp only [run] at hrun
    cases hex : exec cfg s c with
    | none => rw [hex] at hrun; cases hrun
    | some s2 =>
      rw [hex] at hrun
      refine ih s2 (exec_owns_BinSem cfg s s2 c id n ho hex ?_) hrun ?_
      · intro ret hc
        exact hkeep ret (by rw [hc]; exact List.mem_cons_self _ _)
      · intro ret hc
        exact hkeep ret (List.mem_cons_of_mem _ hc)

theorem exec_revive_BinSem (cfg : Config) (s s1 : OSState) (c : Call) (id : Nat)
    (hinv : ¬ validId (binSemView s) id) (hex : exec cfg s c = some s1)
    (hval : validId (binSemView s1) id) :
    ∃ self sem_id sem_name init Status, c = Call.BinSemCreate self sem_id sem_name init Status ∧
      (OS_BinSemCreate cfg s self sem_id sem_name init Status).ret = OS_SUCCESS ∧
      (OS_BinSemCreate cfg s self sem_id sem_name init Status).out = some id := by
  cases c with
  | TaskCreate self h task_id task_name fp stack_size priority =>
    simp only [exec, Option.map_eq_some'] at hex
    rcases hex with ⟨r, hr, rfl⟩
    obtain ⟨h1, h2, h3, h4⟩ := OS_TaskCreate_frame cfg s self h task_id task_name fp stack_size priority r hr
    simp only [binSemView, h1, h2, h3, h4] at hval
    exact absurd hval hinv
  | TaskDelete id1 ret =>
    simp only [exec, Option.some.injEq] at hex
    subst hex
    obtain ⟨h1, h2, h3, h4⟩ := OS_TaskDelete_frame s id1 ret
    simp only [binSemView, h1, h2, h3, h4] at hval
    exact absurd hval hinv
  | QueueCreate self pid queueDesc queue_id queue_name depth size =>
    simp only [exec, Option.some.injEq] at hex
    subst hex
    obtain ⟨h1, h2, h3, h4⟩ := OS_QueueCreate_frame cfg s self pid queueDesc queue_id queue_name depth size
    simp only [binSemView, h1, h2, h3, h4] at hval
    exact absurd hval hinv
  | QueueDelete pid id1 close_ret unlink_ret =>
    simp only [exec, Option.map_eq_some'] at hex
    rcases hex with ⟨r, hr, rfl⟩
    obtain ⟨h1, h2, h3, h4⟩ := OS_QueueDelete_frame cfg s pid id1 close_ret unlink_ret r hr
    simp only [binSemView, h1, h2, h3, h4] at hval
    exact absurd hval hinv
  | BinSemCreate self sem_id sem_name init Status =>
    simp only [exec, Option.some.injEq] at hex
    subst hex
    have hcs := validId_of_createStep (OS_BinSemCreate_step cfg s self sem_id sem_name init Status) id hval hinv
    exact ⟨self, sem_id, sem_name, init, Status, rfl, hcs.1, hcs.2⟩
  | BinSemDelete id1 ret =>
    simp only [exec, Option.some.injEq] at hex
    subst hex
    exact absurd (validId_of_deleteStep (OS_BinSemDelete_step s id1 ret) id hval) hinv
  | CountSemCreate self sem_id sem_name init Status =>
    simp only [exec, Option.some.injEq] at hex
    subst hex
    obtain ⟨h1, h2, h3, h4⟩ := OS_CountSemCreate_frame cfg s self sem_id sem_name init Status
    simp only [binSemView, h1, h2, h3, h4] at hval
    exact absurd hval hinv
  | CountSemDelete id1 ret =>
    simp only [exec, Option.some.injEq] at hex
    subst hex
    obtain ⟨h1, h2, h3, h4⟩ := OS_CountSemDelete_frame s id1 ret
    simp only [binSemView, h1, h2, h3, h4] at hval
    exact absurd hval hinv
  | MutSemCreate self sem_id sem_name attr_init mutex_init =>
    simp only [exec, Option.some.injEq] at hex
    subst hex
    obtain ⟨h1, h2, h3, h4⟩ := OS_MutSemCreate_frame cfg s self sem_id sem_name attr_init mutex_init
    simp only [binSemView, h1, h2, h3, h4] at hval
    exact absurd hval hinv
  | MutSemDelete id1 status =>
    simp only [exec, Option.some.injEq] at hex
    subst hex
    obtain ⟨h1, h2, h3, h4⟩ := OS_MutSemDelete_frame s id1 status
    simp only [binSemView, h1, h2, h3, h4] at hval
    exact absurd hval hinv

theorem exec_owns_CountSem (cfg : Config) (s s1 : OSState) (c : Call) (id : Nat) (n : CStr)
    (ho : Owns (countSemView s) id n) (hex : exec cfg s c = some s1)
    (hkeep : ∀ ret, c = Call.CountSemDelete id ret → ret ≠ 0) : Owns (countSemView s1) id n := by
  cases c with
  | TaskCreate self h task_id task_name fp stack_size priority =>
    simp only [exec, Option.map_eq_some'] at hex
    rcases hex with ⟨r, hr, rfl⟩
    obtain ⟨h1, h2, h3, h4⟩ := OS_TaskCreate_frame cfg s self h task_id task_name fp stack_size priority r hr
    simp only [countSemView, h1, h2, h3, h4]
    exact ho
  | TaskDelete id1 ret =>
    simp only [exec, Option.some.injEq] at hex
    subst hex
    obtain ⟨h1, h2, h3, h4⟩ := OS_TaskDelete_frame s id1 ret
    simp only [countSemView, h1, h2, h3, h4]
    exact ho
  | QueueCreate self pid queueDesc queue_id queue_name depth size =>
    simp only [exec, Option.some.injEq] at hex
    subst hex
    obtain ⟨h1, h2, h3, h4⟩ := OS_QueueCreate_frame cfg s self pid queueDesc queue_id queue_name depth size
    simp only [countSemView, h1, h2, h3, h4]
    exact ho
  | QueueDelete pid id1 close_ret unlink_ret =>
    simp only [exec, Option.map_eq_some'] at hex
    rcases hex with ⟨r, hr, rfl⟩
    obtain ⟨h1, h2, h3, h4⟩ := OS_QueueDelete_frame cfg s pid id1 close_ret unlink_ret r hr
    simp only [countSemView, h1, h2, h3, h4]
    exact ho
  | BinSemCreate self sem_id sem_name init Status =>
    simp only [exec, Option.some.injEq] at hex
    subst hex
    obtain ⟨h1, h2, h3, h4⟩ := OS_BinSemCreate_frame cfg s self sem_id sem_name init Status
    simp only [countSemView, h1, h2, h3, h4]
    exact ho
  | BinSemDelete id1 ret =>
    simp only [exec, Option.some.injEq] at hex
    subst hex
    obtain ⟨h1, h2, h3, h4⟩ := OS_BinSemDelete_frame s id1 ret
    simp only [countSemView, h1, h2, h3, h4]
    exact ho
  | CountSemCreate self sem_id sem_name init Status =>
    simp only [exec, Option.some.injEq] at hex
    subst hex
    exact owns_createStep (OS_CountSemCreate_step cfg s self sem_id sem_name init Status) id n ho
  | CountSemDelete id1 ret =>
    simp only [exec, Option.some.injEq] at hex
    subst hex
    exact owns_deleteStep (OS_CountSemDelete_step s id1 ret) id n ho (fun hid =>
      (OS_CountSemDelete_outcome s id1 ret).ne_success (hkeep _ (by rw [hid])) (by decide))
  | MutSemCreate self sem_id sem_name attr_init mutex_init =>
    simp only [exec, Option.some.injEq] at hex
    subst hex
    obtain ⟨h1, h2, h3, h4⟩ := OS_MutSemCreate_frame cfg s self sem_id sem_name attr_init mutex_init
    simp only [countSemView, h1, h2, h3, h4]
    exact ho
  | MutSemDelete id1 status =>
    simp only [exec, Option.some.injEq] at hex
    subst hex
    obtain ⟨h1, h2, h3, h4⟩ := OS_MutSemDelete_frame s id1 status
    simp only [countSemView, h1, h2, h3, h4]
    exact ho

theorem run_owns_CountSem (cfg : Config) (cs : List Call) (s s1 : OSState) (id : Nat) (n : CStr)
    (ho : Owns (countSemView s) id n) (hrun : run cfg s cs = some s1)
    (hkeep : ∀ ret, Call.CountSemDelete id ret ∈ cs → ret ≠ 0) : Owns (countSemView s1) id n := by
  induction cs generalizing s with
  | nil =>
    simp only [run, Option.some.injEq] at hrun
    subst hrun
    exact ho
  | cons c cs ih =>
    simp only [run] at hrun
    cases hex : exec cfg s c with
    | none => rw [hex] at hrun; cases hrun
    | some s2 =>
      rw [hex] at hrun
      refine ih s2 (exec_owns_CountSem cfg s s2 c id n ho hex ?_) hrun ?_
      · intro ret hc
        exact hkeep ret (by rw [hc]; exact List.mem_cons_self _ _)
      · intro ret hc
        exact hkeep ret (List.mem_cons_of_mem _ hc)

theorem exec_revive_CountSem (cfg : Config) (s s1 : OSState) (c : Call) (id : Nat)
    (hinv : ¬ validId (countSemView s) id) (hex : exec cfg s c = some s1)
    (hval : validId (countSemView s1) id) :
    ∃ self sem_id sem_name init Status, c = Call.CountSemCreate self sem_id sem_name init Status ∧
      (OS_CountSemCreate cfg s self sem_id sem_name init Status).ret = OS_SUCCESS ∧
      (OS_CountSemCreate cfg s self sem_id sem_name init Status).out = some id := by
  cases c with
  | TaskCreate self h task_id task_name fp stack_size priority =>
    simp only [exec, Option.map_eq_some'] at hex
    rcases hex with ⟨r, hr, rfl⟩
    obtain ⟨h1, h2, h3, h4⟩ := OS_TaskCreate_frame cfg s self h task_id task_name fp stack_size priority r hr
    simp only [countSemView, h1, h2, h3, h4] at hval
    exact absurd hval hinv
  | TaskDelete id1 ret =>
    simp only [exec, Option.some.injEq] at hex
    subst hex
    obtain ⟨h1, h2, h3, h4⟩ := OS_TaskDelete_frame s id1 ret
    simp only [countSemView, h1, h2, h3, h4] at hval
    exact absurd hval hinv
  | QueueCreate self pid queueDesc queue_id queue_name depth size =>
    simp only [exec, Option.some.injEq] at hex
    subst hex
    obtain ⟨h1, h2, h3, h4⟩ := OS_QueueCreate_frame cfg s self pid queueDesc queue_id queue_name depth size
    simp only [countSemView, h1, h2, h3, h4] at hval
    exact absurd hval hinv
  | QueueDelete pid id1 close_ret unlink_ret =>
    simp only [exec, Option.map_eq_some'] at hex
    rcases hex with ⟨r, hr, rfl⟩
    obtain ⟨h1, h2, h3, h4⟩ := OS_QueueDelete_frame cfg s pid id1 close_ret unlink_ret r hr
    simp only [countSemView, h1, h2, h3, h4] at hval
    exact absurd hval hinv
  | BinSemCreate self sem_id sem_name init Status =>
    simp only [exec, Option.some.injEq] at hex
    subst hex
    obtain ⟨h1, h2, h3, h4⟩ := OS_BinSemCreate_frame cfg s self sem_id sem_name init Status
    simp only [countSemView, h1, h2, h3, h4] at hval
    exact absurd hval hinv
  | BinSemDelete id1 ret =>
    simp only [exec, Option.some.injEq] at hex
    subst hex
    obtain ⟨h1, h2, h3, h4⟩ := OS_BinSemDelete_frame s id1 ret
    simp only [countSemView, h1, h2, h3, h4] at hval
    exact absurd hval hinv
  | CountSemCreate self sem_id sem_name init Status =>
    simp only [exec, Option.some.injEq] at hex
    subst hex
    have hcs := validId_of_createStep (OS_CountSemCreate_step cfg s self sem_id sem_name init Status) id hval hinv
    exact ⟨self, sem_id, sem_name, init, Status, rfl, hcs.1, hcs.2⟩
  | CountSemDelete id1 ret =>
    simp only [exec, Option.some.injEq] at hex
    subst hex
    exact absurd (validId_of_deleteStep (OS_CountSemDelete_step s id1 ret) id hval) hinv
  | MutSemCreate self sem_id sem_name attr_init mutex_init =>
    simp only [exec, Option.some.injEq] at hex
    subst hex
    obtain ⟨h1, h2, h3, h4⟩ := OS_MutSemCreate_frame cfg s self sem_id sem_name attr_init mutex_init
    simp only [countSemView, h1, h2, h3, h4] at hval
    exact absurd hval hinv
  | MutSemDelete id1 status =>
    simp only [exec, Option.some.injEq] at hex
    subst hex
    obtain ⟨h1, h2, h3, h4⟩ := OS_MutSemDelete_frame s id1 status
    simp only [countSemView, h1, h2, h3, h4] at hval
    exact absurd hval hinv

theorem exec_owns_MutSem (cfg : Config) (s s1 : OSState) (c : Call) (id : Nat) (n : CStr)
    (ho : Owns (mutSemView s) id n) (hex : exec cfg s c = some s1)
    (hkeep : ∀ status, c = Call.MutSemDelete id status → status ≠ 0) : Owns (mutSemView s1) id n := by
  cases c with
  | TaskCreate self h task_id task_name fp stack_size priority =>
    simp only [exec, Option.map_eq_some'] at hex
    rcases hex with ⟨r, hr, rfl⟩
    obtain ⟨h1, h2, h3, h4⟩ := OS_TaskCreate_frame cfg s self h task_id task_name fp stack_size priority r hr
    simp only [mutSemView, h1, h2, h3, h4]
    exact ho
  | TaskDelete id1 ret =>
    simp only [exec, Option.some.injEq] at hex
    subst hex
    obtain ⟨h1, h2, h3, h4⟩ := OS_TaskDelete_frame s id1 ret
    simp only [mutSemView, h1, h2, h3, h4]
    exact ho
  | QueueCreate self pid queueDesc queue_id queue_name depth size =>
    simp only [exec, Option.some.injEq] at hex
    subst hex
    obtain ⟨h1, h2, h3, h4⟩ := OS_QueueCreate_frame cfg s self pid queueDesc queue_id queue_name depth size
    simp only [mutSemView, h1, h2, h3, h4]
    exact ho
  | QueueDelete pid id1 close_ret unlink_ret =>
    simp only [exec, Option.map_eq_some'] at hex
    rcases hex with ⟨r, hr, rfl⟩
    obtain ⟨h1, h2, h3, h4⟩ := OS_QueueDelete_frame cfg s pid id1 close_ret unlink_ret r hr
    simp only [mutSemView, h1, h2, h3, h4]
    exact ho
  | BinSemCreate self sem_id sem_name init Status =>
    simp only [exec, Option.some.injEq] at hex
    subst hex
    obtain ⟨h1, h2, h3, h4⟩ := OS_BinSemCreate_frame cfg s self sem_id sem_name init Status
    simp only [mutSemView, h1, h2, h3, h4]
    exact ho
  | BinSemDelete id1 ret =>
    simp only [exec, Option.some.injEq] at hex
    subst hex
    obtain ⟨h1, h2, h3, h4⟩ := OS_BinSemDelete_frame s id1 ret
    simp only [mutSemView, h1, h2, h3, h4]
    exact ho
  | CountSemCreate self sem_id sem_name init Status =>
    simp only [exec, Option.some.injEq] at hex
    subst hex
    obtain ⟨h1, h2, h3, h4⟩ := OS_CountSemCreate_frame cfg s self sem_id sem_name init Status
    simp only [mutSemView, h1, h2, h3, h4]
    exact ho
  | CountSemDelete id1 ret =>
    simp only [exec, Option.some.injEq] at hex
    subst hex
    obtain ⟨h1, h2, h3, h4⟩ := OS_CountSemDelete_frame s id1 ret
    simp only [mutSemView, h1, h2, h3, h4]
    exact ho
  | MutSemCreate self sem_id sem_name attr_init mutex_init =>
    simp only [exec, Option.some.injEq] at hex
    subst hex
    exact owns_createStep (OS_MutSemCreate_step cfg s self sem_id sem_name attr_init mutex_init) id n ho
  | MutSemDelete id1 status =>
    simp only [exec, Option.some.injEq] at hex
    subst hex
    exact owns_deleteStep (OS_MutSemDelete_step s id1 status) id n ho (fun hid =>
      (OS_MutSemDelete_outcome s id1 status).ne_success (hkeep _ (by rw [hid])) (by decide))

theorem run_owns_MutSem (cfg : Config) (cs : List Call) (s s1 : OSState) (id : Nat) (n : CStr)
    (ho : Owns (mutSemView s) id n) (hrun : run cfg s cs = some s1)
    (hkeep : ∀ status, Call.MutSemDelete id status ∈ cs → status ≠ 0) : Owns (mutSemView s1) id n := by
  induction cs generalizing s with
  | nil =>
    simp only [run, Option.some.injEq] at hrun
    subst hrun
    exact ho
  | cons c cs ih =>
    simp only [run] at hrun
    cases hex : exec cfg s c with
    | none => rw [hex] at hrun; cases hrun
    | some s2 =>
      rw [hex] at hrun
      refine ih s2 (exec_owns_MutSem cfg s s2 c id n ho hex ?_) hrun ?_
      · intro status hc
        exact hkeep status (by rw [hc]; exact List.mem_cons_self _ _)
      · intro status hc
        exact hkeep status (List.mem_cons_of_mem _ hc)

theorem exec_revive_MutSem (cfg : Config) (s s1 : OSState) (c : Call) (id : Nat)
    (hinv : ¬ validId (mutSemView s) id) (hex : exec cfg s c = some s1)
    (hval : validId (mutSemView s1) id) :
    ∃ self sem_id sem_name attr_init mutex_init, c = Call.MutSemCreate self sem_id sem_name attr_init mutex_init ∧
      (OS_MutSemCreate cfg s self sem_id sem_name attr_init mutex_init).ret = OS_SUCCESS ∧
      (OS_MutSemCreate cfg s self sem_id sem_name attr_init mutex_init).out = some id := by
  cases c with
  | TaskCreate self h task_id task_name fp stack_size priority =>
    simp only [exec, Option.map_eq_some'] at hex
    rcases hex with ⟨r, hr, rfl⟩
    obtain ⟨h1, h2, h3, h4⟩ := OS_TaskCreate_frame cfg s self h task_id task_name fp stack_size priority r hr
    simp only [mutSemView, h1, h2, h3, h4] at hval
    exact absurd hval hinv
  | TaskDelete id1 ret =>
    simp only [exec, Option.some.injEq] at hex
    subst hex
    obtain ⟨h1, h2, h3, h4⟩ := OS_TaskDelete_frame s id1 ret
    simp only [mutSemView, h1, h2, h3, h4] at hval
    exact absurd hval hinv
  | QueueCreate self pid queueDesc queue_id queue_name depth size =>
    simp only [exec, Option.some.injEq] at hex
    subst hex
    obtain ⟨h1, h2, h3, h4⟩ := OS_QueueCreate_frame cfg s self pid queueDesc queue_id queue_name depth size
    simp only [mutSemView, h1, h2, h3, h4] at hval
    exact absurd hval hinv
  | QueueDelete pid id1 close_ret unlink_ret =>
    simp only [exec, Option.map_eq_some'] at hex
    rcases hex with ⟨r, hr, rfl⟩
    obtain ⟨h1, h2, h3, h4⟩ := OS_QueueDelete_frame cfg s pid id1 close_ret unlink_ret r hr
    simp only [mutSemView, h1, h2, h3, h4] at hval
    exact absurd hval hinv
  | BinSemCreate self sem_id sem_name init Status =>
    simp only [exec, Option.some.injEq] at hex
    subst hex
    obtain ⟨h1, h2, h3, h4⟩ := OS_BinSemCreate_frame cfg s self sem_id sem_name init Status
    simp only [mutSemView, h1, h2, h3, h4] at hval
    exact absurd hval hinv
  | BinSemDelete id1 ret =>
    simp only [exec, Option.some.injEq] at hex
    subst hex
    obtain ⟨h1, h2, h3, h4⟩ := OS_BinSemDelete_frame s id1 ret
    simp only [mutSemView, h1, h2, h3, h4] at hval
    exact absurd hval hinv
  | CountSemCreate self sem_id sem_name init Status =>
    simp only [exec, Option.some.injEq] at hex
    subst hex
    obtain ⟨h1, h2, h3, h4⟩ := OS_CountSemCreate_frame cfg s self sem_id sem_name init Status
    simp only [mutSemView, h1, h2, h3, h4] at hval
    exact absurd hval hinv
  | CountSemDelete id1 ret =>
    simp only [exec, Option.some.injEq] at hex
    subst hex
    obtain ⟨h1, h2, h3, h4⟩ := OS_CountSemDelete_frame s id1 ret
    simp only [mutSemView, h1, h2, h3, h4] at hval
    exact absurd hval hinv
  | MutSemCreate self sem_id sem_name attr_init mutex_init =>
    simp only [exec, Option.some.injEq] at hex
    subst hex
    have hcs := validId_of_createStep (OS_MutSemCreate_step cfg s self sem_id sem_name attr_init mutex_init) id hval hinv
    exact ⟨self, sem_id, sem_name, attr_init, mutex_init, rfl, hcs.1, hcs.2⟩
  | MutSemDelete id1 status =>
    simp only [exec, Option.some.injEq] at hex
    subst hex
    exact absurd (validId_of_deleteStep (OS_MutSemDelete_step s id1 status) id hval) hinv

/-! ## C2: after Delete -/

/-- C2: for each object kind, (1) if Create returned `OS_SUCCESS` with `id` for the name
`n`, any sequence of Create and Delete calls of any kind followed in which no Delete of
that `id` was let through by the host, and Delete of `id` then returns `OS_SUCCESS`, then
GetIdByName of `n` returns `OS_ERR_NAME_NOT_FOUND`, `id` is not valid any more and every
id-taking operation of the kind on `id` (Delete, GetInfo, SetPriority, Get, Put, Give,
Take, TimedWait, Flush) returns `OS_ERR_INVALID_ID`; and (2) in every state where `id`
is not valid these operations return `OS_ERR_INVALID_ID`, and `id` stays invalid after
any Create or Delete call except a Create of the kind that returns `OS_SUCCESS` with
that `id` (the slot is reused). `OS_QueueGetInfo` tests its pointer before the id and is
taken with a non-null pointer. `OS_QueueDelete` returns only when the host name
`"/<pid>.<name>"` fits its array `name[OS_MAX_API_NAME+1]`; the queue part is about the
Delete calls that return. -/
theorem C2_deleted_id_is_invalid_until_reused (cfg : Config) :
    ((∀ s self h task_id task_name fp stack_size priority r id,
        OS_TaskCreate cfg s self h task_id task_name fp stack_size priority = some r →
        r.ret = OS_SUCCESS → r.out = some id →
        ∀ cs s2, run cfg r.st cs = some s2 →
        (∀ ret, Call.TaskDelete id ret ∈ cs → ret ≠ 0) →
        ∀ ret, (OS_TaskDelete s2 id ret).ret = OS_SUCCESS →
          (∀ v, (OS_TaskGetIdByName cfg (OS_TaskDelete s2 id ret).st (some v) task_name).ret
            = OS_ERR_NAME_NOT_FOUND) ∧
          invalidId OS_task_record_t.free (OS_TaskDelete s2 id ret).st.OS_task_table id ∧
          TaskOpsRejected (OS_TaskDelete s2 id ret).st id) ∧
      (∀ s id, invalidId OS_task_record_t.free s.OS_task_table id →
        TaskOpsRejected s id ∧
        ∀ c s1, exec cfg s c = some s1 →
          invalidId OS_task_record_t.free s1.OS_task_table id ∨
          ∃ self h task_id task_name fp stack_size priority r, c = Call.TaskCreate self h task_id task_name fp stack_size priority ∧
            OS_TaskCreate cfg s self h task_id task_name fp stack_size priority = some r ∧ r.ret = OS_SUCCESS ∧ r.out = some id)) ∧
    ((∀ s self pid queueDesc queue_id queue_name depth size r id,
        OS_QueueCreate cfg s self pid queueDesc queue_id queue_name depth size = r →
        r.ret = OS_SUCCESS → r.out = some id →
        ∀ cs s2, run cfg r.st cs = some s2 →
        (∀ pid close_ret unlink_ret, Call.QueueDelete pid id close_ret unlink_ret ∈ cs →
          close_ret = -1 ∨ unlink_ret = -1) →
        ∀ pid0 close_ret unlink_ret rd,
          OS_QueueDelete cfg s2 pid0 id close_ret unlink_ret = some rd → rd.ret = OS_SUCCESS →
          (∀ v, (OS_QueueGetIdByName cfg rd.st (some v) queue_name).ret
            = OS_ERR_NAME_NOT_FOUND) ∧
          invalidId OS_queue_record_t.free rd.st.OS_queue_table id ∧
          QueueOpsRejected rd.st id) ∧
      (∀ s id, invalidId OS_queue_record_t.free s.OS_queue_table id →
        QueueOpsRejected s id ∧
        ∀ c s1, exec cfg s c = some s1 →
          invalidId OS_queue_record_t.free s1.OS_queue_table id ∨
          ∃ self pid queueDesc queue_id queue_name depth size, c = Call.QueueCreate self pid queueDesc queue_id queue_name depth size ∧
            (OS_QueueCreate cfg s self pid queueDesc queue_id queue_name depth size).ret = OS_SUCCESS ∧
            (OS_QueueCreate cfg s self pid queueDesc queue_id queue_name depth size).out = some id)) ∧
    ((∀ s self sem_id sem_name init Status r id,
        OS_BinSemCreate cfg s self sem_id sem_name init Status = r →
        r.ret = OS_SUCCESS → r.out = some id →
        ∀ cs s2, run cfg r.st cs = some s2 →
        (∀ ret, Call.BinSemDelete id ret ∈ cs → ret ≠ 0) →
        ∀ ret, (OS_BinSemDelete s2 id ret).ret = OS_SUCCESS →
          (∀ v, (OS_BinSemGetIdByName cfg (OS_BinSemDelete s2 id ret).st (some v) sem_name).ret
            = OS_ERR_NAME_NOT_FOUND) ∧
          invalidId OS_bin_sem_record_t.free (OS_BinSemDelete s2 id ret).st.OS_bin_sem_table id ∧
          BinSemOpsRejected (OS_BinSemDelete s2 id ret).st id) ∧
      (∀ s id, invalidId OS_bin_sem_record_t.free s.OS_bin_sem_table id →
        BinSemOpsRejected s id ∧
        ∀ c s1, exec cfg s c = some s1 →
          invalidId OS_bin_sem_record_t.free s1.OS_bin_sem_table id ∨
          ∃ self sem_id sem_name init Status, c = Call.BinSemCreate self sem_id sem_name init Status ∧
            (OS_BinSemCreate cfg s self sem_id sem_name init Status).ret = OS_SUCCESS ∧
            (OS_BinSemCreate cfg s self sem_id sem_name init Status).out = some id)) ∧
    ((∀ s self sem_id sem_name init Status r id,
        OS_CountSemCreate cfg s self sem_id sem_name init Status = r →
        r.ret = OS_SUCCESS → r.out = some id →
        ∀ cs s2, run cfg r.st cs = some s2 →
        (∀ ret, Call.CountSemDelete id ret ∈ cs → ret ≠ 0) →
        ∀ ret, (OS_CountSemDelete s2 id ret).ret = OS_SUCCESS →
          (∀ v, (OS_CountSemGetIdByName cfg (OS_CountSemDelete s2 id ret).st (some v) sem_name).ret
            = OS_ERR_NAME_NOT_FOUND) ∧
          invalidId OS_count_sem_record_t.free (OS_CountSemDelete s2 id ret).st.OS_count_sem_table id ∧
          CountSemOpsRejected (OS_CountSemDelete s2 id ret).st id) ∧
      (∀ s id, invalidId OS_count_sem_record_t.free s.OS_count_sem_table id →
        CountSemOpsRejected s id ∧
        ∀ c s1, exec cfg s c = some s1 →
          invalidId OS_count_sem_record_t.free s1.OS_count_sem_table id ∨
          ∃ self sem_id sem_name init Status, c = Call.CountSemCreate self sem_id sem_name init Status ∧
            (OS_CountSemCreate cfg s self sem_id sem_name init Status).ret = OS_SUCCESS ∧
            (OS_CountSemCreate cfg s self sem_id sem_name init Status).out = some id)) ∧
    ((∀ s self sem_id sem_name attr_init mutex_init r id,
        OS_MutSemCreate cfg s self sem_id sem_name attr_init mutex_init = r →
        r.ret = OS_SUCCESS → r.out = some id →
        ∀ cs s2, run cfg r.st cs = some s2 →
        (∀ status, Call.MutSemDelete id status ∈ cs → status ≠ 0) →
        ∀ status, (OS_MutSemDelete s2 id status).ret = OS_SUCCESS →
          (∀ v, (OS_MutSemGetIdByName cfg (OS_MutSemDelete s2 id status).st (some v) sem_name).ret
            = OS_ERR_NAME_NOT_FOUND) ∧
          invalidId OS_mut_sem_record_t.free (OS_MutSemDelete s2 id status).st.OS_mut_sem_table id ∧
          MutSemOpsRejected (OS_MutSemDelete s2 id status).st id) ∧
      (∀ s id, invalidId OS_mut_sem_record_t.free s.OS_mut_sem_table id →
        MutSemOpsRejected s id ∧
        ∀ c s1, exec cfg s c = some s1 →
          invalidId OS_mut_sem_record_t.free s1.OS_mut_sem_table id ∨
          ∃ self sem_id sem_name attr_init mutex_init, c = Call.MutSemCreate self sem_id sem_name attr_init mutex_init ∧
            (OS_MutSemCreate cfg s self sem_id sem_name attr_init mutex_init).ret = OS_SUCCESS ∧
            (OS_MutSemCreate cfg s self sem_id sem_name attr_init mutex_init).out = some id)) := by
  refine ⟨?_, ?_, ?_, ?_, ?_⟩
  · constructor
    · intro s self h task_id task_name fp stack_size priority r id hr hret hout cs s2 hrun hkeep ret hdel
      have hstep := OS_TaskCreate_step cfg s self h task_id task_name fp stack_size priority r hr
      rcases hstep.lookup hret with ⟨n, _, hn, _, _⟩
      subst hn
      have hlen := OS_TaskCreate_success_len cfg s self h task_id n fp stack_size priority r hr hret
      have ho := owns_after_create hstep hret n rfl id hout
      have ho2 := run_owns_Task cfg cs _ s2 id n ho hrun hkeep
      have hds := OS_TaskDelete_step s2 id ret
      have hnl := not_nameLive_after_delete hds hdel n ho2
      have hinv := (invalidId_iff_not_validId OS_task_record_t.free OS_task_record_t.name _ id).mpr
        (not_validId_after_delete hds hdel)
      refine ⟨fun v => ?_, hinv, TaskOps_rejected _ id hinv⟩
      have hl := OS_TaskGetIdByName_lookup cfg (OS_TaskDelete s2 id ret).st v n hlen
      rw [lookupResult_not_found _ n v hnl] at hl
      exact (Prod.mk.inj hl).1
    · intro s id hinv
      refine ⟨TaskOps_rejected s id hinv, fun c s1 hex => ?_⟩
      by_cases hi1 : invalidId OS_task_record_t.free s1.OS_task_table id
      · exact Or.inl hi1
      · right
        have hnv := (invalidId_iff_not_validId OS_task_record_t.free OS_task_record_t.name _ id).mp hinv
        have hv1 : validId (taskView s1) id := by
          by_contra hcon
          exact hi1 ((invalidId_iff_not_validId OS_task_record_t.free OS_task_record_t.name _ id).mpr hcon)
        exact exec_revive_Task cfg s s1 c id hnv hex hv1
  · constructor
    · intro s self pid queueDesc queue_id queue_name depth size r id hr hret hout cs s2 hrun hkeep pid0 close_ret unlink_ret rd hrd hdel
      subst hr
      have hstep := OS_QueueCreate_step cfg s self pid queueDesc queue_id queue_name depth size
      rcases hstep.lookup hret with ⟨n, _, hn, _, _⟩
      subst hn
      have hlen := OS_QueueCreate_success_len cfg s self pid queueDesc queue_id depth size n hret
      have ho := owns_after_create hstep hret n rfl id hout
      have ho2 := run_owns_Queue cfg cs _ s2 id n ho hrun hkeep
      have hds := OS_QueueDelete_step cfg s2 pid0 id close_ret unlink_ret rd hrd
      have hnl := not_nameLive_after_delete hds hdel n ho2
      have hinv := (invalidId_iff_not_validId OS_queue_record_t.free OS_queue_record_t.name _ id).mpr
        (not_validId_after_delete hds hdel)
      refine ⟨fun v => ?_, hinv, QueueOps_rejected _ id hinv⟩
      have hl := OS_QueueGetIdByName_lookup cfg rd.st v n hlen
      rw [lookupResult_not_found _ n v hnl] at hl
      exact (Prod.mk.inj hl).1
    · intro s id hinv
      refine ⟨QueueOps_rejected s id hinv, fun c s1 hex => ?_⟩
      by_cases hi1 : invalidId OS_queue_record_t.free s1.OS_queue_table id
      · exact Or.inl hi1
      · right
        have hnv := (invalidId_iff_not_validId OS_queue_record_t.free OS_queue_record_t.name _ id).mp hinv
        have hv1 : validId (queueView s1) id := by
          by_contra hcon
          exact hi1 ((invalidId_iff_not_validId OS_queue_record_t.free OS_queue_record_t.name _ id).mpr hcon)
        exact exec_revive_Queue cfg s s1 c id hnv hex hv1
  · constructor
    · intro s self sem_id sem_name init Status r id hr hret hout cs s2 hrun hkeep ret hdel
      subst hr
      have hstep := OS_BinSemCreate_step cfg s self sem_id sem_name init Status
      rcases hstep.lookup hret with ⟨n, _, hn, _, _⟩
      subst hn
      have hlen := OS_BinSemCreate_success_len cfg s self sem_id init Status n hret
      have ho := owns_after_create hstep hret n rfl id hout
      have ho2 := run_owns_BinSem cfg cs _ s2 id n ho hrun hkeep
      have hds := OS_BinSemDelete_step s2 id ret
      have hnl := not_nameLive_after_delete hds hdel n ho2
      have hinv := (invalidId_iff_not_validId OS_bin_sem_record_t.free OS_bin_sem_record_t.name _ id).mpr
        (not_validId_after_delete hds hdel)
      refine ⟨fun v => ?_, hinv, BinSemOps_rejected _ id hinv⟩
      have hl := OS_BinSemGetIdByName_lookup cfg (OS_BinSemDelete s2 id ret).st v n hlen
      rw [lookupResult_not_found _ n v hnl] at hl
      exact (Prod.mk.inj hl).1
    · intro s id hinv
      refine ⟨BinSemOps_rejected s id hinv, fun c s1 hex => ?_⟩
      by_cases hi1 : invalidId OS_bin_sem_record_t.free s1.OS_bin_sem_table id
      · exact Or.inl hi1
      · right
        have hnv := (invalidId_iff_not_validId OS_bin_sem_record_t.free OS_bin_sem_record_t.name _ id).mp hinv
        have hv1 : validId (binSemView s1) id := by
          by_contra hcon
          exact hi1 ((invalidId_iff_not_validId OS_bin_sem_record_t.free OS_bin_sem_record_t.name _ id).mpr hcon)
        exact exec_revive_BinSem cfg s s1 c id hnv hex hv1
  · constructor
    · intro s self sem_id sem_name init Status r id hr hret hout cs s2 hrun hkeep ret hdel
      subst hr
      have hstep := OS_CountSemCreate_step cfg s self sem_id sem_name init Status
      rcases hstep.lookup hret with ⟨n, _, hn, _, _⟩
      subst hn
      have hlen := OS_CountSemCreate_success_len cfg s self sem_id init Status n hret
      have ho := owns_after_create hstep hret n rfl id hout
      have ho2 := run_owns_CountSem cfg cs _ s2 id n ho hrun hkeep
      have hds := OS_CountSemDelete_step s2 id ret
      have hnl := not_nameLive_after_delete hds hdel n ho2
      have hinv := (invalidId_iff_not_validId OS_count_sem_record_t.free OS_count_sem_record_t.name _ id).mpr
        (not_validId_after_delete hds hdel)
      refine ⟨fun v => ?_, hinv, CountSemOps_rejected _ id hinv⟩
      have hl := OS_CountSemGetIdByName_lookup cfg (OS_CountSemDelete s2 id ret).st v n hlen
      rw [lookupResult_not_found _ n v hnl] at hl
      exact (Prod.mk.inj hl).1
    · intro s id hinv
      refine ⟨CountSemOps_rejected s id hinv, fun c s1 hex => ?_⟩
      by_cases hi1 : invalidId OS_count_sem_record_t.free s1.OS_count_sem_table id
      · exact Or.inl hi1
      · right
        have hnv := (invalidId_iff_not_validId OS_count_sem_record_t.free OS_count_sem_record_t.name _ id).mp hinv
        have hv1 : validId (countSemView s1) id := by
          by_contra hcon
          exact hi1 ((invalidId_iff_not_validId OS_count_sem_record_t.free OS_count_sem_record_t.name _ id).mpr hcon)
        exact exec_revive_CountSem cfg s s1 c id hnv hex hv1
  · constructor
    · intro s self sem_id sem_name attr_init mutex_init r id hr hret hout cs s2 hrun hkeep status hdel
      subst hr
      have hstep := OS_MutSemCreate_step cfg s self sem_id sem_name attr_init mutex_init
      rcases hstep.lookup hret with ⟨n, _, hn, _, _⟩
      subst hn
      have hlen := OS_MutSemCreate_success_len cfg s self sem_id attr_init mutex_init n hret
      have ho := owns_after_create hstep hret n rfl id hout
      have ho2 := run_owns_MutSem cfg cs _ s2 id n ho hrun hkeep
      have hds := OS_MutSemDelete_step s2 id status
      have hnl := not_nameLive_after_delete hds hdel n ho2
      have hinv := (invalidId_iff_not_validId OS_mut_sem_record_t.free OS_mut_sem_record_t.name _ id).mpr
        (not_validId_after_delete hds hdel)
      refine ⟨fun v => ?_, hinv, MutSemOps_rejected _ id hinv⟩
      have hl := OS_MutSemGetIdByName_lookup cfg (OS_MutSemDelete s2 id status).st v n hlen
      rw [lookupResult_not_found _ n v hnl] at hl
      exact (Prod.mk.inj hl).1
    · intro s id hinv
      refine ⟨MutSemOps_rejected s id hinv, fun c s1 hex => ?_⟩
      by_cases hi1 : invalidId OS_mut_sem_record_t.free s1.OS_mut_sem_table id
      · exact Or.inl hi1
      · right
        have hnv := (invalidId_iff_not_validId OS_mut_sem_record_t.free OS_mut_sem_record_t.name _ id).mp hinv
        have hv1 : validId (mutSemView s1) id := by
          by_contra hcon
          exact hi1 ((invalidId_iff_not_validId OS_mut_sem_record_t.free OS_mut_sem_record_t.name _ id).mpr hcon)
        exact exec_revive_MutSem cfg s s1 c id hnv hex hv1

/-! ## C8: uniqueness of the names of the live rows -/

theorem namesUnique_createStep {v : List (Bool × CStr)} {name : Option CStr} {ret : OS_Status}
    {out : Option Nat} {v1 : List (Bool × CStr)} (h : CreateStep v name ret out v1)
    (hu : namesUnique v) : namesUnique v1 := by
  rcases h with ⟨_, hv⟩ | ⟨_, m, _, hnl, _, hp, hv⟩
  · rwa [hv]
  · intro i j n hi hj
    rw [hv] at hi hj
    by_cases hif : v.findIdx (fun x => x.1) = i
    · by_cases hjf : v.findIdx (fun x => x.1) = j
      · rw [← hif, ← hjf]
      · rw [← hif, List.getElem?_set_self hp] at hi
        cases hi
        rw [List.getElem?_set_ne hjf] at hj
        exact absurd ⟨j, hj⟩ hnl
    · rw [List.getElem?_set_ne hif] at hi
      by_cases hjf : v.findIdx (fun x => x.1) = j
      · rw [← hjf, List.getElem?_set_self hp] at hj
        cases hj
        exact absurd ⟨i, hi⟩ hnl
      · rw [List.getElem?_set_ne hjf] at hj
        exact hu i j n hi hj

theorem namesUnique_deleteStep {v : List (Bool × CStr)} {id : Nat} {ret : OS_Status}
    {v1 : List (Bool × CStr)} (h : DeleteStep v id ret v1) (hu : namesUnique v) :
    namesUnique v1 := by
  rcases h with ⟨_, hv⟩ | ⟨_, ⟨m, hm⟩, hv⟩
  · rwa [hv]
  · have hlt : id < v.length := (List.getElem?_eq_some_iff.mp hm).1
    intro i j n hi hj
    rw [hv] at hi hj
    by_cases hii : id = i
    · rw [← hii, List.getElem?_set_self hlt] at hi
      cases hi
    · by_cases hjj : id = j
      · rw [← hjj, List.getElem?_set_self hlt] at hj
        cases hj
      · rw [List.getElem?_set_ne hii] at hi
        rw [List.getElem?_set_ne hjj] at hj
        exact hu i j n hi hj

/-- C8 (failing input): with `OS_MAX_BIN_SEMAPHORES = 1` and `OS_MAX_COUNT_SEMAPHORES = 3`
(all other tables of one row), `OS_API_Init` run on the all-zero tables with every host
call succeeding returns `OS_SUCCESS`; its loop over `OS_count_sem_table` is bounded by
`OS_MAX_BIN_SEMAPHORES`, so that rows 1 and 2 keep their all-zero content: both are
non-free and both carry the empty name. The state is reachable (no Create or Delete
call is needed) and the names of its live counting semaphore rows are not unique. -/
theorem C8_init_leaves_two_live_rows_with_one_name :
    ∃ s, OS_API_Init (zeroState 1 1 1 3 1) ⟨OS_SUCCESS, 0, 0, 0, 0, 0, 0, OS_SUCCESS⟩
        = some (OS_SUCCESS, s) ∧
      Reachable ⟨20, 2147483647, 16384⟩ s ∧
      (countSemView s)[1]? = some (false, []) ∧
      (countSemView s)[2]? = some (false, []) ∧
      ¬ namesUnique (countSemView s) := by
  refine ⟨⟨[⟨true, 0, [], 0, 0, 0, none⟩], [⟨true, 0, [], 0⟩], [⟨true, [], 0, 0, 0⟩],
    [⟨true, [], 0, 0, 0⟩, ⟨false, [], 0, 0, 0⟩, ⟨false, [], 0, 0, 0⟩], [⟨true, [], 0, 0⟩]⟩,
    by decide, ?_, by decide, by decide, ?_⟩
  · exact Reachable.init 1 1 1 3 1 ⟨OS_SUCCESS, 0, 0, 0, 0, 0, 0, OS_SUCCESS⟩ OS_SUCCESS _
      (by decide)
  · intro hu
    have := hu 1 2 [] (by decide) (by decide)
    exact absurd this (by decide)

theorem exec_namesUnique_Task (cfg : Config) (s s1 : OSState) (c : Call)
    (hu : namesUnique (taskView s)) (hex : exec cfg s c = some s1) : namesUnique (taskView s1) := by
  cases c with
  | TaskCreate self h task_id task_name fp stack_size priority =>
    simp only [exec, Option.map_eq_some'] at hex
    rcases hex with ⟨r, hr, rfl⟩
    exact namesUnique_createStep (OS_TaskCreate_step cfg s self h task_id task_name fp stack_size priority r hr) hu
  | TaskDelete id1 ret =>
    simp only [exec, Option.some.injEq] at hex
    subst hex
    exact namesUnique_deleteStep (OS_TaskDelete_step s id1 ret) hu
  | QueueCreate self pid queueDesc queue_id queue_name depth size =>
    simp only [exec, Option.some.injEq] at hex
    subst hex
    obtain ⟨h1, h2, h3, h4⟩ := OS_QueueCreate_frame cfg s self pid queueDesc queue_id queue_name depth size
    simp only [taskView, h1, h2, h3, h4]
    exact hu
  | QueueDelete pid id1 close_ret unlink_ret =>
    simp only [exec, Option.map_eq_some'] at hex
    rcases hex with ⟨r, hr, rfl⟩
    obtain ⟨h1, h2, h3, h4⟩ := OS_QueueDelete_frame cfg s pid id1 close_ret unlink_ret r hr
    simp only [taskView, h1, h2, h3, h4]
    exact hu
  | BinSemCreate self sem_id sem_name init Status =>
    simp only [exec, Option.some.injEq] at hex
    subst hex
    obtain ⟨h1, h2, h3, h4⟩ := OS_BinSemCreate_frame cfg s self sem_id sem_name init Status
    simp only [taskView, h1, h2, h3, h4]
    exact hu
  | BinSemDelete id1 ret =>
    simp only [exec, Option.some.injEq] at hex
    subst hex
    obtain ⟨h1, h2, h3, h4⟩ := OS_BinSemDelete_frame s id1 ret
    simp only [taskView, h1, h2, h3, h4]
    exact hu
  | CountSemCreate self sem_id sem_name init Status =>
    simp only [exec, Option.some.injEq] at hex
    subst hex
    obtain ⟨h1, h2, h3, h4⟩ := OS_CountSemCreate_frame cfg s self sem_id sem_name init Status
    simp only [taskView, h1, h2, h3, h4]
    exact hu
  | CountSemDelete id1 ret =>
    simp only [exec, Option.some.injEq] at hex
    subst hex
    obtain ⟨h1, h2, h3, h4⟩ := OS_CountSemDelete_frame s id1 ret
    simp only [taskView, h1, h2, h3, h4]
    exact hu
  | MutSemCreate self sem_id sem_name attr_init mutex_init =>
    simp only [exec, Option.some.injEq] at hex
    subst hex
    obtain ⟨h1, h2, h3, h4⟩ := OS_MutSemCreate_frame cfg s self sem_id sem_name attr_init mutex_init
    simp only [taskView, h1, h2, h3, h4]
    exact hu
  | MutSemDelete id1 status =>
    simp only [exec, Option.some.injEq] at hex
    subst hex
    obtain ⟨h1, h2, h3, h4⟩ := OS_MutSemDelete_frame s id1 status
    simp only [taskView, h1, h2, h3, h4]
    exact hu

theorem exec_namesUnique_Queue (cfg : Config) (s s1 : OSState) (c : Call)
    (hu : namesUnique (queueView s)) (hex : exec cfg s c = some s1) : namesUnique (queueView s1) := by
  cases c with
  | TaskCreate self h task_id task_name fp stack_size priority =>
    simp only [exec, Option.map_eq_some'] at hex
    rcases hex with ⟨r, hr, rfl⟩
    obtain ⟨h1, h2, h3, h4⟩ := OS_TaskCreate_frame cfg s self h task_id task_name fp stack_size priority r hr
    simp only [queueView, h1, h2, h3, h4]
    exact hu
  | TaskDelete id1 ret =>
    simp only [exec, Option.some.injEq] at hex
    subst hex
    obtain ⟨h1, h2, h3, h4⟩ := OS_TaskDelete_frame s id1 ret
    simp only [queueView, h1, h2, h3, h4]
    exact hu
  | QueueCreate self pid queueDesc queue_id queue_name depth size =>
    simp only [exec, Option.some.injEq] at hex
    subst hex
    exact namesUnique_createStep (OS_QueueCreate_step cfg s self pid queueDesc queue_id queue_name depth size) hu
  | QueueDelete pid id1 close_ret unlink_ret =>
    simp only [exec, Option.map_eq_some'] at hex
    rcases hex with ⟨r, hr, rfl⟩
    exact namesUnique_deleteStep (OS_QueueDelete_step cfg s pid id1 close_ret unlink_ret r hr) hu
  | BinSemCreate self sem_id sem_name init Status =>
    simp only [exec, Option.some.injEq] at hex
    subst hex
    obtain ⟨h1, h2, h3, h4⟩ := OS_BinSemCreate_frame cfg s self sem_id sem_name init Status
    simp only [queueView, h1, h2, h3, h4]
    exact hu
  | BinSemDelete id1 ret =>
    simp only [exec, Option.some.injEq] at hex
    subst hex
    obtain ⟨h1, h2, h3, h4⟩ := OS_BinSemDelete_frame s id1 ret
    simp only [queueView, h1, h2, h3, h4]
    exact hu
  | CountSemCreate self sem_id sem_name init Status =>
    simp only [exec, Option.some.injEq] at hex
    subst hex
    obtain ⟨h1, h2, h3, h4⟩ := OS_CountSemCreate_frame cfg s self sem_id sem_name init Status
    simp only [queueView, h1, h2, h3, h4]
    exact hu
  | CountSemDelete id1 ret =>
    simp only [exec, Option.some.injEq] at hex
    subst hex
    obtain ⟨h1, h2, h3, h4⟩ := OS_CountSemDelete_frame s id1 ret
    simp only [queueView, h1, h2, h3, h4]
    exact hu
  | MutSemCreate self sem_id sem_name attr_init mutex_init =>
    simp only [exec, Option.some.injEq] at hex
    subst hex
    obtain ⟨h1, h2, h3, h4⟩ := OS_MutSemCreate_frame cfg s self sem_id sem_name attr_init mutex_init
    simp only [queueView, h1, h2, h3, h4]
    exact hu
  | MutSemDelete id1 status =>
    simp only [exec, Option.some.injEq] at hex
    subst hex
    obtain ⟨h1, h2, h3, h4⟩ := OS_MutSemDelete_frame s id1 status
    simp only [queueView, h1, h2, h3, h4]
    exact hu

theorem exec_namesUnique_BinSem (cfg : Config) (s s1 : OSState) (c : Call)
    (hu : namesUnique (binSemView s)) (hex : exec cfg s c = some s1) : namesUnique (binSemView s1) := by
  cases c with
  | TaskCreate self h task_id task_name fp stack_size priority =>
    simp only [exec, Option.map_eq_some'] at hex
    rcases hex with ⟨r, hr, rfl⟩
    obtain ⟨h1, h2, h3, h4⟩ := OS_TaskCreate_frame cfg s self h task_id task_name fp stack_size priority r hr
    simp only [binSemView, h1, h2, h3, h4]
    exact hu
  | TaskDelete id1 ret =>
    simp only [exec, Option.some.injEq] at hex
    subst hex
    obtain ⟨h1, h2, h3, h4⟩ := OS_TaskDelete_frame s id1 ret
    simp only [binSemView, h1, h2, h3, h4]
    exact hu
  | QueueCreate self pid queueDesc queue_id queue_name depth size =>
    simp only [exec, Option.some.injEq] at hex
    subst hex
    obtain ⟨h1, h2, h3, h4⟩ := OS_QueueCreate_frame cfg s self pid queueDesc queue_id queue_name depth size
    simp only [binSemView, h1, h2, h3, h4]
    exact hu
  | QueueDelete pid id1 close_ret unlink_ret =>
    simp only [exec, Option.map_eq_some'] at hex
    rcases hex with ⟨r, hr, rfl⟩
    obtain ⟨h1, h2, h3, h4⟩ := OS_QueueDelete_frame cfg s pid id1 close_ret unlink_ret r hr
    simp only [binSemView, h1, h2, h3, h4]
    exact hu
  | BinSemCreate self sem_id sem_name init Status =>
    simp only [exec, Option.some.injEq] at hex
    subst hex
    exact namesUnique_createStep (OS_BinSemCreate_step cfg s self sem_id sem_name init Status) hu
  | BinSemDelete id1 ret =>
    simp only [exec, Option.some.injEq] at hex
    subst hex
    exact namesUnique_deleteStep (OS_BinSemDelete_step s id1 ret) hu
  | CountSemCreate self sem_id sem_name init Status =>
    simp only [exec, Option.some.injEq] at hex
    subst hex
    obtain ⟨h1, h2, h3, h4⟩ := OS_CountSemCreate_frame cfg s self sem_id sem_name init Status
    simp only [binSemView, h1, h2, h3, h4]
    exact hu
  | CountSemDelete id1 ret =>
    simp only [exec, Option.some.injEq] at hex
    subst hex
    obtain ⟨h1, h2, h3, h4⟩ := OS_CountSemDelete_frame s id1 ret
    simp only [binSemView, h1, h2, h3, h4]
    exact hu
  | MutSemCreate self sem_id sem_name attr_init mutex_init =>
    simp only [exec, Option.some.injEq] at hex
    subst hex
    obtain ⟨h1, h2, h3, h4⟩ := OS_MutSemCreate_frame cfg s self sem_id sem_name attr_init mutex_init
    simp only [binSemView, h1, h2, h3, h4]
    exact hu
  | MutSemDelete id1 status =>
    simp only [exec, Option.some.injEq] at hex
    subst hex
    obtain ⟨h1, h2, h3, h4⟩ := OS_MutSemDelete_frame s id1 status
    simp only [binSemView, h1, h2, h3, h4]
    exact hu

theorem exec_namesUnique_CountSem (cfg : Config) (s s1 : OSState) (c : Call)
    (hu : namesUnique (countSemView s)) (hex : exec cfg s c = some s1) : namesUnique (countSemView s1) := by
  cases c with
  | TaskCreate self h task_id task_name fp stack_size priority =>
    simp only [exec, Option.map_eq_some'] at hex
    rcases hex with ⟨r, hr, rfl⟩
    obtain ⟨h1, h2, h3, h4⟩ := OS_TaskCreate_frame cfg s self h task_id task_name fp stack_size priority r hr
    simp only [countSemView, h1, h2, h3, h4]
    exact hu
  | TaskDelete id1 ret =>
    simp only [exec, Option.some.injEq] at hex
    subst hex
    obtain ⟨h1, h2, h3, h4⟩ := OS_TaskDelete_frame s id1 ret
    simp only [countSemView, h1, h2, h3, h4]
    exact hu
  | QueueCreate self pid queueDesc queue_id queue_name depth size =>
    simp only [exec, Option.some.injEq] at hex
    subst hex
    obtain ⟨h1, h2, h3, h4⟩ := OS_QueueCreate_frame cfg s self pid queueDesc queue_id queue_name depth size
    simp only [countSemView, h1, h2, h3, h4]
    exact hu
  | QueueDelete pid id1 close_ret unlink_ret =>
    simp only [exec, Option.map_eq_some'] at hex
    rcases hex with ⟨r, hr, rfl⟩
    obtain ⟨h1, h2, h3, h4⟩ := OS_QueueDelete_frame cfg s pid id1 close_ret unlink_ret r hr
    simp only [countSemView, h1, h2, h3, h4]
    exact hu
  | BinSemCreate self sem_id sem_name init Status =>
    simp only [exec, Option.some.injEq] at hex
    subst hex
    obtain ⟨h1, h2, h3, h4⟩ := OS_BinSemCreate_frame cfg s self sem_id sem_name init Status
    simp only [countSemView, h1, h2, h3, h4]
    exact hu
  | BinSemDelete id1 ret =>
    simp only [exec, Option.some.injEq] at hex
    subst hex
    obtain ⟨h1, h2, h3, h4⟩ := OS_BinSemDelete_frame s id1 ret
    simp only [countSemView, h1, h2, h3, h4]
    exact hu
  | CountSemCreate self sem_id sem_name init Status =>
    simp only [exec, Option.some.injEq] at hex
    subst hex
    exact namesUnique_createStep (OS_CountSemCreate_step cfg s self sem_id sem_name init Status) hu
  | CountSemDelete id1 ret =>
    simp only [exec, Option.some.injEq] at hex
    subst hex
    exact namesUnique_deleteStep (OS_CountSemDelete_step s id1 ret) hu
  | MutSemCreate self sem_id sem_name attr_init mutex_init =>
    simp only [exec, Option.some.injEq] at hex
    subst hex
    obtain ⟨h1, h2, h3, h4⟩ := OS_MutSemCreate_frame cfg s self sem_id sem_name attr_init mutex_init
    simp only [countSemView, h1, h2, h3, h4]
    exact hu
  | MutSemDelete id1 status =>
    simp only [exec, Option.some.injEq] at hex
    subst hex
    obtain ⟨h1, h2, h3, h4⟩ := OS_MutSemDelete_frame s id1 status
    simp only [countSemView, h1, h2, h3, h4]
    exact hu

theorem exec_namesUnique_MutSem (cfg : Config) (s s1 : OSState) (c : Call)
    (hu : namesUnique (mutSemView s)) (hex : exec cfg s c = some s1) : namesUnique (mutSemView s1) := by
  cases c with
  | TaskCreate self h task_id task_name fp stack_size priority =>
    simp only [exec, Option.map_eq_some'] at hex
    rcases hex with ⟨r, hr, rfl⟩
    obtain ⟨h1, h2, h3, h4⟩ := OS_TaskCreate_frame cfg s self h task_id task_name fp stack_size priority r hr
    simp only [mutSemView, h1, h2, h3, h4]
    exact hu
  | TaskDelete id1 ret =>
    simp only [exec, Option.some.injEq] at hex
    subst hex
    obtain ⟨h1, h2, h3, h4⟩ := OS_TaskDelete_frame s id1 ret
    simp only [mutSemView, h1, h2, h3, h4]
    exact hu
  | QueueCreate self pid queueDesc queue_id queue_name depth size =>
    simp only [exec, Option.some.injEq] at hex
    subst hex
    obtain ⟨h1, h2, h3, h4⟩ := OS_QueueCreate_frame cfg s self pid queueDesc queue_id queue_name depth size
    simp only [mutSemView, h1, h2, h3, h4]
    exact hu
  | QueueDelete pid id1 close_ret unlink_ret =>
    simp only [exec, Option.map_eq_some'] at hex
    rcases hex with ⟨r, hr, rfl⟩
    obtain ⟨h1, h2, h3, h4⟩ := OS_QueueDelete_frame cfg s pid id1 close_ret unlink_ret r hr
    simp only [mutSemView, h1, h2, h3, h4]
    exact hu
  | BinSemCreate self sem_id sem_name init Status =>
    simp only [exec, Option.some.injEq] at hex
    subst hex
    obtain ⟨h1, h2, h3, h4⟩ := OS_BinSemCreate_frame cfg s self sem_id sem_name init Status
    simp only [mutSemView, h1, h2, h3, h4]
    exact hu
  | BinSemDelete id1 ret =>
    simp only [exec, Option.some.injEq] at hex
    subst hex
    obtain ⟨h1, h2, h3, h4⟩ := OS_BinSemDelete_frame s id1 ret
    simp only [mutSemView, h1, h2, h3, h4]
    exact hu
  | CountSemCreate self sem_id sem_name init Status =>
    simp only [exec, Option.some.injEq] at hex
    subst hex
    obtain ⟨h1, h2, h3, h4⟩ := OS_CountSemCreate_frame cfg s self sem_id sem_name init Status
    simp only [mutSemView, h1, h2, h3, h4]
    exact hu
  | CountSemDelete id1 ret =>
    simp only [exec, Option.some.injEq] at hex
    subst hex
    obtain ⟨h1, h2, h3, h4⟩ := OS_CountSemDelete_frame s id1 ret
    simp only [mutSemView, h1, h2, h3, h4]
    exact hu
  | MutSemCreate self sem_id sem_name attr_init mutex_init =>
    simp only [exec, Option.some.injEq] at hex
    subst hex
    exact namesUnique_createStep (OS_MutSemCreate_step cfg s self sem_id sem_name attr_init mutex_init) hu
  | MutSemDelete id1 status =>
    simp only [exec, Option.some.injEq] at hex
    subst hex
    exact namesUnique_deleteStep (OS_MutSemDelete_step s id1 status) hu

/-- Create and Delete calls of any kind, with any host results, keep the names of the
live rows of every table unique. -/
theorem exec_namesUnique (cfg : Config) (s s1 : OSState) (c : Call)
    (hu : namesUnique (taskView s) ∧ namesUnique (queueView s) ∧ namesUnique (binSemView s) ∧
      namesUnique (countSemView s) ∧ namesUnique (mutSemView s))
    (hex : exec cfg s c = some s1) :
    namesUnique (taskView s1) ∧ namesUnique (queueView s1) ∧ namesUnique (binSemView s1) ∧
      namesUnique (countSemView s1) ∧ namesUnique (mutSemView s1) :=
  ⟨exec_namesUnique_Task cfg s s1 c hu.1 hex, exec_namesUnique_Queue cfg s s1 c hu.2.1 hex,
    exec_namesUnique_BinSem cfg s s1 c hu.2.2.1 hex,
    exec_namesUnique_CountSem cfg s s1 c hu.2.2.2.1 hex,
    exec_namesUnique_MutSem cfg s s1 c hu.2.2.2.2 hex⟩

theorem run_namesUnique (cfg : Config) (cs : List Call) (s s1 : OSState)
    (hu : namesUnique (taskView s) ∧ namesUnique (queueView s) ∧ namesUnique (binSemView s) ∧
      namesUnique (countSemView s) ∧ namesUnique (mutSemView s))
    (hrun : run cfg s cs = some s1) :
    namesUnique (taskView s1) ∧ namesUnique (queueView s1) ∧ namesUnique (binSemView s1) ∧
      namesUnique (countSemView s1) ∧ namesUnique (mutSemView s1) := by
  induction cs generalizing s with
  | nil =>
    simp only [run, Option.some.injEq] at hrun
    subst hrun
    exact hu
  | cons c cs ih =>
    simp only [run] at hrun
    cases hex : exec cfg s c with
    | none => rw [hex] at hrun; cases hrun
    | some s2 =>
      rw [hex] at hrun
      exact ih s2 (exec_namesUnique cfg s s2 c hu hex) hrun

/-! ### The initialisation loops -/

theorem initLoop_spec {α : Type} (f : α → α) (k i : Nat) (t t1 : List α)
    (h : initLoop f k i t = some t1) :
    t1.length = t.length ∧
    (∀ j : Nat, i ≤ j → j < i + k → ∃ r, t[j]? = some r ∧ t1[j]? = some (f r)) ∧
    (∀ j : Nat, j < i ∨ i + k ≤ j → t1[j]? = t[j]?) := by
  induction k generalizing i t with
  | zero =>
    simp only [initLoop, Option.some.injEq] at h
    subst h
    exact ⟨rfl, fun j h1 h2 => by omega, fun _ _ => rfl⟩
  | succ k ih =>
    simp only [initLoop, writeRow] at h
    cases hrow : t[i]? with
    | none => rw [hrow] at h; cases h
    | some r =>
      rw [hrow] at h
      simp only at h
      have hlt : i < t.length := (List.getElem?_eq_some_iff.mp hrow).1
      rcases ih (i + 1) (t.set i (f r)) h with ⟨hlen, hin, hout⟩
      refine ⟨by rw [hlen, List.length_set], ?_, ?_⟩
      · intro j h1 h2
        by_cases hji : j = i
        · subst hji
          refine ⟨r, hrow, ?_⟩
          rw [hout j (Or.inl (Nat.lt_succ_self j)), List.getElem?_set_self hlt]
        · rcases hin j (by omega) (by omega) with ⟨r1, hr1, hr2⟩
          rw [List.getElem?_set_ne (fun h => hji h.symm)] at hr1
          exact ⟨r1, hr1, hr2⟩
      · intro j hj
        rw [hout j (by omega), List.getElem?_set_ne (by omega)]

theorem namesUnique_of_all_free (v : List (Bool × CStr))
    (h : ∀ (j : Nat) (b : Bool) (n : CStr), v[j]? = some (b, n) → b = true) :
    namesUnique v := by
  intro i j n hi _
  exact absurd (h i false n hi) (by decide)

/-- After an initialisation loop that runs over the whole table, every row is free. -/
theorem initLoop_all_free {α : Type} (fr : α → Bool) (nm : α → CStr) (f : α → α)
    (hf : ∀ r, fr (f r) = true) (t t1 : List α) (h : initLoop f t.length 0 t = some t1) :
    ∀ (j : Nat) (b : Bool) (n : CStr), (view fr nm t1)[j]? = some (b, n) → b = true := by
  rcases initLoop_spec f t.length 0 t t1 h with ⟨hlen, hin, _⟩
  intro j b n hj
  rw [view_getElem?] at hj
  have hjlt : j < t1.length := by
    cases hrow : t1[j]? with
    | none => rw [hrow] at hj; cases hj
    | some r => exact (List.getElem?_eq_some_iff.mp hrow).1
  rcases hin j (Nat.zero_le j) (by omega) with ⟨r, _, hr⟩
  rw [hr] at hj
  simp only [Option.map_some', Option.some.injEq, Prod.mk.injEq] at hj
  rw [← hj.1]
  exact hf r

/-- Supporting result for C8: when `OS_MAX_COUNT_SEMAPHORES` equals
`OS_MAX_BIN_SEMAPHORES`, the names of the live rows of each of the five tables are
unique in every state reached from `OS_API_Init` by Create and Delete calls, whatever
the host results are. -/
theorem names_unique_when_sem_tables_have_equal_sizes (cfg : Config)
    (OS_MAX_TASKS OS_MAX_QUEUES OS_MAX_SEMAPHORES OS_MAX_MUTEXES : Nat) (h : InitHost)
    (ret : OS_Status) (s0 : OSState)
    (hinit : OS_API_Init (zeroState OS_MAX_TASKS OS_MAX_QUEUES OS_MAX_SEMAPHORES
      OS_MAX_SEMAPHORES OS_MAX_MUTEXES) h = some (ret, s0))
    (cs : List Call) (s : OSState) (hrun : run cfg s0 cs = some s) :
    namesUnique (taskView s) ∧ namesUnique (queueView s) ∧ namesUnique (binSemView s) ∧
      namesUnique (countSemView s) ∧ namesUnique (mutSemView s) := by
  apply run_namesUnique cfg cs s0 s _ hrun
  unfold OS_API_Init at hinit
  split at hinit
  · rename_i tt qt bt ct mt h1 h2 h3 h4 h5
    simp only [zeroState, List.length_replicate] at h1 h2 h3 h4 h5
    have hs0 : s0 = ⟨tt, qt, bt, ct, mt⟩ := by
      simp only at hinit
      repeat' split at hinit
      all_goals (simp only [Option.some.injEq, Prod.mk.injEq] at hinit; exact hinit.2.symm)
    subst hs0
    refine ⟨?_, ?_, ?_, ?_, ?_⟩
    · apply namesUnique_of_all_free
      have := initLoop_all_free OS_task_record_t.free OS_task_record_t.name _ (fun _ => rfl)
        (List.replicate OS_MAX_TASKS ⟨false, 0, [], 0, 0, 0, none⟩) tt
        (by rw [List.length_replicate]; exact h1)
      exact this
    · apply namesUnique_of_all_free
      have := initLoop_all_free OS_queue_record_t.free OS_queue_record_t.name _ (fun _ => rfl)
        (List.replicate OS_MAX_QUEUES ⟨false, 0, [], 0⟩) qt
        (by rw [List.length_replicate]; exact h2)
      exact this
    · apply namesUnique_of_all_free
      have := initLoop_all_free OS_bin_sem_record_t.free OS_bin_sem_record_t.name _
        (fun _ => rfl) (List.replicate OS_MAX_SEMAPHORES ⟨false, [], 0, 0, 0⟩) bt
        (by rw [List.length_replicate]; exact h3)
      exact this
    · apply namesUnique_of_all_free
      have := initLoop_all_free OS_count_sem_record_t.free OS_count_sem_record_t.name _
        (fun _ => rfl) (List.replicate OS_MAX_SEMAPHORES ⟨false, [], 0, 0, 0⟩) ct
        (by rw [List.length_replicate]; exact h4)
      exact this
    · apply namesUnique_of_all_free
      have := initLoop_all_free OS_mut_sem_record_t.free OS_mut_sem_record_t.name _
        (fun _ => rfl) (List.replicate OS_MAX_MUTEXES ⟨false, [], 0, 0⟩) mt
        (by rw [List.length_replicate]; exact h5)
      exact this
  · cases hinit

/-! ## C9, C10: `OS_PriorityRemap` -/

theorem OS_PriorityRemap.prange_pos (pmax pmin : Int) (hr : pmin ≤ pmax) :
    OS_PriorityRemap.prange pmax pmin = pmax - pmin + 1 ∧
      0 < OS_PriorityRemap.prange pmax pmin := by
  unfold OS_PriorityRemap.prange
  have h : (0 : Int) ≤ pmax - pmin + 1 := by omega
  rw [Int.natAbs_of_nonneg h]
  omega

theorem OS_PriorityRemap.numbins_nonneg (pmax pmin : Int) :
    0 ≤ OS_PriorityRemap.numbins pmax pmin := by
  unfold OS_PriorityRemap.numbins
  have hp : (0 : Int) ≤ OS_PriorityRemap.prange pmax pmin := by
    unfold OS_PriorityRemap.prange
    exact Int.ofNat_nonneg _
  have hq : (0 : Int) ≤ Int.tdiv (MAX_PRIORITY : Int) (OS_PriorityRemap.prange pmax pmin) :=
    Int.tdiv_nonneg (by decide) hp
  simp only []
  split <;> omega

/-- On a range with `pmin <= pmax` and a non-zero bin count, and for an input of at most
255, `OS_PriorityRemap` returns `pmin + (255 - InputPri) / numbins`, capped at `pmax`. -/
theorem OS_PriorityRemap_eq (pmax pmin : Int) (a : Nat) (hr : pmin ≤ pmax)
    (hb : OS_PriorityRemap.numbins pmax pmin ≠ 0) (ha : a ≤ 255) :
    OS_PriorityRemap pmax pmin a
      = some (min pmax (pmin + (255 - (a : Int)) / OS_PriorityRemap.numbins pmax pmin)) := by
  have hpr := (OS_PriorityRemap.prange_pos pmax pmin hr).2
  have hnb := OS_PriorityRemap.numbins_nonneg pmax pmin
  have hne : OS_PriorityRemap.prange pmax pmin ≠ 0 := by omega
  have ha' : (0 : Int) ≤ 255 - (a : Int) := by omega
  have hu : ((MAX_PRIORITY : Int) - (a : Int)) % 4294967296 = 255 - (a : Int) := by
    have : ((MAX_PRIORITY : Nat) : Int) = 255 := rfl
    rw [this]
    exact Int.emod_eq_of_lt ha' (by omega)
  have hoff0 : (0 : Int) ≤ (255 - (a : Int)) / OS_PriorityRemap.numbins pmax pmin :=
    Int.ediv_nonneg ha' hnb
  unfold OS_PriorityRemap
  simp only [hne, hb, if_false, hu]
  have hlt : (255 - (a : Int)) < 2147483648 := by omega
  simp only [hlt, if_true]
  rw [Int.tdiv_eq_ediv ha' hnb]
  generalize (255 - (a : Int)) / OS_PriorityRemap.numbins pmax pmin = off at hoff0 ⊢
  congr 1
  by_cases hneg : pmin < 0
  · have h2 : ¬ (pmax + -pmin < 0) := by omega
    simp only [hneg, if_true, decide_True, h2, if_false, decide_False, min_def]
    split_ifs <;> omega
  · have h2 : ¬ (pmax + 0 < 0) := by omega
    simp only [hneg, if_false, decide_False, h2, min_def]
    split_ifs <;> omega

/-- C9 (as stated, refuted): on the Linux `SCHED_FIFO` range `pmin = 1`, `pmax = 99` the
bin count is 3 and `OS_PriorityRemap(0)` is `1 + 255 / 3 = 86`, not `pmax = 99`; and on
the range `pmin = 0`, `pmax = 511` the bin count is 0, so that the division by `numbins`
is a division by zero and `OS_PriorityRemap(255)` has no value. -/
theorem C9_counterexample_linux_range :
    (1 : Int) ≤ 99 ∧ OS_PriorityRemap.numbins 99 1 = 3 ∧ OS_PriorityRemap 99 1 0 = some 86 ∧
      OS_PriorityRemap 99 1 0 ≠ some 99 ∧
    (0 : Int) ≤ 511 ∧ OS_PriorityRemap.numbins 511 0 = 0 ∧ OS_PriorityRemap 511 0 255 = none := by
  decide

/-- C9 (amended): for every host priority range `[pmin, pmax]` with `pmin <= pmax`
(negative endpoints included) whose bin count is not zero, `OS_PriorityRemap(255) = pmin`
and `OS_PriorityRemap(0) = min(pmax, pmin + 255 / numbins)`; the latter is `pmax` exactly
when `255 / numbins >= pmax - pmin`, which is the case whenever the bin count was not
rounded up (`255 % prange <= prange / 2`). -/
theorem C9_remap_of_the_end_points (pmax pmin : Int) (hr : pmin ≤ pmax)
    (hb : OS_PriorityRemap.numbins pmax pmin ≠ 0) :
    OS_PriorityRemap pmax pmin 255 = some pmin ∧
    OS_PriorityRemap pmax pmin 0
      = some (min pmax (pmin + 255 / OS_PriorityRemap.numbins pmax pmin)) ∧
    (OS_PriorityRemap pmax pmin 0 = some pmax ↔
      pmax - pmin ≤ 255 / OS_PriorityRemap.numbins pmax pmin) ∧
    (Int.tmod 255 (OS_PriorityRemap.prange pmax pmin)
        ≤ Int.tdiv (OS_PriorityRemap.prange pmax pmin) 2 →
      OS_PriorityRemap pmax pmin 0 = some pmax) := by
  have h255 := OS_PriorityRemap_eq pmax pmin 255 hr hb (le_refl _)
  have h0 := OS_PriorityRemap_eq pmax pmin 0 hr hb (by omega)
  simp only [Nat.cast_ofNat, sub_self, Int.zero_ediv, add_zero] at h255
  simp only [Nat.cast_zero, sub_zero] at h0
  have hiff : OS_PriorityRemap pmax pmin 0 = some pmax ↔
      pmax - pmin ≤ 255 / OS_PriorityRemap.numbins pmax pmin := by
    rw [h0]
    simp only [Option.some.injEq, min_def]
    split_ifs <;> constructor <;> intro h <;> omega
  refine ⟨?_, h0, hiff, ?_⟩
  · rw [h255, min_eq_right hr]
  · intro hround
    rw [hiff]
    rcases OS_PriorityRemap.prange_pos pmax pmin hr with ⟨hpe, hpp⟩
    have hnb : OS_PriorityRemap.numbins pmax pmin
        = 255 / OS_PriorityRemap.prange pmax pmin := by
      unfold OS_PriorityRemap.numbins
      have : ((MAX_PRIORITY : Nat) : Int) = 255 := rfl
      simp only [this]
      rw [if_neg (by omega), Int.tdiv_eq_ediv (by decide) (by omega)]
    have hq0 : 0 < (255 : Int) / OS_PriorityRemap.prange pmax pmin := by
      have := OS_PriorityRemap.numbins_nonneg pmax pmin
      rw [hnb] at hb this
      omega
    rw [hnb]
    have hmul : (255 : Int) / OS_PriorityRemap.prange pmax pmin
        * OS_PriorityRemap.prange pmax pmin ≤ 255 := Int.ediv_mul_le 255 (by omega)
    have hge : OS_PriorityRemap.prange pmax pmin
        ≤ 255 / (255 / OS_PriorityRemap.prange pmax pmin) := by
      apply (Int.le_ediv_iff_mul_le hq0).mpr
      rw [mul_comm]
      exact hmul
    omega

/-- C9 (amended), witness: the range `pmin = -20`, `pmax = 19` (40 levels, 6 bins). -/
theorem C9_remap_of_the_end_points_witness :
    (-20 : Int) ≤ 19 ∧ OS_PriorityRemap.numbins 19 (-20) ≠ 0 ∧
    OS_PriorityRemap 19 (-20) 255 = some (-20) :=
  ⟨by decide, by decide, (C9_remap_of_the_end_points 19 (-20) (by decide) (by decide)).1⟩

/-- C10: for every host priority range `pmin <= pmax` for which the bin count is not
zero, `OS_PriorityRemap` returns a value for every input in `0..255`, every result lies
in `[pmin, pmax]`, and the function is monotonically non-increasing on `0..255`. -/
theorem C10_remap_is_antitone_and_in_range (pmax pmin : Int) (hr : pmin ≤ pmax)
    (hb : OS_PriorityRemap.numbins pmax pmin ≠ 0) :
    (∀ a : Nat, a ≤ 255 →
      ∃ r, OS_PriorityRemap pmax pmin a = some r ∧ pmin ≤ r ∧ r ≤ pmax) ∧
    (∀ (a b : Nat) (ra rb : Int), a ≤ b → b ≤ 255 →
      OS_PriorityRemap pmax pmin a = some ra → OS_PriorityRemap pmax pmin b = some rb →
      rb ≤ ra) := by
  have hnb := OS_PriorityRemap.numbins_nonneg pmax pmin
  have hpos : 0 < OS_PriorityRemap.numbins pmax pmin := by omega
  constructor
  · intro a ha
    refine ⟨_, OS_PriorityRemap_eq pmax pmin a hr hb ha, ?_, min_le_left _ _⟩
    have : (0 : Int) ≤ (255 - (a : Int)) / OS_PriorityRemap.numbins pmax pmin :=
      Int.ediv_nonneg (by omega) hnb
    exact le_min hr (by omega)
  · intro a b ra rb hab hb255 hra hrb
    rw [OS_PriorityRemap_eq pmax pmin a hr hb (by omega)] at hra
    rw [OS_PriorityRemap_eq pmax pmin b hr hb hb255] at hrb
    cases hra
    cases hrb
    have hdiv : (255 - (b : Int)) / OS_PriorityRemap.numbins pmax pmin
        ≤ (255 - (a : Int)) / OS_PriorityRemap.numbins pmax pmin :=
      Int.ediv_le_ediv hpos (by omega)
    exact min_le_min (le_refl _) (by omega)

/-- C10, witness: the Linux `SCHED_FIFO` range `1..99`; input 10 gives a value in the
range and the value for input 200 is not above the value for input 10. -/
theorem C10_remap_is_antitone_witness :
    (1 : Int) ≤ 99 ∧ OS_PriorityRemap.numbins 99 1 ≠ 0 ∧
    (∃ r, OS_PriorityRemap 99 1 10 = some r ∧ 1 ≤ r ∧ r ≤ 99) ∧
    OS_PriorityRemap 99 1 10 = some 82 ∧ OS_PriorityRemap 99 1 200 = some 19 ∧
    (19 : Int) ≤ 82 :=
  ⟨by decide, by decide,
    (C10_remap_is_antitone_and_in_range 99 1 (by decide) (by decide)).1 10 (by decide),
    by decide, by decide,
    (C10_remap_is_antitone_and_in_range 99 1 (by decide) (by decide)).2 10 200 82 19
      (by decide) (by decide) (by decide) (by decide)⟩

/-! ## Concrete instances of C1, C2, C3 and C7 -/

/-- C1, witness: in a binary semaphore table of two free rows, `OS_BinSemCreate` of "A"
returns `OS_SUCCESS`; the id it stores is the one `OS_BinSemGetIdByName` of "A" finds. -/
theorem C1_get_id_by_name_after_create_witness :
    (OS_BinSemCreate ⟨20, 2147483647, 16384⟩
      ⟨[], [], [⟨true, [], 0, 0, 0⟩, ⟨true, [], 0, 0, 0⟩], [], []⟩ 0 (some 0) (some ['A']) 1
      0).ret = OS_SUCCESS ∧
    ∃ id, (OS_BinSemCreate ⟨20, 2147483647, 16384⟩
        ⟨[], [], [⟨true, [], 0, 0, 0⟩, ⟨true, [], 0, 0, 0⟩], [], []⟩ 0 (some 0) (some ['A'])
        1 0).out = some id ∧
      ∀ v, (OS_BinSemGetIdByName ⟨20, 2147483647, 16384⟩
          (OS_BinSemCreate ⟨20, 2147483647, 16384⟩
            ⟨[], [], [⟨true, [], 0, 0, 0⟩, ⟨true, [], 0, 0, 0⟩], [], []⟩ 0 (some 0)
            (some ['A']) 1 0).st (some v) (some ['A'])).ret = OS_SUCCESS ∧
        (OS_BinSemGetIdByName ⟨20, 2147483647, 16384⟩
          (OS_BinSemCreate ⟨20, 2147483647, 16384⟩
            ⟨[], [], [⟨true, [], 0, 0, 0⟩, ⟨true, [], 0, 0, 0⟩], [], []⟩ 0 (some 0)
            (some ['A']) 1 0).st (some v) (some ['A'])).out = some id :=
  ⟨by decide,
    (C1_get_id_by_name_after_create ⟨20, 2147483647, 16384⟩
      ⟨[], [], [⟨true, [], 0, 0, 0⟩, ⟨true, [], 0, 0, 0⟩], [], []⟩).2.2.1 0 (some 0)
      (some ['A']) 1 0 _ rfl (by decide)⟩

/-- C2, witness: a queue "A" is created at id 0 in a table of two free rows, a second
one "B" is created and deleted, then "A" is deleted (process id "1", so that the host
name "/1.A" fits): `OS_QueueGetIdByName` of "A" returns `OS_ERR_NAME_NOT_FOUND` and the
operations on id 0 are rejected. -/
theorem C2_deleted_id_is_invalid_witness :
    (OS_QueueCreate ⟨20, 2147483647, 16384⟩
      ⟨[], [⟨true, 0, [], 0⟩, ⟨true, 0, [], 0⟩], [], [], []⟩ 0 ['1'] 3 (some 0) (some ['A'])
      4 8).ret = OS_SUCCESS ∧
    OS_QueueDelete ⟨20, 2147483647, 16384⟩
        ⟨[], [⟨false, 3, ['A'], 0⟩, ⟨true, 0, [], 0⟩], [], [], []⟩ ['1'] 0 0 0
      = some ⟨OS_SUCCESS, ⟨[], [⟨true, 0, [], 0⟩, ⟨true, 0, [], 0⟩], [], [], []⟩,
          [Event.host (HostCall.mq_close 0),
           Event.host (HostCall.mq_unlink ['/', '1', '.', 'A']),
           Event.lock Guard.OS_queue_table_mut, Event.unlock Guard.OS_queue_table_mut]⟩ ∧
    (∀ v, (OS_QueueGetIdByName ⟨20, 2147483647, 16384⟩
        ⟨[], [⟨true, 0, [], 0⟩, ⟨true, 0, [], 0⟩], [], [], []⟩ (some v) (some ['A'])).ret
      = OS_ERR_NAME_NOT_FOUND) ∧
    QueueOpsRejected ⟨[], [⟨true, 0, [], 0⟩, ⟨true, 0, [], 0⟩], [], [], []⟩ 0 :=
  have h := (C2_deleted_id_is_invalid_until_reused ⟨20, 2147483647, 16384⟩).2.1.1
    ⟨[], [⟨true, 0, [], 0⟩, ⟨true, 0, [], 0⟩], [], [], []⟩ 0 ['1'] 3 (some 0) (some ['A']) 4 8
    _ 0 rfl (by decide) (by decide)
    [Call.QueueCreate 0 ['1'] 4 (some 0) (some ['B']) 4 8, Call.QueueDelete ['1'] 1 0 0]
    ⟨[], [⟨false, 3, ['A'], 0⟩, ⟨true, 0, [], 0⟩], [], [], []⟩ (by decide)
    (by intro pid close_ret unlink_ret hmem; simp at hmem) ['1'] 0 0
    ⟨OS_SUCCESS, ⟨[], [⟨true, 0, [], 0⟩, ⟨true, 0, [], 0⟩], [], [], []⟩,
      [Event.host (HostCall.mq_close 0),
       Event.host (HostCall.mq_unlink ['/', '1', '.', 'A']),
       Event.lock Guard.OS_queue_table_mut, Event.unlock Guard.OS_queue_table_mut]⟩
    (by decide) rfl
  ⟨by decide, by decide, h.1, h.2.2⟩

/-- C3, witness: a queue table whose two rows are in use; `OS_QueueCreate` of "C" returns
`OS_ERR_NO_FREE_IDS`, and after `OS_QueueDelete` of id 1 (process id "1", host name
"/1.B") it returns `OS_SUCCESS` with id 1. -/
theorem C3_no_free_ids_then_reuse_witness :
    (['C'] : CStr).length < (⟨20, 2147483647, 16384⟩ : Config).OS_MAX_API_NAME ∧
    (OS_QueueCreate ⟨20, 2147483647, 16384⟩
      ⟨[], [⟨false, 3, ['A'], 0⟩, ⟨false, 4, ['B'], 0⟩], [], [], []⟩ 0 ['1'] 5 (some 7)
      (some ['C']) 4 8).ret = OS_ERR_NO_FREE_IDS ∧
    OS_QueueDelete ⟨20, 2147483647, 16384⟩
        ⟨[], [⟨false, 3, ['A'], 0⟩, ⟨false, 4, ['B'], 0⟩], [], [], []⟩ ['1'] 1 0 0
      = some ⟨OS_SUCCESS, ⟨[], [⟨false, 3, ['A'], 0⟩, ⟨true, 0, [], 0⟩], [], [], []⟩,
          [Event.host (HostCall.mq_close 1),
           Event.host (HostCall.mq_unlink ['/', '1', '.', 'B']),
           Event.lock Guard.OS_queue_table_mut, Event.unlock Guard.OS_queue_table_mut]⟩ ∧
    (OS_QueueCreate ⟨20, 2147483647, 16384⟩
      ⟨[], [⟨false, 3, ['A'], 0⟩, ⟨true, 0, [], 0⟩], [], [], []⟩ 0 ['1'] 5 (some 7)
      (some ['C']) 4 8).ret = OS_SUCCESS ∧
    (OS_QueueCreate ⟨20, 2147483647, 16384⟩
      ⟨[], [⟨false, 3, ['A'], 0⟩, ⟨true, 0, [], 0⟩], [], [], []⟩ 0 ['1'] 5 (some 7)
      (some ['C']) 4 8).out = some 1 :=
  have hfull : tableFull (queueView
      ⟨[], [⟨false, 3, ['A'], 0⟩, ⟨false, 4, ['B'], 0⟩], [], [], []⟩) := by
    intro i b n hi
    rcases i with _ | _ | i <;> simp [queueView, view] at hi <;> simp [hi]
  have hfresh : ¬ nameLive (queueView
      ⟨[], [⟨false, 3, ['A'], 0⟩, ⟨true, 0, [], 0⟩], [], [], []⟩) ['C'] := by
    rintro ⟨i, hi⟩
    rcases i with _ | _ | i <;> simp [queueView, view] at hi
  have h := (C3_no_free_ids_then_reuse_of_freed_slot ⟨20, 2147483647, 16384⟩
    ⟨[], [⟨false, 3, ['A'], 0⟩, ⟨false, 4, ['B'], 0⟩], [], [], []⟩ ['C']
    (by decide)).2.1 hfull
  have h2 := h.2 ['1'] 1 0 0
    ⟨OS_SUCCESS, ⟨[], [⟨false, 3, ['A'], 0⟩, ⟨true, 0, [], 0⟩], [], [], []⟩,
      [Event.host (HostCall.mq_close 1),
       Event.host (HostCall.mq_unlink ['/', '1', '.', 'B']),
       Event.lock Guard.OS_queue_table_mut, Event.unlock Guard.OS_queue_table_mut]⟩
    (by decide) rfl hfresh 0 ['1'] 5 7 4 8 (by decide)
  ⟨by decide, (h.1 0 ['1'] 5 7 4 8).1, by decide, h2.1, h2.2⟩

/-- C7, witness: in a binary semaphore table with a live row "A" and a free row,
`OS_BinSemCreate` of "B" with a failing `sem_init` returns `OS_SEM_FAILURE` and id 0
stays the only valid id. -/
theorem C7_host_failure_releases_witness :
    (['B'] : CStr).length < (⟨20, 2147483647, 16384⟩ : Config).OS_MAX_API_NAME ∧
    (OS_BinSemCreate ⟨20, 2147483647, 16384⟩
      ⟨[], [], [⟨false, ['A'], 0, 1, 1⟩, ⟨true, [], 0, 0, 0⟩], [], []⟩ 0 (some 7)
      (some ['B']) 1 (-1)).ret = OS_SEM_FAILURE ∧
    (∀ i, validId (binSemView (OS_BinSemCreate ⟨20, 2147483647, 16384⟩
        ⟨[], [], [⟨false, ['A'], 0, 1, 1⟩, ⟨true, [], 0, 0, 0⟩], [], []⟩ 0 (some 7)
        (some ['B']) 1 (-1)).st) i ↔
      validId (binSemView
        ⟨[], [], [⟨false, ['A'], 0, 1, 1⟩, ⟨true, [], 0, 0, 0⟩], [], []⟩) i) :=
  have hnf : ¬ tableFull (binSemView
      ⟨[], [], [⟨false, ['A'], 0, 1, 1⟩, ⟨true, [], 0, 0, 0⟩], [], []⟩) := by
    intro hfull
    exact absurd (hfull 1 true [] rfl) (by decide)
  have hnl : ¬ nameLive (binSemView
      ⟨[], [], [⟨false, ['A'], 0, 1, 1⟩, ⟨true, [], 0, 0, 0⟩], [], []⟩) ['B'] := by
    rintro ⟨i, hi⟩
    rcases i with _ | _ | i <;> simp [binSemView, view] at hi
  have h := (C7_host_failure_releases_the_reserved_slot ⟨20, 2147483647, 16384⟩
    ⟨[], [], [⟨false, ['A'], 0, 1, 1⟩, ⟨true, [], 0, 0, 0⟩], [], []⟩ ['B']
    (by decide)).2.2.1 hnf hnl 0 7 1 (-1) rfl _ rfl
  ⟨by decide, h.1, h.2.2.1⟩

/-! ## C11: ticks -/

/-- When `OS_Tick2Micros` gives a positive tick duration and the `uint32` sum does not
wrap, `OS_Milli2Ticks` is `(ms * 1000 + tick - 1) / tick`, the quotient rounded up. -/
theorem OS_Milli2Ticks_of_pos (c : Int) (t ms : Nat) (ht : OS_Tick2Micros c = some (t : Int))
    (hpos : 0 < t) (hsmall : ms * 1000 + t - 1 < 2147483648) :
    OS_Milli2Ticks c ms = some (((ms * 1000 + t - 1) / t : Nat) : Int) := by
  have ht32 : t < 4294967296 := by omega
  have h1 : ((t : Int) % 4294967296).toNat = t := by
    rw [Int.emod_eq_of_lt (by omega) (by omega)]
    simp
  have h2 : (ms * 1000 + t - 1) % 4294967296 = ms * 1000 + t - 1 :=
    Nat.mod_eq_of_lt (by omega)
  have h3 : (ms * 1000 + t - 1) / t < 2147483648 :=
    lt_of_le_of_lt (Nat.div_le_self _ _) hsmall
  simp only [OS_Milli2Ticks, ht, h1, h2]
  rw [if_neg (by omega), if_pos h3]

/-- C11: on a host whose `CLOCKS_PER_SEC` is 1000000, `OS_Tick2Micros` returns 0 and
`OS_Milli2Ticks` divides by it for every argument, so it has no value; the claim asks
for the ceiling of `ms * 1000 / tick_us`. -/
theorem C11_tick_duration_is_zero :
    OS_Tick2Micros 1000000 = some 0 ∧ ∀ ms, OS_Milli2Ticks 1000000 ms = none := by
  refine ⟨by decide, fun ms => ?_⟩
  have h : OS_Tick2Micros 1000000 = some 0 := by decide
  simp [OS_Milli2Ticks, h]

/-! ## C12: the absolute deadline -/

/-- C12: for every clock reading with `0 <= tv_nsec < 10^9` and every `msecs`,
`OS_CompAbsDelayTime` gives a time with `0 <= tv_nsec < 10^9` whose value in nanoseconds
is that of the reading plus `msecs * 10^6`. -/
theorem C12_abs_delay_time_is_the_normalised_deadline (msecs : Nat) (now : timespec)
    (h0 : 0 ≤ now.tv_nsec) (h1 : now.tv_nsec < 1000000000) :
    0 ≤ (OS_CompAbsDelayTime msecs now).tv_nsec ∧
    (OS_CompAbsDelayTime msecs now).tv_nsec < 1000000000 ∧
    (OS_CompAbsDelayTime msecs now).tv_sec * 1000000000
        + (OS_CompAbsDelayTime msecs now).tv_nsec
      = (now.tv_sec * 1000000000 + now.tv_nsec) + (msecs : Int) * 1000000 := by
  unfold OS_CompAbsDelayTime
  simp only
  split <;> refine ⟨?_, ?_, ?_⟩ <;> simp only <;> omega

/-- C12, witness: 1500 ms after the reading (10 s, 700000000 ns) is (12 s, 200000000 ns). -/
theorem C12_abs_delay_time_witness :
    OS_CompAbsDelayTime 1500 ⟨10, 700000000⟩ = ⟨12, 200000000⟩ ∧
    0 ≤ (OS_CompAbsDelayTime 1500 ⟨10, 700000000⟩).tv_nsec ∧
    (OS_CompAbsDelayTime 1500 ⟨10, 700000000⟩).tv_nsec < 1000000000 ∧
    (OS_CompAbsDelayTime 1500 ⟨10, 700000000⟩).tv_sec * 1000000000
        + (OS_CompAbsDelayTime 1500 ⟨10, 700000000⟩).tv_nsec
      = ((⟨10, 700000000⟩ : timespec).tv_sec * 1000000000
          + (⟨10, 700000000⟩ : timespec).tv_nsec) + ((1500 : Nat) : Int) * 1000000 :=
  ⟨by decide,
    C12_abs_delay_time_is_the_normalised_deadline 1500 ⟨10, 700000000⟩ (by decide)
      (by decide)⟩

/-! ## C13: bounds of the semaphore values -/

theorem rows_set {α : Type} (P : α → Prop) (t : List α) (j : Nat) (r : α)
    (h : ∀ (i : Nat) (row : α), t[i]? = some row → P row) (hr : P r) :
    ∀ (i : Nat) (row : α), (t.set j r)[i]? = some row → P row := by
  intro i row hi
  by_cases hij : j = i
  · subst hij
    by_cases hlt : j < t.length
    · rw [List.getElem?_set_self hlt] at hi
      cases hi
      exact hr
    · rw [List.getElem?_eq_none_iff.mpr (by simpa using hlt)] at hi
      cases hi
  · rw [List.getElem?_set_ne hij] at hi
    exact h i row hi

theorem reserve_reserved_get {α : Type} (fr : α → Bool) (nm : α → CStr) (t : List α)
    (name : CStr) (i : Nat) (row : α) (h : reserve fr nm t name = .reserved i row) :
    t[i]? = some row := by
  unfold reserve at h
  simp only at h
  split at h
  · cases h
  · rename_i row0 hget
    split at h
    · cases h
    · injection h with h1 h2
      subst h1 h2
      exact hget

theorem OS_BinSemCreate_bounded (cfg : Config) (s : OSState) (self : Nat)
    (sem_id : Option Nat) (sem_name : Option CStr) (init : Nat) (Status : Int)
    (h : binSemBounded s) :
    binSemBounded (OS_BinSemCreate cfg s self sem_id sem_name init Status).st := by
  unfold OS_BinSemCreate
  repeat' split
  all_goals first
    | exact h
    | (simp only [binSemBounded]
       refine rows_set (fun row : OS_bin_sem_record_t =>
         row.free = false → row.max_value = 1 ∧ row.current_value ≤ 1) _ _ _ h ?_
       intro hfree
       first
         | (simp at hfree; done)
         | (refine ⟨rfl, ?_⟩
            simp only
            omega))

theorem OS_BinSemDelete_bounded (s : OSState) (id : Nat) (ret : Int) (h : binSemBounded s) :
    binSemBounded (OS_BinSemDelete s id ret).st := by
  unfold OS_BinSemDelete
  repeat' split
  all_goals first
    | exact h
    | (simp only [binSemBounded]
       refine rows_set (fun row : OS_bin_sem_record_t =>
         row.free = false → row.max_value = 1 ∧ row.current_value ≤ 1) _ _ _ h ?_
       intro hfree
       simp at hfree)

theorem OS_BinSemGive_bounded (s : OSState) (id : Nat) (ret : Int) (h : binSemBounded s) :
    binSemBounded (OS_BinSemGive s id ret).st := by
  unfold OS_BinSemGive
  split
  · exact h
  · rename_i row hget
    split
    · exact h
    · rename_i hfree
      have hb := h id row hget (by simpa using hfree)
      repeat' split
      all_goals first
        | exact h
        | (simp only [binSemBounded]
           refine rows_set (fun row : OS_bin_sem_record_t =>
             row.free = false → row.max_value = 1 ∧ row.current_value ≤ 1) _ _ _ h ?_
           intro _
           refine ⟨hb.1, ?_⟩
           simp only
           omega)

theorem OS_BinSemFlush_bounded (s : OSState) (id : Nat) (h : binSemBounded s) :
    binSemBounded (OS_BinSemFlush s id).st := by
  unfold OS_BinSemFlush
  repeat' split
  all_goals exact h

theorem OS_BinSemTake_bounded (s : OSState) (id : Nat) (waits : List (Int × Int)) (r : Ret)
    (hr : OS_BinSemTake s id waits = some r) (h : binSemBounded s) : binSemBounded r.st := by
  unfold OS_BinSemTake at hr
  split at hr
  · cases hr; exact h
  · rename_i row hget
    split at hr
    · cases hr; exact h
    · rename_i hfree
      have hb := h id row hget (by simpa using hfree)
      repeat' split at hr
      all_goals first
        | (cases hr
           simp only [binSemBounded]
           refine rows_set (fun row : OS_bin_sem_record_t =>
             row.free = false → row.max_value = 1 ∧ row.current_value ≤ 1) _ _ _ h ?_
           intro _
           refine ⟨hb.1, ?_⟩
           simp only
           omega)
        | cases hr

theorem OS_BinSemTimedWait_bounded (s : OSState) (id msecs : Nat) (now : timespec)
    (waits : List (Int × Int)) (r : Ret)
    (hr : OS_BinSemTimedWait s id msecs now waits = some r) (h : binSemBounded s) :
    binSemBounded r.st := by
  unfold OS_BinSemTimedWait at hr
  split at hr
  · cases hr; exact h
  · rename_i row hget
    split at hr
    · cases hr; exact h
    · rename_i hfree
      have hb := h id row hget (by simpa using hfree)
      repeat' split at hr
      all_goals first
        | (cases hr
           simp only [binSemBounded]
           refine rows_set (fun row : OS_bin_sem_record_t =>
             row.free = false → row.max_value = 1 ∧ row.current_value ≤ 1) _ _ _ h ?_
           intro _
           refine ⟨hb.1, ?_⟩
           simp only
           omega)
        | cases hr

theorem OS_CountSemCreate_bounded (cfg : Config) (s : OSState) (self : Nat)
    (sem_id : Option Nat) (sem_name : Option CStr) (init : Nat) (Status : Int)
    (h : countSemBounded cfg s) :
    countSemBounded cfg (OS_CountSemCreate cfg s self sem_id sem_name init Status).st := by
  unfold OS_CountSemCreate
  repeat' split
  all_goals first
    | exact h
    | (simp only [countSemBounded]
       refine rows_set (fun row : OS_count_sem_record_t =>
         row.free = false →
           row.max_value = (cfg.SEM_VALUE_MAX : Int) ∧ row.current_value ≤ row.max_value) _ _ _ h ?_
       intro hfree
       first
         | (simp at hfree; done)
         | (refine ⟨rfl, ?_⟩
            simp only
            omega))

theorem OS_CountSemDelete_bounded (cfg : Config) (s : OSState) (id : Nat) (ret : Int)
    (h : countSemBounded cfg s) : countSemBounded cfg (OS_CountSemDelete s id ret).st := by
  unfold OS_CountSemDelete
  repeat' split
  all_goals first
    | exact h
    | (simp only [countSemBounded]
       refine rows_set (fun row : OS_count_sem_record_t =>
         row.free = false →
           row.max_value = (cfg.SEM_VALUE_MAX : Int) ∧ row.current_value ≤ row.max_value) _ _ _ h ?_
       intro hfree
       simp at hfree)

theorem OS_CountSemGive_bounded (cfg : Config) (s : OSState) (id : Nat) (ret : Int)
    (h : countSemBounded cfg s) : countSemBounded cfg (OS_CountSemGive s id ret).st := by
  unfold OS_CountSemGive
  split
  · exact h
  · rename_i row hget
    split
    · exact h
    · rename_i hfree0
      have hb := h id row hget (by simpa using hfree0)
      repeat' split
      all_goals first
        | exact h
        | (simp only [countSemBounded]
           refine rows_set (fun row : OS_count_sem_record_t =>
             row.free = false →
               row.max_value = (cfg.SEM_VALUE_MAX : Int) ∧
                 row.current_value ≤ row.max_value) _ _ _ h ?_
           intro _
           refine ⟨hb.1, ?_⟩
           simp only
           omega)

theorem OS_CountSemTake_bounded (cfg : Config) (s : OSState) (id : Nat) (waits : List (Int × Int))
    (r : Ret) (hr : OS_CountSemTake s id waits = some r) (h : countSemBounded cfg s) :
    countSemBounded cfg r.st := by
  unfold OS_CountSemTake at hr
  split at hr
  · cases hr; exact h
  · rename_i row hget
    split at hr
    · cases hr; exact h
    · rename_i hfree0
      have hb := h id row hget (by simpa using hfree0)
      repeat' split at hr
      all_goals first
        | (cases hr
           simp only [countSemBounded]
           refine rows_set (fun row : OS_count_sem_record_t =>
         row.free = false →
           row.max_value = (cfg.SEM_VALUE_MAX : Int) ∧ row.current_value ≤ row.max_value) _ _ _ h ?_
           intro _
           refine ⟨hb.1, ?_⟩
           simp only
           omega)
        | cases hr

theorem OS_CountSemTimedWait_bounded (cfg : Config) (s : OSState) (id : Nat) (msecs : Nat) (now : timespec) (waits : List (Int × Int))
    (r : Ret) (hr : OS_CountSemTimedWait s id msecs now waits = some r) (h : countSemBounded cfg s) :
    countSemBounded cfg r.st := by
  unfold OS_CountSemTimedWait at hr
  split at hr
  · cases hr; exact h
  · rename_i row hget
    split at hr
    · cases hr; exact h
    · rename_i hfree0
      have hb := h id row hget (by simpa using hfree0)
      repeat' split at hr
      all_goals first
        | (cases hr
           simp only [countSemBounded]
           refine rows_set (fun row : OS_count_sem_record_t =>
         row.free = false →
           row.max_value = (cfg.SEM_VALUE_MAX : Int) ∧ row.current_value ≤ row.max_value) _ _ _ h ?_
           intro _
           refine ⟨hb.1, ?_⟩
           simp only
           omega)
        | cases hr

theorem execSem_frame (s s1 : OSState) (c : SemCall) (h : execSem s c = some s1) :
    s1.OS_task_table = s.OS_task_table ∧ s1.OS_queue_table = s.OS_queue_table ∧
      s1.OS_mut_sem_table = s.OS_mut_sem_table ∧
      ((∃ a b, c = .BinSemGive a b) ∨ (∃ a, c = .BinSemFlush a) ∨
        (∃ a b, c = .BinSemTake a b) ∨ (∃ a b d e, c = .BinSemTimedWait a b d e) →
          s1.OS_count_sem_table = s.OS_count_sem_table) ∧
      ((∃ a b, c = .CountSemGive a b) ∨ (∃ a b, c = .CountSemTake a b) ∨
        (∃ a b d e, c = .CountSemTimedWait a b d e) →
          s1.OS_bin_sem_table = s.OS_bin_sem_table) := by
  cases c <;> simp only [execSem, Option.some.injEq, Option.map_eq_some'] at h
  case BinSemGive a b =>
    subst h; unfold OS_BinSemGive; repeat' split
    all_goals simp
  case BinSemFlush a =>
    subst h; unfold OS_BinSemFlush; repeat' split
    all_goals simp
  case CountSemGive a b =>
    subst h; unfold OS_CountSemGive; repeat' split
    all_goals simp
  case BinSemTake a b =>
    rcases h with ⟨r, hr, rfl⟩
    unfold OS_BinSemTake at hr
    repeat' split at hr
    all_goals first | (simp at hr; done) | (simp at hr; subst hr; simp)
  case BinSemTimedWait a b d e =>
    rcases h with ⟨r, hr, rfl⟩
    unfold OS_BinSemTimedWait at hr
    repeat' split at hr
    all_goals first | (simp at hr; done) | (simp at hr; subst hr; simp)
  case CountSemTake a b =>
    rcases h with ⟨r, hr, rfl⟩
    unfold OS_CountSemTake at hr
    repeat' split at hr
    all_goals first | (simp at hr; done) | (simp at hr; subst hr; simp)
  case CountSemTimedWait a b d e =>
    rcases h with ⟨r, hr, rfl⟩
    unfold OS_CountSemTimedWait at hr
    repeat' split at hr
    all_goals first | (simp at hr; done) | (simp at hr; subst hr; simp)

theorem binSemBounded_congr (s s1 : OSState) (h : s1.OS_bin_sem_table = s.OS_bin_sem_table)
    (hb : binSemBounded s) : binSemBounded s1 := by
  unfold binSemBounded
  rw [h]
  exact hb

theorem countSemBounded_congr (cfg : Config) (s s1 : OSState)
    (h : s1.OS_count_sem_table = s.OS_count_sem_table) (hb : countSemBounded cfg s) :
    countSemBounded cfg s1 := by
  unfold countSemBounded
  rw [h]
  exact hb

theorem execSem_bounded (cfg : Config) (s s1 : OSState) (c : SemCall)
    (h : execSem s c = some s1) (hb : binSemBounded s) (hc : countSemBounded cfg s) :
    binSemBounded s1 ∧ countSemBounded cfg s1 := by
  have hfr := execSem_frame s s1 c h
  cases c <;> simp only [execSem, Option.some.injEq, Option.map_eq_some'] at h
  case BinSemGive a b =>
    refine ⟨?_, countSemBounded_congr cfg s s1 (hfr.2.2.2.1 (Or.inl ⟨_, _, rfl⟩)) hc⟩
    subst h
    exact OS_BinSemGive_bounded s a b hb
  case BinSemFlush a =>
    refine ⟨?_, countSemBounded_congr cfg s s1 (hfr.2.2.2.1 (Or.inr (Or.inl ⟨_, rfl⟩))) hc⟩
    subst h
    exact OS_BinSemFlush_bounded s a hb
  case BinSemTake a b =>
    refine ⟨?_, countSemBounded_congr cfg s s1
      (hfr.2.2.2.1 (Or.inr (Or.inr (Or.inl ⟨_, _, rfl⟩)))) hc⟩
    rcases h with ⟨r, hr, rfl⟩
    exact OS_BinSemTake_bounded s a b r hr hb
  case BinSemTimedWait a b d e =>
    refine ⟨?_, countSemBounded_congr cfg s s1
      (hfr.2.2.2.1 (Or.inr (Or.inr (Or.inr ⟨_, _, _, _, rfl⟩)))) hc⟩
    rcases h with ⟨r, hr, rfl⟩
    exact OS_BinSemTimedWait_bounded s a b d e r hr hb
  case CountSemGive a b =>
    refine ⟨binSemBounded_congr s s1 (hfr.2.2.2.2 (Or.inl ⟨_, _, rfl⟩)) hb, ?_⟩
    subst h
    exact OS_CountSemGive_bounded cfg s a b hc
  case CountSemTake a b =>
    refine ⟨binSemBounded_congr s s1 (hfr.2.2.2.2 (Or.inr (Or.inl ⟨_, _, rfl⟩))) hb, ?_⟩
    rcases h with ⟨r, hr, rfl⟩
    exact OS_CountSemTake_bounded cfg s a b r hr hc
  case CountSemTimedWait a b d e =>
    refine ⟨binSemBounded_congr s s1
      (hfr.2.2.2.2 (Or.inr (Or.inr ⟨_, _, _, _, rfl⟩))) hb, ?_⟩
    rcases h with ⟨r, hr, rfl⟩
    exact OS_CountSemTimedWait_bounded cfg s a b d e r hr hc

theorem exec_bounded (cfg : Config) (s s1 : OSState) (c : Call)
    (h : exec cfg s c = some s1) (hb : binSemBounded s) (hc : countSemBounded cfg s) :
    binSemBounded s1 ∧ countSemBounded cfg s1 := by
  cases c <;> simp only [exec, Option.some.injEq, Option.map_eq_some'] at h
  case TaskCreate self hh task_id task_name fp stack_size priority =>
    rcases h with ⟨r, hr, rfl⟩
    have hf := OS_TaskCreate_frame cfg s self hh task_id task_name fp stack_size priority r hr
    exact ⟨binSemBounded_congr s _ hf.2.1 hb, countSemBounded_congr cfg s _ hf.2.2.1 hc⟩
  case TaskDelete a b =>
    subst h
    have hf := OS_TaskDelete_frame s a b
    exact ⟨binSemBounded_congr s _ hf.2.1 hb, countSemBounded_congr cfg s _ hf.2.2.1 hc⟩
  case QueueCreate a b d e f g i =>
    subst h
    have hf := OS_QueueCreate_frame cfg s a b d e f g i
    exact ⟨binSemBounded_congr s _ hf.2.1 hb, countSemBounded_congr cfg s _ hf.2.2.1 hc⟩
  case QueueDelete a b d e =>
    rcases h with ⟨r, hr, rfl⟩
    have hf := OS_QueueDelete_frame cfg s a b d e r hr
    exact ⟨binSemBounded_congr s _ hf.2.1 hb, countSemBounded_congr cfg s _ hf.2.2.1 hc⟩
  case BinSemCreate a b d e f =>
    subst h
    have hf := OS_BinSemCreate_frame cfg s a b d e f
    exact ⟨OS_BinSemCreate_bounded cfg s a b d e f hb,
      countSemBounded_congr cfg s _ hf.2.2.1 hc⟩
  case BinSemDelete a b =>
    subst h
    have hf := OS_BinSemDelete_frame s a b
    exact ⟨OS_BinSemDelete_bounded s a b hb, countSemBounded_congr cfg s _ hf.2.2.1 hc⟩
  case CountSemCreate a b d e f =>
    subst h
    have hf := OS_CountSemCreate_frame cfg s a b d e f
    exact ⟨binSemBounded_congr s _ hf.2.2.1 hb, OS_CountSemCreate_bounded cfg s a b d e f hc⟩
  case CountSemDelete a b =>
    subst h
    have hf := OS_CountSemDelete_frame s a b
    exact ⟨binSemBounded_congr s _ hf.2.2.1 hb, OS_CountSemDelete_bounded cfg s a b hc⟩
  case MutSemCreate a b d e f =>
    subst h
    have hf := OS_MutSemCreate_frame cfg s a b d e f
    exact ⟨binSemBounded_congr s _ hf.2.2.1 hb, countSemBounded_congr cfg s _ hf.2.2.2 hc⟩
  case MutSemDelete a b =>
    subst h
    have hf := OS_MutSemDelete_frame s a b
    exact ⟨binSemBounded_congr s _ hf.2.2.1 hb, countSemBounded_congr cfg s _ hf.2.2.2 hc⟩

theorem runAny_bounded (cfg : Config) (cs : List (Call ⊕ SemCall)) (s s1 : OSState)
    (h : runAny cfg s cs = some s1) (hb : binSemBounded s) (hc : countSemBounded cfg s) :
    binSemBounded s1 ∧ countSemBounded cfg s1 := by
  induction cs generalizing s with
  | nil =>
    simp only [runAny, Option.some.injEq] at h
    subst h
    exact ⟨hb, hc⟩
  | cons c cs ih =>
    simp only [runAny] at h
    split at h
    · cases h
    · rename_i s2 hs2
      have h2 : binSemBounded s2 ∧ countSemBounded cfg s2 := by
        cases c with
        | inl c => exact exec_bounded cfg s s2 c hs2 hb hc
        | inr c => exact execSem_bounded cfg s s2 c hs2 hb hc
      exact ih s2 h h2.1 h2.2

theorem all_free_of_initLoop {α : Type} (fr : α → Bool) (f : α → α)
    (hf : ∀ r, fr (f r) = true) (t t1 : List α) (h : initLoop f t.length 0 t = some t1) :
    ∀ (i : Nat) (row : α), t1[i]? = some row → fr row = true := by
  intro i row hi
  have := initLoop_all_free fr (fun _ => []) f hf t t1 h i (fr row) []
    (by rw [view_getElem?, hi]; rfl)
  exact this

/-- Supporting result for C13: when `OS_MAX_COUNT_SEMAPHORES` equals
`OS_MAX_BIN_SEMAPHORES`, in every state reached from `OS_API_Init` by Create, Delete,
Give, Flush, Take and TimedWait calls, whatever the host results are, every live binary
semaphore has `max_value = 1` and `current_value <= 1` and every live counting semaphore
has `current_value <= max_value = SEM_VALUE_MAX`. -/
theorem sem_values_bounded_when_sem_tables_have_equal_sizes (cfg : Config)
    (OS_MAX_TASKS OS_MAX_QUEUES OS_MAX_SEMAPHORES OS_MAX_MUTEXES : Nat) (h : InitHost)
    (ret : OS_Status) (s0 : OSState)
    (hinit : OS_API_Init (zeroState OS_MAX_TASKS OS_MAX_QUEUES OS_MAX_SEMAPHORES
      OS_MAX_SEMAPHORES OS_MAX_MUTEXES) h = some (ret, s0))
    (cs : List (Call ⊕ SemCall)) (s : OSState) (hrun : runAny cfg s0 cs = some s) :
    binSemBounded s ∧ countSemBounded cfg s := by
  have h0 : binSemBounded s0 ∧ countSemBounded cfg s0 := by
    unfold OS_API_Init at hinit
    split at hinit
    · rename_i tt qt bt ct mt h1 h2 h3 h4 h5
      simp only [zeroState, List.length_replicate] at h3 h4
      have hs0 : s0 = ⟨tt, qt, bt, ct, mt⟩ := by
        simp only at hinit
        repeat' split at hinit
        all_goals (simp only [Option.some.injEq, Prod.mk.injEq] at hinit; exact hinit.2.symm)
      subst hs0
      constructor
      · intro i row hi hfree
        have := all_free_of_initLoop OS_bin_sem_record_t.free _ (fun _ => rfl)
          (List.replicate OS_MAX_SEMAPHORES ⟨false, [], 0, 0, 0⟩) bt
          (by rw [List.length_replicate]; exact h3) i row hi
        rw [hfree] at this
        cases this
      · intro i row hi hfree
        have := all_free_of_initLoop OS_count_sem_record_t.free _ (fun _ => rfl)
          (List.replicate OS_MAX_SEMAPHORES ⟨false, [], 0, 0, 0⟩) ct
          (by rw [List.length_replicate]; exact h4) i row hi
        rw [hfree] at this
        cases this
    · cases hinit
  exact runAny_bounded cfg cs s0 s hrun h0.1 h0.2

/-- Supporting result for C13: a binary semaphore created with `OS_SUCCESS` starts with
`max_value = 1` and `current_value = min(initial, 1)`. -/
theorem OS_BinSemCreate_initial_value (cfg : Config) (s : OSState) (self : Nat)
    (sem_id : Option Nat) (sem_name : Option CStr) (init : Nat) (Status : Int)
    (hret : (OS_BinSemCreate cfg s self sem_id sem_name init Status).ret = OS_SUCCESS) :
    ∃ id row, (OS_BinSemCreate cfg s self sem_id sem_name init Status).out = some id ∧
      (OS_BinSemCreate cfg s self sem_id sem_name init Status).st.OS_bin_sem_table[id]?
        = some row ∧
      row.free = false ∧ row.max_value = 1 ∧ row.current_value = ((min init 1 : Nat) : Int) := by
  unfold OS_BinSemCreate at hret ⊢
  repeat' split at hret
  all_goals first
    | (simp at hret; done)
    | skip
  all_goals
    rename_i heq _ _
    have hget := reserve_reserved_get _ _ _ _ _ _ heq
    have hlt := (List.getElem?_eq_some_iff.mp hget).1
    simp only [heq]
    split
    · contradiction
    · refine ⟨_, _, rfl, List.getElem?_set_self hlt, rfl, rfl, ?_⟩
      simp only
      congr 1
      omega

/-- Supporting result for C13: on a live semaphore whose `current_value` has reached
`max_value`, Give returns `OS_SUCCESS`, changes nothing and makes no host call
(`OS_CountSemGive` takes and releases its table guard). -/
theorem Give_at_max_value (s : OSState) (id : Nat) (ret : Int) :
    (∀ row, s.OS_bin_sem_table[id]? = some row → row.free = false →
      row.current_value ≥ row.max_value → OS_BinSemGive s id ret = ⟨OS_SUCCESS, s, []⟩) ∧
    (∀ row, s.OS_count_sem_table[id]? = some row → row.free = false →
      row.current_value ≥ row.max_value →
        OS_CountSemGive s id ret = ⟨OS_SUCCESS, s, critical .OS_count_sem_table_mut⟩) := by
  constructor
  · intro row hget hfree hmax
    simp only [OS_BinSemGive, hget, hfree]
    rw [if_neg (by simp), if_neg (by omega)]
  · intro row hget hfree hmax
    simp only [OS_CountSemGive, hget, hfree]
    rw [if_neg (by simp), if_neg (by omega)]

/-- C13 (failing input): with `OS_MAX_BIN_SEMAPHORES = 1` and
`OS_MAX_COUNT_SEMAPHORES = 3`, `OS_API_Init` run on the all-zero tables with every host
call succeeding returns `OS_SUCCESS` and leaves row 1 of `OS_count_sem_table` as it was:
non-free, with `max_value = 0`, which is not `SEM_VALUE_MAX`. The loop over
`OS_count_sem_table` is bounded by `OS_MAX_BIN_SEMAPHORES`. -/
theorem C13_init_leaves_a_live_count_sem_with_max_value_zero :
    ∃ s, OS_API_Init (zeroState 1 1 1 3 1) ⟨OS_SUCCESS, 0, 0, 0, 0, 0, 0, OS_SUCCESS⟩
        = some (OS_SUCCESS, s) ∧
      runAny ⟨20, 2147483647, 16384⟩ s [] = some s ∧
      s.OS_count_sem_table[1]? = some ⟨false, [], 0, 0, 0⟩ ∧
      ¬ countSemBounded ⟨20, 2147483647, 16384⟩ s := by
  refine ⟨⟨[⟨true, 0, [], 0, 0, 0, none⟩], [⟨true, 0, [], 0⟩], [⟨true, [], 0, 0, 0⟩],
    [⟨true, [], 0, 0, 0⟩, ⟨false, [], 0, 0, 0⟩, ⟨false, [], 0, 0, 0⟩], [⟨true, [], 0, 0⟩]⟩,
    by decide, rfl, by decide, ?_⟩
  intro hb
  have := (hb 1 ⟨false, [], 0, 0, 0⟩ (by decide) rfl).1
  exact absurd this (by decide)

/-! ## C14: waits restarted after `EINTR` -/

theorem restartLoop_interrupted (k : Nat) (ret errno : Int)
    (hfin : ¬ (ret = -1 ∧ errno = EINTR)) :
    restartLoop (List.replicate k ((-1 : Int), EINTR) ++ [(ret, errno)])
      = some ((ret, errno), k + 1) := by
  induction k with
  | zero => simp [restartLoop, hfin]
  | succ k ih =>
    rw [List.replicate_succ, List.cons_append, restartLoop, if_pos ⟨rfl, rfl⟩, ih]

theorem bin_row_restore (s : OSState) (id : Nat) (row : OS_bin_sem_record_t)
    (hget : s.OS_bin_sem_table[id]? = some row) :
    (let row2 := { row with current_value := row.current_value - 1 + 1 }
     ({ s with OS_bin_sem_table := s.OS_bin_sem_table.set id row2 } : OSState)) = s := by
  simp only
  have hrow : ({ row with current_value := row.current_value - 1 + 1 } :
      OS_bin_sem_record_t) = row := by
    cases row
    simp
  rw [hrow, set_getElem?_self _ _ _ hget]

theorem count_row_restore (s : OSState) (id : Nat) (row : OS_count_sem_record_t)
    (hget : s.OS_count_sem_table[id]? = some row) :
    (let row2 := { row with current_value := row.current_value - 1 + 1 }
     ({ s with OS_count_sem_table := s.OS_count_sem_table.set id row2 } : OSState)) = s := by
  simp only
  have hrow : ({ row with current_value := row.current_value - 1 + 1 } :
      OS_count_sem_record_t) = row := by
    cases row
    simp
  rw [hrow, set_getElem?_self _ _ _ hget]

theorem OS_BinSemTake_interrupted (s : OSState) (id k : Nat) (ret errno : Int)
    (hfin : ¬ (ret = -1 ∧ errno = EINTR)) (row : OS_bin_sem_record_t)
    (hget : s.OS_bin_sem_table[id]? = some row) (hfree : row.free = false) :
    ∃ r, OS_BinSemTake s id (List.replicate k ((-1 : Int), EINTR) ++ [(ret, errno)]) = some r ∧
      r.tr = List.replicate (k + 1) (Event.host (.sem_wait .OS_bin_sem_table_mut id)) ∧
      (ret = 0 → r.ret = OS_SUCCESS ∧
        let row1 := { row with current_value := row.current_value - 1 }
        r.st = { s with OS_bin_sem_table := s.OS_bin_sem_table.set id row1 }) ∧
      (ret ≠ 0 → r.ret = OS_SEM_FAILURE ∧ r.st = s) := by
  have hf : ¬ row.free = true := by simp [hfree]
  simp only [OS_BinSemTake, hget, if_neg hf, restartLoop_interrupted k ret errno hfin]
  by_cases h0 : ret = 0
  · simp only [if_pos h0]
    exact ⟨_, rfl, rfl, fun _ => ⟨rfl, rfl⟩, fun h => absurd h0 h⟩
  · simp only [if_neg h0]
    exact ⟨_, rfl, rfl, fun h => absurd h h0, fun _ => ⟨rfl, bin_row_restore s id row hget⟩⟩

theorem OS_CountSemTake_interrupted (s : OSState) (id k : Nat) (ret errno : Int)
    (hfin : ¬ (ret = -1 ∧ errno = EINTR)) (row : OS_count_sem_record_t)
    (hget : s.OS_count_sem_table[id]? = some row) (hfree : row.free = false) :
    ∃ r, OS_CountSemTake s id (List.replicate k ((-1 : Int), EINTR) ++ [(ret, errno)])
        = some r ∧
      r.tr = Event.lock .OS_count_sem_table_mut ::
        (List.replicate (k + 1) (Event.host (.sem_wait .OS_count_sem_table_mut id))
          ++ [Event.unlock .OS_count_sem_table_mut]) ∧
      (ret = 0 → r.ret = OS_SUCCESS ∧
        let row1 := { row with current_value := row.current_value - 1 }
        r.st = { s with OS_count_sem_table := s.OS_count_sem_table.set id row1 }) ∧
      (ret ≠ 0 → r.ret = OS_SEM_FAILURE ∧ r.st = s) := by
  have hf : ¬ row.free = true := by simp [hfree]
  simp only [OS_CountSemTake, hget, if_neg hf, restartLoop_interrupted k ret errno hfin]
  by_cases h0 : ret = 0
  · simp only [if_pos h0]
    exact ⟨_, rfl, rfl, fun _ => ⟨rfl, rfl⟩, fun h => absurd h0 h⟩
  · simp only [if_neg h0]
    exact ⟨_, rfl, rfl, fun h => absurd h h0, fun _ => ⟨rfl, count_row_restore s id row hget⟩⟩

theorem OS_BinSemTimedWait_interrupted (s : OSState) (id msecs k : Nat) (now : timespec)
    (ret errno : Int) (hfin : ¬ (ret = -1 ∧ errno = EINTR)) (row : OS_bin_sem_record_t)
    (hget : s.OS_bin_sem_table[id]? = some row) (hfree : row.free = false) :
    ∃ r, OS_BinSemTimedWait s id msecs now
        (List.replicate k ((-1 : Int), EINTR) ++ [(ret, errno)]) = some r ∧
      r.tr = Event.host .clock_gettime ::
        List.replicate (k + 1) (Event.host (.sem_timedwait .OS_bin_sem_table_mut id
          (OS_CompAbsDelayTime msecs now))) ∧
      (ret = 0 → r.ret = OS_SUCCESS ∧
        let row1 := { row with current_value := row.current_value - 1 }
        r.st = { s with OS_bin_sem_table := s.OS_bin_sem_table.set id row1 }) ∧
      (ret = -1 ∧ errno = ETIMEDOUT → r.ret = OS_SEM_TIMEOUT ∧ r.st = s) ∧
      (ret ≠ 0 → ¬ (ret = -1 ∧ errno = ETIMEDOUT) → r.ret = OS_SEM_FAILURE ∧ r.st = s) := by
  have hf : ¬ row.free = true := by simp [hfree]
  simp only [OS_BinSemTimedWait, hget, if_neg hf, restartLoop_interrupted k ret errno hfin]
  by_cases h0 : ret = 0
  · simp only [if_pos h0]
    exact ⟨_, rfl, rfl, fun _ => ⟨rfl, rfl⟩, fun h => absurd (h0 ▸ h.1) (by decide),
      fun h => absurd h0 h⟩
  · by_cases h1 : ret = -1 ∧ errno = ETIMEDOUT
    · simp only [if_neg h0, if_pos h1]
      exact ⟨_, rfl, rfl, fun h => absurd h h0,
        fun _ => ⟨rfl, bin_row_restore s id row hget⟩, fun _ h => absurd h1 h⟩
    · simp only [if_neg h0, if_neg h1]
      exact ⟨_, rfl, rfl, fun h => absurd h h0, fun h => absurd h h1,
        fun _ _ => ⟨rfl, bin_row_restore s id row hget⟩⟩

theorem OS_CountSemTimedWait_interrupted (s : OSState) (id msecs k : Nat) (now : timespec)
    (ret errno : Int) (hfin : ¬ (ret = -1 ∧ errno = EINTR)) (row : OS_count_sem_record_t)
    (hget : s.OS_count_sem_table[id]? = some row) (hfree : row.free = false) :
    ∃ r, OS_CountSemTimedWait s id msecs now
        (List.replicate k ((-1 : Int), EINTR) ++ [(ret, errno)]) = some r ∧
      r.tr = Event.lock .OS_count_sem_table_mut ::
        (Event.host .clock_gettime ::
          List.replicate (k + 1) (Event.host (.sem_timedwait .OS_count_sem_table_mut id
            (OS_CompAbsDelayTime msecs now)))
          ++ [Event.unlock .OS_count_sem_table_mut]) ∧
      (ret = 0 → r.ret = OS_SUCCESS ∧
        let row1 := { row with current_value := row.current_value - 1 }
        r.st = { s with OS_count_sem_table := s.OS_count_sem_table.set id row1 }) ∧
      (ret = -1 ∧ errno = ETIMEDOUT → r.ret = OS_SEM_TIMEOUT ∧ r.st = s) ∧
      (ret ≠ 0 → ¬ (ret = -1 ∧ errno = ETIMEDOUT) → r.ret = OS_SEM_FAILURE ∧ r.st = s) := by
  have hf : ¬ row.free = true := by simp [hfree]
  simp only [OS_CountSemTimedWait, hget, if_neg hf, restartLoop_interrupted k ret errno hfin]
  by_cases h0 : ret = 0
  · simp only [if_pos h0]
    exact ⟨_, rfl, rfl, fun _ => ⟨rfl, rfl⟩, fun h => absurd (h0 ▸ h.1) (by decide),
      fun h => absurd h0 h⟩
  · by_cases h1 : ret = -1 ∧ errno = ETIMEDOUT
    · simp only [if_neg h0, if_pos h1]
      exact ⟨_, rfl, rfl, fun h => absurd h h0,
        fun _ => ⟨rfl, count_row_restore s id row hget⟩, fun _ h => absurd h1 h⟩
    · simp only [if_neg h0, if_neg h1]
      exact ⟨_, rfl, rfl, fun h => absurd h h0, fun h => absurd h h1,
        fun _ _ => ⟨rfl, count_row_restore s id row hget⟩⟩

/-- C14: for `OS_BinSemTake`, `OS_BinSemTimedWait`, `OS_CountSemTake` and
`OS_CountSemTimedWait` on a valid id, when the host wait is interrupted `k` times
(`-1` with `EINTR`) and then gives a final result `(ret, errno)`: the call returns, the
host wait has been called `k + 1` times, and the status is `OS_SUCCESS` with
`current_value` one less when `ret = 0`, `OS_SEM_TIMEOUT` with the state unchanged when
the final result of a timed wait is `-1` with `ETIMEDOUT`, and `OS_SEM_FAILURE` with the
state unchanged for every other final result. -/
theorem C14_wait_is_restarted_after_eintr (s : OSState) (id msecs k : Nat) (now : timespec)
    (ret errno : Int) (hfin : ¬ (ret = -1 ∧ errno = EINTR)) :
    (∀ (row : OS_bin_sem_record_t), s.OS_bin_sem_table[id]? = some row → row.free = false →
        ∃ r, OS_BinSemTake s id (List.replicate k ((-1 : Int), EINTR) ++ [(ret, errno)]) = some r ∧
          r.tr = List.replicate (k + 1) (Event.host (.sem_wait .OS_bin_sem_table_mut id)) ∧
          (ret = 0 → r.ret = OS_SUCCESS ∧
            let row1 := { row with current_value := row.current_value - 1 }
            r.st = { s with OS_bin_sem_table := s.OS_bin_sem_table.set id row1 }) ∧
          (ret ≠ 0 → r.ret = OS_SEM_FAILURE ∧ r.st = s) ) ∧
    (∀ (row : OS_bin_sem_record_t), s.OS_bin_sem_table[id]? = some row → row.free = false →
        ∃ r, OS_BinSemTimedWait s id msecs now
            (List.replicate k ((-1 : Int), EINTR) ++ [(ret, errno)]) = some r ∧
          r.tr = Event.host .clock_gettime ::
            List.replicate (k + 1) (Event.host (.sem_timedwait .OS_bin_sem_table_mut id
              (OS_CompAbsDelayTime msecs now))) ∧
          (ret = 0 → r.ret = OS_SUCCESS ∧
            let row1 := { row with current_value := row.current_value - 1 }
            r.st = { s with OS_bin_sem_table := s.OS_bin_sem_table.set id row1 }) ∧
          (ret = -1 ∧ errno = ETIMEDOUT → r.ret = OS_SEM_TIMEOUT ∧ r.st = s) ∧
          (ret ≠ 0 → ¬ (ret = -1 ∧ errno = ETIMEDOUT) → r.ret = OS_SEM_FAILURE ∧ r.st = s) ) ∧
    (∀ (row : OS_count_sem_record_t), s.OS_count_sem_table[id]? = some row → row.free = false →
        ∃ r, OS_CountSemTake s id (List.replicate k ((-1 : Int), EINTR) ++ [(ret, errno)])
            = some r ∧
          r.tr = Event.lock .OS_count_sem_table_mut ::
            (List.replicate (k + 1) (Event.host (.sem_wait .OS_count_sem_table_mut id))
              ++ [Event.unlock .OS_count_sem_table_mut]) ∧
          (ret = 0 → r.ret = OS_SUCCESS ∧
            let row1 := { row with current_value := row.current_value - 1 }
            r.st = { s with OS_count_sem_table := s.OS_count_sem_table.set id row1 }) ∧
          (ret ≠ 0 → r.ret = OS_SEM_FAILURE ∧ r.st = s) ) ∧
    (∀ (row : OS_count_sem_record_t), s.OS_count_sem_table[id]? = some row → row.free = false →
        ∃ r, OS_CountSemTimedWait s id msecs now
            (List.replicate k ((-1 : Int), EINTR) ++ [(ret, errno)]) = some r ∧
          r.tr = Event.lock .OS_count_sem_table_mut ::
            (Event.host .clock_gettime ::
              List.replicate (k + 1) (Event.host (.sem_timedwait .OS_count_sem_table_mut id
                (OS_CompAbsDelayTime msecs now)))
              ++ [Event.unlock .OS_count_sem_table_mut]) ∧
          (ret = 0 → r.ret = OS_SUCCESS ∧
            let row1 := { row with current_value := row.current_value - 1 }
            r.st = { s with OS_count_sem_table := s.OS_count_sem_table.set id row1 }) ∧
          (ret = -1 ∧ errno = ETIMEDOUT → r.ret = OS_SEM_TIMEOUT ∧ r.st = s) ∧
          (ret ≠ 0 → ¬ (ret = -1 ∧ errno = ETIMEDOUT) → r.ret = OS_SEM_FAILURE ∧ r.st = s) ) :=
  ⟨OS_BinSemTake_interrupted s id k ret errno hfin,
    OS_BinSemTimedWait_interrupted s id msecs k now ret errno hfin,
    OS_CountSemTake_interrupted s id k ret errno hfin,
    OS_CountSemTimedWait_interrupted s id msecs k now ret errno hfin⟩

/-- C14, witness: `OS_BinSemTake` on a live semaphore of value 1 whose `sem_wait` is
interrupted twice and then succeeds returns `OS_SUCCESS` after three host calls and
leaves the value 0. -/
theorem C14_wait_is_restarted_witness :
    ¬ ((0 : Int) = -1 ∧ (0 : Int) = EINTR) ∧
    OS_BinSemTake ⟨[], [], [⟨false, ['S'], 0, 1, 1⟩], [], []⟩ 0 [(-1, 4), (-1, 4), (0, 0)]
      = some ⟨OS_SUCCESS, ⟨[], [], [⟨false, ['S'], 0, 1, 0⟩], [], []⟩,
          List.replicate 3 (Event.host (.sem_wait .OS_bin_sem_table_mut 0))⟩ ∧
    ∃ r, OS_BinSemTake ⟨[], [], [⟨false, ['S'], 0, 1, 1⟩], [], []⟩ 0
        (List.replicate 2 ((-1 : Int), EINTR) ++ [(0, 0)]) = some r ∧
      r.ret = OS_SUCCESS :=
  ⟨by decide, by decide,
    match (C14_wait_is_restarted_after_eintr ⟨[], [], [⟨false, ['S'], 0, 1, 1⟩], [], []⟩
      0 0 2 ⟨0, 0⟩ 0 0 (by decide)).1 ⟨false, ['S'], 0, 1, 1⟩ rfl rfl with
    | ⟨r, hr, _, h0, _⟩ => ⟨r, hr, (h0 rfl).1⟩⟩

/-! ## C15, C16: nested Takes of a mutex -/

theorem reserve_reserved_free {α : Type} (fr : α → Bool) (nm : α → CStr) (t : List α)
    (name : CStr) (i : Nat) (row : α) (h : reserve fr nm t name = .reserved i row) :
    fr row = true := by
  have hget := reserve_reserved_get fr nm t name i row h
  unfold reserve at h
  simp only at h
  split at h
  · cases h
  · split at h
    · cases h
    · injection h with h1 h2
      subst h1
      exact findIdx_getElem?_some _ t row hget

theorem mutexInv_set (w : MutexWorld) (j : Nat) (r : OS_mut_sem_record_t) (o : Option Nat)
    (s1 : OSState) (hs1 : s1.OS_mut_sem_table = w.os.OS_mut_sem_table.set j r)
    (h : mutexInv w) (hr : mutexRowInv r o) :
    mutexInv ⟨s1, Function.update w.owner j o⟩ := by
  intro i row hi
  simp only at hi ⊢
  rw [hs1] at hi
  by_cases hij : j = i
  · subst hij
    by_cases hlt : j < w.os.OS_mut_sem_table.length
    · rw [List.getElem?_set_self hlt] at hi
      cases hi
      rw [Function.update_same]
      exact hr
    · rw [List.getElem?_eq_none_iff.mpr (by simpa using hlt)] at hi
      cases hi
  · rw [List.getElem?_set_ne hij] at hi
    rw [Function.update_noteq (Ne.symm hij)]
    exact h i row hi

theorem mutexInv_set_same_owner (w : MutexWorld) (j : Nat) (r : OS_mut_sem_record_t)
    (s1 : OSState) (hs1 : s1.OS_mut_sem_table = w.os.OS_mut_sem_table.set j r)
    (h : mutexInv w) (hr : mutexRowInv r (w.owner j)) : mutexInv ⟨s1, w.owner⟩ := by
  have := mutexInv_set w j r (w.owner j) s1 hs1 h hr
  rwa [Function.update_eq_self] at this

theorem mutexInv_same_table (w : MutexWorld) (s1 : OSState) (o : Nat → Option Nat)
    (hs1 : s1.OS_mut_sem_table = w.os.OS_mut_sem_table) (ho : o = w.owner)
    (h : mutexInv w) : mutexInv ⟨s1, o⟩ := by
  subst ho
  intro i row hi
  simp only at hi ⊢
  rw [hs1] at hi
  exact h i row hi

/-- What `OS_MutSemCreate` does to the mutex table: nothing, or it frees again the row
it found free, or (with `OS_SUCCESS`) it fills that row, keeping its `nested_value`. -/
theorem OS_MutSemCreate_table (cfg : Config) (s : OSState) (self : Nat)
    (sem_id : Option Nat) (sem_name : Option CStr) (attr_init mutex_init : Int) :
    ((OS_MutSemCreate cfg s self sem_id sem_name attr_init mutex_init).ret ≠ OS_SUCCESS ∧
      ((OS_MutSemCreate cfg s self sem_id sem_name attr_init mutex_init).st.OS_mut_sem_table
          = s.OS_mut_sem_table ∨
        ∃ j row r1,
          (OS_MutSemCreate cfg s self sem_id sem_name attr_init
            mutex_init).st.OS_mut_sem_table = s.OS_mut_sem_table.set j r1 ∧
          s.OS_mut_sem_table[j]? = some row ∧ row.free = true ∧
          r1.free = true ∧ r1.nested_value = row.nested_value)) ∨
    ((OS_MutSemCreate cfg s self sem_id sem_name attr_init mutex_init).ret = OS_SUCCESS ∧
      ∃ j row r1,
        (OS_MutSemCreate cfg s self sem_id sem_name attr_init
          mutex_init).st.OS_mut_sem_table = s.OS_mut_sem_table.set j r1 ∧
        s.OS_mut_sem_table[j]? = some row ∧ row.free = true ∧
        r1.free = false ∧ r1.nested_value = row.nested_value ∧
        (OS_MutSemCreate cfg s self sem_id sem_name attr_init mutex_init).out = some j) := by
  unfold OS_MutSemCreate
  split
  · split
    · exact Or.inl ⟨by simp, Or.inl rfl⟩
    · split
      · exact Or.inl ⟨by simp, Or.inl rfl⟩
      · exact Or.inl ⟨by simp, Or.inl rfl⟩
      · rename_i j row heq
        have hget := reserve_reserved_get _ _ _ _ _ _ heq
        have hfree := reserve_reserved_free _ _ _ _ _ _ heq
        simp only
        split
        · exact Or.inl ⟨by simp, Or.inr ⟨j, row, _, rfl, hget, hfree, rfl, rfl⟩⟩
        · split
          · exact Or.inl ⟨by simp, Or.inr ⟨j, row, _, rfl, hget, hfree, rfl, rfl⟩⟩
          · exact Or.inr ⟨rfl, j, row, _, rfl, hget, hfree, rfl, rfl, rfl⟩
  · exact Or.inl ⟨by simp, Or.inl rfl⟩

theorem OS_MutSemTake_rejected (s : OSState) (id : Nat) (status : Int)
    (h : s.OS_mut_sem_table[id]? = none ∨
      ∃ row, s.OS_mut_sem_table[id]? = some row ∧ row.free = true) :
    OS_MutSemTake s id status = ⟨OS_ERR_INVALID_ID, s, []⟩ := by
  rcases h with h | ⟨row, h, hf⟩
  · simp [OS_MutSemTake, h]
  · simp [OS_MutSemTake, h, hf]

theorem OS_MutSemGive_rejected (s : OSState) (id : Nat) (unlock_ret : Int)
    (h : s.OS_mut_sem_table[id]? = none ∨
      ∃ row, s.OS_mut_sem_table[id]? = some row ∧ row.free = true) :
    OS_MutSemGive s id unlock_ret = ⟨OS_ERR_INVALID_ID, s, []⟩ := by
  rcases h with h | ⟨row, h, hf⟩
  · simp [OS_MutSemGive, h]
  · simp [OS_MutSemGive, h, hf]

theorem OS_MutSemTake_live (s : OSState) (id : Nat) (status : Int) (row : OS_mut_sem_record_t)
    (hget : s.OS_mut_sem_table[id]? = some row) (hfree : row.free = false) :
    OS_MutSemTake s id status =
      if status = EINVAL then ⟨OS_SEM_FAILURE, s, [.host (.pthread_mutex_lock id)]⟩
      else if status = EDEADLK then
        let row1 := { row with nested_value := row.nested_value + 1 }
        ⟨OS_SUCCESS, { s with OS_mut_sem_table := s.OS_mut_sem_table.set id row1 },
          [.host (.pthread_mutex_lock id)]⟩
      else ⟨OS_SUCCESS, s, [.host (.pthread_mutex_lock id)]⟩ := by
  have hf : ¬ row.free = true := by simp [hfree]
  simp only [OS_MutSemTake, hget, if_neg hf]

theorem OS_MutSemGive_live (s : OSState) (id : Nat) (unlock_ret : Int)
    (row : OS_mut_sem_record_t)
    (hget : s.OS_mut_sem_table[id]? = some row) (hfree : row.free = false) :
    OS_MutSemGive s id unlock_ret =
      if row.nested_value > 0 then
        let row1 := { row with nested_value := row.nested_value - 1 }
        ⟨OS_SUCCESS, { s with OS_mut_sem_table := s.OS_mut_sem_table.set id row1 }, []⟩
      else if unlock_ret ≠ 0 then
        ⟨OS_SEM_FAILURE, s, [.host (.pthread_mutex_unlock id)]⟩
      else ⟨OS_SUCCESS, s, [.host (.pthread_mutex_unlock id)]⟩ := by
  have hf : ¬ row.free = true := by simp [hfree]
  simp only [OS_MutSemGive, hget, if_neg hf]

theorem row_cases (s : OSState) (id : Nat) :
    (s.OS_mut_sem_table[id]? = none ∨
      ∃ row, s.OS_mut_sem_table[id]? = some row ∧ row.free = true) ∨
    ∃ row, s.OS_mut_sem_table[id]? = some row ∧ row.free = false := by
  cases h : s.OS_mut_sem_table[id]? with
  | none => exact Or.inl (Or.inl rfl)
  | some row =>
    cases hf : row.free with
    | true => exact Or.inl (Or.inr ⟨row, rfl, hf⟩)
    | false => exact Or.inr ⟨row, rfl, hf⟩

theorem mutexStep_create_inv (cfg : Config) (w : MutexWorld) (self : Nat)
    (sem_id : Option Nat) (sem_name : Option CStr) (attr_init mutex_init : Int)
    (ret : OS_Status) (w1 : MutexWorld)
    (hstep : mutexStep cfg w (.create self sem_id sem_name attr_init mutex_init)
      = some (ret, w1)) (h : mutexInv w) : mutexInv w1 := by
  simp only [mutexStep] at hstep
  rcases OS_MutSemCreate_table cfg w.os self sem_id sem_name attr_init mutex_init with
    ⟨hne, hcase⟩ | ⟨hok, j, row, r1, hst, hget, hfree, hr1f, hr1n, hout⟩
  · split at hstep
    · rename_i heq _
      exact absurd heq hne
    · simp only [Option.some.injEq, Prod.mk.injEq] at hstep
      rw [← hstep.2]
      rcases hcase with hsame | ⟨j, row, r1, hst, hget, hfree, hr1f, hr1n⟩
      · exact mutexInv_same_table w _ _ hsame rfl h
      · have hrow := h j row hget
        refine mutexInv_set_same_owner w j r1 _ hst h ⟨?_, ?_, ?_⟩
        · rw [hr1n]; exact hrow.1
        · rw [hr1n]; exact hrow.2.1
        · intro _; exact hrow.2.2 hfree
  · split at hstep
    · rename_i i heq1 heq2
      simp only [Option.some.injEq, Prod.mk.injEq] at hstep
      rw [← hstep.2]
      rw [hout] at heq2
      cases heq2
      have hrow := h j row hget
      refine mutexInv_set w j r1 none _ hst h ⟨?_, ?_, ?_⟩
      · rw [hr1n]; exact hrow.1
      · intro _; rw [hr1n]; exact hrow.2.1 (hrow.2.2 hfree)
      · intro hf; rw [hr1f] at hf
    · rename_i hno
      exact absurd hout (by intro ho; exact hno j hok ho)

theorem mutexStep_delete_inv (cfg : Config) (w : MutexWorld) (id : Nat)
    (ret : OS_Status) (w1 : MutexWorld)
    (hstep : mutexStep cfg w (.delete id) = some (ret, w1)) (h : mutexInv w) :
    mutexInv w1 := by
  simp only [mutexStep, Option.some.injEq, Prod.mk.injEq] at hstep
  rw [← hstep.2]
  unfold OS_MutSemDelete
  split
  · exact mutexInv_same_table w _ _ rfl rfl h
  · rename_i row hget
    split
    · exact mutexInv_same_table w _ _ rfl rfl h
    · split
      · exact mutexInv_same_table w _ _ rfl rfl h
      · rename_i hfree hd
        have hown : w.owner id = none := by
          unfold HostMutex.destroy at hd
          by_contra hcon
          rw [if_neg hcon] at hd
          exact hd (by decide)
        have hrow := h id row hget
        refine mutexInv_set_same_owner w id _ _ rfl h ⟨hrow.1, hrow.2.1, fun _ => hown⟩

theorem mutexStep_take_rejected (cfg : Config) (w : MutexWorld) (self id : Nat)
    (h : w.os.OS_mut_sem_table[id]? = none ∨
      ∃ row, w.os.OS_mut_sem_table[id]? = some row ∧ row.free = true) :
    mutexStep cfg w (.take self id) = some (OS_ERR_INVALID_ID, w) := by
  simp [mutexStep, OS_MutSemTake_rejected w.os id _ h]

theorem mutexStep_give_rejected (cfg : Config) (w : MutexWorld) (self id : Nat)
    (h : w.os.OS_mut_sem_table[id]? = none ∨
      ∃ row, w.os.OS_mut_sem_table[id]? = some row ∧ row.free = true) :
    mutexStep cfg w (.give self id) = some (OS_ERR_INVALID_ID, w) := by
  simp [mutexStep, OS_MutSemGive_rejected w.os id _ h]

theorem mutexStep_take_unheld (cfg : Config) (w : MutexWorld) (self id : Nat)
    (row : OS_mut_sem_record_t) (hget : w.os.OS_mut_sem_table[id]? = some row)
    (hfree : row.free = false) (ho : w.owner id = none) :
    mutexStep cfg w (.take self id)
      = some (OS_SUCCESS, ⟨w.os, Function.update w.owner id (some self)⟩) := by
  simp [mutexStep, OS_MutSemTake_live w.os id _ row hget hfree, ho, HostMutex.lock, EINVAL,
    EDEADLK]

theorem mutexStep_take_owner (cfg : Config) (w : MutexWorld) (self id : Nat)
    (row : OS_mut_sem_record_t) (hget : w.os.OS_mut_sem_table[id]? = some row)
    (hfree : row.free = false) (ho : w.owner id = some self) :
    mutexStep cfg w (.take self id)
      = some (OS_SUCCESS,
          ⟨(let row1 := { row with nested_value := row.nested_value + 1 }
            { w.os with OS_mut_sem_table := w.os.OS_mut_sem_table.set id row1 }),
           w.owner⟩) := by
  have hu : Function.update w.owner id (some self) = w.owner := by
    rw [← ho, Function.update_eq_self]
  simp [mutexStep, OS_MutSemTake_live w.os id _ row hget hfree, ho, HostMutex.lock, EINVAL,
    EDEADLK, hu]

theorem mutexStep_take_blocked (cfg : Config) (w : MutexWorld) (self id o : Nat)
    (row : OS_mut_sem_record_t) (hget : w.os.OS_mut_sem_table[id]? = some row)
    (hfree : row.free = false) (ho : w.owner id = some o) (hne : o ≠ self) :
    mutexStep cfg w (.take self id) = none := by
  simp [mutexStep, OS_MutSemTake_live w.os id _ row hget hfree, ho, HostMutex.lock, EINVAL,
    EDEADLK, hne]

theorem mutexStep_give_nested (cfg : Config) (w : MutexWorld) (self id : Nat)
    (row : OS_mut_sem_record_t) (hget : w.os.OS_mut_sem_table[id]? = some row)
    (hfree : row.free = false) (hn : row.nested_value > 0) :
    mutexStep cfg w (.give self id)
      = some (OS_SUCCESS,
          ⟨(let row1 := { row with nested_value := row.nested_value - 1 }
            { w.os with OS_mut_sem_table := w.os.OS_mut_sem_table.set id row1 }),
           w.owner⟩) := by
  simp [mutexStep, OS_MutSemGive_live w.os id _ row hget hfree, hn]

theorem mutexStep_give_last (cfg : Config) (w : MutexWorld) (self id : Nat)
    (row : OS_mut_sem_record_t) (hget : w.os.OS_mut_sem_table[id]? = some row)
    (hfree : row.free = false) (hn : ¬ row.nested_value > 0) (ho : w.owner id = some self) :
    mutexStep cfg w (.give self id)
      = some (OS_SUCCESS, ⟨w.os, Function.update w.owner id none⟩) := by
  simp [mutexStep, OS_MutSemGive_live w.os id _ row hget hfree, hn, ho, HostMutex.unlock]

theorem mutexStep_give_not_owner (cfg : Config) (w : MutexWorld) (self id : Nat)
    (row : OS_mut_sem_record_t) (hget : w.os.OS_mut_sem_table[id]? = some row)
    (hfree : row.free = false) (hn : ¬ row.nested_value > 0) (ho : w.owner id ≠ some self) :
    mutexStep cfg w (.give self id) = some (OS_SEM_FAILURE, w) := by
  simp [mutexStep, OS_MutSemGive_live w.os id _ row hget hfree, hn, ho, HostMutex.unlock,
    EPERM]

theorem mutexStep_take_inv (cfg : Config) (w : MutexWorld) (self id : Nat)
    (ret : OS_Status) (w1 : MutexWorld)
    (hstep : mutexStep cfg w (.take self id) = some (ret, w1)) (h : mutexInv w) :
    mutexInv w1 := by
  rcases row_cases w.os id with hrej | ⟨row, hget, hfree⟩
  · rw [mutexStep_take_rejected cfg w self id hrej] at hstep
    simp only [Option.some.injEq, Prod.mk.injEq] at hstep
    rw [← hstep.2]; exact h
  · have hrow := h id row hget
    cases ho : w.owner id with
    | none =>
      rw [mutexStep_take_unheld cfg w self id row hget hfree ho] at hstep
      simp only [Option.some.injEq, Prod.mk.injEq] at hstep
      rw [← hstep.2]
      refine mutexInv_set w id row (some self) w.os
        (set_getElem?_self _ _ _ hget).symm h ⟨hrow.1, ?_, ?_⟩
      · intro hc; cases hc
      · intro hf; rw [hfree] at hf; cases hf
    | some o =>
      by_cases hos : o = self
      · subst hos
        rw [mutexStep_take_owner cfg w o id row hget hfree ho] at hstep
        simp only [Option.some.injEq, Prod.mk.injEq] at hstep
        rw [← hstep.2]
        refine mutexInv_set_same_owner w id _ _ rfl h ⟨?_, ?_, ?_⟩
        · have := hrow.1
          simp only
          omega
        · intro hc; rw [ho] at hc; cases hc
        · intro hf; simp only at hf; rw [hfree] at hf; cases hf
      · rw [mutexStep_take_blocked cfg w self id o row hget hfree ho hos] at hstep
        cases hstep

theorem mutexStep_give_inv (cfg : Config) (w : MutexWorld) (self id : Nat)
    (ret : OS_Status) (w1 : MutexWorld)
    (hstep : mutexStep cfg w (.give self id) = some (ret, w1)) (h : mutexInv w) :
    mutexInv w1 := by
  rcases row_cases w.os id with hrej | ⟨row, hget, hfree⟩
  · rw [mutexStep_give_rejected cfg w self id hrej] at hstep
    simp only [Option.some.injEq, Prod.mk.injEq] at hstep
    rw [← hstep.2]; exact h
  · have hrow := h id row hget
    by_cases hn : row.nested_value > 0
    · rw [mutexStep_give_nested cfg w self id row hget hfree hn] at hstep
      simp only [Option.some.injEq, Prod.mk.injEq] at hstep
      rw [← hstep.2]
      refine mutexInv_set_same_owner w id _ _ rfl h ⟨?_, ?_, ?_⟩
      · simp only
        omega
      · intro hc
        have := hrow.2.1 hc
        omega
      · intro hf; simp only at hf; rw [hfree] at hf; cases hf
    · by_cases ho : w.owner id = some self
      · rw [mutexStep_give_last cfg w self id row hget hfree hn ho] at hstep
        simp only [Option.some.injEq, Prod.mk.injEq] at hstep
        rw [← hstep.2]
        refine mutexInv_set w id row none w.os
          (set_getElem?_self _ _ _ hget).symm h ⟨hrow.1, ?_, ?_⟩
        · intro _
          have := hrow.1
          omega
        · intro _; rfl
      · rw [mutexStep_give_not_owner cfg w self id row hget hfree hn ho] at hstep
        simp only [Option.some.injEq, Prod.mk.injEq] at hstep
        rw [← hstep.2]; exact h

theorem mutexStep_inv (cfg : Config) (w : MutexWorld) (c : MutexCall)
    (ret : OS_Status) (w1 : MutexWorld)
    (hstep : mutexStep cfg w c = some (ret, w1)) (h : mutexInv w) : mutexInv w1 := by
  cases c with
  | create self sem_id sem_name a m =>
    exact mutexStep_create_inv cfg w self sem_id sem_name a m ret w1 hstep h
  | delete id => exact mutexStep_delete_inv cfg w id ret w1 hstep h
  | take self id => exact mutexStep_take_inv cfg w self id ret w1 hstep h
  | give self id => exact mutexStep_give_inv cfg w self id ret w1 hstep h

theorem mutexInv_of_init (w : MutexWorld) (h : mutexInit w) : mutexInv w := by
  intro i row hi
  have := h.1 i row hi
  refine ⟨by rw [this.2], fun _ => this.2, fun _ => h.2 i⟩

theorem mutexInv_of_reachable (cfg : Config) (w : MutexWorld) (h : MutexReachable cfg w) :
    mutexInv w := by
  induction h with
  | init w hi => exact mutexInv_of_init w hi
  | step w c ret w1 _ hstep ih => exact mutexStep_inv cfg w c ret w1 hstep ih

theorem mutexRun_reachable (cfg : Config) (cs : List MutexCall) (w w1 : MutexWorld)
    (rets : List OS_Status) (hr : MutexReachable cfg w)
    (hrun : mutexRun cfg w cs = some (rets, w1)) : MutexReachable cfg w1 := by
  induction cs generalizing w rets with
  | nil =>
    simp only [mutexRun, Option.some.injEq, Prod.mk.injEq] at hrun
    rw [← hrun.2]; exact hr
  | cons c cs ih =>
    simp only [mutexRun] at hrun
    split at hrun
    · cases hrun
    · rename_i ret w2 hstep
      split at hrun
      · cases hrun
      · rename_i rets2 w3 hrun2
        simp only [Option.some.injEq, Prod.mk.injEq] at hrun
        rw [hrun.2] at hrun2
        exact ih w2 rets2 (MutexReachable.step w c ret w2 hr hstep) hrun2

theorem mutexRun_cons (cfg : Config) (c : MutexCall) (cs : List MutexCall)
    (w w1 w2 : MutexWorld) (ret : OS_Status) (rets : List OS_Status)
    (h1 : mutexStep cfg w c = some (ret, w1)) (h2 : mutexRun cfg w1 cs = some (rets, w2)) :
    mutexRun cfg w (c :: cs) = some (ret :: rets, w2) := by
  simp only [mutexRun, h1, h2]

theorem mutexRun_append (cfg : Config) (cs1 cs2 : List MutexCall) (w w1 w2 : MutexWorld)
    (r1 r2 : List OS_Status) (h1 : mutexRun cfg w cs1 = some (r1, w1))
    (h2 : mutexRun cfg w1 cs2 = some (r2, w2)) :
    mutexRun cfg w (cs1 ++ cs2) = some (r1 ++ r2, w2) := by
  induction cs1 generalizing w r1 with
  | nil =>
    simp only [mutexRun, Option.some.injEq, Prod.mk.injEq] at h1
    rw [← h1.1, h1.2]
    simpa using h2
  | cons c cs ih =>
    simp only [mutexRun] at h1
    split at h1
    · cases h1
    · rename_i ret w3 hstep
      split at h1
      · cases h1
      · rename_i rets3 w4 hrun3
        simp only [Option.some.injEq, Prod.mk.injEq] at h1
        rw [h1.2] at hrun3
        have := ih w3 rets3 hrun3
        rw [List.cons_append, mutexRun_cons cfg c (cs ++ cs2) w w3 w2 ret (rets3 ++ r2) hstep this,
          ← h1.1]
        rfl

theorem take_owner_step (cfg : Config) (w : MutexWorld) (self id : Nat)
    (row : OS_mut_sem_record_t) (hget : w.os.OS_mut_sem_table[id]? = some row)
    (hfree : row.free = false) (ho : w.owner id = some self) :
    ∃ w2 row2, mutexStep cfg w (.take self id) = some (OS_SUCCESS, w2) ∧
      w2.os.OS_mut_sem_table[id]? = some row2 ∧ row2.free = false ∧
      row2.nested_value = row.nested_value + 1 ∧ w2.owner = w.owner :=
  ⟨_, _, mutexStep_take_owner cfg w self id row hget hfree ho,
    List.getElem?_set_self (List.getElem?_eq_some_iff.mp hget).1, hfree, rfl, rfl⟩

theorem give_nested_step (cfg : Config) (w : MutexWorld) (self id : Nat)
    (row : OS_mut_sem_record_t) (hget : w.os.OS_mut_sem_table[id]? = some row)
    (hfree : row.free = false) (hn : row.nested_value > 0) :
    ∃ w2 row2, mutexStep cfg w (.give self id) = some (OS_SUCCESS, w2) ∧
      w2.os.OS_mut_sem_table[id]? = some row2 ∧ row2.free = false ∧
      row2.nested_value = row.nested_value - 1 ∧ w2.owner = w.owner :=
  ⟨_, _, mutexStep_give_nested cfg w self id row hget hfree hn,
    List.getElem?_set_self (List.getElem?_eq_some_iff.mp hget).1, hfree, rfl, rfl⟩

/-- Takes of the owner: each returns `OS_SUCCESS` and adds one to `nested_value`. -/
theorem takes_of_owner (cfg : Config) (self id : Nat) (n : Nat) (w : MutexWorld)
    (row : OS_mut_sem_record_t) (hget : w.os.OS_mut_sem_table[id]? = some row)
    (hfree : row.free = false) (ho : w.owner id = some self) :
    ∃ w1 row1, mutexRun cfg w (List.replicate n (.take self id))
        = some (List.replicate n OS_SUCCESS, w1) ∧
      w1.os.OS_mut_sem_table[id]? = some row1 ∧ row1.free = false ∧
      row1.nested_value = row.nested_value + n ∧ w1.owner id = some self := by
  induction n generalizing w row with
  | zero => exact ⟨w, row, rfl, hget, hfree, by simp, ho⟩
  | succ n ih =>
    rcases take_owner_step cfg w self id row hget hfree ho with
      ⟨w2, row2, hstep, hget2, hfree2, hn2, ho2⟩
    rcases ih w2 row2 hget2 hfree2 (by rw [ho2]; exact ho) with
      ⟨w1, row1, hrun, hget1, hfree1, hn1, ho1⟩
    refine ⟨w1, row1, ?_, hget1, hfree1, ?_, ho1⟩
    · rw [List.replicate_succ, List.replicate_succ]
      exact mutexRun_cons cfg _ _ w w2 w1 _ _ hstep hrun
    · rw [hn1, hn2]
      push_cast
      omega

/-- Gives while `nested_value` is positive: each returns `OS_SUCCESS`, takes one off
`nested_value` and leaves the host mutex with its owner. -/
theorem gives_while_nested (cfg : Config) (self id : Nat) (k : Nat) (w : MutexWorld)
    (row : OS_mut_sem_record_t) (hget : w.os.OS_mut_sem_table[id]? = some row)
    (hfree : row.free = false) (hk : (k : Int) ≤ row.nested_value) :
    ∃ w1 row1, mutexRun cfg w (List.replicate k (.give self id))
        = some (List.replicate k OS_SUCCESS, w1) ∧
      w1.os.OS_mut_sem_table[id]? = some row1 ∧ row1.free = false ∧
      row1.nested_value = row.nested_value - k ∧ w1.owner id = w.owner id := by
  induction k generalizing w row with
  | zero => exact ⟨w, row, rfl, hget, hfree, by simp, rfl⟩
  | succ k ih =>
    have hn : row.nested_value > 0 := by push_cast at hk; omega
    rcases give_nested_step cfg w self id row hget hfree hn with
      ⟨w2, row2, hstep, hget2, hfree2, hn2, ho2⟩
    rcases ih w2 row2 hget2 hfree2 (by rw [hn2]; push_cast at hk; omega) with
      ⟨w1, row1, hrun, hget1, hfree1, hn1, ho1⟩
    refine ⟨w1, row1, ?_, hget1, hfree1, ?_, by rw [ho1, ho2]⟩
    · rw [List.replicate_succ, List.replicate_succ]
      exact mutexRun_cons cfg _ _ w w2 w1 _ _ hstep hrun
    · rw [hn1, hn2]
      push_cast
      omega

/-- C15: against a host mutex that reports `EDEADLK` to its owner, in every world
reached by mutex calls and for every live mutex that no thread holds: `N >= 1` calls of
`OS_MutSemTake` by one thread all return `OS_SUCCESS`; after them, any `k <= N` calls of
`OS_MutSemGive` by that thread all return `OS_SUCCESS`, the host mutex is still held by
the thread when `k < N`, and when `k = N` it is unlocked and `nested_value` is 0. -/
theorem C15_n_takes_are_undone_by_n_gives (cfg : Config) (w : MutexWorld)
    (hreach : MutexReachable cfg w) (self id : Nat) (row : OS_mut_sem_record_t)
    (hget : w.os.OS_mut_sem_table[id]? = some row) (hfree : row.free = false)
    (hunheld : w.owner id = none) (N : Nat) (hN : 1 ≤ N) :
    ∃ wN, mutexRun cfg w (List.replicate N (.take self id))
        = some (List.replicate N OS_SUCCESS, wN) ∧
      ∀ k, k ≤ N →
        ∃ wk rowk, mutexRun cfg wN (List.replicate k (.give self id))
            = some (List.replicate k OS_SUCCESS, wk) ∧
          wk.os.OS_mut_sem_table[id]? = some rowk ∧
          (k < N → wk.owner id = some self) ∧
          (k = N → wk.owner id = none ∧ rowk.nested_value = 0) := by
  have hrow := mutexInv_of_reachable cfg w hreach id row hget
  have hzero : row.nested_value = 0 := hrow.2.1 hunheld
  obtain ⟨n, rfl⟩ : ∃ n, N = n + 1 := ⟨N - 1, by omega⟩
  have hstep1 := mutexStep_take_unheld cfg w self id row hget hfree hunheld
  rcases takes_of_owner cfg self id n ⟨w.os, Function.update w.owner id (some self)⟩ row
    hget hfree (by simp) with ⟨wN, rowN, hrunN, hgetN, hfreeN, hnN, hoN⟩
  refine ⟨wN, ?_, ?_⟩
  · rw [List.replicate_succ, List.replicate_succ]
    exact mutexRun_cons cfg _ _ w _ wN _ _ hstep1 hrunN
  · intro k hk
    by_cases hkn : k ≤ n
    · rcases gives_while_nested cfg self id k wN rowN hgetN hfreeN
        (by rw [hnN, hzero]; omega) with ⟨wk, rowk, hrunk, hgetk, _, _, hok⟩
      exact ⟨wk, rowk, hrunk, hgetk, fun _ => by rw [hok, hoN], fun h => by omega⟩
    · have hk1 : k = n + 1 := by omega
      subst hk1
      rcases gives_while_nested cfg self id n wN rowN hgetN hfreeN
        (by rw [hnN, hzero]; omega) with ⟨w2, row2, hrun2, hget2, hfree2, hn2, ho2⟩
      have hn0 : row2.nested_value = 0 := by rw [hn2, hnN, hzero]; omega
      have hlast := mutexStep_give_last cfg w2 self id row2 hget2 hfree2
        (by rw [hn0]; decide) (by rw [ho2, hoN])
      refine ⟨⟨w2.os, Function.update w2.owner id none⟩, row2, ?_, hget2,
        fun h => by omega, fun _ => ⟨by simp, hn0⟩⟩
      rw [List.replicate_succ', List.replicate_succ']
      exact mutexRun_append cfg _ _ wN w2 _ _ _ hrun2
        (mutexRun_cons cfg _ [] w2 _ _ _ [] hlast rfl)

/-- C15, witness: a mutex created in a one-row table is taken twice by thread 7; one
Give leaves it held by thread 7 and the second unlocks it. -/
theorem C15_n_takes_n_gives_witness :
    ∃ w row, MutexReachable ⟨20, 2147483647, 16384⟩ w ∧
      w.os.OS_mut_sem_table[0]? = some row ∧ row.free = false ∧ w.owner 0 = none ∧
      ∃ wN, mutexRun ⟨20, 2147483647, 16384⟩ w (List.replicate 2 (.take 7 0))
          = some (List.replicate 2 OS_SUCCESS, wN) ∧
        ∀ k, k ≤ 2 →
          ∃ wk rowk, mutexRun ⟨20, 2147483647, 16384⟩ wN (List.replicate k (.give 7 0))
              = some (List.replicate k OS_SUCCESS, wk) ∧
            wk.os.OS_mut_sem_table[0]? = some rowk ∧
            (k < 2 → wk.owner 0 = some 7) ∧
            (k = 2 → wk.owner 0 = none ∧ rowk.nested_value = 0) :=
  have hr : MutexReachable ⟨20, 2147483647, 16384⟩
      ⟨⟨[], [], [], [], [⟨false, ['M'], 0, 0⟩]⟩, Function.update (fun _ => none) 0 none⟩ :=
    MutexReachable.step ⟨⟨[], [], [], [], [⟨true, [], 0, 0⟩]⟩, fun _ => none⟩
      (.create 7 (some 0) (some ['M']) 0 0) OS_SUCCESS _
      (MutexReachable.init _ ⟨by
        intro i row hi
        rcases i with _ | i
        · simp at hi; subst hi; exact ⟨rfl, rfl⟩
        · simp at hi, fun _ => rfl⟩) rfl
  ⟨_, ⟨false, ['M'], 0, 0⟩, hr, rfl, rfl, rfl,
    C15_n_takes_are_undone_by_n_gives ⟨20, 2147483647, 16384⟩ _ hr 7 0 ⟨false, ['M'], 0, 0⟩
      rfl rfl rfl 2 (by decide)⟩

/-- C16 (counterexample): after `OS_MutSemCreate` and one `OS_MutSemTake` by thread 7,
both returning `OS_SUCCESS`, the mutex of row 0 is live and held by thread 7 while its
`nested_value` is 0: `nested_value` is zero for a mutex that is held. -/
theorem C16_counterexample_held_once_with_nested_value_zero :
    ∃ w row, mutexRun ⟨20, 2147483647, 16384⟩
        ⟨⟨[], [], [], [], [⟨true, [], 0, 0⟩]⟩, fun _ => none⟩
        [.create 7 (some 0) (some ['M']) 0 0, .take 7 0]
          = some ([OS_SUCCESS, OS_SUCCESS], w) ∧
      MutexReachable ⟨20, 2147483647, 16384⟩ w ∧
      w.os.OS_mut_sem_table[0]? = some row ∧ row.free = false ∧
      w.owner 0 = some 7 ∧ row.nested_value = 0 ∧
      ¬ (row.nested_value = 0 ↔ w.owner 0 = none) := by
  refine ⟨_, ⟨false, ['M'], 0, 0⟩, rfl, ?_, rfl, rfl, rfl, rfl, ?_⟩
  · refine mutexRun_reachable ⟨20, 2147483647, 16384⟩
      [.create 7 (some 0) (some ['M']) 0 0, .take 7 0]
      ⟨⟨[], [], [], [], [⟨true, [], 0, 0⟩]⟩, fun _ => none⟩ _ _
      (MutexReachable.init _ ⟨?_, fun _ => rfl⟩) rfl
    intro i row hi
    rcases i with _ | i
    · simp at hi; subst hi; exact ⟨rfl, rfl⟩
    · simp at hi
  · intro h
    have := h.mp rfl
    simp at this

/-- C16 (amended): against a host mutex that reports `EDEADLK` to its owner, in every
world reached by `OS_MutSemCreate`, `OS_MutSemTake`, `OS_MutSemGive` and
`OS_MutSemDelete` calls, a mutex that no thread holds has `nested_value` 0 (for every
row, live or free), and `nested_value` is never negative; so a mutex whose
`nested_value` is not 0 is held. -/
theorem C16_unheld_mutex_has_nested_value_zero (cfg : Config) (w : MutexWorld)
    (hreach : MutexReachable cfg w) (id : Nat) (row : OS_mut_sem_record_t)
    (hget : w.os.OS_mut_sem_table[id]? = some row) :
    (w.owner id = none → row.nested_value = 0) ∧ 0 ≤ row.nested_value ∧
      (row.nested_value ≠ 0 → ∃ t, w.owner id = some t) := by
  have hrow := mutexInv_of_reachable cfg w hreach id row hget
  refine ⟨hrow.2.1, hrow.1, fun hne => ?_⟩
  cases ho : w.owner id with
  | none => exact absurd (hrow.2.1 ho) hne
  | some t => exact ⟨t, rfl⟩

/-- C16, witness: the mutex of a one-row table after `OS_MutSemCreate` and two Takes and
one Give by thread 7. -/
theorem C16_unheld_mutex_witness :
    ∃ w row, mutexRun ⟨20, 2147483647, 16384⟩
        ⟨⟨[], [], [], [], [⟨true, [], 0, 0⟩]⟩, fun _ => none⟩
        [.create 7 (some 0) (some ['M']) 0 0, .take 7 0, .take 7 0, .give 7 0]
          = some ([OS_SUCCESS, OS_SUCCESS, OS_SUCCESS, OS_SUCCESS], w) ∧
      w.os.OS_mut_sem_table[0]? = some row ∧ row.free = false ∧
      (w.owner 0 = none → row.nested_value = 0) ∧ 0 ≤ row.nested_value ∧
      (row.nested_value ≠ 0 → ∃ t, w.owner 0 = some t) :=
  ⟨_, ⟨false, ['M'], 0, 0⟩, rfl, rfl, rfl,
    C16_unheld_mutex_has_nested_value_zero ⟨20, 2147483647, 16384⟩ _
      (mutexRun_reachable ⟨20, 2147483647, 16384⟩
        [.create 7 (some 0) (some ['M']) 0 0, .take 7 0, .take 7 0, .give 7 0]
        ⟨⟨[], [], [], [], [⟨true, [], 0, 0⟩]⟩, fun _ => none⟩ _ _
        (MutexReachable.init _ ⟨by
          intro i row hi
          rcases i with _ | i
          · simp at hi; subst hi; exact ⟨rfl, rfl⟩
          · simp at hi, fun _ => rfl⟩) rfl)
      0 ⟨false, ['M'], 0, 0⟩ rfl⟩

/-! ## C17: what `OS_TaskGetInfo` reports after `OS_TaskCreate` -/

/-- The row written by a successful `OS_TaskCreate`. -/
theorem OS_TaskCreate_success_row (cfg : Config) (s : OSState) (self : Nat)
    (h : TaskCreateHost) (v : Nat) (name : CStr) (fp : Nat)
    (stack_size priority : Nat) (r : RetId)
    (hr : OS_TaskCreate cfg s self h (some v) (some name) (some fp) stack_size priority
      = some r)
    (hret : r.ret = OS_SUCCESS) :
    ∃ pid row s4, r.out = some pid ∧
      s.OS_task_table[pid]? = some row ∧ row.free = true ∧
      s4 = s.OS_task_table.set pid
        ⟨false, h.handle, row.name, row.creator, row.stack_size, row.priority,
          row.delete_hook_pointer⟩ ∧
      r.st.OS_task_table = s.OS_task_table.set pid
        ⟨false, h.handle, name, (s4.findIdx (fun x => x.id == self)), stack_size, priority,
          row.delete_hook_pointer⟩ := by
  by_cases hlen : name.length ≥ cfg.OS_MAX_API_NAME
  · simp only [OS_TaskCreate, hlen, if_true, Option.some.injEq] at hr
    subst hr
    simp at hret
  by_cases hprio : priority > MAX_PRIORITY
  · simp only [OS_TaskCreate, hlen, hprio, if_true, if_false, Option.some.injEq] at hr
    subst hr
    simp at hret
  cases hos : OS_PriorityRemap h.pmax h.pmin priority with
  | none => simp [OS_TaskCreate, hlen, hprio, hos] at hr
  | some os_priority =>
    cases hres : reserve OS_task_record_t.free OS_task_record_t.name s.OS_task_table name with
    | noFreeIds =>
      simp only [OS_TaskCreate, hlen, hprio, if_false, hos, hres, Option.some.injEq] at hr
      subst hr
      simp at hret
    | nameTaken =>
      simp only [OS_TaskCreate, hlen, hprio, if_false, hos, hres, Option.some.injEq] at hr
      subst hr
      simp at hret
    | reserved pid row =>
      have hget := reserve_reserved_get _ _ _ _ _ _ hres
      have hfree := reserve_reserved_free _ _ _ _ _ _ hres
      simp only [OS_TaskCreate, hlen, hprio, if_false, hos, hres] at hr
      by_cases hc : h.create = 0
      · by_cases hd : h.detach = 0
        · by_cases ha : h.attr_destroy = 0
          · simp only [hc, hd, ha, ne_eq, not_true_eq_false, if_false,
              Option.some.injEq] at hr
            subst hr
            refine ⟨pid, row, _, rfl, hget, hfree, rfl, ?_⟩
            simp only [OS_FindCreator]
            split <;> rfl
          · simp only [hc, hd, ha, ne_eq, not_true_eq_false, not_false_eq_true, if_true,
              if_false, Option.some.injEq] at hr
            subst hr
            simp at hret
        · simp only [hc, hd, ne_eq, not_true_eq_false, not_false_eq_true, if_true,
            if_false, Option.some.injEq] at hr
          subst hr
          simp at hret
      · simp only [hc, ne_eq, not_false_eq_true, if_true, Option.some.injEq] at hr
        subst hr
        simp at hret

/-- One `OS_TaskDelete` call on a live task with a delete hook: the hook is called once,
right before `pthread_cancel`; when the cancel fails the call returns `OS_ERROR` and
leaves the state (the task and its hook) as it is, when it succeeds the row is freed. -/
theorem OS_TaskDelete_with_hook (s : OSState) (id fn : Nat) (ret : Int)
    (row : OS_task_record_t) (hget : s.OS_task_table[id]? = some row)
    (hfree : row.free = false) (hhook : row.delete_hook_pointer = some fn) :
    (ret ≠ 0 → OS_TaskDelete s id ret
      = ⟨OS_ERROR, s, [.hook fn, .host (.pthread_cancel id)]⟩) ∧
    (ret = 0 → (OS_TaskDelete s id ret).ret = OS_SUCCESS ∧
      (OS_TaskDelete s id ret).tr
        = [.hook fn, .host (.pthread_cancel id)] ++ critical .OS_task_table_mut ∧
      (OS_TaskDelete s id ret).st.OS_task_table[id]?
        = some ⟨true, UNINITIALIZED, [], UNINITIALIZED, UNINITIALIZED, UNINITIALIZED, none⟩) := by
  have hf : ¬ row.free = true := by simp [hfree]
  have hlt := (List.getElem?_eq_some_iff.mp hget).1
  constructor
  · intro hret
    simp [OS_TaskDelete, hget, hf, hhook, hret]
  · intro hret
    simp [OS_TaskDelete, hget, hf, hhook, hret, hlt]

/-- Once the row is free, further `OS_TaskDelete` calls make no event. -/
theorem taskDeletes_free (s : OSState) (id : Nat) (rets : List Int)
    (h : s.OS_task_table[id]? = none ∨
      ∃ row, s.OS_task_table[id]? = some row ∧ row.free = true) :
    taskDeletes s id rets = ([], s) := by
  induction rets with
  | nil => rfl
  | cons ret rets ih =>
    have h1 : OS_TaskDelete s id ret = ⟨OS_ERR_INVALID_ID, s, []⟩ := by
      rcases h with h | ⟨row, h, hf⟩
      · simp [OS_TaskDelete, h]
      · simp [OS_TaskDelete, h, hf]
    simp only [taskDeletes, h1, ih, List.append_nil]

/-- Calls whose cancel fails: each calls the hook and leaves the state as it is. -/
theorem taskDeletes_failing (s : OSState) (id fn : Nat) (fails rest : List Int)
    (row : OS_task_record_t) (hget : s.OS_task_table[id]? = some row)
    (hfree : row.free = false) (hhook : row.delete_hook_pointer = some fn)
    (hfails : ∀ x ∈ fails, x ≠ 0) :
    taskDeletes s id (fails ++ rest)
      = ((fails.map (fun _ => [Event.hook fn, .host (.pthread_cancel id)])).flatten
            ++ (taskDeletes s id rest).1,
          (taskDeletes s id rest).2) := by
  induction fails with
  | nil => simp
  | cons x fails ih =>
    have hx : x ≠ 0 := hfails x (List.mem_cons_self _ _)
    have h1 := (OS_TaskDelete_with_hook s id fn x row hget hfree hhook).1 hx
    have ih2 := ih (fun y hy => hfails y (List.mem_cons_of_mem _ hy))
    have ih3 : taskDeletes s id (fails.append rest) = _ := ih2
    simp only [List.cons_append, taskDeletes, h1, ih3, List.map_cons, List.flatten_cons,
      List.append_assoc, List.nil_append]

theorem count_hook_flatten (fn id : Nat) (fails : List Int) :
    ((fails.map (fun _ => [Event.hook fn, .host (.pthread_cancel id)])).flatten).count
      (Event.hook fn) = fails.length := by
  induction fails with
  | nil => rfl
  | cons x fails ih =>
    simp only [List.map_cons, List.flatten_cons, List.count_append, ih, List.length_cons]
    have : [Event.hook fn, Event.host (HostCall.pthread_cancel id)].count (Event.hook fn)
        = 1 := by
      simp [List.count_cons]
    omega

/-- A successful `OS_TaskInstallDeleteHandler` stores the hook in the live row that
`OS_TaskGetId` names. -/
theorem OS_TaskInstallDeleteHandler_success (s : OSState) (key : Nat) (fp : Option Nat)
    (hret : (OS_TaskInstallDeleteHandler s key fp).ret = OS_SUCCESS) :
    ∃ row, (OS_TaskInstallDeleteHandler s key fp).st.OS_task_table[OS_TaskGetId key]?
        = some row ∧ row.free = false ∧ row.delete_hook_pointer = fp := by
  cases hget : s.OS_task_table[OS_TaskGetId key]? with
  | none => simp [OS_TaskInstallDeleteHandler, hget] at hret
  | some row =>
    have hlt := (List.getElem?_eq_some_iff.mp hget).1
    by_cases hf : row.free = true
    · simp [OS_TaskInstallDeleteHandler, hget, hf] at hret
    · simp only [OS_TaskInstallDeleteHandler, hget, if_neg hf]
      exact ⟨_, List.getElem?_set_self hlt, by simpa using hf, rfl⟩

/-- C18 (counterexample): the task of row 0 installs the hook 5; the first
`OS_TaskDelete` call, whose `pthread_cancel` fails, and the second, whose
`pthread_cancel` succeeds, each call the hook: two invocations in total. -/
theorem C18_counterexample_hook_runs_again_after_a_failed_cancel :
    OS_TaskInstallDeleteHandler ⟨[⟨false, 9, ['T'], 0, 4096, 10, none⟩], [], [], [], []⟩ 0
        (some 5)
      = ⟨OS_SUCCESS, ⟨[⟨false, 9, ['T'], 0, 4096, 10, some 5⟩], [], [], [], []⟩,
          critical .OS_task_table_mut⟩ ∧
    (taskDeletes ⟨[⟨false, 9, ['T'], 0, 4096, 10, some 5⟩], [], [], [], []⟩ 0 [3, 0]).1
      = [.hook 5, .host (.pthread_cancel 0), .hook 5, .host (.pthread_cancel 0),
          .lock .OS_task_table_mut, .unlock .OS_task_table_mut] ∧
    (taskDeletes ⟨[⟨false, 9, ['T'], 0, 4096, 10, some 5⟩], [], [], [], []⟩ 0
      [3, 0]).1.count (.hook 5) = 2 := by
  refine ⟨by decide, by decide, by decide⟩

/-- C18 (amended): for a live task with a delete hook and a sequence of `OS_TaskDelete`
calls on its id: every call whose `pthread_cancel` fails calls the hook once, right
before the cancel, and leaves the task and its hook in place; the first call whose
cancel succeeds calls the hook once, right before the cancel, and frees the row; no later
call makes any event. The hook has then been called once per call up to and including
the deleting one. -/
theorem C18_hook_runs_in_each_delete_call_until_the_cancel_succeeds (s : OSState)
    (id fn : Nat) (row : OS_task_record_t) (hget : s.OS_task_table[id]? = some row)
    (hfree : row.free = false) (hhook : row.delete_hook_pointer = some fn)
    (fails rest : List Int) (hfails : ∀ x ∈ fails, x ≠ 0) :
    taskDeletes s id fails
      = ((fails.map (fun _ => [Event.hook fn, .host (.pthread_cancel id)])).flatten, s) ∧
    (taskDeletes s id (fails ++ 0 :: rest)).1
      = (fails.map (fun _ => [Event.hook fn, .host (.pthread_cancel id)])).flatten
          ++ ([.hook fn, .host (.pthread_cancel id)] ++ critical .OS_task_table_mut) ∧
    (taskDeletes s id fails).1.count (.hook fn) = fails.length ∧
    (taskDeletes s id (fails ++ 0 :: rest)).1.count (.hook fn) = fails.length + 1 := by
  have h1 : taskDeletes s id fails
      = ((fails.map (fun _ => [Event.hook fn, .host (.pthread_cancel id)])).flatten, s) := by
    have := taskDeletes_failing s id fn fails [] row hget hfree hhook hfails
    simpa [taskDeletes] using this
  have hok := (OS_TaskDelete_with_hook s id fn 0 row hget hfree hhook).2 rfl
  have hrest : taskDeletes (OS_TaskDelete s id 0).st id rest = ([], (OS_TaskDelete s id 0).st) :=
    taskDeletes_free _ id rest (Or.inr ⟨_, hok.2.2, rfl⟩)
  have h2 : (taskDeletes s id (fails ++ 0 :: rest)).1
      = (fails.map (fun _ => [Event.hook fn, .host (.pthread_cancel id)])).flatten
          ++ ([.hook fn, .host (.pthread_cancel id)] ++ critical .OS_task_table_mut) := by
    rw [taskDeletes_failing s id fn fails (0 :: rest) row hget hfree hhook hfails]
    simp only [taskDeletes, hrest, hok.2.1, List.append_nil]
  refine ⟨h1, h2, ?_, ?_⟩
  · rw [h1]
    exact count_hook_flatten fn id fails
  · rw [h2, List.count_append, count_hook_flatten]
    simp [List.count_cons, critical]

/-- C18, witness: two failing calls and a succeeding one on a task with hook 5. -/
theorem C18_hook_runs_in_each_delete_call_witness :
    (taskDeletes ⟨[⟨false, 9, ['T'], 0, 4096, 10, some 5⟩], [], [], [], []⟩ 0
      ([3, 3] ++ 0 :: [0])).1.count (.hook 5) = [(3 : Int), 3].length + 1 :=
  (C18_hook_runs_in_each_delete_call_until_the_cancel_succeeds
    ⟨[⟨false, 9, ['T'], 0, 4096, 10, some 5⟩], [], [], [], []⟩ 0 5
    ⟨false, 9, ['T'], 0, 4096, 10, some 5⟩ rfl rfl rfl [3, 3] [0] (by decide)).2.2.2

/-! ## C19: registration of the calling task -/

theorem OS_TaskGetId_of_lt (id : Nat) (h : id < 65536) : OS_TaskGetId id = id := by
  unfold OS_TaskGetId
  have := Nat.and_pow_two_sub_one_eq_mod (id % 4294967296) 16
  simp only [Nat.reducePow, Nat.add_one_sub_one] at this
  have h2 : (65535 : Nat) = 65536 - 1 := rfl
  rw [this]
  omega

/-- C19 (counterexample): two tasks are created one after the other, at ids 0 and 1, and
the host gives the thread of the second the handle 9 that the thread of the first had (a
thread that has ended without `OS_TaskExit` leaves its row in use, with its handle in
it). `OS_TaskRegister` called by the second thread stops at row 0, the first row that
holds the handle: it returns `OS_SUCCESS` and binds id 0, and `OS_TaskGetId` returns 0,
not the id 1 that `OS_TaskCreate` returned. -/
theorem C19_counterexample_an_earlier_row_holds_the_handle :
    ∃ r1 r2 : RetId,
      OS_TaskCreate ⟨20, 2147483647, 16384⟩
          ⟨[⟨true, 0, [], 0, 0, 0, none⟩, ⟨true, 0, [], 0, 0, 0, none⟩], [], [], [], []⟩ 7
          ⟨99, 1, 0, 0, 0, 0, 9, 0, 0⟩ (some 0) (some ['T', '1']) (some 5) 4096 100
        = some r1 ∧
      r1.ret = OS_SUCCESS ∧ r1.out = some 0 ∧
      OS_TaskCreate ⟨20, 2147483647, 16384⟩ r1.st 7
          ⟨99, 1, 0, 0, 0, 0, 9, 0, 0⟩ (some 0) (some ['T', '2']) (some 5) 4096 100
        = some r2 ∧
      r2.ret = OS_SUCCESS ∧ r2.out = some 1 ∧
      OS_TaskRegister r2.st 9 0 0 = (OS_SUCCESS, 0) ∧
      OS_TaskGetId (OS_TaskRegister r2.st 9 0 0).2 = 0 :=
  ⟨_, _, rfl, rfl, rfl, rfl, rfl, rfl, rfl, rfl⟩

/-- C19 (amended): if `OS_TaskCreate` returned `OS_SUCCESS` with `id` for a thread whose
host handle is `h.handle`, the row `id` holds that handle; and in every state in which row
`id` holds the handle and no row before it does, `OS_TaskRegister` called by that thread
with a succeeding `pthread_setspecific` returns `OS_SUCCESS` and stores `id` in the
thread's `thread_key`, from which `OS_TaskGetId` returns `id` (ids below 65536, the mask
of `OS_TaskGetId`). A thread whose handle is in no row gets `OS_ERR_INVALID_ID` from
`OS_TaskRegister`, which leaves its `thread_key` as it is. -/
theorem C19_register_binds_the_id_of_create (cfg : Config) (s : OSState) (self : Nat)
    (h : TaskCreateHost) (v : Nat) (name : CStr) (fp : Nat) (stack_size priority : Nat)
    (r : RetId) (id : Nat)
    (hr : OS_TaskCreate cfg s self h (some v) (some name) (some fp) stack_size priority
      = some r)
    (hret : r.ret = OS_SUCCESS) (hout : r.out = some id) :
    (∃ row, r.st.OS_task_table[id]? = some row ∧ row.free = false ∧ row.id = h.handle) ∧
    (∀ (s2 : OSState) (key : Nat),
      (∃ row2, s2.OS_task_table[id]? = some row2 ∧ row2.id = h.handle) →
      (∀ (j : Nat) (rowj : OS_task_record_t), j < id → s2.OS_task_table[j]? = some rowj →
        rowj.id ≠ h.handle) →
      id < 65536 →
        OS_TaskRegister s2 h.handle key 0 = (OS_SUCCESS, id) ∧
        OS_TaskGetId (OS_TaskRegister s2 h.handle key 0).2 = id) ∧
    (∀ (s2 : OSState) (caller key : Nat) (ret : Int),
      (∀ (j : Nat) (rowj : OS_task_record_t), s2.OS_task_table[j]? = some rowj →
        rowj.id ≠ caller) →
        OS_TaskRegister s2 caller key ret = (OS_ERR_INVALID_ID, key)) := by
  rcases OS_TaskCreate_success_row cfg s self h v name fp stack_size priority r hr hret with
    ⟨pid, row, s4, hout2, hget, hfree, hs4, hst⟩
  rw [hout] at hout2
  cases hout2
  have hlt := (List.getElem?_eq_some_iff.mp hget).1
  refine ⟨⟨_, by rw [hst]; exact List.getElem?_set_self hlt, rfl, rfl⟩, ?_, ?_⟩
  · rintro s2 key ⟨row2, hget2, hid2⟩ hfirst hsmall
    have hidx : s2.OS_task_table.findIdx (fun x => x.id == h.handle) = id := by
      apply findIdx_spec _ _ id row2 hget2
      · simp [hid2]
      · intro j y hj hy
        simpa using hfirst j y hj hy
    have hlt2 := (List.getElem?_eq_some_iff.mp hget2).1
    have hreg : OS_TaskRegister s2 h.handle key 0 = (OS_SUCCESS, id) := by
      simp only [OS_TaskRegister, hidx]
      rw [if_neg (by omega), if_neg (by simp)]
    rw [hreg]
    exact ⟨rfl, OS_TaskGetId_of_lt id hsmall⟩
  · intro s2 caller key ret hnone
    have hall : ∀ (i : Nat) (y : OS_task_record_t), s2.OS_task_table[i]? = some y →
        (fun x : OS_task_record_t => x.id == caller) y = false := by
      intro j y hy
      simpa using hnone j y hy
    have h1 := (findIdx_getElem?_none _ s2.OS_task_table).mpr hall
    have h2 := List.getElem?_eq_none_iff.mp h1
    have h3 : s2.OS_task_table.findIdx (fun x => x.id == caller) ≤ s2.OS_task_table.length :=
      List.findIdx_le_length _
    simp only [OS_TaskRegister]
    rw [if_pos (by omega)]

/-- C19 (amended), witness: `OS_TaskCreate` gives id 1 to the thread of handle 9, which then
registers and reads its id. -/
theorem C19_register_witness :
    ∃ r, OS_TaskCreate ⟨20, 2147483647, 16384⟩
        ⟨[⟨false, 7, ['A'], 0, 16384, 10, none⟩, ⟨true, 0, [], 0, 0, 0, none⟩], [], [], [],
          []⟩ 7 ⟨99, 1, 0, 0, 0, 0, 9, 0, 0⟩ (some 0) (some ['T', '1']) (some 5) 4096 100
          = some r ∧
      r.ret = OS_SUCCESS ∧ r.out = some 1 ∧
      OS_TaskRegister r.st 9 0 0 = (OS_SUCCESS, 1) ∧
      OS_TaskGetId (OS_TaskRegister r.st 9 0 0).2 = 1 :=
  ⟨_, rfl, rfl, rfl,
    (C19_register_binds_the_id_of_create ⟨20, 2147483647, 16384⟩
      ⟨[⟨false, 7, ['A'], 0, 16384, 10, none⟩, ⟨true, 0, [], 0, 0, 0, none⟩], [], [], [],
        []⟩ 7 ⟨99, 1, 0, 0, 0, 0, 9, 0, 0⟩ 0 ['T', '1'] 5 4096 100 _ 1 rfl rfl rfl).2.1 _ 0
      ⟨_, rfl, rfl⟩
      (by
        intro j rowj hj hget
        have hj0 : j = 0 := by omega
        subst hj0
        simp at hget
        subst hget
        decide)
      (by decide)⟩

/-! ## C20: `OS_QueueGet` with `OS_CHECK` on an empty queue -/

/-- C20: for a valid queue id and non-null `data` and `size_copied`, `OS_QueueGet` with
timeout `OS_CHECK` on a queue that holds no message returns `OS_QUEUE_EMPTY` and stores 0
in `*size_copied`, without a call that can block. In the message queue implementation
the queue holds no message when `mq_getattr` succeeds and reports `mq_curmsgs = 0`, and
no receive call is made; in the socket implementation (`OSAL_SOCKET_QUEUE`) it holds no
message when `recvfrom`, called once while the socket has `O_NONBLOCK` set, returns -1
with `EWOULDBLOCK`. -/
theorem C20_check_on_an_empty_queue_returns_queue_empty (s : OSState) (queue_id : Nat)
    (row : OS_queue_record_t) (hget : s.OS_queue_table[queue_id]? = some row)
    (hfree : row.free = false) (data : List Nat) (size size_copied : Nat) :
    (∀ h : QueueGetHost, h.getattr = 0 → h.curmsgs = 0 →
      OS_QueueGet s h queue_id (some data) size (some size_copied) OS_CHECK
        = some ⟨OS_QUEUE_EMPTY, some 0, s, [.host (.mq_getattr queue_id)]⟩) ∧
    (∀ (h : SocketGetHost) (rest : List (Int × Int)),
      h.recvfrom = ((-1 : Int), EWOULDBLOCK) :: rest →
      OSAL_SOCKET_QUEUE.OS_QueueGet s h queue_id (some data) size (some size_copied) OS_CHECK
        = some ⟨OS_QUEUE_EMPTY, some 0, s,
            [.host (.fcntl_getfl queue_id),
             .host (.fcntl_setfl queue_id (Int.lor h.getfl O_NONBLOCK)),
             .host (.recvfrom queue_id size),
             .host (.fcntl_setfl queue_id h.getfl)]⟩) := by
  have hf : ¬ row.free = true := by simp [hfree]
  have hpc : ¬ (OS_CHECK = OS_PEND) := by decide
  constructor
  · intro h hattr hcur
    simp [OS_QueueGet, hget, hf, hpc, hattr, hcur]
  · intro h rest hrecv
    simp [OSAL_SOCKET_QUEUE.OS_QueueGet, hget, hf, hpc, hrecv]

/-- C20, witness: queue 0 is live and empty. -/
theorem C20_check_on_an_empty_queue_witness :
    OS_QueueGet ⟨[], [⟨false, 3, ['Q'], 0⟩], [], [], []⟩ ⟨[], 0, 0, ⟨0, 0⟩⟩ 0 (some []) 4
        (some 9) OS_CHECK
      = some ⟨OS_QUEUE_EMPTY, some 0, ⟨[], [⟨false, 3, ['Q'], 0⟩], [], [], []⟩,
          [.host (.mq_getattr 0)]⟩ :=
  (C20_check_on_an_empty_queue_returns_queue_empty ⟨[], [⟨false, 3, ['Q'], 0⟩], [], [], []⟩
    0 ⟨false, 3, ['Q'], 0⟩ rfl rfl [] 4 9).1 ⟨[], 0, 0, ⟨0, 0⟩⟩ rfl rfl

/-! ## C21: `OS_TranslatePath` -/

/-- C21 (counterexample): with `OS_MAX_PATH_LEN = 64`, a virtual path of exactly 64
characters that starts with '/' is refused with `OS_FS_ERR_PATH_TOO_LONG`: the test is
`strlen(VirtualPath) >= OS_MAX_PATH_LEN`. -/
theorem C21_counterexample_path_of_max_length_is_too_long :
    ('/' :: List.replicate 63 'a').length ≤ 64 ∧
    ('/' :: List.replicate 63 'a').head? = some '/' ∧
    OS_TranslatePath 64 (some ('/' :: List.replicate 63 'a')) (some [])
      = (OS_FS_ERR_PATH_TOO_LONG, some []) := by
  refine ⟨by decide, by decide, by decide⟩

/-- C21 (amended): `OS_TranslatePath` with non-null arguments returns `OS_FS_SUCCESS`
exactly when the virtual path is shorter than `OS_MAX_PATH_LEN` and starts with '/', and
the local path is then the virtual path; a path of `OS_MAX_PATH_LEN` characters or more
gives `OS_FS_ERR_PATH_TOO_LONG` whatever its first character is, and a shorter path that
does not start with '/' (the empty path is one) gives `OS_FS_ERR_PATH_INVALID`; in both
cases the local path is left as it was. -/
theorem C21_translate_path (OS_MAX_PATH_LEN : Nat) (path loc : CStr) :
    ((OS_TranslatePath OS_MAX_PATH_LEN (some path) (some loc)).1 = OS_FS_SUCCESS ↔
      path.length < OS_MAX_PATH_LEN ∧ path.head? = some '/') ∧
    (path.length < OS_MAX_PATH_LEN → path.head? = some '/' →
      OS_TranslatePath OS_MAX_PATH_LEN (some path) (some loc) = (OS_FS_SUCCESS, some path)) ∧
    (path.length ≥ OS_MAX_PATH_LEN →
      OS_TranslatePath OS_MAX_PATH_LEN (some path) (some loc)
        = (OS_FS_ERR_PATH_TOO_LONG, some loc)) ∧
    (path.length < OS_MAX_PATH_LEN → path.head? ≠ some '/' →
      OS_TranslatePath OS_MAX_PATH_LEN (some path) (some loc)
        = (OS_FS_ERR_PATH_INVALID, some loc)) := by
  by_cases hlen : path.length ≥ OS_MAX_PATH_LEN
  · have h1 : OS_TranslatePath OS_MAX_PATH_LEN (some path) (some loc)
        = (OS_FS_ERR_PATH_TOO_LONG, some loc) := by
      simp only [OS_TranslatePath, if_pos hlen]
    refine ⟨?_, fun h => absurd hlen (by omega), fun _ => h1, fun h => absurd hlen (by omega)⟩
    rw [h1]
    constructor
    · intro h; cases h
    · intro h; omega
  · by_cases hhead : path.head? = some '/'
    · have h1 : OS_TranslatePath OS_MAX_PATH_LEN (some path) (some loc)
          = (OS_FS_SUCCESS, some path) := by
        simp only [OS_TranslatePath, if_neg hlen, hhead, ne_eq, not_true_eq_false, if_false]
      refine ⟨?_, fun _ _ => h1, fun h => absurd h hlen, fun _ h => absurd hhead h⟩
      rw [h1]
      exact ⟨fun _ => ⟨by omega, hhead⟩, fun _ => rfl⟩
    · have h1 : OS_TranslatePath OS_MAX_PATH_LEN (some path) (some loc)
          = (OS_FS_ERR_PATH_INVALID, some loc) := by
        simp only [OS_TranslatePath, if_neg hlen, ne_eq, hhead, not_false_eq_true, if_true]
      refine ⟨?_, fun _ h => absurd h hhead, fun h => absurd h hlen, fun _ _ => h1⟩
      rw [h1]
      constructor
      · intro h; cases h
      · intro h; exact absurd h.2 hhead

/-- C21, witness: "/ram" is translated to itself when `OS_MAX_PATH_LEN = 64`. -/
theorem C21_translate_path_witness :
    OS_TranslatePath 64 (some ['/', 'r', 'a', 'm']) (some [])
      = (OS_FS_SUCCESS, some ['/', 'r', 'a', 'm']) :=
  (C21_translate_path 64 ['/', 'r', 'a', 'm'] []).2.1 (by decide) (by decide)

/-! ## C22: `OS_mkfs` -/

theorem restartLoop_calls (waits : List (Int × Int)) (r : Int × Int) (n : Nat)
    (h : restartLoop waits = some (r, n)) : 1 ≤ n := by
  induction waits generalizing r n with
  | nil => simp [restartLoop] at h
  | cons w rest ih =>
    obtain ⟨ret, errno⟩ := w
    simp only [restartLoop] at h
    split at h
    · cases hrest : restartLoop rest with
      | none => simp [hrest] at h
      | some v =>
        obtain ⟨r1, m⟩ := v
        simp only [hrest, Option.some.injEq, Prod.mk.injEq] at h
        omega
    · simp only [Option.some.injEq, Prod.mk.injEq] at h
      omega

theorem blocksUnderLock_hosts (c : HostCall) (n : Nat) :
    blocksUnderLock [] (List.replicate n (Event.host c)) = false := by
  induction n with
  | zero => rfl
  | succ n ih => simp [List.replicate_succ, blocksUnderLock, ih]

theorem blocksUnderLock_held_wait (g : Guard) (c : HostCall) (hc : c.blocking = true)
    (n : Nat) (hn : 1 ≤ n) (tr : List Event) :
    blocksUnderLock [g] (List.replicate n (Event.host c) ++ tr) = true := by
  cases n with
  | zero => omega
  | succ n => simp [List.replicate_succ, blocksUnderLock, hc]

/-- The waits of a binary semaphore are made with no guard lock held. -/
theorem OS_BinSemTake_waits_without_guard (s : OSState) (sem_id : Nat)
    (waits : List (Int × Int)) (r : Ret) (h : OS_BinSemTake s sem_id waits = some r) :
    blocksUnderLock [] r.tr = false := by
  unfold OS_BinSemTake at h
  split at h
  · cases h; rfl
  · split at h
    · cases h; rfl
    · simp only at h
      split at h
      · cases h
      · split at h <;> cases h <;> exact blocksUnderLock_hosts _ _

/-- `OS_CountSemGive` makes no blocking host call. -/
theorem OS_CountSemGive_does_not_block (s : OSState) (sem_id : Nat) (ret : Int) :
    blocksUnderLock [] (OS_CountSemGive s sem_id ret).tr = false := by
  unfold OS_CountSemGive
  split
  · rfl
  · split
    · rfl
    · split
      · split <;> rfl
      · rfl

/-- C24 (the code on the counting semaphore waits): for every live counting semaphore and
every sequence of host results, a call of `OS_CountSemTake` or `OS_CountSemTimedWait`
that returns has made its `sem_wait` (`sem_timedwait`) calls between the acquisition and
the release of `OS_count_sem_table_mut`, so its trace has a blocking host call under a
guard lock. -/
theorem C24_count_sem_waits_hold_the_table_guard (s : OSState) (sem_id : Nat)
    (row : OS_count_sem_record_t) (waits : List (Int × Int))
    (hget : s.OS_count_sem_table[sem_id]? = some row) (hlive : row.free = false) :
    (∀ r : Ret, OS_CountSemTake s sem_id waits = some r →
      blocksUnderLock [] r.tr = true) ∧
    (∀ (msecs : Nat) (now : timespec) (r : Ret),
      OS_CountSemTimedWait s sem_id msecs now waits = some r →
      blocksUnderLock [] r.tr = true) := by
  have hf : ¬ row.free = true := by simp [hlive]
  constructor
  · intro r h
    simp only [OS_CountSemTake, hget, if_neg hf] at h
    cases hloop : restartLoop waits with
    | none => simp [hloop] at h
    | some v =>
      obtain ⟨⟨ret, errno⟩, n⟩ := v
      have hn := restartLoop_calls waits _ n hloop
      simp only [hloop] at h
      split at h <;> cases h <;>
        exact blocksUnderLock_held_wait Guard.OS_count_sem_table_mut
          (HostCall.sem_wait Guard.OS_count_sem_table_mut sem_id) rfl n hn _
  · intro msecs now r h
    simp only [OS_CountSemTimedWait, hget, if_neg hf] at h
    cases hloop : restartLoop waits with
    | none => simp [hloop] at h
    | some v =>
      obtain ⟨⟨ret, errno⟩, n⟩ := v
      have hn := restartLoop_calls waits _ n hloop
      simp only [hloop] at h
      have key : ∀ (c : HostCall) (tr : List Event), c.blocking = true →
          blocksUnderLock [] (Event.lock Guard.OS_count_sem_table_mut ::
            (Event.host HostCall.clock_gettime ::
              List.replicate n (Event.host c) ++ tr)) = true := by
        intro c tr hc
        have := blocksUnderLock_held_wait Guard.OS_count_sem_table_mut c hc n hn tr
        simpa [blocksUnderLock, HostCall.blocking] using this
      split at h
      · cases h; exact key _ _ rfl
      · split at h <;> cases h <;> exact key _ _ rfl

/-- C24, witness: one live counting semaphore with value 0; `OS_CountSemTake` with a
`sem_wait` that returns 0 has the trace lock, `sem_wait`, unlock. -/
theorem C24_count_sem_waits_witness :
    OS_CountSemTake ⟨[], [], [], [⟨false, ['c'], 0, 5, 0⟩], []⟩ 0 [(0, 0)]
      = some ⟨OS_SUCCESS, ⟨[], [], [], [⟨false, ['c'], 0, 5, -1⟩], []⟩,
          [Event.lock Guard.OS_count_sem_table_mut,
           Event.host (HostCall.sem_wait Guard.OS_count_sem_table_mut 0),
           Event.unlock Guard.OS_count_sem_table_mut]⟩ ∧
    blocksUnderLock []
      [Event.lock Guard.OS_count_sem_table_mut,
       Event.host (HostCall.sem_wait Guard.OS_count_sem_table_mut 0),
       Event.unlock Guard.OS_count_sem_table_mut] = true :=
  ⟨by decide,
   (C24_count_sem_waits_hold_the_table_guard
      ⟨[], [], [], [⟨false, ['c'], 0, 5, 0⟩], []⟩ 0 ⟨false, ['c'], 0, 5, 0⟩ [(0, 0)]
      rfl rfl).1
      ⟨OS_SUCCESS, ⟨[], [], [], [⟨false, ['c'], 0, 5, -1⟩], []⟩,
        [Event.lock Guard.OS_count_sem_table_mut,
         Event.host (HostCall.sem_wait Guard.OS_count_sem_table_mut 0),
         Event.unlock Guard.OS_count_sem_table_mut]⟩ (by decide)⟩

/-! ## C25: two calls of a Create function whose guarded blocks interleave -/

theorem rowHeld_start {α : Type} (T : TableOf α) (s : OSState) :
    rowHeld T s CreatePhase.start := by
  intro i hi
  simp [CreatePhase.row] at hi

theorem stepOk_failed {α : Type} (T : TableOf α) (s s1 : OSState) (p : CreatePhase)
    (r : OS_Status) (o : Option Nat) (hr : r ≠ OS_SUCCESS)
    (hf : ∀ j : Nat, p.row ≠ some j → (T.get s1)[j]? = (T.get s)[j]?) :
    StepOk T s p (CreatePhase.returned r o) s1 := by
  refine ⟨trivial, ?_, ?_, fun j hj _ => hf j hj⟩
  · intro i hi
    simp [CreatePhase.row, hr] at hi
  · intro i hi
    simp [CreatePhase.row, hr] at hi

theorem stepOk_same {α : Type} (T : TableOf α) (s : OSState) (p : CreatePhase)
    (hp : p.holding) (hh : rowHeld T s p) : StepOk T s p p s :=
  ⟨hp, hh, fun _ hi => Or.inl hi, fun _ _ _ => rfl⟩

theorem stepOk_reserve {α : Type} (T : TableOf α) (nm : α → CStr) (taken : α → α)
    (s s1 : OSState) (name : CStr) (id : Option Nat)
    (htaken : ∀ row : α, T.free (taken row) = false)
    (hs1 : T.get s1 = (reserveBlock T.free nm taken (T.get s) name id).2) :
    StepOk T s CreatePhase.start (reserveBlock T.free nm taken (T.get s) name id).1 s1 := by
  unfold reserveBlock at hs1 ⊢
  cases hres : reserve T.free nm (T.get s) name with
  | noFreeIds =>
    rw [hres] at hs1
    simp only at hs1 ⊢
    exact stepOk_failed T s s1 _ _ _ (by decide) (fun j _ => by rw [hs1])
  | nameTaken =>
    rw [hres] at hs1
    simp only at hs1 ⊢
    exact stepOk_failed T s s1 _ _ _ (by decide) (fun j _ => by rw [hs1])
  | reserved i row =>
    rw [hres] at hs1
    simp only at hs1 ⊢
    have hget := reserve_reserved_get _ _ _ _ _ _ hres
    have hfree := reserve_reserved_free _ _ _ _ _ _ hres
    have hlt : i < (T.get s).length := (List.getElem?_eq_some_iff.mp hget).1
    refine ⟨trivial, ?_, ?_, ?_⟩
    · intro k hk
      simp only [CreatePhase.row, Option.some.injEq] at hk
      subst hk
      exact ⟨taken row, by rw [hs1]; exact List.getElem?_set_self hlt, htaken row⟩
    · intro k hk
      simp only [CreatePhase.row, Option.some.injEq] at hk
      subst hk
      exact Or.inr ⟨row, hget, hfree⟩
    · intro j _ hj
      have hne : i ≠ j := by
        intro h
        apply hj
        simp [CreatePhase.row, h]
      rw [hs1, List.getElem?_set_ne hne]

theorem stepOk_release {α : Type} (T : TableOf α) (s s1 : OSState) (i : Nat) (name : CStr)
    (x : α) (r : OS_Status) (o : Option Nat) (hr : r ≠ OS_SUCCESS)
    (hs1 : T.get s1 = (T.get s).set i x) :
    StepOk T s (CreatePhase.reserved i name) (CreatePhase.returned r o) s1 := by
  refine stepOk_failed T s s1 _ r o hr ?_
  intro j hj
  have hne : i ≠ j := by
    intro h
    apply hj
    simp [CreatePhase.row, h]
  rw [hs1, List.getElem?_set_ne hne]

theorem stepOk_fill {α : Type} (T : TableOf α) (s s1 : OSState) (i : Nat) (name : CStr)
    (x : α) (hlt : i < (T.get s).length) (hx : T.free x = false)
    (hs1 : T.get s1 = (T.get s).set i x) :
    StepOk T s (CreatePhase.reserved i name) (CreatePhase.returned OS_SUCCESS (some i)) s1 := by
  refine ⟨trivial, ?_, ?_, ?_⟩
  · intro k hk
    simp only [CreatePhase.row, if_true, Option.some.injEq] at hk
    subst hk
    exact ⟨x, by rw [hs1]; exact List.getElem?_set_self hlt, hx⟩
  · intro k hk
    simp only [CreatePhase.row, if_true, Option.some.injEq] at hk
    subst hk
    exact Or.inl rfl
  · intro j hj _
    have hne : i ≠ j := by
      intro h
      apply hj
      simp [CreatePhase.row, h]
    rw [hs1, List.getElem?_set_ne hne]

/-- A guarded step of one call keeps the row of another call that holds a different
row, and the new row of the first is not the row of the other. -/
theorem keepsRows_step {α : Type} (T : TableOf α)
    (step : OSState → CreatePhase → Option (CreatePhase × OSState)) (hk : KeepsRows T step)
    (s : OSState) (p q : CreatePhase) (hp : p.holding) (hph : rowHeld T s p)
    (hqh : rowHeld T s q) (hd : ∀ i j : Nat, p.row = some i → q.row = some j → i ≠ j) :
    ∃ (p1 : CreatePhase) (s1 : OSState), step s p = some (p1, s1) ∧ p1.holding ∧
      rowHeld T s1 p1 ∧ rowHeld T s1 q ∧
      (∀ i j : Nat, p1.row = some i → q.row = some j → i ≠ j) := by
  obtain ⟨p1, s1, hstep, hp1, hh1, hnew, hframe⟩ := hk s p hp hph
  have hd1 : ∀ i j : Nat, p1.row = some i → q.row = some j → i ≠ j := by
    intro i j hi hj hij
    subst hij
    rcases hnew i hi with hold | ⟨row, hg, hf⟩
    · exact hd i i hold hj rfl
    · obtain ⟨rowq, hgq, hfq⟩ := hqh i hj
      rw [hg] at hgq
      cases hgq
      rw [hf] at hfq
      cases hfq
  refine ⟨p1, s1, hstep, hp1, hh1, ?_, hd1⟩
  intro j hj
  obtain ⟨rowq, hgq, hfq⟩ := hqh j hj
  refine ⟨rowq, ?_, hfq⟩
  rw [hframe j (fun h => hd j j h hj rfl) (fun h => hd1 j j h hj rfl)]
  exact hgq

theorem interleave_rowHeld {α : Type} (T : TableOf α)
    (stepA stepB : OSState → CreatePhase → Option (CreatePhase × OSState))
    (hkA : KeepsRows T stepA) (hkB : KeepsRows T stepB) (sched : List Bool) :
    ∀ w : TwoCreates, w.a.holding → w.b.holding → rowHeld T w.st w.a → rowHeld T w.st w.b →
      (∀ i j : Nat, w.a.row = some i → w.b.row = some j → i ≠ j) →
      ∃ w1 : TwoCreates, interleave stepA stepB sched w = some w1 ∧
        (∀ i j : Nat, w1.a.row = some i → w1.b.row = some j → i ≠ j) := by
  induction sched with
  | nil => intro w _ _ _ _ hd; exact ⟨w, rfl, hd⟩
  | cons t sched ih =>
    intro w hpa hpb ha hb hd
    cases t with
    | true =>
      obtain ⟨p1, s1, hstep, hp1, h1, h2, h3⟩ :=
        keepsRows_step T stepA hkA w.st w.a w.b hpa ha hb hd
      obtain ⟨w1, hw1, hr⟩ := ih ⟨s1, p1, w.b⟩ hp1 hpb h1 h2 h3
      exact ⟨w1, by simp only [interleave, hstep, hw1], hr⟩
    | false =>
      obtain ⟨p1, s1, hstep, hp1, h1, h2, h3⟩ :=
        keepsRows_step T stepB hkB w.st w.b w.a hpb hb ha
          (fun i j hi hj h => hd j i hj hi h.symm)
      obtain ⟨w1, hw1, hr⟩ := ih ⟨s1, w.a, p1⟩ hpa hp1 h2 h1
        (fun i j hi hj h => h3 j i hj hi h.symm)
      exact ⟨w1, by simp only [interleave, hstep, hw1], hr⟩

theorem interleave_skip_returned
    (stepA stepB : OSState → CreatePhase → Option (CreatePhase × OSState))
    (hA : ∀ (s : OSState) (r : OS_Status) (o : Option Nat),
      stepA s (CreatePhase.returned r o) = some (CreatePhase.returned r o, s))
    (rest : List Bool) (s : OSState) (r : OS_Status) (o : Option Nat) (pb : CreatePhase) :
    interleave stepA stepB (true :: rest) ⟨s, CreatePhase.returned r o, pb⟩
      = interleave stepA stepB rest ⟨s, CreatePhase.returned r o, pb⟩ := by
  simp only [interleave, hA]

theorem interleave_both_returned
    (stepA stepB : OSState → CreatePhase → Option (CreatePhase × OSState))
    (hA : ∀ (s : OSState) (r : OS_Status) (o : Option Nat),
      stepA s (CreatePhase.returned r o) = some (CreatePhase.returned r o, s))
    (hB : ∀ (s : OSState) (r : OS_Status) (o : Option Nat),
      stepB s (CreatePhase.returned r o) = some (CreatePhase.returned r o, s))
    (rest : List Bool) (s : OSState) (r r2 : OS_Status) (o o2 : Option Nat) :
    interleave stepA stepB rest ⟨s, CreatePhase.returned r o, CreatePhase.returned r2 o2⟩
      = some ⟨s, CreatePhase.returned r o, CreatePhase.returned r2 o2⟩ := by
  induction rest with
  | nil => rfl
  | cons t rest ih => cases t <;> simpa only [interleave, hA, hB] using ih

theorem interleave_last_step
    (stepA stepB : OSState → CreatePhase → Option (CreatePhase × OSState))
    (hA : ∀ (s : OSState) (r : OS_Status) (o : Option Nat),
      stepA s (CreatePhase.returned r o) = some (CreatePhase.returned r o, s))
    (hB : ∀ (s : OSState) (r : OS_Status) (o : Option Nat),
      stepB s (CreatePhase.returned r o) = some (CreatePhase.returned r o, s))
    (s : OSState) (r : OS_Status) (o : Option Nat) (pb : CreatePhase)
    (x : Option (CreatePhase × OSState)) (hstep : stepB s pb = x)
    (hx : ∀ y : CreatePhase × OSState, x = some y →
      ∃ (r2 : OS_Status) (o2 : Option Nat), y.1 = CreatePhase.returned r2 o2)
    (rest : List Bool) (w : TwoCreates)
    (h : interleave stepA stepB rest ⟨s, CreatePhase.returned r o, pb⟩ = some w) :
    w = ⟨s, CreatePhase.returned r o, pb⟩ ∨
    ∃ y : CreatePhase × OSState, x = some y ∧ w = ⟨y.2, CreatePhase.returned r o, y.1⟩ := by
  induction rest with
  | nil =>
    left
    simp only [interleave, Option.some.injEq] at h
    exact h.symm
  | cons t rest ih =>
    cases t with
    | true =>
      rw [interleave_skip_returned stepA stepB hA] at h
      exact ih h
    | false =>
      right
      simp only [interleave, hstep] at h
      cases x with
      | none => cases h
      | some y =>
        obtain ⟨p2, s2⟩ := y
        obtain ⟨r2, o2, hy⟩ := hx (p2, s2) rfl
        simp only at hy h
        subst hy
        rw [interleave_both_returned stepA stepB hA hB] at h
        cases h
        exact ⟨_, rfl, rfl⟩

/-- After the first call has returned, the second call alone is the sequential function:
its state is the one before it, the one after its first step, or the one after the
call. -/
theorem interleave_second_alone
    (stepA stepB : OSState → CreatePhase → Option (CreatePhase × OSState))
    (seqB : OSState → Option RetId)
    (hA : ∀ (s : OSState) (r : OS_Status) (o : Option Nat),
      stepA s (CreatePhase.returned r o) = some (CreatePhase.returned r o, s))
    (hsB : StepsOf stepB seqB)
    (s : OSState) (r : OS_Status) (o : Option Nat) (rest : List Bool) (w : TwoCreates)
    (h : interleave stepA stepB rest ⟨s, CreatePhase.returned r o, CreatePhase.start⟩
      = some w) :
    w.a = CreatePhase.returned r o ∧
    ((w.b = CreatePhase.start ∧ w.st = s) ∨
     (stepB s CreatePhase.start = some (w.b, w.st)) ∨
     (∃ R : RetId, seqB s = some R ∧ w.b = CreatePhase.returned R.ret R.out ∧
        w.st = R.st)) := by
  induction rest with
  | nil =>
    simp only [interleave, Option.some.injEq] at h
    subst h
    exact ⟨rfl, Or.inl ⟨rfl, rfl⟩⟩
  | cons t rest ih =>
    cases t with
    | true =>
      rw [interleave_skip_returned stepA stepB hA] at h
      exact ih h
    | false =>
      simp only [interleave] at h
      cases hst : stepB s CreatePhase.start with
      | none =>
        rw [hst] at h
        cases h
      | some y =>
        obtain ⟨p, s1⟩ := y
        rw [hst] at h
        simp only at h
        have h2 := hsB.2.2 s
        rw [hst, Option.some_bind] at h2
        simp only at h2
        rcases interleave_last_step stepA stepB hA hsB.1 s1 r o p _ h2
          (by
            intro y hy
            cases hseq : seqB s with
            | none => rw [hseq] at hy; cases hy
            | some R =>
              rw [hseq] at hy
              simp only [Option.map_some', Option.some.injEq] at hy
              subst hy
              exact ⟨_, _, rfl⟩)
          rest w h with hw | ⟨y, hy, hw⟩
        · subst hw
          exact ⟨rfl, Or.inr (Or.inl rfl)⟩
        · cases hseq : seqB s with
          | none => rw [hseq] at hy; cases hy
          | some R =>
            rw [hseq] at hy
            simp only [Option.map_some', Option.some.injEq] at hy
            subst hy
            subst hw
            exact ⟨rfl, Or.inr (Or.inr ⟨R, rfl, rfl, rfl⟩)⟩

theorem interleave_first_then_second
    (stepA stepB : OSState → CreatePhase → Option (CreatePhase × OSState))
    (seqA seqB : OSState → Option RetId) (nameA nameB : Option CStr)
    (vw : OSState → List (Bool × CStr))
    (hsA : StepsOf stepA seqA) (hsB : StepsOf stepB seqB)
    (hcA : ∀ (s : OSState) (R : RetId), seqA s = some R →
      CreateStep (vw s) nameA R.ret R.out (vw R.st))
    (hcB : ∀ (s : OSState) (R : RetId), seqB s = some R →
      CreateStep (vw s) nameB R.ret R.out (vw R.st))
    (s : OSState) (rest : List Bool) (w : TwoCreates)
    (h : interleave stepA stepB (true :: true :: rest)
      ⟨s, CreatePhase.start, CreatePhase.start⟩ = some w) :
    (nameA = nameB →
      ¬ ∃ i j : Option Nat, w.a = CreatePhase.returned OS_SUCCESS i ∧
        w.b = CreatePhase.returned OS_SUCCESS j) ∧
    (namesUnique (vw s) →
      (∃ (r : OS_Status) (o : Option Nat), w.a = CreatePhase.returned r o) →
      (∃ (r : OS_Status) (o : Option Nat), w.b = CreatePhase.returned r o) →
      namesUnique (vw w.st)) := by
  simp only [interleave] at h
  cases h1 : stepA s CreatePhase.start with
  | none => rw [h1] at h; cases h
  | some y =>
    obtain ⟨p, s1⟩ := y
    rw [h1] at h
    simp only at h
    have h2 := hsA.2.2 s
    rw [h1, Option.some_bind] at h2
    simp only at h2
    rw [h2] at h
    cases hseq : seqA s with
    | none => rw [hseq] at h; cases h
    | some RA =>
      rw [hseq] at h
      simp only [Option.map_some'] at h
      have hA := hcA s RA hseq
      obtain ⟨hwa, hwb⟩ := interleave_second_alone stepA stepB seqB hsA.1 hsB RA.st RA.ret
        RA.out rest w h
      constructor
      · rintro hname ⟨i, j, hi, hj⟩
        rw [hwa] at hi
        injection hi with hret _
        rcases hwb with ⟨hb, _⟩ | hb | ⟨RB, hseqB, hb, _⟩
        · rw [hb] at hj
          cases hj
        · rw [hj] at hb
          exact (hsB.2.1 _ _ _ _ hb).1 rfl
        · rw [hb] at hj
          injection hj with hretB _
          have hB := hcB RA.st RB hseqB
          rcases hA with ⟨hne, _⟩ | ⟨_, n, hn, _, _, hp, hv⟩
          · exact hne hret
          · rcases hB with ⟨hneB, _⟩ | ⟨_, m, hm, hnl, _, _, _⟩
            · exact hneB hretB
            · rw [hname, hm] at hn
              cases hn
              apply hnl
              refine ⟨(vw s).findIdx (fun x => x.1), ?_⟩
              rw [hv]
              exact List.getElem?_set_self hp
      · rintro hu _ ⟨r, o, hb0⟩
        have huA := namesUnique_createStep hA hu
        rcases hwb with ⟨hb, _⟩ | hb | ⟨RB, hseqB, _, hst⟩
        · rw [hb] at hb0
          cases hb0
        · rw [hb0] at hb
          rw [(hsB.2.1 _ _ _ _ hb).2]
          exact huA
        · rw [hst]
          exact namesUnique_createStep (hcB RA.st RB hseqB) huA

theorem interleave_swap
    (stepA stepB : OSState → CreatePhase → Option (CreatePhase × OSState))
    (sched : List Bool) :
    ∀ w : TwoCreates, interleave stepA stepB sched w
      = (interleave stepB stepA (sched.map not) ⟨w.st, w.b, w.a⟩).map
          (fun v => ⟨v.st, v.b, v.a⟩) := by
  induction sched with
  | nil => intro w; rfl
  | cons t sched ih =>
    intro w
    cases t with
    | true =>
      simp only [interleave, List.map_cons, Bool.not_true]
      cases hstep : stepA w.st w.a with
      | none => rfl
      | some x => exact ih _
    | false =>
      simp only [interleave, List.map_cons, Bool.not_false]
      cases hstep : stepB w.st w.b with
      | none => rfl
      | some x => exact ih _

/-- Two calls whose step functions keep the rows of one table and are the halves of
sequential functions that act on the registry view as a Create call does. -/
theorem twoCreatesSafe_of {α : Type} (T : TableOf α)
    (stepA stepB : OSState → CreatePhase → Option (CreatePhase × OSState))
    (seqA seqB : OSState → Option RetId) (nameA nameB : Option CStr)
    (vw : OSState → List (Bool × CStr))
    (hkA : KeepsRows T stepA) (hkB : KeepsRows T stepB)
    (hsA : StepsOf stepA seqA) (hsB : StepsOf stepB seqB)
    (hcA : ∀ (s : OSState) (R : RetId), seqA s = some R →
      CreateStep (vw s) nameA R.ret R.out (vw R.st))
    (hcB : ∀ (s : OSState) (R : RetId), seqB s = some R →
      CreateStep (vw s) nameB R.ret R.out (vw R.st))
    (s : OSState) : TwoCreatesSafe stepA stepB nameA nameB vw s := by
  intro sched
  obtain ⟨w, hw, hd⟩ := interleave_rowHeld T stepA stepB hkA hkB sched
    ⟨s, CreatePhase.start, CreatePhase.start⟩ trivial trivial (rowHeld_start T s)
    (rowHeld_start T s) (by intro i j hi; simp [CreatePhase.row] at hi)
  refine ⟨w, hw, hd, ?_⟩
  rintro ⟨rest, hs | hs⟩
  · rw [hs] at hw
    exact interleave_first_then_second stepA stepB seqA seqB nameA nameB vw hsA hsB hcA hcB
      s rest w hw
  · rw [hs, interleave_swap] at hw
    simp only [List.map_cons, Bool.not_false, Option.map_eq_some'] at hw
    obtain ⟨v, hv, hvw⟩ := hw
    obtain ⟨h1, h2⟩ := interleave_first_then_second stepB stepA seqB seqA nameB nameA vw
      hsB hsA hcB hcA s (rest.map not) v hv
    subst hvw
    refine ⟨?_, ?_⟩
    · rintro hname ⟨i, j, hi, hj⟩
      exact h1 hname.symm ⟨j, i, hj, hi⟩
    · intro hu ha hb
      exact h2 hu hb ha

/-! ### The steps of `OS_BinSemCreate` and `OS_CountSemCreate` -/

theorem OS_BinSemCreate_step_keepsRows (cfg : Config) (a : SemCreateArgs) :
    KeepsRows binSemTable (OS_BinSemCreate.step cfg a) := by
  intro s p hp hh
  cases p with
  | returned r o => exact ⟨_, _, rfl, stepOk_same _ _ _ hp hh⟩
  | released i name => exact False.elim hp
  | start =>
    obtain ⟨self, sem_id, sem_name, init, Status⟩ := a
    cases sem_id with
    | none =>
      cases sem_name <;>
        exact ⟨CreatePhase.returned OS_INVALID_POINTER none, s, rfl,
          stepOk_failed binSemTable s s _ _ _ (by decide) (fun _ _ => rfl)⟩
    | some v =>
      cases sem_name with
      | none =>
        exact ⟨CreatePhase.returned OS_INVALID_POINTER (some v), s, rfl,
          stepOk_failed binSemTable s s _ _ _ (by decide) (fun _ _ => rfl)⟩
      | some name =>
        by_cases hlen : name.length ≥ cfg.OS_MAX_API_NAME
        · refine ⟨CreatePhase.returned OS_ERR_NAME_TOO_LONG (some v), s, ?_,
            stepOk_failed binSemTable s s _ _ _ (by decide) (fun _ _ => rfl)⟩
          simp only [OS_BinSemCreate.step, hlen, if_true]
        · refine ⟨_, _, ?_, stepOk_reserve binSemTable OS_bin_sem_record_t.name
            (fun (row : OS_bin_sem_record_t) => { row with free := false }) s
            { s with OS_bin_sem_table := (reserveBlock OS_bin_sem_record_t.free
                OS_bin_sem_record_t.name
                (fun (row : OS_bin_sem_record_t) => { row with free := false })
                s.OS_bin_sem_table name (some v)).2 }
            name (some v) (fun _ => rfl) rfl⟩
          simp only [OS_BinSemCreate.step, hlen, if_false]
          rfl
  | reserved i name =>
    obtain ⟨row, hget, hlive⟩ := hh i rfl
    have hget1 : s.OS_bin_sem_table[i]? = some row := hget
    have hlt : i < s.OS_bin_sem_table.length := (List.getElem?_eq_some_iff.mp hget1).1
    by_cases hst : a.Status = -1
    · refine ⟨CreatePhase.returned OS_SEM_FAILURE a.sem_id,
        { s with OS_bin_sem_table := (s.OS_bin_sem_table.set i
            ⟨true, row.name, row.creator, row.max_value, row.current_value⟩) }, ?_,
        stepOk_release binSemTable s _ i name _ _ _ (by decide) rfl⟩
      simp only [OS_BinSemCreate.step, hst, if_true, writeRow, hget1, Option.map_some']
    · refine ⟨CreatePhase.returned OS_SUCCESS (some i),
        { s with OS_bin_sem_table := (s.OS_bin_sem_table.set i
            ⟨row.free, name, OS_FindCreator s a.pthread_self, 1,
              ((if a.sem_initial_value > 1 then 1 else a.sem_initial_value : Nat) : Int)⟩) },
        ?_, stepOk_fill binSemTable s _ i name
          ⟨row.free, name, OS_FindCreator s a.pthread_self, 1,
            ((if a.sem_initial_value > 1 then 1 else a.sem_initial_value : Nat) : Int)⟩
          hlt hlive rfl⟩
      simp only [OS_BinSemCreate.step, hst, if_false, writeRow, hget1, Option.map_some']

theorem OS_BinSemCreate_step_stepsOf (cfg : Config) (a : SemCreateArgs) :
    StepsOf (OS_BinSemCreate.step cfg a)
      (fun s => some (OS_BinSemCreate cfg s a.pthread_self a.sem_id a.sem_name
        a.sem_initial_value a.Status)) := by
  obtain ⟨self, sem_id, sem_name, init, Status⟩ := a
  refine ⟨fun _ _ _ => rfl, ?_, ?_⟩
  · intro s s1 r o h
    cases sem_id with
    | none =>
      cases sem_name <;> simp only [OS_BinSemCreate.step, Option.some.injEq, Prod.mk.injEq,
        CreatePhase.returned.injEq] at h <;> obtain ⟨⟨h1, _⟩, h2⟩ := h <;> subst h1 <;>
        exact ⟨by decide, h2.symm⟩
    | some v =>
      cases sem_name with
      | none =>
        simp only [OS_BinSemCreate.step, Option.some.injEq, Prod.mk.injEq,
          CreatePhase.returned.injEq] at h
        obtain ⟨⟨h1, _⟩, h2⟩ := h
        subst h1
        exact ⟨by decide, h2.symm⟩
      | some name =>
        by_cases hlen : name.length ≥ cfg.OS_MAX_API_NAME
        · simp only [OS_BinSemCreate.step, hlen, if_true, Option.some.injEq, Prod.mk.injEq,
            CreatePhase.returned.injEq] at h
          obtain ⟨⟨h1, _⟩, h2⟩ := h
          subst h1
          exact ⟨by decide, h2.symm⟩
        · simp only [OS_BinSemCreate.step, hlen, if_false, reserveBlock, Option.some.injEq,
            Prod.mk.injEq] at h
          cases hres : reserve OS_bin_sem_record_t.free OS_bin_sem_record_t.name
              s.OS_bin_sem_table name with
          | noFreeIds =>
            simp only [hres, CreatePhase.returned.injEq] at h
            obtain ⟨⟨h1, _⟩, h2⟩ := h
            subst h1
            exact ⟨by decide, h2.symm⟩
          | nameTaken =>
            simp only [hres, CreatePhase.returned.injEq] at h
            obtain ⟨⟨h1, _⟩, h2⟩ := h
            subst h1
            exact ⟨by decide, h2.symm⟩
          | reserved i row =>
            simp only [hres] at h
            cases h.1
  · intro s
    cases sem_id with
    | none => cases sem_name <;> simp [OS_BinSemCreate.step, OS_BinSemCreate]
    | some v =>
      cases sem_name with
      | none => simp [OS_BinSemCreate.step, OS_BinSemCreate]
      | some name =>
        by_cases hlen : name.length ≥ cfg.OS_MAX_API_NAME
        · simp [OS_BinSemCreate.step, OS_BinSemCreate, hlen]
        · cases hres : reserve OS_bin_sem_record_t.free OS_bin_sem_record_t.name
              s.OS_bin_sem_table name with
          | noFreeIds =>
            simp [OS_BinSemCreate.step, OS_BinSemCreate, reserveBlock, hlen, hres]
          | nameTaken =>
            simp [OS_BinSemCreate.step, OS_BinSemCreate, reserveBlock, hlen, hres]
          | reserved i row =>
            have hget := reserve_reserved_get _ _ _ _ _ _ hres
            have hlt : i < s.OS_bin_sem_table.length :=
              (List.getElem?_eq_some_iff.mp hget).1
            simp only [OS_BinSemCreate.step, OS_BinSemCreate, reserveBlock, hlen, if_false,
              hres, Option.some_bind, writeRow, List.getElem?_set_self hlt, List.set_set,
              OS_FindCreator, Option.map_some']
            by_cases hst : Status = -1
            · simp only [hst, if_true, Option.map_some']
            · simp only [hst, if_false, Option.map_some']

theorem OS_CountSemCreate_step_keepsRows (cfg : Config) (a : SemCreateArgs) :
    KeepsRows countSemTable (OS_CountSemCreate.step cfg a) := by
  intro s p hp hh
  cases p with
  | returned r o => exact ⟨_, _, rfl, stepOk_same _ _ _ hp hh⟩
  | released i name => exact False.elim hp
  | start =>
    obtain ⟨self, sem_id, sem_name, init, Status⟩ := a
    cases sem_id with
    | none =>
      cases sem_name <;>
        exact ⟨CreatePhase.returned OS_INVALID_POINTER none, s, rfl,
          stepOk_failed countSemTable s s _ _ _ (by decide) (fun _ _ => rfl)⟩
    | some v =>
      cases sem_name with
      | none =>
        exact ⟨CreatePhase.returned OS_INVALID_POINTER (some v), s, rfl,
          stepOk_failed countSemTable s s _ _ _ (by decide) (fun _ _ => rfl)⟩
      | some name =>
        by_cases hval : init > cfg.SEM_VALUE_MAX
        · refine ⟨CreatePhase.returned OS_INVALID_SEM_VALUE (some v), s, ?_,
            stepOk_failed countSemTable s s _ _ _ (by decide) (fun _ _ => rfl)⟩
          simp only [OS_CountSemCreate.step, hval, if_true]
        · by_cases hlen : name.length ≥ cfg.OS_MAX_API_NAME
          · refine ⟨CreatePhase.returned OS_ERR_NAME_TOO_LONG (some v), s, ?_,
              stepOk_failed countSemTable s s _ _ _ (by decide) (fun _ _ => rfl)⟩
            simp only [OS_CountSemCreate.step, hval, hlen, if_true, if_false]
          · refine ⟨_, _, ?_, stepOk_reserve countSemTable OS_count_sem_record_t.name
              (fun (row : OS_count_sem_record_t) => { row with free := false }) s
              { s with OS_count_sem_table := (reserveBlock OS_count_sem_record_t.free
                  OS_count_sem_record_t.name
                  (fun (row : OS_count_sem_record_t) => { row with free := false })
                  s.OS_count_sem_table name (some v)).2 }
              name (some v) (fun _ => rfl) rfl⟩
            simp only [OS_CountSemCreate.step, hval, hlen, if_false]
            rfl
  | reserved i name =>
    obtain ⟨row, hget, hlive⟩ := hh i rfl
    have hget1 : s.OS_count_sem_table[i]? = some row := hget
    have hlt : i < s.OS_count_sem_table.length := (List.getElem?_eq_some_iff.mp hget1).1
    by_cases hst : a.Status = -1
    · refine ⟨CreatePhase.returned OS_SEM_FAILURE a.sem_id,
        { s with OS_count_sem_table := (s.OS_count_sem_table.set i
            ⟨true, row.name, row.creator, row.max_value, row.current_value⟩) }, ?_,
        stepOk_release countSemTable s _ i name _ _ _ (by decide) rfl⟩
      simp only [OS_CountSemCreate.step, hst, if_true, writeRow, hget1, Option.map_some']
    · refine ⟨CreatePhase.returned OS_SUCCESS (some i),
        { s with OS_count_sem_table := (s.OS_count_sem_table.set i
            ⟨false, name, OS_FindCreator s a.pthread_self, ((cfg.SEM_VALUE_MAX : Nat) : Int),
              ((a.sem_initial_value : Nat) : Int)⟩) },
        ?_, stepOk_fill countSemTable s _ i name
          ⟨false, name, OS_FindCreator s a.pthread_self, ((cfg.SEM_VALUE_MAX : Nat) : Int),
            ((a.sem_initial_value : Nat) : Int)⟩
          hlt rfl rfl⟩
      simp only [OS_CountSemCreate.step, hst, if_false, writeRow, hget1, Option.map_some']

theorem OS_CountSemCreate_step_stepsOf (cfg : Config) (a : SemCreateArgs) :
    StepsOf (OS_CountSemCreate.step cfg a)
      (fun s => some (OS_CountSemCreate cfg s a.pthread_self a.sem_id a.sem_name
        a.sem_initial_value a.Status)) := by
  obtain ⟨self, sem_id, sem_name, init, Status⟩ := a
  refine ⟨fun _ _ _ => rfl, ?_, ?_⟩
  · intro s s1 r o h
    cases sem_id with
    | none =>
      cases sem_name <;> simp only [OS_CountSemCreate.step, Option.some.injEq, Prod.mk.injEq,
        CreatePhase.returned.injEq] at h <;> obtain ⟨⟨h1, _⟩, h2⟩ := h <;> subst h1 <;>
        exact ⟨by decide, h2.symm⟩
    | some v =>
      cases sem_name with
      | none =>
        simp only [OS_CountSemCreate.step, Option.some.injEq, Prod.mk.injEq,
          CreatePhase.returned.injEq] at h
        obtain ⟨⟨h1, _⟩, h2⟩ := h
        subst h1
        exact ⟨by decide, h2.symm⟩
      | some name =>
        by_cases hval : init > cfg.SEM_VALUE_MAX
        · simp only [OS_CountSemCreate.step, hval, if_true, Option.some.injEq, Prod.mk.injEq,
            CreatePhase.returned.injEq] at h
          obtain ⟨⟨h1, _⟩, h2⟩ := h
          subst h1
          exact ⟨by decide, h2.symm⟩
        · by_cases hlen : name.length ≥ cfg.OS_MAX_API_NAME
          · simp only [OS_CountSemCreate.step, hval, hlen, if_true, if_false,
              Option.some.injEq, Prod.mk.injEq, CreatePhase.returned.injEq] at h
            obtain ⟨⟨h1, _⟩, h2⟩ := h
            subst h1
            exact ⟨by decide, h2.symm⟩
          · simp only [OS_CountSemCreate.step, hval, hlen, if_false, reserveBlock,
              Option.some.injEq, Prod.mk.injEq] at h
            cases hres : reserve OS_count_sem_record_t.free OS_count_sem_record_t.name
                s.OS_count_sem_table name with
            | noFreeIds =>
              simp only [hres, CreatePhase.returned.injEq] at h
              obtain ⟨⟨h1, _⟩, h2⟩ := h
              subst h1
              exact ⟨by decide, h2.symm⟩
            | nameTaken =>
              simp only [hres, CreatePhase.returned.injEq] at h
              obtain ⟨⟨h1, _⟩, h2⟩ := h
              subst h1
              exact ⟨by decide, h2.symm⟩
            | reserved i row =>
              simp only [hres] at h
              cases h.1
  · intro s
    cases sem_id with
    | none => cases sem_name <;> simp [OS_CountSemCreate.step, OS_CountSemCreate]
    | some v =>
      cases sem_name with
      | none => simp [OS_CountSemCreate.step, OS_CountSemCreate]
      | some name =>
        by_cases hval : init > cfg.SEM_VALUE_MAX
        · simp [OS_CountSemCreate.step, OS_CountSemCreate, hval]
        · by_cases hlen : name.length ≥ cfg.OS_MAX_API_NAME
          · simp [OS_CountSemCreate.step, OS_CountSemCreate, hval, hlen]
          · cases hres : reserve OS_count_sem_record_t.free OS_count_sem_record_t.name
                s.OS_count_sem_table name with
            | noFreeIds =>
              simp [OS_CountSemCreate.step, OS_CountSemCreate, reserveBlock, hval, hlen, hres]
            | nameTaken =>
              simp [OS_CountSemCreate.step, OS_CountSemCreate, reserveBlock, hval, hlen, hres]
            | reserved i row =>
              have hget := reserve_reserved_get _ _ _ _ _ _ hres
              have hlt : i < s.OS_count_sem_table.length :=
                (List.getElem?_eq_some_iff.mp hget).1
              simp only [OS_CountSemCreate.step, OS_CountSemCreate, reserveBlock, hval, hlen,
                if_false, hres, Option.some_bind, writeRow, List.getElem?_set_self hlt,
                List.set_set, OS_FindCreator, Option.map_some']
              by_cases hst : Status = -1
              · simp only [hst, if_true, Option.map_some']
              · simp only [hst, if_false, Option.map_some']

/-! ### The steps of `OS_QueueCreate` and `OS_MutSemCreate` -/

theorem OS_QueueCreate_step_keepsRows (cfg : Config) (a : QueueCreateArgs) :
    KeepsRows queueTable (OS_QueueCreate.step cfg a) := by
  intro s p hp hh
  cases p with
  | returned r o => exact ⟨_, _, rfl, stepOk_same _ _ _ hp hh⟩
  | released i name => exact False.elim hp
  | start =>
    obtain ⟨self, pid, queueDesc, queue_id, queue_name, depth, size⟩ := a
    cases queue_id with
    | none =>
      cases queue_name <;>
        exact ⟨CreatePhase.returned OS_INVALID_POINTER none, s, rfl,
          stepOk_failed queueTable s s _ _ _ (by decide) (fun _ _ => rfl)⟩
    | some v =>
      cases queue_name with
      | none =>
        exact ⟨CreatePhase.returned OS_INVALID_POINTER (some v), s, rfl,
          stepOk_failed queueTable s s _ _ _ (by decide) (fun _ _ => rfl)⟩
      | some name =>
        by_cases hlen : name.length ≥ cfg.OS_MAX_API_NAME
        · refine ⟨CreatePhase.returned OS_ERR_NAME_TOO_LONG (some v), s, ?_,
            stepOk_failed queueTable s s _ _ _ (by decide) (fun _ _ => rfl)⟩
          simp only [OS_QueueCreate.step, hlen, if_true]
        · refine ⟨_, _, ?_, stepOk_reserve queueTable OS_queue_record_t.name
            (fun (row : OS_queue_record_t) => { row with free := false }) s
            { s with OS_queue_table := (reserveBlock OS_queue_record_t.free
                OS_queue_record_t.name
                (fun (row : OS_queue_record_t) => { row with free := false })
                s.OS_queue_table name (some v)).2 }
            name (some v) (fun _ => rfl) rfl⟩
          simp only [OS_QueueCreate.step, hlen, if_false]
          rfl
  | reserved i name =>
    obtain ⟨row, hget, hlive⟩ := hh i rfl
    have hget1 : s.OS_queue_table[i]? = some row := hget
    have hlt : i < s.OS_queue_table.length := (List.getElem?_eq_some_iff.mp hget1).1
    by_cases hst : a.queueDesc = -1
    · refine ⟨CreatePhase.returned OS_ERROR a.queue_id,
        { s with OS_queue_table := (s.OS_queue_table.set i
            ⟨true, row.id, row.name, row.creator⟩) }, ?_,
        stepOk_release queueTable s _ i name _ _ _ (by decide) rfl⟩
      simp only [OS_QueueCreate.step, hst, if_true, writeRow, hget1, Option.map_some']
    · refine ⟨CreatePhase.returned OS_SUCCESS (some i),
        { s with OS_queue_table := (s.OS_queue_table.set i
            ⟨false, a.queueDesc, name, OS_FindCreator s a.pthread_self⟩) },
        ?_, stepOk_fill queueTable s _ i name
          ⟨false, a.queueDesc, name, OS_FindCreator s a.pthread_self⟩ hlt rfl rfl⟩
      simp only [OS_QueueCreate.step, hst, if_false, writeRow, hget1, Option.map_some']

theorem OS_QueueCreate_step_stepsOf (cfg : Config) (a : QueueCreateArgs) :
    StepsOf (OS_QueueCreate.step cfg a)
      (fun s => some (OS_QueueCreate cfg s a.pthread_self a.process_id_string a.queueDesc
        a.queue_id a.queue_name a.queue_depth a.data_size)) := by
  obtain ⟨self, pid, queueDesc, queue_id, queue_name, depth, size⟩ := a
  refine ⟨fun _ _ _ => rfl, ?_, ?_⟩
  · intro s s1 r o h
    cases queue_id with
    | none =>
      cases queue_name <;> simp only [OS_QueueCreate.step, Option.some.injEq, Prod.mk.injEq,
        CreatePhase.returned.injEq] at h <;> obtain ⟨⟨h1, _⟩, h2⟩ := h <;> subst h1 <;>
        exact ⟨by decide, h2.symm⟩
    | some v =>
      cases queue_name with
      | none =>
        simp only [OS_QueueCreate.step, Option.some.injEq, Prod.mk.injEq,
          CreatePhase.returned.injEq] at h
        obtain ⟨⟨h1, _⟩, h2⟩ := h
        subst h1
        exact ⟨by decide, h2.symm⟩
      | some name =>
        by_cases hlen : name.length ≥ cfg.OS_MAX_API_NAME
        · simp only [OS_QueueCreate.step, hlen, if_true, Option.some.injEq, Prod.mk.injEq,
            CreatePhase.returned.injEq] at h
          obtain ⟨⟨h1, _⟩, h2⟩ := h
          subst h1
          exact ⟨by decide, h2.symm⟩
        · simp only [OS_QueueCreate.step, hlen, if_false, reserveBlock, Option.some.injEq,
            Prod.mk.injEq] at h
          cases hres : reserve OS_queue_record_t.free OS_queue_record_t.name
              s.OS_queue_table name with
          | noFreeIds =>
            simp only [hres, CreatePhase.returned.injEq] at h
            obtain ⟨⟨h1, _⟩, h2⟩ := h
            subst h1
            exact ⟨by decide, h2.symm⟩
          | nameTaken =>
            simp only [hres, CreatePhase.returned.injEq] at h
            obtain ⟨⟨h1, _⟩, h2⟩ := h
            subst h1
            exact ⟨by decide, h2.symm⟩
          | reserved i row =>
            simp only [hres] at h
            cases h.1
  · intro s
    cases queue_id with
    | none => cases queue_name <;> simp [OS_QueueCreate.step, OS_QueueCreate]
    | some v =>
      cases queue_name with
      | none => simp [OS_QueueCreate.step, OS_QueueCreate]
      | some name =>
        by_cases hlen : name.length ≥ cfg.OS_MAX_API_NAME
        · simp [OS_QueueCreate.step, OS_QueueCreate, hlen]
        · cases hres : reserve OS_queue_record_t.free OS_queue_record_t.name
              s.OS_queue_table name with
          | noFreeIds =>
            simp [OS_QueueCreate.step, OS_QueueCreate, reserveBlock, hlen, hres]
          | nameTaken =>
            simp [OS_QueueCreate.step, OS_QueueCreate, reserveBlock, hlen, hres]
          | reserved i row =>
            have hget := reserve_reserved_get _ _ _ _ _ _ hres
            have hlt : i < s.OS_queue_table.length :=
              (List.getElem?_eq_some_iff.mp hget).1
            simp only [OS_QueueCreate.step, OS_QueueCreate, reserveBlock, hlen, if_false,
              hres, Option.some_bind, writeRow, List.getElem?_set_self hlt, List.set_set,
              OS_FindCreator, Option.map_some']
            by_cases hst : queueDesc = -1
            · simp only [hst, if_true, Option.map_some']
            · simp only [hst, if_false, Option.map_some']

theorem OS_MutSemCreate_step_keepsRows (cfg : Config) (a : MutSemCreateArgs) :
    KeepsRows mutSemTable (OS_MutSemCreate.step cfg a) := by
  intro s p hp hh
  cases p with
  | returned r o => exact ⟨_, _, rfl, stepOk_same _ _ _ hp hh⟩
  | released i name => exact False.elim hp
  | start =>
    obtain ⟨self, sem_id, sem_name, attr_init, mutex_init⟩ := a
    cases sem_id with
    | none =>
      cases sem_name <;>
        exact ⟨CreatePhase.returned OS_INVALID_POINTER none, s, rfl,
          stepOk_failed mutSemTable s s _ _ _ (by decide) (fun _ _ => rfl)⟩
    | some v =>
      cases sem_name with
      | none =>
        exact ⟨CreatePhase.returned OS_INVALID_POINTER (some v), s, rfl,
          stepOk_failed mutSemTable s s _ _ _ (by decide) (fun _ _ => rfl)⟩
      | some name =>
        by_cases hlen : name.length ≥ cfg.OS_MAX_API_NAME
        · refine ⟨CreatePhase.returned OS_ERR_NAME_TOO_LONG (some v), s, ?_,
            stepOk_failed mutSemTable s s _ _ _ (by decide) (fun _ _ => rfl)⟩
          simp only [OS_MutSemCreate.step, hlen, if_true]
        · refine ⟨_, _, ?_, stepOk_reserve mutSemTable OS_mut_sem_record_t.name
            (fun (row : OS_mut_sem_record_t) => { row with free := false }) s
            { s with OS_mut_sem_table := (reserveBlock OS_mut_sem_record_t.free
                OS_mut_sem_record_t.name
                (fun (row : OS_mut_sem_record_t) => { row with free := false })
                s.OS_mut_sem_table name (some v)).2 }
            name (some v) (fun _ => rfl) rfl⟩
          simp only [OS_MutSemCreate.step, hlen, if_false]
          rfl
  | reserved i name =>
    obtain ⟨row, hget, hlive⟩ := hh i rfl
    have hget1 : s.OS_mut_sem_table[i]? = some row := hget
    have hlt : i < s.OS_mut_sem_table.length := (List.getElem?_eq_some_iff.mp hget1).1
    by_cases hat : a.attr_init = 0
    · by_cases hmi : a.mutex_init = 0
      · refine ⟨CreatePhase.returned OS_SUCCESS (some i),
          { s with OS_mut_sem_table := (s.OS_mut_sem_table.set i
              ⟨false, name, OS_FindCreator s a.pthread_self, row.nested_value⟩) },
          ?_, stepOk_fill mutSemTable s _ i name
            ⟨false, name, OS_FindCreator s a.pthread_self, row.nested_value⟩ hlt rfl rfl⟩
        simp only [OS_MutSemCreate.step, hat, hmi, ne_eq, not_true_eq_false, if_false,
          writeRow, hget1, Option.map_some']
      · refine ⟨CreatePhase.returned OS_SEM_FAILURE a.sem_id,
          { s with OS_mut_sem_table := (s.OS_mut_sem_table.set i
              ⟨true, row.name, row.creator, row.nested_value⟩) }, ?_,
          stepOk_release mutSemTable s _ i name _ _ _ (by decide) rfl⟩
        simp only [OS_MutSemCreate.step, hat, hmi, ne_eq, not_true_eq_false,
          not_false_eq_true, if_false, if_true, writeRow, hget1, Option.map_some']
    · refine ⟨CreatePhase.returned OS_SEM_FAILURE a.sem_id,
        { s with OS_mut_sem_table := (s.OS_mut_sem_table.set i
            ⟨true, row.name, row.creator, row.nested_value⟩) }, ?_,
        stepOk_release mutSemTable s _ i name _ _ _ (by decide) rfl⟩
      simp only [OS_MutSemCreate.step, hat, ne_eq, not_false_eq_true, if_true, writeRow,
        hget1, Option.map_some']

theorem OS_MutSemCreate_step_stepsOf (cfg : Config) (a : MutSemCreateArgs) :
    StepsOf (OS_MutSemCreate.step cfg a)
      (fun s => some (OS_MutSemCreate cfg s a.pthread_self a.sem_id a.sem_name
        a.attr_init a.mutex_init)) := by
  obtain ⟨self, sem_id, sem_name, attr_init, mutex_init⟩ := a
  refine ⟨fun _ _ _ => rfl, ?_, ?_⟩
  · intro s s1 r o h
    cases sem_id with
    | none =>
      cases sem_name <;> simp only [OS_MutSemCreate.step, Option.some.injEq, Prod.mk.injEq,
        CreatePhase.returned.injEq] at h <;> obtain ⟨⟨h1, _⟩, h2⟩ := h <;> subst h1 <;>
        exact ⟨by decide, h2.symm⟩
    | some v =>
      cases sem_name with
      | none =>
        simp only [OS_MutSemCreate.step, Option.some.injEq, Prod.mk.injEq,
          CreatePhase.returned.injEq] at h
        obtain ⟨⟨h1, _⟩, h2⟩ := h
        subst h1
        exact ⟨by decide, h2.symm⟩
      | some name =>
        by_cases hlen : name.length ≥ cfg.OS_MAX_API_NAME
        · simp only [OS_MutSemCreate.step, hlen, if_true, Option.some.injEq, Prod.mk.injEq,
            CreatePhase.returned.injEq] at h
          obtain ⟨⟨h1, _⟩, h2⟩ := h
          subst h1
          exact ⟨by decide, h2.symm⟩
        · simp only [OS_MutSemCreate.step, hlen, if_false, reserveBlock, Option.some.injEq,
            Prod.mk.injEq] at h
          cases hres : reserve OS_mut_sem_record_t.free OS_mut_sem_record_t.name
              s.OS_mut_sem_table name with
          | noFreeIds =>
            simp only [hres, CreatePhase.returned.injEq] at h
            obtain ⟨⟨h1, _⟩, h2⟩ := h
            subst h1
            exact ⟨by decide, h2.symm⟩
          | nameTaken =>
            simp only [hres, CreatePhase.returned.injEq] at h
            obtain ⟨⟨h1, _⟩, h2⟩ := h
            subst h1
            exact ⟨by decide, h2.symm⟩
          | reserved i row =>
            simp only [hres] at h
            cases h.1
  · intro s
    cases sem_id with
    | none => cases sem_name <;> simp [OS_MutSemCreate.step, OS_MutSemCreate]
    | some v =>
      cases sem_name with
      | none => simp [OS_MutSemCreate.step, OS_MutSemCreate]
      | some name =>
        by_cases hlen : name.length ≥ cfg.OS_MAX_API_NAME
        · simp [OS_MutSemCreate.step, OS_MutSemCreate, hlen]
        · cases hres : reserve OS_mut_sem_record_t.free OS_mut_sem_record_t.name
              s.OS_mut_sem_table name with
          | noFreeIds =>
            simp [OS_MutSemCreate.step, OS_MutSemCreate, reserveBlock, hlen, hres]
          | nameTaken =>
            simp [OS_MutSemCreate.step, OS_MutSemCreate, reserveBlock, hlen, hres]
          | reserved i row =>
            have hget := reserve_reserved_get _ _ _ _ _ _ hres
            have hlt : i < s.OS_mut_sem_table.length :=
              (List.getElem?_eq_some_iff.mp hget).1
            simp only [OS_MutSemCreate.step, OS_MutSemCreate, reserveBlock, hlen, if_false,
              hres, Option.some_bind, writeRow, List.getElem?_set_self hlt, List.set_set,
              OS_FindCreator]
            by_cases hat : attr_init = 0
            · by_cases hmi : mutex_init = 0
              · simp only [hat, hmi, ne_eq, not_true_eq_false, if_false, Option.map_some']
              · simp only [hat, hmi, ne_eq, not_true_eq_false, not_false_eq_true, if_false,
                  if_true, Option.map_some']
            · simp only [hat, ne_eq, not_false_eq_true, if_true, Option.map_some']

/-! ### The steps of `OS_TaskCreate` -/

theorem OS_TaskCreate_finish_cases (a : TaskCreateArgs) (s : OSState) (i : Nat) (name : CStr)
    (row : OS_task_record_t) (hget : s.OS_task_table[i]? = some row) :
    ∃ (p1 : CreatePhase) (s1 : OSState), OS_TaskCreate.finish a s i name = some (p1, s1) ∧
      ((∃ x : OS_task_record_t, p1 = CreatePhase.returned OS_ERROR a.task_id ∧
          s1.OS_task_table = s.OS_task_table.set i x) ∨
       (∃ x : OS_task_record_t, x.free = false ∧
          p1 = CreatePhase.returned OS_SUCCESS (some i) ∧
          s1.OS_task_table = s.OS_task_table.set i x)) := by
  unfold OS_TaskCreate.finish
  simp only [hget]
  split_ifs
  · exact ⟨_, _, rfl, Or.inl ⟨_, rfl, rfl⟩⟩
  · exact ⟨_, _, rfl, Or.inl ⟨_, rfl, rfl⟩⟩
  · exact ⟨_, _, rfl, Or.inl ⟨_, rfl, rfl⟩⟩
  · exact ⟨_, _, rfl, Or.inr ⟨_, rfl, rfl, rfl⟩⟩

theorem OS_TaskCreate_step_keepsRows (cfg : Config) (a : TaskCreateArgs)
    (hat : a.h.attr_init = 0)
    (hpr : OS_PriorityRemap a.h.pmax a.h.pmin a.priority ≠ none) :
    KeepsRows taskTable (OS_TaskCreate.step cfg a) := by
  intro s p hp hh
  cases p with
  | returned r o => exact ⟨_, _, rfl, stepOk_same _ _ _ hp hh⟩
  | released i name => exact False.elim hp
  | start =>
    obtain ⟨self, h, task_id, task_name, fp, stack_size, priority⟩ := a
    simp only at hat hpr
    cases task_name with
    | none =>
      exact ⟨CreatePhase.returned OS_INVALID_POINTER task_id, s, rfl,
        stepOk_failed taskTable s s _ _ _ (by decide) (fun _ _ => rfl)⟩
    | some name =>
      cases fp with
      | none =>
        exact ⟨CreatePhase.returned OS_INVALID_POINTER task_id, s, rfl,
          stepOk_failed taskTable s s _ _ _ (by decide) (fun _ _ => rfl)⟩
      | some f =>
        cases task_id with
        | none =>
          exact ⟨CreatePhase.returned OS_INVALID_POINTER none, s, rfl,
            stepOk_failed taskTable s s _ _ _ (by decide) (fun _ _ => rfl)⟩
        | some v =>
          by_cases hlen : name.length ≥ cfg.OS_MAX_API_NAME
          · refine ⟨CreatePhase.returned OS_ERR_NAME_TOO_LONG (some v), s, ?_,
              stepOk_failed taskTable s s _ _ _ (by decide) (fun _ _ => rfl)⟩
            simp only [OS_TaskCreate.step, hlen, if_true]
          · by_cases hpri : priority > MAX_PRIORITY
            · refine ⟨CreatePhase.returned OS_ERR_INVALID_PRIORITY (some v), s, ?_,
                stepOk_failed taskTable s s _ _ _ (by decide) (fun _ _ => rfl)⟩
              simp only [OS_TaskCreate.step, hlen, hpri, if_true, if_false]
            · cases hrm : OS_PriorityRemap h.pmax h.pmin priority with
              | none => exact absurd hrm hpr
              | some os_priority =>
                refine ⟨_, _, ?_, stepOk_reserve taskTable OS_task_record_t.name
                  (fun (row : OS_task_record_t) => { row with free := false }) s
                  { s with OS_task_table := (reserveBlock OS_task_record_t.free
                      OS_task_record_t.name
                      (fun (row : OS_task_record_t) => { row with free := false })
                      s.OS_task_table name (some v)).2 }
                  name (some v) (fun _ => rfl) rfl⟩
                simp only [OS_TaskCreate.step, hlen, hpri, if_false, hrm]
                rfl
  | reserved i name =>
    obtain ⟨row, hget, hlive⟩ := hh i rfl
    have hget1 : s.OS_task_table[i]? = some row := hget
    have hlt : i < s.OS_task_table.length := (List.getElem?_eq_some_iff.mp hget1).1
    obtain ⟨p1, s1, hfin, hc⟩ := OS_TaskCreate_finish_cases a s i name row hget1
    refine ⟨p1, s1, ?_, ?_⟩
    · simp only [OS_TaskCreate.step, hat, ne_eq, not_true_eq_false, if_false, hfin]
    · rcases hc with ⟨x, hp1, hs1⟩ | ⟨x, hx, hp1, hs1⟩
      · subst hp1
        exact stepOk_release taskTable s s1 i name x _ _ (by decide) hs1
      · subst hp1
        exact stepOk_fill taskTable s s1 i name x hlt hx hs1

theorem OS_TaskCreate_step_stepsOf (cfg : Config) (a : TaskCreateArgs)
    (hat : a.h.attr_init = 0) :
    StepsOf (OS_TaskCreate.step cfg a)
      (fun s => OS_TaskCreate cfg s a.pthread_self a.h a.task_id a.task_name
        a.function_pointer a.stack_size a.priority) := by
  obtain ⟨self, h, task_id, task_name, fp, stack_size, priority⟩ := a
  simp only at hat
  refine ⟨fun _ _ _ => rfl, ?_, ?_⟩
  · intro s s1 r o hst
    cases task_name with
    | none =>
      simp only [OS_TaskCreate.step, Option.some.injEq, Prod.mk.injEq,
        CreatePhase.returned.injEq] at hst
      obtain ⟨⟨h1, _⟩, h2⟩ := hst
      subst h1
      exact ⟨by decide, h2.symm⟩
    | some name =>
      cases fp with
      | none =>
        simp only [OS_TaskCreate.step, Option.some.injEq, Prod.mk.injEq,
          CreatePhase.returned.injEq] at hst
        obtain ⟨⟨h1, _⟩, h2⟩ := hst
        subst h1
        exact ⟨by decide, h2.symm⟩
      | some f =>
        cases task_id with
        | none =>
          simp only [OS_TaskCreate.step, Option.some.injEq, Prod.mk.injEq,
            CreatePhase.returned.injEq] at hst
          obtain ⟨⟨h1, _⟩, h2⟩ := hst
          subst h1
          exact ⟨by decide, h2.symm⟩
        | some v =>
          by_cases hlen : name.length ≥ cfg.OS_MAX_API_NAME
          · simp only [OS_TaskCreate.step, hlen, if_true, Option.some.injEq, Prod.mk.injEq,
              CreatePhase.returned.injEq] at hst
            obtain ⟨⟨h1, _⟩, h2⟩ := hst
            subst h1
            exact ⟨by decide, h2.symm⟩
          · by_cases hpri : priority > MAX_PRIORITY
            · simp only [OS_TaskCreate.step, hlen, hpri, if_true, if_false,
                Option.some.injEq, Prod.mk.injEq, CreatePhase.returned.injEq] at hst
              obtain ⟨⟨h1, _⟩, h2⟩ := hst
              subst h1
              exact ⟨by decide, h2.symm⟩
            · cases hrm : OS_PriorityRemap h.pmax h.pmin priority with
              | none =>
                simp only [OS_TaskCreate.step, hlen, hpri, if_false, hrm] at hst
                cases hst
              | some os_priority =>
                simp only [OS_TaskCreate.step, hlen, hpri, if_false, hrm, reserveBlock,
                  Option.some.injEq, Prod.mk.injEq] at hst
                cases hres : reserve OS_task_record_t.free OS_task_record_t.name
                    s.OS_task_table name with
                | noFreeIds =>
                  simp only [hres, CreatePhase.returned.injEq] at hst
                  obtain ⟨⟨h1, _⟩, h2⟩ := hst
                  subst h1
                  exact ⟨by decide, h2.symm⟩
                | nameTaken =>
                  simp only [hres, CreatePhase.returned.injEq] at hst
                  obtain ⟨⟨h1, _⟩, h2⟩ := hst
                  subst h1
                  exact ⟨by decide, h2.symm⟩
                | reserved i row =>
                  simp only [hres] at hst
                  cases hst.1
  · intro s
    cases task_name with
    | none => simp [OS_TaskCreate.step, OS_TaskCreate]
    | some name =>
      cases fp with
      | none => simp [OS_TaskCreate.step, OS_TaskCreate]
      | some f =>
        cases task_id with
        | none => simp [OS_TaskCreate.step, OS_TaskCreate]
        | some v =>
          by_cases hlen : name.length ≥ cfg.OS_MAX_API_NAME
          · simp [OS_TaskCreate.step, OS_TaskCreate, hlen]
          · by_cases hpri : priority > MAX_PRIORITY
            · simp [OS_TaskCreate.step, OS_TaskCreate, hlen, hpri]
            · cases hrm : OS_PriorityRemap h.pmax h.pmin priority with
              | none => simp [OS_TaskCreate.step, OS_TaskCreate, hlen, hpri, hrm]
              | some os_priority =>
                cases hres : reserve OS_task_record_t.free OS_task_record_t.name
                    s.OS_task_table name with
                | noFreeIds =>
                  simp [OS_TaskCreate.step, OS_TaskCreate, reserveBlock, hlen, hpri, hrm, hres]
                | nameTaken =>
                  simp [OS_TaskCreate.step, OS_TaskCreate, reserveBlock, hlen, hpri, hrm, hres]
                | reserved i row =>
                  have hget := reserve_reserved_get _ _ _ _ _ _ hres
                  have hlt : i < s.OS_task_table.length :=
                    (List.getElem?_eq_some_iff.mp hget).1
                  simp only [OS_TaskCreate.step, OS_TaskCreate, OS_TaskCreate.finish,
                    reserveBlock, hlen, hpri, if_false, hrm, hres, Option.some_bind, hat,
                    ne_eq, not_true_eq_false, List.getElem?_set_self hlt, List.set_set,
                    OS_FindCreator]
                  by_cases hc : h.create = 0
                  · by_cases hd : h.detach = 0
                    · by_cases hy : h.attr_destroy = 0
                      · simp only [hc, hd, hy, not_true_eq_false, if_false, Option.map_some']
                      · simp only [hc, hd, hy, not_true_eq_false, not_false_eq_true, if_false,
                          if_true, Option.map_some']
                    · simp only [hc, hd, not_true_eq_false, not_false_eq_true, if_false,
                        if_true, Option.map_some']
                  · simp only [hc, not_false_eq_true, if_true, Option.map_some']

/-! ### C25 -/

/-- The slip in `OS_TaskCreate`: the `return` after a failed `pthread_attr_init` is
commented out, so the call goes on with a row it has released. The first call reserves
row 0 and releases it, the second call reserves row 0, and both go on to return
`OS_SUCCESS` with id 0. -/
theorem OS_TaskCreate_failed_attr_init_shares_the_row :
    interleave
        (OS_TaskCreate.step ⟨20, 2147483647, 16384⟩
          ⟨1, ⟨99, 1, 1, 0, 0, 0, 7, 0, 0⟩, some 0, some ['a'], some 0, 0, 10⟩)
        (OS_TaskCreate.step ⟨20, 2147483647, 16384⟩
          ⟨2, ⟨99, 1, 0, 0, 0, 0, 8, 0, 0⟩, some 0, some ['b'], some 0, 0, 10⟩)
        [true, true, false, true, false]
        ⟨⟨[⟨true, 0, [], 0, 0, 0, none⟩, ⟨true, 0, [], 0, 0, 0, none⟩], [], [], [], []⟩,
          CreatePhase.start, CreatePhase.start⟩
      = some ⟨⟨[⟨false, 8, ['b'], 2, 0, 10, none⟩, ⟨true, 0, [], 0, 0, 0, none⟩],
            [], [], [], []⟩,
          CreatePhase.returned OS_SUCCESS (some 0),
          CreatePhase.returned OS_SUCCESS (some 0)⟩ := by
  rfl

/-- C25 (counterexample): two calls of `OS_BinSemCreate` with the same name "s" on a table
of two free rows. When the first guarded block of the second call runs between the two
guarded blocks of the first (schedule: first, second, first, second), the second call
finds row 0 non-free but still with its old empty name, so its name check passes: both
calls return `OS_SUCCESS` (ids 0 and 1) and two non-free rows hold the name "s". -/
theorem C25_counterexample_two_creates_of_one_name_both_succeed :
    interleave (OS_BinSemCreate.step ⟨20, 2147483647, 16384⟩ ⟨1, some 0, some ['s'], 1, 0⟩)
        (OS_BinSemCreate.step ⟨20, 2147483647, 16384⟩ ⟨2, some 0, some ['s'], 1, 0⟩)
        [true, false, true, false]
        ⟨⟨[], [], [⟨true, [], 0, 0, 0⟩, ⟨true, [], 0, 0, 0⟩], [], []⟩,
          CreatePhase.start, CreatePhase.start⟩
      = some ⟨⟨[], [], [⟨false, ['s'], 0, 1, 1⟩, ⟨false, ['s'], 0, 1, 1⟩], [], []⟩,
          CreatePhase.returned OS_SUCCESS (some 0),
          CreatePhase.returned OS_SUCCESS (some 1)⟩ ∧
    ¬ namesUnique
      (binSemView ⟨[], [], [⟨false, ['s'], 0, 1, 1⟩, ⟨false, ['s'], 0, 1, 1⟩], [], []⟩) := by
  refine ⟨by decide, ?_⟩
  intro h
  have h01 := h 0 1 ['s'] rfl rfl
  cases h01

/-- C25 (amended): two calls of the Create function of one kind (tasks, queues, binary
semaphores, counting semaphores, mutexes) with arbitrary arguments and host results,
started in any state, whose guarded steps (reserve; fill, or release when a host call
fails) are taken in the order of an arbitrary schedule; for tasks, `pthread_attr_init`
succeeds in both calls and `OS_PriorityRemap` does not divide by zero. Every step is a
store inside the table, and at the end of the schedule the two calls do not hold the same
row (the row a call has reserved, or the row whose index it has returned with
`OS_SUCCESS`). If moreover one of the calls has made both its steps before the other
makes its first one, then with equal names at most one of them has returned
`OS_SUCCESS`, and, names being unique among the non-free rows before, they are unique
after both calls have returned. -/
theorem C25_two_creates_never_hold_the_same_row (cfg : Config) (s : OSState) :
    (∀ a b : TaskCreateArgs, a.h.attr_init = 0 → b.h.attr_init = 0 →
      (OS_PriorityRemap a.h.pmax a.h.pmin a.priority).isSome = true →
      (OS_PriorityRemap b.h.pmax b.h.pmin b.priority).isSome = true →
      TwoCreatesSafe (OS_TaskCreate.step cfg a) (OS_TaskCreate.step cfg b)
        a.task_name b.task_name taskView s) ∧
    (∀ a b : QueueCreateArgs,
      TwoCreatesSafe (OS_QueueCreate.step cfg a) (OS_QueueCreate.step cfg b)
        a.queue_name b.queue_name queueView s) ∧
    (∀ a b : SemCreateArgs,
      TwoCreatesSafe (OS_BinSemCreate.step cfg a) (OS_BinSemCreate.step cfg b)
        a.sem_name b.sem_name binSemView s) ∧
    (∀ a b : SemCreateArgs,
      TwoCreatesSafe (OS_CountSemCreate.step cfg a) (OS_CountSemCreate.step cfg b)
        a.sem_name b.sem_name countSemView s) ∧
    (∀ a b : MutSemCreateArgs,
      TwoCreatesSafe (OS_MutSemCreate.step cfg a) (OS_MutSemCreate.step cfg b)
        a.sem_name b.sem_name mutSemView s) := by
  refine ⟨?_, ?_, ?_, ?_, ?_⟩
  · intro a b ha hb hpa hpb
    have hna : OS_PriorityRemap a.h.pmax a.h.pmin a.priority ≠ none := by
      intro h
      rw [h] at hpa
      cases hpa
    have hnb : OS_PriorityRemap b.h.pmax b.h.pmin b.priority ≠ none := by
      intro h
      rw [h] at hpb
      cases hpb
    exact twoCreatesSafe_of taskTable _ _ _ _ _ _ taskView
      (OS_TaskCreate_step_keepsRows cfg a ha hna) (OS_TaskCreate_step_keepsRows cfg b hb hnb)
      (OS_TaskCreate_step_stepsOf cfg a ha) (OS_TaskCreate_step_stepsOf cfg b hb)
      (fun s0 R hR => OS_TaskCreate_step cfg s0 a.pthread_self a.h a.task_id a.task_name
        a.function_pointer a.stack_size a.priority R hR)
      (fun s0 R hR => OS_TaskCreate_step cfg s0 b.pthread_self b.h b.task_id b.task_name
        b.function_pointer b.stack_size b.priority R hR) s
  · intro a b
    exact twoCreatesSafe_of queueTable _ _ _ _ _ _ queueView
      (OS_QueueCreate_step_keepsRows cfg a) (OS_QueueCreate_step_keepsRows cfg b)
      (OS_QueueCreate_step_stepsOf cfg a) (OS_QueueCreate_step_stepsOf cfg b)
      (fun s0 R hR => by
        simp only [Option.some.injEq] at hR
        subst hR
        exact OS_QueueCreate_step cfg s0 a.pthread_self a.process_id_string a.queueDesc
          a.queue_id a.queue_name a.queue_depth a.data_size)
      (fun s0 R hR => by
        simp only [Option.some.injEq] at hR
        subst hR
        exact OS_QueueCreate_step cfg s0 b.pthread_self b.process_id_string b.queueDesc
          b.queue_id b.queue_name b.queue_depth b.data_size) s
  · intro a b
    exact twoCreatesSafe_of binSemTable _ _ _ _ _ _ binSemView
      (OS_BinSemCreate_step_keepsRows cfg a) (OS_BinSemCreate_step_keepsRows cfg b)
      (OS_BinSemCreate_step_stepsOf cfg a) (OS_BinSemCreate_step_stepsOf cfg b)
      (fun s0 R hR => by
        simp only [Option.some.injEq] at hR
        subst hR
        exact OS_BinSemCreate_step cfg s0 a.pthread_self a.sem_id a.sem_name
          a.sem_initial_value a.Status)
      (fun s0 R hR => by
        simp only [Option.some.injEq] at hR
        subst hR
        exact OS_BinSemCreate_step cfg s0 b.pthread_self b.sem_id b.sem_name
          b.sem_initial_value b.Status) s
  · intro a b
    exact twoCreatesSafe_of countSemTable _ _ _ _ _ _ countSemView
      (OS_CountSemCreate_step_keepsRows cfg a) (OS_CountSemCreate_step_keepsRows cfg b)
      (OS_CountSemCreate_step_stepsOf cfg a) (OS_CountSemCreate_step_stepsOf cfg b)
      (fun s0 R hR => by
        simp only [Option.some.injEq] at hR
        subst hR
        exact OS_CountSemCreate_step cfg s0 a.pthread_self a.sem_id a.sem_name
          a.sem_initial_value a.Status)
      (fun s0 R hR => by
        simp only [Option.some.injEq] at hR
        subst hR
        exact OS_CountSemCreate_step cfg s0 b.pthread_self b.sem_id b.sem_name
          b.sem_initial_value b.Status) s
  · intro a b
    exact twoCreatesSafe_of mutSemTable _ _ _ _ _ _ mutSemView
      (OS_MutSemCreate_step_keepsRows cfg a) (OS_MutSemCreate_step_keepsRows cfg b)
      (OS_MutSemCreate_step_stepsOf cfg a) (OS_MutSemCreate_step_stepsOf cfg b)
      (fun s0 R hR => by
        simp only [Option.some.injEq] at hR
        subst hR
        exact OS_MutSemCreate_step cfg s0 a.pthread_self a.sem_id a.sem_name
          a.attr_init a.mutex_init)
      (fun s0 R hR => by
        simp only [Option.some.injEq] at hR
        subst hR
        exact OS_MutSemCreate_step cfg s0 b.pthread_self b.sem_id b.sem_name
          b.attr_init b.mutex_init) s

/-- C25 (amended), witness: two calls of `OS_TaskCreate` with the name "a", whose
`pthread_attr_init` succeeds, on a table of two free rows. -/
theorem C25_two_creates_witness :
    (⟨99, 1, 0, 0, 0, 0, 7, 0, 0⟩ : TaskCreateHost).attr_init = 0 ∧
    (⟨99, 1, 0, 0, 0, 0, 8, 0, 0⟩ : TaskCreateHost).attr_init = 0 ∧
    (OS_PriorityRemap 99 1 10).isSome = true ∧
    TwoCreatesSafe
      (OS_TaskCreate.step ⟨20, 2147483647, 16384⟩
        ⟨1, ⟨99, 1, 0, 0, 0, 0, 7, 0, 0⟩, some 0, some ['a'], some 0, 0, 10⟩)
      (OS_TaskCreate.step ⟨20, 2147483647, 16384⟩
        ⟨2, ⟨99, 1, 0, 0, 0, 0, 8, 0, 0⟩, some 0, some ['a'], some 0, 0, 10⟩)
      (some ['a']) (some ['a']) taskView
      ⟨[⟨true, 0, [], 0, 0, 0, none⟩, ⟨true, 0, [], 0, 0, 0, none⟩], [], [], [], []⟩ :=
  ⟨rfl, rfl, rfl,
    (C25_two_creates_never_hold_the_same_row ⟨20, 2147483647, 16384⟩
      ⟨[⟨true, 0, [], 0, 0, 0, none⟩, ⟨true, 0, [], 0, 0, 0, none⟩], [], [], [], []⟩).1
      ⟨1, ⟨99, 1, 0, 0, 0, 0, 7, 0, 0⟩, some 0, some ['a'], some 0, 0, 10⟩
      ⟨2, ⟨99, 1, 0, 0, 0, 0, 8, 0, 0⟩, some 0, some ['a'], some 0, 0, 10⟩
      rfl rfl rfl rfl⟩

/-! ## C26: `OS_BinSemFlush` -/

theorem OS_BinSemFlush.loop_eq (sem_id : Nat) (n : Nat) :
    ∀ i : Int, (-i).toNat = n →
      OS_BinSemFlush.loop sem_id i
        = List.replicate n (Event.host (HostCall.sem_post Guard.OS_bin_sem_table_mut sem_id)) := by
  induction n with
  | zero =>
    intro i hi
    unfold OS_BinSemFlush.loop
    have : ¬ i < 0 := by omega
    simp only [this, if_false, List.replicate_zero]
  | succ n ih =>
    intro i hi
    unfold OS_BinSemFlush.loop
    have : i < 0 := by omega
    simp only [this, if_true, List.replicate_succ]
    rw [ih (i + 1) (by omega)]

/-- C26: for every valid binary semaphore (a non-free row `sem_id`), `OS_BinSemFlush`
returns `OS_SUCCESS` and leaves the state, `current_value` included, as it was; the host
calls it makes are those of its loop `for (i = current_value; i < 0; i++)`, which are
`max(0, -current_value)` calls of `sem_post` on this semaphore and nothing else, so none
at all when `current_value >= 0`. -/
theorem C26_flush_posts_once_for_each_waiter (s : OSState) (sem_id : Nat)
    (row : OS_bin_sem_record_t) (hget : s.OS_bin_sem_table[sem_id]? = some row)
    (hlive : row.free = false) :
    (OS_BinSemFlush s sem_id).ret = OS_SUCCESS ∧
    (OS_BinSemFlush s sem_id).st = s ∧
    (OS_BinSemFlush s sem_id).tr = OS_BinSemFlush.loop sem_id row.current_value ∧
    (OS_BinSemFlush s sem_id).tr
      = List.replicate (OS_BinSemFlush s sem_id).tr.length
          (Event.host (HostCall.sem_post Guard.OS_bin_sem_table_mut sem_id)) ∧
    ((OS_BinSemFlush s sem_id).tr.length : Int) = max 0 (-row.current_value) ∧
    (0 ≤ row.current_value → (OS_BinSemFlush s sem_id).tr = []) := by
  have hf : ¬ row.free = true := by simp [hlive]
  have hr : OS_BinSemFlush s sem_id
      = ⟨OS_SUCCESS, s, List.replicate (-row.current_value).toNat
          (Event.host (HostCall.sem_post Guard.OS_bin_sem_table_mut sem_id))⟩ := by
    simp only [OS_BinSemFlush, hget, if_neg hf]
  rw [hr]
  refine ⟨rfl, rfl, ?_, ?_, ?_, ?_⟩
  · exact (OS_BinSemFlush.loop_eq sem_id _ row.current_value rfl).symm
  · simp only [List.length_replicate]
  · simp only [List.length_replicate]
    omega
  · intro h
    have : (-row.current_value).toNat = 0 := by omega
    simp only [this, List.replicate_zero]

/-- C26, witness: a binary semaphore with `current_value = -2` (two waiters): two posts,
the state unchanged. -/
theorem C26_flush_witness :
    OS_BinSemFlush ⟨[], [], [⟨false, ['b'], 0, 1, -2⟩], [], []⟩ 0
      = ⟨OS_SUCCESS, ⟨[], [], [⟨false, ['b'], 0, 1, -2⟩], [], []⟩,
          [Event.host (HostCall.sem_post Guard.OS_bin_sem_table_mut 0),
           Event.host (HostCall.sem_post Guard.OS_bin_sem_table_mut 0)]⟩ ∧
    ((OS_BinSemFlush ⟨[], [], [⟨false, ['b'], 0, 1, -2⟩], [], []⟩ 0).tr.length : Int)
      = max 0 (-(-2 : Int)) :=
  ⟨by decide,
   (C26_flush_posts_once_for_each_waiter ⟨[], [], [⟨false, ['b'], 0, 1, -2⟩], [], []⟩ 0
      ⟨false, ['b'], 0, 1, -2⟩ rfl rfl).2.2.2.2.1⟩

/-! ## C27: the row left by a successful Delete -/

theorem initLoop_inside {α : Type} (f : α → α) (k : Nat) :
    ∀ (i : Nat) (t : List α), i + k ≤ t.length → ∃ t1, initLoop f k i t = some t1 := by
  induction k with
  | zero => intro i t _; exact ⟨t, rfl⟩
  | succ k ih =>
    intro i t h
    have hlt : i < t.length := by omega
    have hget : t[i]? = some t[i] := List.getElem?_eq_getElem hlt
    simp only [initLoop, writeRow, hget]
    exact ih (i + 1) _ (by rw [List.length_set]; omega)

theorem initLoop_outside {α : Type} (f : α → α) (k : Nat) :
    ∀ (i : Nat) (t : List α), t.length < i + k → i ≤ t.length →
      initLoop f k i t = none := by
  induction k with
  | zero => intro i t h1 h2; omega
  | succ k ih =>
    intro i t h1 h2
    by_cases hlt : i < t.length
    · have hget : t[i]? = some t[i] := List.getElem?_eq_getElem hlt
      simp only [initLoop, writeRow, hget]
      exact ih (i + 1) _ (by rw [List.length_set]; omega) (by rw [List.length_set]; omega)
    · have hget : t[i]? = none := List.getElem?_eq_none_iff.mpr (by omega)
      simp only [initLoop, writeRow, hget]

theorem initLoop_rows {α : Type} (f : α → α) (t t1 : List α)
    (h : initLoop f t.length 0 t = some t1) :
    t1.length = t.length ∧
    ∀ (i : Nat) (row : α), t1[i]? = some row → ∃ r, row = f r := by
  rcases initLoop_spec f t.length 0 t t1 h with ⟨hlen, hin, _⟩
  refine ⟨hlen, ?_⟩
  intro i row hi
  have hlt : i < t1.length := (List.getElem?_eq_some_iff.mp hi).1
  rcases hin i (Nat.zero_le i) (by omega) with ⟨r, _, hr⟩
  rw [hr] at hi
  cases hi
  exact ⟨r, rfl⟩

theorem OS_API_Init_of_loops (s : OSState) (h : InitHost)
    (tt : List OS_task_record_t) (qt : List OS_queue_record_t)
    (bt : List OS_bin_sem_record_t) (ct : List OS_count_sem_record_t)
    (mt : List OS_mut_sem_record_t)
    (h1 : initLoop (fun r : OS_task_record_t =>
          { r with free := true, creator := UNINITIALIZED, delete_hook_pointer := none,
                   name := [] }) s.OS_task_table.length 0 s.OS_task_table = some tt)
    (h2 : initLoop (fun r : OS_queue_record_t =>
          { r with free := true, id := (UNINITIALIZED : Nat), creator := UNINITIALIZED,
                   name := [] }) s.OS_queue_table.length 0 s.OS_queue_table = some qt)
    (h3 : initLoop (fun r : OS_bin_sem_record_t =>
          { r with free := true, creator := UNINITIALIZED, name := [] })
          s.OS_bin_sem_table.length 0 s.OS_bin_sem_table = some bt)
    (h4 : initLoop (fun r : OS_count_sem_record_t =>
          { r with free := true, creator := UNINITIALIZED, name := [] })
          s.OS_bin_sem_table.length 0 s.OS_count_sem_table = some ct)
    (h5 : initLoop (fun r : OS_mut_sem_record_t =>
          { r with free := true, creator := UNINITIALIZED, nested_value := 0, name := [] })
          s.OS_mut_sem_table.length 0 s.OS_mut_sem_table = some mt) :
    ∃ ret : OS_Status, OS_API_Init s h = some (ret, ⟨tt, qt, bt, ct, mt⟩) := by
  simp only [OS_API_Init, h1, h2, h3, h4, h5]
  split_ifs <;> exact ⟨_, rfl⟩

/-- C28 (the code for each choice of the table sizes): `OS_API_Init` run on the
zero-initialised tables, whatever the host results are. Its loop over
`OS_count_sem_table` is bounded by `OS_MAX_BIN_SEMAPHORES`. With more binary than counting
semaphores it stores outside `OS_count_sem_table`; with fewer, it returns and the row
`OS_MAX_BIN_SEMAPHORES` of `OS_count_sem_table` is still all-zero, that is non-free; only
when the two sizes are equal does it return with the sizes unchanged and every row of the
five tables free with an empty name. -/
theorem C28_init_frees_every_row_only_for_equal_sem_table_sizes
    (OS_MAX_TASKS OS_MAX_QUEUES OS_MAX_BIN_SEMAPHORES OS_MAX_COUNT_SEMAPHORES
      OS_MAX_MUTEXES : Nat) (h : InitHost) :
    (OS_MAX_COUNT_SEMAPHORES < OS_MAX_BIN_SEMAPHORES →
      OS_API_Init (zeroState OS_MAX_TASKS OS_MAX_QUEUES OS_MAX_BIN_SEMAPHORES
        OS_MAX_COUNT_SEMAPHORES OS_MAX_MUTEXES) h = none) ∧
    (OS_MAX_BIN_SEMAPHORES < OS_MAX_COUNT_SEMAPHORES →
      ∃ (ret : OS_Status) (s : OSState),
        OS_API_Init (zeroState OS_MAX_TASKS OS_MAX_QUEUES OS_MAX_BIN_SEMAPHORES
          OS_MAX_COUNT_SEMAPHORES OS_MAX_MUTEXES) h = some (ret, s) ∧
        s.OS_count_sem_table[OS_MAX_BIN_SEMAPHORES]? = some ⟨false, [], 0, 0, 0⟩) ∧
    (OS_MAX_BIN_SEMAPHORES = OS_MAX_COUNT_SEMAPHORES →
      ∃ (ret : OS_Status) (s : OSState),
        OS_API_Init (zeroState OS_MAX_TASKS OS_MAX_QUEUES OS_MAX_BIN_SEMAPHORES
          OS_MAX_COUNT_SEMAPHORES OS_MAX_MUTEXES) h = some (ret, s) ∧
        s.OS_task_table.length = OS_MAX_TASKS ∧
        s.OS_queue_table.length = OS_MAX_QUEUES ∧
        s.OS_bin_sem_table.length = OS_MAX_BIN_SEMAPHORES ∧
        s.OS_count_sem_table.length = OS_MAX_COUNT_SEMAPHORES ∧
        s.OS_mut_sem_table.length = OS_MAX_MUTEXES ∧
        (∀ (i : Nat) (row : OS_task_record_t), s.OS_task_table[i]? = some row →
          row.free = true ∧ row.name = []) ∧
        (∀ (i : Nat) (row : OS_queue_record_t), s.OS_queue_table[i]? = some row →
          row.free = true ∧ row.name = []) ∧
        (∀ (i : Nat) (row : OS_bin_sem_record_t), s.OS_bin_sem_table[i]? = some row →
          row.free = true ∧ row.name = []) ∧
        (∀ (i : Nat) (row : OS_count_sem_record_t), s.OS_count_sem_table[i]? = some row →
          row.free = true ∧ row.name = []) ∧
        (∀ (i : Nat) (row : OS_mut_sem_record_t), s.OS_mut_sem_table[i]? = some row →
          row.free = true ∧ row.name = [])) := by
  obtain ⟨tt, h1⟩ := initLoop_inside (fun r : OS_task_record_t =>
      { r with free := true, creator := UNINITIALIZED, delete_hook_pointer := none,
               name := [] }) (zeroState OS_MAX_TASKS OS_MAX_QUEUES OS_MAX_BIN_SEMAPHORES
        OS_MAX_COUNT_SEMAPHORES OS_MAX_MUTEXES).OS_task_table.length 0
      (zeroState OS_MAX_TASKS OS_MAX_QUEUES OS_MAX_BIN_SEMAPHORES
        OS_MAX_COUNT_SEMAPHORES OS_MAX_MUTEXES).OS_task_table (by omega)
  obtain ⟨qt, h2⟩ := initLoop_inside (fun r : OS_queue_record_t =>
      { r with free := true, id := (UNINITIALIZED : Nat), creator := UNINITIALIZED,
               name := [] }) (zeroState OS_MAX_TASKS OS_MAX_QUEUES OS_MAX_BIN_SEMAPHORES
        OS_MAX_COUNT_SEMAPHORES OS_MAX_MUTEXES).OS_queue_table.length 0
      (zeroState OS_MAX_TASKS OS_MAX_QUEUES OS_MAX_BIN_SEMAPHORES
        OS_MAX_COUNT_SEMAPHORES OS_MAX_MUTEXES).OS_queue_table (by omega)
  obtain ⟨bt, h3⟩ := initLoop_inside (fun r : OS_bin_sem_record_t =>
      { r with free := true, creator := UNINITIALIZED, name := [] })
      (zeroState OS_MAX_TASKS OS_MAX_QUEUES OS_MAX_BIN_SEMAPHORES
        OS_MAX_COUNT_SEMAPHORES OS_MAX_MUTEXES).OS_bin_sem_table.length 0
      (zeroState OS_MAX_TASKS OS_MAX_QUEUES OS_MAX_BIN_SEMAPHORES
        OS_MAX_COUNT_SEMAPHORES OS_MAX_MUTEXES).OS_bin_sem_table (by omega)
  obtain ⟨mt, h5⟩ := initLoop_inside (fun r : OS_mut_sem_record_t =>
      { r with free := true, creator := UNINITIALIZED, nested_value := 0, name := [] })
      (zeroState OS_MAX_TASKS OS_MAX_QUEUES OS_MAX_BIN_SEMAPHORES
        OS_MAX_COUNT_SEMAPHORES OS_MAX_MUTEXES).OS_mut_sem_table.length 0
      (zeroState OS_MAX_TASKS OS_MAX_QUEUES OS_MAX_BIN_SEMAPHORES
        OS_MAX_COUNT_SEMAPHORES OS_MAX_MUTEXES).OS_mut_sem_table (by omega)
  have hbl : (zeroState OS_MAX_TASKS OS_MAX_QUEUES OS_MAX_BIN_SEMAPHORES
      OS_MAX_COUNT_SEMAPHORES OS_MAX_MUTEXES).OS_bin_sem_table.length
        = OS_MAX_BIN_SEMAPHORES := by simp [zeroState]
  have hcl : (zeroState OS_MAX_TASKS OS_MAX_QUEUES OS_MAX_BIN_SEMAPHORES
      OS_MAX_COUNT_SEMAPHORES OS_MAX_MUTEXES).OS_count_sem_table.length
        = OS_MAX_COUNT_SEMAPHORES := by simp [zeroState]
  have hsome : OS_MAX_BIN_SEMAPHORES ≤ OS_MAX_COUNT_SEMAPHORES →
      ∃ ct, initLoop (fun r : OS_count_sem_record_t =>
          { r with free := true, creator := UNINITIALIZED, name := [] })
        (zeroState OS_MAX_TASKS OS_MAX_QUEUES OS_MAX_BIN_SEMAPHORES
          OS_MAX_COUNT_SEMAPHORES OS_MAX_MUTEXES).OS_bin_sem_table.length 0
        (zeroState OS_MAX_TASKS OS_MAX_QUEUES OS_MAX_BIN_SEMAPHORES
          OS_MAX_COUNT_SEMAPHORES OS_MAX_MUTEXES).OS_count_sem_table = some ct := by
    intro hle
    exact initLoop_inside _ _ 0 _ (by rw [hbl, hcl]; omega)
  refine ⟨?_, ?_, ?_⟩
  · intro hlt
    have h4 := initLoop_outside (fun r : OS_count_sem_record_t =>
        { r with free := true, creator := UNINITIALIZED, name := [] })
      (zeroState OS_MAX_TASKS OS_MAX_QUEUES OS_MAX_BIN_SEMAPHORES
        OS_MAX_COUNT_SEMAPHORES OS_MAX_MUTEXES).OS_bin_sem_table.length 0
      (zeroState OS_MAX_TASKS OS_MAX_QUEUES OS_MAX_BIN_SEMAPHORES
        OS_MAX_COUNT_SEMAPHORES OS_MAX_MUTEXES).OS_count_sem_table
      (by rw [hbl, hcl]; omega) (Nat.zero_le _)
    simp only [OS_API_Init, h1, h2, h3, h4, h5]
  · intro hlt
    obtain ⟨ct, h4⟩ := hsome (by omega)
    obtain ⟨ret, hret⟩ := OS_API_Init_of_loops _ h tt qt bt ct mt h1 h2 h3 h4 h5
    refine ⟨ret, _, hret, ?_⟩
    have hout := (initLoop_spec _ _ 0 _ ct h4).2.2 OS_MAX_BIN_SEMAPHORES
      (Or.inr (by rw [hbl]; omega))
    simp only
    rw [hout]
    simp [zeroState, List.getElem?_replicate, hlt]
  · intro heq
    obtain ⟨ct, h4⟩ := hsome (by omega)
    obtain ⟨ret, hret⟩ := OS_API_Init_of_loops _ h tt qt bt ct mt h1 h2 h3 h4 h5
    have h4b : initLoop (fun r : OS_count_sem_record_t =>
          { r with free := true, creator := UNINITIALIZED, name := [] })
        (zeroState OS_MAX_TASKS OS_MAX_QUEUES OS_MAX_BIN_SEMAPHORES
          OS_MAX_COUNT_SEMAPHORES OS_MAX_MUTEXES).OS_count_sem_table.length 0
        (zeroState OS_MAX_TASKS OS_MAX_QUEUES OS_MAX_BIN_SEMAPHORES
          OS_MAX_COUNT_SEMAPHORES OS_MAX_MUTEXES).OS_count_sem_table = some ct := by
      have hlen : (zeroState OS_MAX_TASKS OS_MAX_QUEUES OS_MAX_BIN_SEMAPHORES
          OS_MAX_COUNT_SEMAPHORES OS_MAX_MUTEXES).OS_count_sem_table.length
          = (zeroState OS_MAX_TASKS OS_MAX_QUEUES OS_MAX_BIN_SEMAPHORES
            OS_MAX_COUNT_SEMAPHORES OS_MAX_MUTEXES).OS_bin_sem_table.length := by
        rw [hcl, hbl, heq]
      rw [hlen]
      exact h4
    have r1 := initLoop_rows _ _ tt h1
    have r2 := initLoop_rows _ _ qt h2
    have r3 := initLoop_rows _ _ bt h3
    have r4 := initLoop_rows _ _ ct h4b
    have r5 := initLoop_rows _ _ mt h5
    refine ⟨ret, _, hret, ?_, ?_, ?_, ?_, ?_, ?_, ?_, ?_, ?_, ?_⟩
    · rw [r1.1]; simp [zeroState]
    · rw [r2.1]; simp [zeroState]
    · rw [r3.1]; simp [zeroState]
    · rw [r4.1]; simp [zeroState]
    · rw [r5.1]; simp [zeroState]
    · intro i row hi
      obtain ⟨r, hr⟩ := r1.2 i row hi
      subst hr
      exact ⟨rfl, rfl⟩
    · intro i row hi
      obtain ⟨r, hr⟩ := r2.2 i row hi
      subst hr
      exact ⟨rfl, rfl⟩
    · intro i row hi
      obtain ⟨r, hr⟩ := r3.2 i row hi
      subst hr
      exact ⟨rfl, rfl⟩
    · intro i row hi
      obtain ⟨r, hr⟩ := r4.2 i row hi
      subst hr
      exact ⟨rfl, rfl⟩
    · intro i row hi
      obtain ⟨r, hr⟩ := r5.2 i row hi
      subst hr
      exact ⟨rfl, rfl⟩

/-- C28, witness: with `OS_MAX_BIN_SEMAPHORES = 3` and `OS_MAX_COUNT_SEMAPHORES = 1` the
loop stores outside `OS_count_sem_table`; with `OS_MAX_BIN_SEMAPHORES = 1` and
`OS_MAX_COUNT_SEMAPHORES = 2` row 1 of `OS_count_sem_table` is left non-free. -/
theorem C28_init_witness :
    OS_API_Init (zeroState 1 1 3 1 1) ⟨OS_SUCCESS, 0, 0, 0, 0, 0, 0, OS_SUCCESS⟩ = none ∧
    ∃ (ret : OS_Status) (s : OSState),
      OS_API_Init (zeroState 1 1 1 2 1) ⟨OS_SUCCESS, 0, 0, 0, 0, 0, 0, OS_SUCCESS⟩
        = some (ret, s) ∧
      s.OS_count_sem_table[1]? = some ⟨false, [], 0, 0, 0⟩ :=
  ⟨(C28_init_frees_every_row_only_for_equal_sem_table_sizes 1 1 3 1 1
      ⟨OS_SUCCESS, 0, 0, 0, 0, 0, 0, OS_SUCCESS⟩).1 (by decide),
   (C28_init_frees_every_row_only_for_equal_sem_table_sizes 1 1 1 2 1
      ⟨OS_SUCCESS, 0, 0, 0, 0, 0, 0, OS_SUCCESS⟩).2.1 (by decide)⟩

/-! ## C29: `*size_copied` after a successful `OS_QueueGet` -/

theorem OS_QueueGet_pend_check (s : OSState) (h : QueueGetHost) (queue_id : Nat)
    (row : OS_queue_record_t) (data : List Nat) (size cell : Nat) (timeout : Int) (r : RetId)
    (hget : s.OS_queue_table[queue_id]? = some row) (hlive : row.free = false)
    (hmode : timeout = OS_PEND ∨ timeout = OS_CHECK)
    (hr : OS_QueueGet s h queue_id (some data) size (some cell) timeout = some r)
    (hs : r.ret = OS_SUCCESS) : r.out = some cell := by
  have hf : ¬ row.free = true := by simp [hlive]
  simp only [OS_QueueGet, hget, if_neg hf] at hr
  rcases hmode with hm | hm
  · subst hm
    simp only [if_true] at hr
    cases hloop : restartLoop h.receive with
    | none => simp [hloop] at hr
    | some v =>
      obtain ⟨⟨sizeCopied, errno⟩, n⟩ := v
      simp only [hloop] at hr
      split at hr
      · cases hr; cases hs
      · cases hr; rfl
  · subst hm
    have hne : ¬ (OS_CHECK = OS_PEND) := by decide
    simp only [if_neg hne, if_true] at hr
    split at hr
    · cases hr; cases hs
    · split at hr
      · cases hr
      · split at hr
        · cases hr; cases hs
        · split at hr
          · cases hr; cases hs
          · cases hr; rfl

theorem OS_QueueGet_socket_pend_check (s : OSState) (h : SocketGetHost) (queue_id : Nat)
    (row : OS_queue_record_t) (data : List Nat) (size cell : Nat) (timeout : Int) (r : RetId)
    (hget : s.OS_queue_table[queue_id]? = some row) (hlive : row.free = false)
    (hmode : timeout = OS_PEND ∨ timeout = OS_CHECK)
    (hr : OSAL_SOCKET_QUEUE.OS_QueueGet s h queue_id (some data) size (some cell) timeout
      = some r)
    (hs : r.ret = OS_SUCCESS) : r.out = some cell := by
  have hf : ¬ row.free = true := by simp [hlive]
  simp only [OSAL_SOCKET_QUEUE.OS_QueueGet, hget, if_neg hf] at hr
  rcases hmode with hm | hm
  · subst hm
    simp only [if_true] at hr
    cases hloop : restartLoop h.recvfrom with
    | none => simp [hloop] at hr
    | some v =>
      obtain ⟨⟨sizeCopied, errno⟩, n⟩ := v
      simp only [hloop] at hr
      split at hr
      · cases hr; cases hs
      · cases hr; rfl
  · subst hm
    have hne : ¬ (OS_CHECK = OS_PEND) := by decide
    simp only [if_neg hne, if_true] at hr
    split at hr
    · cases hr
    · split at hr
      · cases hr; cases hs
      · split at hr
        · cases hr; cases hs
        · cases hr; rfl

theorem OS_QueueGet_timed (s : OSState) (h : QueueGetHost) (queue_id : Nat)
    (row : OS_queue_record_t) (data : List Nat) (size cell : Nat) (timeout : Int) (r : RetId)
    (hget : s.OS_queue_table[queue_id]? = some row) (hlive : row.free = false)
    (hp : timeout ≠ OS_PEND) (hc : timeout ≠ OS_CHECK)
    (hr : OS_QueueGet s h queue_id (some data) size (some cell) timeout = some r)
    (hs : r.ret = OS_SUCCESS) : r.out = some size := by
  have hf : ¬ row.free = true := by simp [hlive]
  simp only [OS_QueueGet, hget, if_neg hf, if_neg hp, if_neg hc] at hr
  cases hloop : restartLoop h.receive with
  | none => simp [hloop] at hr
  | some v =>
    obtain ⟨⟨sizeCopied, errno⟩, n⟩ := v
    simp only [hloop] at hr
    split at hr
    · cases hr; cases hs
    · split at hr
      · rename_i heq
        cases hr
        simp only [heq, Int.toNat_ofNat]
      · cases hr; cases hs

/-- C29 (the code in the modes `OS_PEND` and `OS_CHECK`): for every valid queue and
non-null pointers, a call of `OS_QueueGet` with `timeout == OS_PEND` or
`timeout == OS_CHECK` that returns `OS_SUCCESS` leaves `*size_copied` as it was before the
call, in the message queue build and in the socket build (the function falls through to
its last `return OS_SUCCESS`); only with a positive timeout is `*size_copied` set to
`size` on `OS_SUCCESS`. -/
theorem C29_pend_and_check_leave_size_copied_unset (s : OSState) (queue_id : Nat)
    (row : OS_queue_record_t) (data : List Nat) (size cell : Nat) (timeout : Int)
    (hget : s.OS_queue_table[queue_id]? = some row) (hlive : row.free = false) :
    (∀ (h : QueueGetHost) (r : RetId), timeout = OS_PEND ∨ timeout = OS_CHECK →
      OS_QueueGet s h queue_id (some data) size (some cell) timeout = some r →
      r.ret = OS_SUCCESS → r.out = some cell) ∧
    (∀ (h : SocketGetHost) (r : RetId), timeout = OS_PEND ∨ timeout = OS_CHECK →
      OSAL_SOCKET_QUEUE.OS_QueueGet s h queue_id (some data) size (some cell) timeout
        = some r →
      r.ret = OS_SUCCESS → r.out = some cell) ∧
    (∀ (h : QueueGetHost) (r : RetId), timeout ≠ OS_PEND → timeout ≠ OS_CHECK →
      OS_QueueGet s h queue_id (some data) size (some cell) timeout = some r →
      r.ret = OS_SUCCESS → r.out = some size) :=
  ⟨fun h r hm hr hs =>
      OS_QueueGet_pend_check s h queue_id row data size cell timeout r hget hlive hm hr hs,
   fun h r hm hr hs =>
      OS_QueueGet_socket_pend_check s h queue_id row data size cell timeout r hget hlive hm
        hr hs,
   fun h r hp hc hr hs =>
      OS_QueueGet_timed s h queue_id row data size cell timeout r hget hlive hp hc hr hs⟩

/-- C29, witness: one queue, `OS_QueueGet(0, data, 4, &size_copied, OS_PEND)` with
`size_copied == 99` before the call and `mq_receive` returning 4: the call returns
`OS_SUCCESS` and `size_copied` is still 99, not 4. -/
theorem C29_pend_witness :
    OS_QueueGet ⟨[], [⟨false, 3, ['q'], 0⟩], [], [], []⟩ ⟨[(4, 0)], 0, 1, ⟨0, 0⟩⟩ 0
        (some []) 4 (some 99) OS_PEND
      = some ⟨OS_SUCCESS, some 99, ⟨[], [⟨false, 3, ['q'], 0⟩], [], [], []⟩,
          [Event.host (HostCall.mq_receive 0 4)]⟩ ∧
    (⟨OS_SUCCESS, some 99, ⟨[], [⟨false, 3, ['q'], 0⟩], [], [], []⟩,
        [Event.host (HostCall.mq_receive 0 4)]⟩ : RetId).out = some 99 ∧
    (some 99 : Option Nat) ≠ some 4 :=
  ⟨by decide,
   (C29_pend_and_check_leave_size_copied_unset ⟨[], [⟨false, 3, ['q'], 0⟩], [], [], []⟩ 0
      ⟨false, 3, ['q'], 0⟩ [] 4 99 OS_PEND rfl rfl).1 ⟨[(4, 0)], 0, 1, ⟨0, 0⟩⟩ _
      (Or.inl rfl) (by decide) rfl,
   by decide⟩

/-! ## C30: the bin count of `OS_PriorityRemap` -/

theorem OS_PriorityRemap.numbins_cases (pmax pmin : Int) (hr : pmin ≤ pmax) :
    (pmax - pmin + 1 ≤ 509 → 1 ≤ OS_PriorityRemap.numbins pmax pmin) ∧
    (510 ≤ pmax - pmin + 1 → OS_PriorityRemap.numbins pmax pmin = 0) := by
  rcases OS_PriorityRemap.prange_pos pmax pmin hr with ⟨hpe, hpp⟩
  have h255 : ((MAX_PRIORITY : Nat) : Int) = 255 := rfl
  unfold OS_PriorityRemap.numbins
  simp only [h255]
  have e1 : Int.tdiv 255 (OS_PriorityRemap.prange pmax pmin)
      = 255 / OS_PriorityRemap.prange pmax pmin := Int.tdiv_eq_ediv (by decide) (by omega)
  have e2 : Int.tmod 255 (OS_PriorityRemap.prange pmax pmin)
      = 255 % OS_PriorityRemap.prange pmax pmin := Int.tmod_eq_emod (by decide) (by omega)
  have e3 : Int.tdiv (OS_PriorityRemap.prange pmax pmin) 2
      = OS_PriorityRemap.prange pmax pmin / 2 := Int.tdiv_eq_ediv (by omega) (by decide)
  rw [e1, e2, e3]
  by_cases hsmall : OS_PriorityRemap.prange pmax pmin ≤ 255
  · have hq : 1 ≤ (255 : Int) / OS_PriorityRemap.prange pmax pmin := by
      apply (Int.le_ediv_iff_mul_le hpp).mpr
      omega
    constructor
    · intro _
      split <;> omega
    · intro h
      omega
  · have hq : (255 : Int) / OS_PriorityRemap.prange pmax pmin = 0 :=
      Int.ediv_eq_zero_of_lt (by decide) (by omega)
    have hm : (255 : Int) % OS_PriorityRemap.prange pmax pmin = 255 :=
      Int.emod_eq_of_lt (by decide) (by omega)
    rw [hq, hm]
    constructor
    · intro h
      rw [if_pos (by omega)]
      decide
    · intro h
      rw [if_neg (by omega)]

/-- C30 (counterexample): on the host range `pmin = 0`, `pmax = 509` (510 levels,
`pmin <= pmax`) the bin count is `255 / 510 = 0`, not rounded up since
`255 % 510 = 255` is not above `510 / 2 = 255`; the division `InputRev / numbins` is a
division by zero and `OS_PriorityRemap(0)` has no value. -/
theorem C30_counterexample_510_levels :
    (0 : Int) ≤ 509 ∧ OS_PriorityRemap.numbins 509 0 = 0 ∧ OS_PriorityRemap 509 0 0 = none := by
  decide

/-- C30 (amended): for every host priority range with `pmin <= pmax`, the bin count
computed by `OS_PriorityRemap` is at least 1 exactly when the range has at most 509 levels
(`pmax - pmin + 1 <= 509`), which covers every range of at most 256 levels and the wider
ones up to 509; for such a range the division is not by zero and the function returns a
value for every input priority 0..255. For a range of 510 levels or more the bin count is
0 and the function has no value for any input. -/
theorem C30_numbins_is_positive_up_to_509_levels (pmax pmin : Int) (hr : pmin ≤ pmax) :
    (1 ≤ OS_PriorityRemap.numbins pmax pmin ↔ pmax - pmin + 1 ≤ 509) ∧
    (pmax - pmin + 1 ≤ 509 →
      ∀ a : Nat, a ≤ 255 → ∃ r : Int, OS_PriorityRemap pmax pmin a = some r) ∧
    (510 ≤ pmax - pmin + 1 →
      OS_PriorityRemap.numbins pmax pmin = 0 ∧
      ∀ a : Nat, OS_PriorityRemap pmax pmin a = none) := by
  rcases OS_PriorityRemap.numbins_cases pmax pmin hr with ⟨h1, h2⟩
  refine ⟨⟨?_, h1⟩, ?_, ?_⟩
  · intro h
    by_contra hlarge
    have := h2 (by omega)
    omega
  · intro h a ha
    have hb : OS_PriorityRemap.numbins pmax pmin ≠ 0 := by
      have := h1 h
      omega
    exact ⟨_, OS_PriorityRemap_eq pmax pmin a hr hb ha⟩
  · intro h
    refine ⟨h2 h, ?_⟩
    intro a
    have hz := h2 h
    unfold OS_PriorityRemap
    simp only [hz, if_true]
    split <;> rfl

/-- C30 (amended), witness: the range `pmin = 0`, `pmax = 299` (300 levels, wider than the
256 levels of the OSAL) has bin count 1, and `OS_PriorityRemap(0)` is 255. -/
theorem C30_numbins_witness :
    (0 : Int) ≤ 299 ∧ 1 ≤ OS_PriorityRemap.numbins 299 0 ∧
    (∃ r : Int, OS_PriorityRemap 299 0 0 = some r) ∧ OS_PriorityRemap 299 0 0 = some 255 :=
  ⟨by decide,
   (C30_numbins_is_positive_up_to_509_levels 299 0 (by decide)).1.mpr (by decide),
   (C30_numbins_is_positive_up_to_509_levels 299 0 (by decide)).2.1 (by decide) 0 (by decide),
   by decide⟩

end OSAL
